import Mathlib

/-!
# Code generation of the op tree (`codegen.c`)

A shallow embedding of the code generator: `append_instruction_x`,
`save_branch_point`, `save_instr_from_to_pparg`, `instr_fold_constants`,
`add_kids`, `add_op`, `is_inplace_av`, `svp_const_instruction` and
`compile_op`, followed by theorems about them.

Conventions of the embedding.

* C pointers to op-tree nodes are values of the type `OP`; the null pointer is
  `OP.NULL`.  A node carries its own address (`OpData.addr`) so that two nodes
  with equal contents can still be told apart.
* The instruction buffer of the code-generation pad is the list of its slots;
  `xcodeseq_size` is its capacity and `idx` the number of slots in use.
* Functions that can dereference a null pointer, fail an assertion or croak
  return `Except Err`.
* `add_op` is recursive over the op tree; it is defined by recursion on a
  fuel argument, with `Err.out_of_fuel` when the fuel is exhausted.
-/

namespace Codegen

/-! ## Values -/

/-- The contents of a scalar value. -/
inductive SvVal where
  | undef
  | iv (i : Int)
  | pv (s : String) (utf8 : Bool) (shared : Bool)
  deriving DecidableEq, Inhabited

/-- A scalar `SV`: its contents and its READONLY flag. -/
structure Scalar where
  val : SvVal
  readonly : Bool
  deriving DecidableEq, Inhabited

/-- An `SV*` as held by a constant instruction: a scalar, or an array (`AV`) of
scalars as produced by a list-mode fold. -/
inductive SV where
  | scalar (s : Scalar)
  | av (items : List Scalar)
  deriving DecidableEq, Inhabited

/-- Modelled from the spec: `sv.h` is not part of the sources; truth of a
scalar as in Perl (undef, 0, the empty string and "0" are false). -/
def SvVal.isTrue : SvVal → Bool
  | .undef => false
  | .iv i => i != 0
  | .pv s _ _ => s != "" && s != "0"

/-- Modelled from the spec: `SvTRUE` of `sv.h` (not part of the sources). An
array has none of the scalar OK flags and is false. -/
def SvTRUE : SV → Bool
  | .scalar s => s.val.isTrue
  | .av _ => false

/-- Modelled from the spec: `SvOK` of `sv.h` (not part of the sources): the
value is defined. -/
def SvOK : SV → Bool
  | .scalar s => s.val != .undef
  | .av _ => false

/-- `SvREADONLY_on`: sets the READONLY flag of the value. -/
def SvREADONLY_on : SV → SV
  | .scalar s => .scalar { s with readonly := true }
  | .av items => .av items

/-- `newSVsv`: a fresh copy of a scalar (the copy is not read-only). -/
def newSVsv (s : Scalar) : Scalar := { val := s.val, readonly := false }

/-! ## Op kinds -/

/-- The op kinds named in `codegen.c`, a few more used in the examples, and
`OTHER n` for every remaining opcode. -/
inductive Optype where
  | OP_NULL | OP_STUB | OP_SCALAR | OP_PUSHMARK | OP_CONST | OP_GVSV | OP_GV
  | OP_PADSV | OP_PADAV | OP_RV2SV | OP_RV2AV | OP_RV2HV | OP_BOOLKEYS
  | OP_REGCRESET | OP_REGCOMP | OP_SUBST | OP_SUBSTCONT
  | OP_SASSIGN | OP_AASSIGN | OP_REPEAT | OP_CONCAT | OP_STRINGIFY
  | OP_SLT | OP_SGT | OP_SLE | OP_SGE | OP_SCMP
  | OP_UCFIRST | OP_LCFIRST | OP_UC | OP_LC
  | OP_AELEMFAST | OP_AELEM | OP_HELEM | OP_DELETE | OP_LSLICE | OP_LIST
  | OP_GREPSTART | OP_GREPWHILE | OP_MAPSTART | OP_MAPWHILE
  | OP_RANGE | OP_FLIP | OP_FLOP
  | OP_AND | OP_OR | OP_DOR | OP_COND_EXPR
  | OP_ANDASSIGN | OP_ORASSIGN | OP_DORASSIGN
  | OP_SORT | OP_REVERSE | OP_FORMLINE | OP_READLINE | OP_RCATLINE
  | OP_LINESEQ | OP_NEXTSTATE | OP_DBSTATE | OP_UNSTACK | OP_SCOPE
  | OP_ENTERITER | OP_ITER | OP_ENTERLOOP | OP_LEAVELOOP | OP_FOREACH
  | OP_WHILE_AND | OP_ONCE | OP_NOTHING
  | OP_ENTERTRY | OP_LEAVETRY
  | OP_ENTERGIVEN | OP_LEAVEGIVEN | OP_ENTERWHEN | OP_LEAVEWHEN
  | OP_INSTR_JUMP | OP_INSTR_COND_JUMP | OP_INSTR_END
  | OP_INSTR_CONST | OP_INSTR_CONST_LIST
  | OP_NOT | OP_ADD | OP_MULTIPLY | OP_PRINT
  | OTHER (n : Nat)
  deriving Inhabited

/-- A number for each op kind (the numbering of `opnames.h` is not part of
the sources; any one-to-one numbering serves). -/
def Optype.code : Optype → Nat
  | .OP_NULL => 0
  | .OP_STUB => 1
  | .OP_SCALAR => 2
  | .OP_PUSHMARK => 3
  | .OP_CONST => 4
  | .OP_GVSV => 5
  | .OP_GV => 6
  | .OP_PADSV => 7
  | .OP_PADAV => 8
  | .OP_RV2SV => 9
  | .OP_RV2AV => 10
  | .OP_RV2HV => 11
  | .OP_BOOLKEYS => 12
  | .OP_REGCRESET => 13
  | .OP_REGCOMP => 14
  | .OP_SUBST => 15
  | .OP_SUBSTCONT => 16
  | .OP_SASSIGN => 17
  | .OP_AASSIGN => 18
  | .OP_REPEAT => 19
  | .OP_CONCAT => 20
  | .OP_STRINGIFY => 21
  | .OP_SLT => 22
  | .OP_SGT => 23
  | .OP_SLE => 24
  | .OP_SGE => 25
  | .OP_SCMP => 26
  | .OP_UCFIRST => 27
  | .OP_LCFIRST => 28
  | .OP_UC => 29
  | .OP_LC => 30
  | .OP_AELEMFAST => 31
  | .OP_AELEM => 32
  | .OP_HELEM => 33
  | .OP_DELETE => 34
  | .OP_LSLICE => 35
  | .OP_LIST => 36
  | .OP_GREPSTART => 37
  | .OP_GREPWHILE => 38
  | .OP_MAPSTART => 39
  | .OP_MAPWHILE => 40
  | .OP_RANGE => 41
  | .OP_FLIP => 42
  | .OP_FLOP => 43
  | .OP_AND => 44
  | .OP_OR => 45
  | .OP_DOR => 46
  | .OP_COND_EXPR => 47
  | .OP_ANDASSIGN => 48
  | .OP_ORASSIGN => 49
  | .OP_DORASSIGN => 50
  | .OP_SORT => 51
  | .OP_REVERSE => 52
  | .OP_FORMLINE => 53
  | .OP_READLINE => 54
  | .OP_RCATLINE => 55
  | .OP_LINESEQ => 56
  | .OP_NEXTSTATE => 57
  | .OP_DBSTATE => 58
  | .OP_UNSTACK => 59
  | .OP_SCOPE => 60
  | .OP_ENTERITER => 61
  | .OP_ITER => 62
  | .OP_ENTERLOOP => 63
  | .OP_LEAVELOOP => 64
  | .OP_FOREACH => 65
  | .OP_WHILE_AND => 66
  | .OP_ONCE => 67
  | .OP_NOTHING => 68
  | .OP_ENTERTRY => 69
  | .OP_LEAVETRY => 70
  | .OP_ENTERGIVEN => 71
  | .OP_LEAVEGIVEN => 72
  | .OP_ENTERWHEN => 73
  | .OP_LEAVEWHEN => 74
  | .OP_INSTR_JUMP => 75
  | .OP_INSTR_COND_JUMP => 76
  | .OP_INSTR_END => 77
  | .OP_INSTR_CONST => 78
  | .OP_INSTR_CONST_LIST => 79
  | .OP_NOT => 80
  | .OP_ADD => 81
  | .OP_MULTIPLY => 82
  | .OP_PRINT => 83
  | .OTHER n => n + 84

/-- The op kind with a given number. -/
def Optype.ofCode : Nat → Optype
  | 0 => .OP_NULL
  | 1 => .OP_STUB
  | 2 => .OP_SCALAR
  | 3 => .OP_PUSHMARK
  | 4 => .OP_CONST
  | 5 => .OP_GVSV
  | 6 => .OP_GV
  | 7 => .OP_PADSV
  | 8 => .OP_PADAV
  | 9 => .OP_RV2SV
  | 10 => .OP_RV2AV
  | 11 => .OP_RV2HV
  | 12 => .OP_BOOLKEYS
  | 13 => .OP_REGCRESET
  | 14 => .OP_REGCOMP
  | 15 => .OP_SUBST
  | 16 => .OP_SUBSTCONT
  | 17 => .OP_SASSIGN
  | 18 => .OP_AASSIGN
  | 19 => .OP_REPEAT
  | 20 => .OP_CONCAT
  | 21 => .OP_STRINGIFY
  | 22 => .OP_SLT
  | 23 => .OP_SGT
  | 24 => .OP_SLE
  | 25 => .OP_SGE
  | 26 => .OP_SCMP
  | 27 => .OP_UCFIRST
  | 28 => .OP_LCFIRST
  | 29 => .OP_UC
  | 30 => .OP_LC
  | 31 => .OP_AELEMFAST
  | 32 => .OP_AELEM
  | 33 => .OP_HELEM
  | 34 => .OP_DELETE
  | 35 => .OP_LSLICE
  | 36 => .OP_LIST
  | 37 => .OP_GREPSTART
  | 38 => .OP_GREPWHILE
  | 39 => .OP_MAPSTART
  | 40 => .OP_MAPWHILE
  | 41 => .OP_RANGE
  | 42 => .OP_FLIP
  | 43 => .OP_FLOP
  | 44 => .OP_AND
  | 45 => .OP_OR
  | 46 => .OP_DOR
  | 47 => .OP_COND_EXPR
  | 48 => .OP_ANDASSIGN
  | 49 => .OP_ORASSIGN
  | 50 => .OP_DORASSIGN
  | 51 => .OP_SORT
  | 52 => .OP_REVERSE
  | 53 => .OP_FORMLINE
  | 54 => .OP_READLINE
  | 55 => .OP_RCATLINE
  | 56 => .OP_LINESEQ
  | 57 => .OP_NEXTSTATE
  | 58 => .OP_DBSTATE
  | 59 => .OP_UNSTACK
  | 60 => .OP_SCOPE
  | 61 => .OP_ENTERITER
  | 62 => .OP_ITER
  | 63 => .OP_ENTERLOOP
  | 64 => .OP_LEAVELOOP
  | 65 => .OP_FOREACH
  | 66 => .OP_WHILE_AND
  | 67 => .OP_ONCE
  | 68 => .OP_NOTHING
  | 69 => .OP_ENTERTRY
  | 70 => .OP_LEAVETRY
  | 71 => .OP_ENTERGIVEN
  | 72 => .OP_LEAVEGIVEN
  | 73 => .OP_ENTERWHEN
  | 74 => .OP_LEAVEWHEN
  | 75 => .OP_INSTR_JUMP
  | 76 => .OP_INSTR_COND_JUMP
  | 77 => .OP_INSTR_END
  | 78 => .OP_INSTR_CONST
  | 79 => .OP_INSTR_CONST_LIST
  | 80 => .OP_NOT
  | 81 => .OP_ADD
  | 82 => .OP_MULTIPLY
  | 83 => .OP_PRINT
  | n + 84 => .OTHER n

instance : DecidableEq Optype := fun a b =>
  have key : ∀ t : Optype, Optype.ofCode t.code = t := by
    intro t; cases t <;> rfl
  decidable_of_iff (a.code = b.code)
    ⟨fun h => by rw [← key a, ← key b, h], fun h => by rw [h]⟩

/-! ## Flag bits

`op.h`, `opcode.h` and `perl.h` are not part of the sources; the bit values
below are those of the Perl headers. -/

/-- Modelled from the spec: `OPf_WANT` of `op.h` (context mask). -/
def OPf_WANT : Nat := 3
/-- Modelled from the spec: `OPf_WANT_VOID` of `op.h`. -/
def OPf_WANT_VOID : Nat := 1
/-- Modelled from the spec: `OPf_WANT_SCALAR` of `op.h`. -/
def OPf_WANT_SCALAR : Nat := 2
/-- Modelled from the spec: `OPf_WANT_LIST` of `op.h`. -/
def OPf_WANT_LIST : Nat := 3
/-- Modelled from the spec: `OPf_KIDS` of `op.h`. -/
def OPf_KIDS : Nat := 4
/-- Modelled from the spec: `OPf_REF` of `op.h`. -/
def OPf_REF : Nat := 16
/-- Modelled from the spec: `OPf_MOD` of `op.h`. -/
def OPf_MOD : Nat := 32
/-- Modelled from the spec: `OPf_STACKED` of `op.h`. -/
def OPf_STACKED : Nat := 64
/-- Modelled from the spec: `OPf_SPECIAL` of `op.h`. -/
def OPf_SPECIAL : Nat := 128

/-- Modelled from the spec: `OPpLVAL_INTRO` of `op.h`. -/
def OPpLVAL_INTRO : Nat := 128
/-- Modelled from the spec: `OPpDEREF` of `op.h` (quoted in `instruction.h`
as `32|64`). -/
def OPpDEREF : Nat := 96
/-- Modelled from the spec: `OPpMAYBE_LVSUB` of `op.h`. -/
def OPpMAYBE_LVSUB : Nat := 8
/-- Modelled from the spec: `OPpLVAL_DEFER` of `op.h`. -/
def OPpLVAL_DEFER : Nat := 16
/-- Modelled from the spec: `OPpSLICE` of `op.h`. -/
def OPpSLICE : Nat := 64
/-- Modelled from the spec: `OPpREPEAT_DOLIST` of `op.h`. -/
def OPpREPEAT_DOLIST : Nat := 64
/-- Modelled from the spec: `OPpSORT_INPLACE` of `op.h`. -/
def OPpSORT_INPLACE : Nat := 8
/-- Modelled from the spec: `OPpREVERSE_INPLACE` of `op.h`. -/
def OPpREVERSE_INPLACE : Nat := 8
/-- Modelled from the spec: `OPpPAD_STATE` of `op.h`. -/
def OPpPAD_STATE : Nat := 16
/-- Modelled from the spec: `OPpWHILE_AND_ONCE` of `op.h` (set by `op.c` on
`while_and` ops whose body runs before the first test). -/
def OPpWHILE_AND_ONCE : Nat := 64

/-- Modelled from the spec: `OA_MARK` of `opcode.h`. -/
def OA_MARK : Nat := 1
/-- Modelled from the spec: `OA_FOLDCONST` of `opcode.h`. -/
def OA_FOLDCONST : Nat := 2
/-- Modelled from the spec: `OA_TARGLEX` of `opcode.h`. -/
def OA_TARGLEX : Nat := 256

/-- Modelled from the spec: `HINT_LOCALE` of `perl.h`. -/
def HINT_LOCALE : Nat := 4

/-- `INSTRf_TARG_IN_ARG2` of `instruction.h`. -/
def INSTRf_TARG_IN_ARG2 : Nat := 0x1
/-- `INSTRf_MOD` of `instruction.h`. -/
def INSTRf_MOD : Nat := 0x2
/-- `INSTRf_HELEM_MAYBE_LVSUB` of `instruction.h`. -/
def INSTRf_HELEM_MAYBE_LVSUB : Nat := 0x4
/-- `INSTRf_HELEM_LVAL_DEFER` of `instruction.h`. -/
def INSTRf_HELEM_LVAL_DEFER : Nat := 0x8
/-- `INSTRf_LVAL_INTRO` of `instruction.h`. -/
def INSTRf_LVAL_INTRO : Nat := 0x10
/-- `INSTRf_REF` of `instruction.h`. -/
def INSTRf_REF : Nat := 0x80
/-- `INSTRf_HELEM_SPECIAL` of `instruction.h`. -/
def INSTRf_HELEM_SPECIAL : Nat := 0x100
/-- `INSTRf_PADSV_STATE` of `instruction.h` (the PADSV case of `add_op`
spells it `INSTRf_PAD_STATE`). -/
def INSTRf_PADSV_STATE : Nat := 0x100

/-- `ADDOPf_BOOLEANCONTEXT` of `codegen.c`. -/
def ADDOPf_BOOLEANCONTEXT : Nat := 1

/-- A C truth test of `word & mask`. -/
def hasBit (word mask : Nat) : Bool := (word &&& mask) != 0

/-! ## The op tree -/

/-- The scalar fields of an op-tree node that the code generator reads.
`op_next_type` is the kind of the node `op_next` points to (`none` when
`op_next` is null); `cop_label` and `cop_arybase` are the label and the array
base of a `COP`; `op_sv` is the value of an `SVOP`, `op_gv` the glob of a
`GVOP`. -/
structure OpData where
  addr : Nat
  op_type : Optype
  op_flags : Nat
  op_private : Nat
  op_targ : Nat
  op_sv : SV
  op_gv : Nat
  op_next_type : Option Optype
  cop_label : Option String
  cop_arybase : Int
  deriving DecidableEq, Inhabited

/-- An `OP*`: null, or a node with its first child, its next sibling and (for
a `PMOP`) its replacement subtree. -/
inductive OP where
  | NULL : OP
  | mk (d : OpData) (op_first : OP) (op_sibling : OP) (op_pmreplroot : OP) : OP
  deriving DecidableEq, Inhabited

/-- The ways a run of the code generator can stop without a result. -/
inductive Err where
  | out_of_fuel
  | null_deref
  | bad_read
  | assertion
  | croak (ret : Nat)
  deriving DecidableEq, Inhabited

instance {α : Type} [DecidableEq α] : DecidableEq (Except Err α) := fun a b =>
  match a, b with
  | .ok x, .ok y =>
    if h : x = y then isTrue (by rw [h]) else isFalse (fun h' => h (Except.ok.inj h'))
  | .error e, .error e' =>
    if h : e = e' then isTrue (by rw [h]) else isFalse (fun h' => h (Except.error.inj h'))
  | .ok _, .error _ => isFalse (fun h => by cases h)
  | .error _, .ok _ => isFalse (fun h => by cases h)

/-- Reads the scalar fields of `o`; dereferencing a null pointer is an error. -/
def OP.data : OP → Except Err OpData
  | .NULL => .error .null_deref
  | .mk d _ _ _ => .ok d

/-- Reads `o->op_first`. -/
def OP.first : OP → Except Err OP
  | .NULL => .error .null_deref
  | .mk _ f _ _ => .ok f

/-- Reads `o->op_sibling`. -/
def OP.sibling : OP → Except Err OP
  | .NULL => .error .null_deref
  | .mk _ _ s _ => .ok s

/-- Reads `o->op_pmreplrootu.op_pmreplroot`. -/
def OP.pmreplroot : OP → Except Err OP
  | .NULL => .error .null_deref
  | .mk _ _ _ r => .ok r

/-- Reads `o->op_type`. -/
def OP.type (o : OP) : Except Err Optype := do
  let d ← o.data
  pure d.op_type

/-- True for a non-null pointer. -/
def OP.isSome : OP → Bool
  | .NULL => false
  | .mk _ _ _ _ => true

/-- The chain `kid, kid->op_sibling, ...` up to the null pointer, as walked by
`for (; kid; kid = kid->op_sibling)`. -/
def OP.chain : OP → List OP
  | .NULL => []
  | .mk d f s r => .mk d f s r :: s.chain

/-- Reads `o->op_last`: `newBINOP` and `newLISTOP` of `op.c` keep it equal to
the last node of the sibling chain that starts at `op_first`. -/
def OP.last (o : OP) : Except Err OP := do
  let f ← o.first
  pure (f.chain.getLast?.getD .NULL)

/-- The height of the tree below a pointer; enough fuel for `add_op`. -/
def OP.height : OP → Nat
  | .NULL => 0
  | .mk _ f s r => max (max (f.height + 1) (r.height + 1)) s.height

/-! ## Instructions and the code-generation pad -/

/-- A `void*` argument slot of an instruction: an integer cast to a pointer
(the null pointer is `ptr 0`), a value, a glob, or the address of an element
of the final instruction array. -/
inductive Arg where
  | ptr (i : Int)
  | sv (v : SV)
  | gv (g : Nat)
  | instr (index : Nat)
  deriving DecidableEq, Inhabited

/-- The null argument. -/
def Arg.null : Arg := .ptr 0

/-- An `INSTRUCTION` with the four fields `codegen.c` writes. `instr_ppaddr`
is `PL_ppaddr[optype]`, recorded as the op kind; `none` is the null function
pointer. -/
structure INSTRUCTION where
  instr_ppaddr : Option Optype
  instr_op : OP
  instr_arg1 : Arg
  instr_arg2 : Arg
  deriving DecidableEq, Inhabited

/-- The instruction-pointer fields of op-tree nodes. -/
inductive SlotField where
  | op_other_instr | op_redo_instr | op_next_instr | op_last_instr
  | op_pmreplroot_instr | op_pmreplstart_instr | op_subst_next_instr
  | op_unstack_instr
  deriving DecidableEq, Inhabited

/-- An `INSTRUCTION**`: the address of an instruction-pointer field of the
node at address `node`. -/
structure Slot where
  node : Nat
  field : SlotField
  deriving DecidableEq, Inhabited

/-- `struct op_instrpp`; a null `instrpp` is `none`. -/
structure OP_INSTRPP where
  instrpp : Option Slot
  instr_idx : Nat
  deriving DecidableEq, Inhabited

/-- `struct branch_point_to_pparg`. -/
structure BRANCH_POINT_TO_PPARG where
  instr_from_index : Nat
  instr_to_index : Nat
  deriving DecidableEq, Inhabited

/-- `struct codeseq`: capacity, slots and the values owned by the sequence. -/
structure CODESEQ where
  xcodeseq_size : Nat
  xcodeseq_instructions : List INSTRUCTION
  xcodeseq_svs : List SV
  deriving DecidableEq, Inhabited

/-- A write to a field of an op-tree node made during code generation. -/
inductive OpWrite where
  | or_flags (node : Nat) (bits : Nat)
  | or_private (node : Nat) (bits : Nat)
  | set_type (node : Nat) (t : Optype)
  | set_sv (node : Nat) (v : SV)
  deriving DecidableEq, Inhabited

/-- A call of `instr_fold_constants`: the range `[start, stop)` of the buffer
handed to it (the temporary `INSTR_END` included), the node, the mode, and
the number of pointer and branch fixups pending at that moment. -/
structure TrialCall where
  start : Nat
  stop : Nat
  node : Nat
  list : Bool
  n_instrpp : Nat
  n_branch : Nat
  deriving DecidableEq, Inhabited

/-- The interpreter state `instr_fold_constants` saves and restores. -/
structure INTERP where
  PL_stack : List Scalar
  PL_warnhook : Option Nat
  PL_diehook : Option Nat
  next_instruction : Option Nat
  PL_scopestack_ix : Nat
  PL_op : OP
  errsv : Bool
  deriving DecidableEq, Inhabited

/-- `struct codegen_pad`, together with what else `add_op` reads and writes:
`PL_curcop`, the interpreter state, and two ghost logs (the writes made to
op-tree nodes and the calls of `instr_fold_constants`).  The fixup lists hold
the entries between `..._list` and `..._append`.  The `recursion` counter,
used only to indent debugging output, is left out. -/
structure CODEGEN_PAD where
  codeseq : CODESEQ
  idx : Nat
  op_instrpp_list : List OP_INSTRPP
  branch_point_to_pparg_list : List BRANCH_POINT_TO_PPARG
  PL_curcop : OP
  interp : INTERP
  op_writes : List OpWrite
  fold_calls : List TrialCall
  deriving DecidableEq, Inhabited

/-! ## The environment -/

/-- What a run of the instruction interpreter (`CALLRUNOPS` under
`JMPENV_PUSH`) leaves behind: the value of `ret` (0 when the run returned, 3
when it died, the `longjmp` code otherwise), the argument stack, the scope
depth and whether an error is pending in `ERRSV`. -/
structure RunOutcome where
  ret : Nat
  PL_stack : List Scalar
  PL_scopestack_ix : Nat
  errsv : Bool

/-- The parts of the interpreter that are not in the sources and that the code
generator consults: the `PL_opargs` table of `opcode.h`, the compile-time
hints `PL_hints`, the instruction interpreter (given the interpreter state at
the start of the run, the instructions from the start pointer on and whether a
mark was pushed), and the contents of freshly allocated instruction memory
(indeterminate in C). -/
structure Env where
  PL_opargs : Optype → Nat
  PL_hints : Nat
  CALLRUNOPS : INTERP → List INSTRUCTION → Bool → RunOutcome
  uninit : INSTRUCTION

/-- `PERL_WARNHOOK_FATAL`, a distinguished hook value. -/
def PERL_WARNHOOK_FATAL : Option Nat := some 0

/-! ## Appending instructions and recording fixups -/

/-- The assignment `bpp->idx = idx`. -/
def CODEGEN_PAD.set_idx (bpp : CODEGEN_PAD) (idx : Nat) : CODEGEN_PAD :=
  { bpp with idx := idx }

/-- The assignment `PL_curcop = o`. -/
def CODEGEN_PAD.set_curcop (bpp : CODEGEN_PAD) (o : OP) : CODEGEN_PAD :=
  { bpp with PL_curcop := o }

/-- Records writes made to op-tree nodes. -/
def CODEGEN_PAD.log_writes (bpp : CODEGEN_PAD) (ws : List OpWrite) : CODEGEN_PAD :=
  { bpp with op_writes := bpp.op_writes ++ ws }

/-- The pad after a call of `instr_fold_constants`: the interpreter state the
call left, and the call recorded. -/
def CODEGEN_PAD.after_trial (bpp : CODEGEN_PAD) (interp : INTERP) (call : TrialCall) :
    CODEGEN_PAD :=
  { bpp with interp := interp, fold_calls := bpp.fold_calls ++ [call] }

/-- `S_append_instruction_x`: writes slot `idx`, increments `idx`, and grows
the buffer by 32 slots when `idx` reaches the capacity. -/
def append_instruction_x (env : Env) (bpp : CODEGEN_PAD) (o : OP) (optype : Optype)
    (instr_arg1 instr_arg2 : Arg) : CODEGEN_PAD :=
  let instrs := bpp.codeseq.xcodeseq_instructions.set bpp.idx
    { instr_ppaddr := some optype, instr_op := o,
      instr_arg1 := instr_arg1, instr_arg2 := instr_arg2 }
  let idx := bpp.idx + 1
  if idx ≥ bpp.codeseq.xcodeseq_size then
    { bpp with
      codeseq := { bpp.codeseq with
        xcodeseq_size := bpp.codeseq.xcodeseq_size + 32,
        xcodeseq_instructions := instrs ++ List.replicate 32 env.uninit },
      idx := idx }
  else
    { bpp with
      codeseq := { bpp.codeseq with xcodeseq_instructions := instrs },
      idx := idx }

/-- `S_append_instruction`. -/
def append_instruction (env : Env) (bpp : CODEGEN_PAD) (o : OP) (optype : Optype) :
    CODEGEN_PAD :=
  append_instruction_x env bpp o optype .null .null

/-- `S_save_branch_point`: records that `instrp` must receive the address of
the instruction at the current `idx`. -/
def save_branch_point (bpp : CODEGEN_PAD) (instrp : Option Slot) : CODEGEN_PAD :=
  { bpp with
    op_instrpp_list := bpp.op_instrpp_list ++ [{ instrpp := instrp, instr_idx := bpp.idx }] }

/-- `S_save_instr_from_to_pparg`. -/
def save_instr_from_to_pparg (codegen_pad : CODEGEN_PAD)
    (instr_from_index instr_to_index : Nat) : CODEGEN_PAD :=
  { codegen_pad with
    branch_point_to_pparg_list := codegen_pad.branch_point_to_pparg_list ++
      [{ instr_from_index := instr_from_index, instr_to_index := instr_to_index }] }

/-- The address of an instruction-pointer field of a node. -/
def slot (d : OpData) (f : SlotField) : Option Slot := some { node := d.addr, field := f }

/-! ## Constant folding -/

/-- `S_instr_fold_constants`: runs the instructions in an eval scope with the
warn hook made fatal and returns the value they push (`none` for `NULL`).
Reference counts and the pad-temporary bookkeeping are not modelled;
`create_eval_scope` and `delete_eval_scope` open and close one scope. -/
def instr_fold_constants (env : Env) (st : INTERP) (instr : List INSTRUCTION) (o : OP)
    (list : Bool) : Except Err (Option SV × INTERP) :=
  let oldwarnhook := st.PL_warnhook
  let olddiehook := st.PL_diehook
  let old_next_instruction := st.next_instruction
  let oldsp := st.PL_stack.length
  let oldscope := st.PL_scopestack_ix
  let st1 : INTERP :=
    { st with PL_op := o, PL_scopestack_ix := oldscope + 1,
              PL_warnhook := PERL_WARNHOOK_FATAL, PL_diehook := none }
  let out := env.CALLRUNOPS st1 instr list
  let finish (sv : Option SV) (stack : List Scalar) (errsv : Bool) :
      Except Err (Option SV × INTERP) :=
    let scope :=
      if out.PL_scopestack_ix > oldscope then out.PL_scopestack_ix - 1
      else out.PL_scopestack_ix
    if scope = oldscope then
      .ok (sv, { st1 with PL_stack := stack, PL_warnhook := oldwarnhook,
                          PL_diehook := olddiehook, PL_scopestack_ix := scope,
                          next_instruction := old_next_instruction, errsv := errsv })
    else .error .assertion
  match out.ret with
  | 0 =>
    if list then
      let av := (out.PL_stack.drop oldsp).map newSVsv
      finish (some (.av av)) (out.PL_stack.take oldsp) out.errsv
    else if out.PL_stack.length = oldsp + 1 then
      match out.PL_stack.getLast? with
      | some sv => finish (some (.scalar sv)) out.PL_stack.dropLast out.errsv
      | none => finish none out.PL_stack out.errsv
    else finish none out.PL_stack out.errsv
  | 3 => finish none out.PL_stack false
  | ret => .error (.croak ret)

/-- The `SV**` returned by `svp_const_instruction`: the value slot of an
`OP_CONST` node, or the `instr_arg1` slot of an instruction. -/
inductive SVPtr where
  | in_op (d : OpData)
  | in_arg1 (instr_index : Nat)
  deriving DecidableEq, Inhabited

/-- `S_svp_const_instruction`. Reading outside the buffer is an error, and so
is a source node that is not an `OP_CONST` (the assertion of the source). -/
def svp_const_instruction (bpp : CODEGEN_PAD) (instr_index : Int) : Except Err SVPtr :=
  if instr_index < 0 then .error .bad_read
  else
    match bpp.codeseq.xcodeseq_instructions.get? instr_index.toNat with
    | none => .error .bad_read
    | some instr =>
      match instr.instr_op with
      | .mk d _ _ _ =>
        if d.op_type = .OP_CONST then .ok (.in_op d) else .error .assertion
      | .NULL => .ok (.in_arg1 instr_index.toNat)

/-- The dereference `*svp` of a pointer returned by `svp_const_instruction`;
an argument slot that does not hold a value is an error. -/
def deref_svp (bpp : CODEGEN_PAD) : SVPtr → Except Err SV
  | .in_op d => .ok d.op_sv
  | .in_arg1 i =>
    match bpp.codeseq.xcodeseq_instructions.get? i with
    | some instr =>
      match instr.instr_arg1 with
      | .sv v => .ok v
      | _ => .error .bad_read
    | none => .error .bad_read

/-- The assignment `*svp = v` through a pointer returned by
`svp_const_instruction`. A write to the value of an op-tree node is logged and
shown in the instruction that refers to the node. -/
def assign_svp (bpp : CODEGEN_PAD) (p : SVPtr) (instr_index : Nat) (v : SV) : CODEGEN_PAD :=
  match bpp.codeseq.xcodeseq_instructions.get? instr_index with
  | none => bpp
  | some instr =>
    match p with
    | .in_op d =>
      let node :=
        match instr.instr_op with
        | .mk d0 f s r => OP.mk { d0 with op_sv := v } f s r
        | .NULL => OP.NULL
      { bpp with
        codeseq := { bpp.codeseq with
          xcodeseq_instructions :=
            bpp.codeseq.xcodeseq_instructions.set instr_index { instr with instr_op := node } },
        op_writes := bpp.op_writes ++ [.set_sv d.addr v] }
    | .in_arg1 _ =>
      { bpp with
        codeseq := { bpp.codeseq with
          xcodeseq_instructions :=
            bpp.codeseq.xcodeseq_instructions.set instr_index { instr with instr_arg1 := .sv v } } }

/-- The constant carried by the last instruction,
`*(svp_const_instruction(bpp, bpp->idx-1))`. -/
def last_const (bpp : CODEGEN_PAD) : Except Err SV := do
  let p ← svp_const_instruction bpp ((bpp.idx : Int) - 1)
  deref_svp bpp p

/-! ## Translation of the op tree -/

/-- The type of `add_op` once the fuel is fixed: pad, node, the value of
`*may_constant_fold` at entry and the flags, to the pad and the value of
`*may_constant_fold` at return. -/
abbrev AddOp := CODEGEN_PAD → OP → Bool → Nat → Except Err (CODEGEN_PAD × Bool)

/-- The C `assert`. -/
def c_assert (c : Bool) : Except Err Unit :=
  if c then .ok () else .error .assertion

/-- The loop `for (; kid; kid = kid->op_sibling) add_op(bpp, kid, flag, 0)` over
the sibling chain `kids`. -/
def add_chain (add_op : AddOp) :
    List OP → CODEGEN_PAD → Bool → Except Err (CODEGEN_PAD × Bool)
  | [], bpp, flag => .ok (bpp, flag)
  | kid :: rest, bpp, flag => do
    let r ← add_op bpp kid flag 0
    add_chain add_op rest r.1 r.2

/-- `S_add_kids`. -/
def add_kids (add_op : AddOp) (bpp : CODEGEN_PAD) (o : OP) (may_constant_fold : Bool) :
    Except Err (CODEGEN_PAD × Bool) := do
  let d ← o.data
  if hasBit d.op_flags OPf_KIDS then
    let first ← o.first
    add_chain add_op first.chain bpp may_constant_fold
  else .ok (bpp, may_constant_fold)

/-- `S_is_inplace_av`: the in-place `sort` or `reverse` of an array assignment,
or null. -/
def is_inplace_av (o : OP) : Except Err OP := do
  let d ← o.data
  let oright ← o.first
  let oleft ← oright.sibling
  c_assert (d.op_type == .OP_AASSIGN)
  if d.op_flags &&& OPf_WANT != OPf_WANT_VOID then .ok .NULL else
  let rt ← oright.type
  c_assert (rt == .OP_LIST)
  let oright ← oright.first
  match oright with
  | .NULL => .ok .NULL
  | .mk sd sfirst ssib _ =>
  if ssib.isSome then .ok .NULL else
  if sd.op_type != .OP_SORT && sd.op_type != .OP_REVERSE then .ok .NULL else
  let sortop := oright
  let oright ← (if hasBit sd.op_flags OPf_STACKED then sfirst.sibling else .ok sfirst)
  match oright with
  | .NULL => .ok .NULL
  | .mk rd rfirst rsib _ =>
  if rsib.isSome then .ok .NULL else
  if (rd.op_type != .OP_RV2AV && rd.op_type != .OP_PADAV)
      || hasBit rd.op_private OPpLVAL_INTRO then .ok .NULL else
  let lt ← oleft.type
  c_assert (lt == .OP_LIST)
  let oleft ← oleft.first
  match oleft with
  | .NULL => .ok .NULL
  | .mk ld lfirst lsib _ =>
  if lsib.isSome then .ok .NULL else
  if (ld.op_type != .OP_PADAV && ld.op_type != .OP_RV2AV)
      || hasBit ld.op_private OPpLVAL_INTRO then .ok .NULL else
  if ld.op_type == .OP_RV2AV then
    if rd.op_type != .OP_RV2AV then .ok .NULL else
    match rfirst with
    | .NULL => .ok .NULL
    | .mk gd _ _ _ =>
      if gd.op_type != .OP_GV then .ok .NULL else do
      let lg ← lfirst.data
      if lg.op_gv != gd.op_gv then .ok .NULL else .ok sortop
  else if rd.op_type != .OP_PADAV || rd.op_targ != ld.op_targ then .ok .NULL
  else .ok sortop

/-- Modelled from the spec: `SvPV_const` of `sv.h` (not part of the sources),
the string form of a value. -/
def SvPV_const : SV → String
  | .scalar { val := .pv s _ _, .. } => s
  | .scalar { val := .iv i, .. } => toString i
  | _ => ""

/-- Modelled from the spec: `SvUTF8` of `sv.h` (not part of the sources). -/
def SvUTF8 : SV → Bool
  | .scalar { val := .pv _ u _, .. } => u
  | _ => false

/-- Modelled from the spec: `newSVpvn_share` (not part of the sources): a new
scalar holding the shared, interned copy of the string. -/
def newSVpvn_share (key : String) (utf8 : Bool) : SV :=
  .scalar { val := .pv key utf8 true, readonly := false }

/-- Modelled from the spec: `SvIV_please` followed by `SvIOKp` and `SvIV` of
`sv.h` (not part of the sources): the integer held by the value, when it holds
one. Floating-point values are not modelled. -/
def SvIV_of : SV → Option Int
  | .scalar { val := .iv i, .. } => some i
  | _ => none

/-- The cases `OP_GREPSTART` and `OP_MAPSTART` of `add_op`. -/
def add_op_grep (env : Env) (add_op : AddOp) (bpp : CODEGEN_PAD) (o : OP) (d : OpData) :
    Except Err (CODEGEN_PAD × Bool) := do
  let is_grep := d.op_type == .OP_GREPSTART
  let op_block ← o.first
  let bt ← op_block.type
  c_assert (bt == .OP_NULL)
  let bpp := append_instruction env bpp .NULL .OP_PUSHMARK
  let kid ← op_block.sibling
  let r ← add_chain add_op kid.chain bpp true
  let bpp := append_instruction env r.1 o d.op_type
  let grepstart_idx := bpp.idx - 1
  let grepitem_idx := bpp.idx
  let body ← op_block.first
  let r ← add_op bpp body r.2 0
  let bpp := append_instruction env r.1 o (if is_grep then .OP_GREPWHILE else .OP_MAPWHILE)
  let bpp := save_instr_from_to_pparg bpp (bpp.idx - 1) grepitem_idx
  let bpp := save_instr_from_to_pparg bpp grepstart_idx bpp.idx
  .ok (bpp, r.2)

/-- The case `OP_COND_EXPR` of `add_op`. -/
def add_op_cond_expr (env : Env) (add_op : AddOp) (bpp : CODEGEN_PAD) (o : OP) (d : OpData) :
    Except Err (CODEGEN_PAD × Bool) := do
  let op_first ← o.first
  let op_true ← op_first.sibling
  let op_false ← op_true.sibling
  let c ← add_op bpp op_first true 0
  if c.2 then
    let constsv ← last_const c.1
    let bpp := c.1.set_idx (c.1.idx - 1)
    add_op bpp (if SvTRUE constsv then op_true else op_false) true 0
  else
    let bpp := append_instruction env c.1 o d.op_type
    let t ← add_op bpp op_true true 0
    let jump_idx := t.1.idx
    let bpp := append_instruction_x env t.1 .NULL .OP_INSTR_JUMP .null .null
    let bpp := save_branch_point bpp (slot d .op_other_instr)
    let f ← add_op bpp op_false t.2 0
    let bpp := save_instr_from_to_pparg f.1 jump_idx f.1.idx
    .ok (bpp, f.2)

/-- The case `OP_ENTERLOOP` of `add_op`. -/
def add_op_enterloop (env : Env) (add_op : AddOp) (bpp : CODEGEN_PAD) (o : OP) (d : OpData) :
    Except Err (CODEGEN_PAD × Bool) := do
  let op_start ← o.first
  let op_block ← op_start.sibling
  let op_cont ← op_block.sibling
  let st ← op_start.type
  let has_condition := st != .OP_NOTHING
  let bpp := append_instruction env bpp o d.op_type
  let start_idx := bpp.idx
  let c ← (if has_condition then do
      let r ← add_op bpp op_start true 0
      .ok (append_instruction_x env r.1 .NULL .OP_INSTR_COND_JUMP .null .null, r.2, r.1.idx)
    else .ok (bpp, true, 0))
  let cond_jump_idx := c.2.2
  let bpp := save_branch_point c.1 (slot d .op_redo_instr)
  let b ← add_op bpp op_block c.2.1 0
  let bpp := save_branch_point b.1 (slot d .op_next_instr)
  let k ← (if op_cont.isSome then add_op bpp op_cont b.2 0 else .ok (bpp, b.2))
  let bpp :=
    if has_condition then
      let bpp := append_instruction_x env k.1 .NULL .OP_INSTR_JUMP .null .null
      let bpp := save_instr_from_to_pparg bpp (bpp.idx - 1) start_idx
      save_instr_from_to_pparg bpp cond_jump_idx bpp.idx
    else k.1
  let bpp := append_instruction env bpp o .OP_LEAVELOOP
  let bpp := save_branch_point bpp (slot d .op_last_instr)
  .ok (bpp, k.2)

/-- The case `OP_FOREACH` of `add_op`. -/
def add_op_foreach (env : Env) (add_op : AddOp) (bpp : CODEGEN_PAD) (o : OP) (d : OpData) :
    Except Err (CODEGEN_PAD × Bool) := do
  let op_expr ← o.first
  let op_sv ← op_expr.sibling
  let op_block ← op_sv.sibling
  let op_cont ← op_block.sibling
  let bpp := append_instruction env bpp .NULL .OP_PUSHMARK
  let et ← op_expr.type
  let e ← (if et == .OP_RANGE then do
      let flip ← op_expr.first
      let left ← flip.first
      let r ← add_op bpp left true 0
      let right ← left.sibling
      add_op r.1 right r.2 0
    else if et == .OP_REVERSE then add_kids add_op bpp op_expr true
    else add_op bpp op_expr true 0)
  let svt ← op_sv.type
  let v ← (if svt != .OP_NOTHING then add_op e.1 op_sv e.2 0 else .ok e)
  let bpp := append_instruction env v.1 o .OP_ENTERITER
  let start_idx := bpp.idx
  let bpp := append_instruction env bpp o .OP_ITER
  let cond_jump_idx := bpp.idx
  let bpp := append_instruction_x env bpp .NULL .OP_INSTR_COND_JUMP .null .null
  let bpp := save_branch_point bpp (slot d .op_redo_instr)
  let b ← add_op bpp op_block v.2 0
  let bpp := save_branch_point b.1 (slot d .op_next_instr)
  let bpp := append_instruction_x env bpp .NULL .OP_UNSTACK .null .null
  let k ← (if op_cont.isSome then add_op bpp op_cont b.2 0 else .ok (bpp, b.2))
  let bpp := append_instruction_x env k.1 .NULL .OP_INSTR_JUMP .null .null
  let bpp := save_instr_from_to_pparg bpp (bpp.idx - 1) start_idx
  let bpp := save_instr_from_to_pparg bpp cond_jump_idx bpp.idx
  let bpp := append_instruction_x env bpp .NULL .OP_LEAVELOOP .null .null
  let bpp := save_branch_point bpp (slot d .op_last_instr)
  .ok (bpp, k.2)

/-- The case `OP_WHILE_AND` of `add_op`. -/
def add_op_while_and (env : Env) (add_op : AddOp) (bpp : CODEGEN_PAD) (o : OP) (d : OpData) :
    Except Err (CODEGEN_PAD × Bool) := do
  let op_first ← o.first
  let op_other ← op_first.sibling
  if hasBit d.op_private OPpWHILE_AND_ONCE then
    let bpp := save_branch_point bpp (slot d .op_other_instr)
    let r ← add_op bpp op_other true 0
    let r ← add_op r.1 op_first r.2 0
    .ok (append_instruction env r.1 o .OP_OR, r.2)
  else
    let start_idx := bpp.idx
    let bpp := append_instruction_x env bpp .NULL .OP_INSTR_JUMP .null .null
    let bpp := save_branch_point bpp (slot d .op_other_instr)
    let r ← add_op bpp op_other true 0
    let bpp := save_instr_from_to_pparg r.1 start_idx r.1.idx
    let r ← add_op bpp op_first r.2 0
    .ok (append_instruction env r.1 o .OP_OR, r.2)

/-- The compile-time decision of `OP_AND`, `OP_OR` and `OP_DOR` on a constant
left operand (`cond_true` in the source): whether the right operand is
evaluated. -/
def logop_cond_true (t : Optype) (constsv : SV) : Bool :=
  (t == .OP_AND && SvTRUE constsv) ||
  (t == .OP_OR && !SvTRUE constsv) ||
  (t == .OP_DOR && !SvOK constsv)

/-- The cases `OP_AND`, `OP_OR` and `OP_DOR` of `add_op`. The assertion of the
source on the operator class of the node in `PL_opargs` concerns the opcode
table alone and is taken to hold. -/
def add_op_logop (env : Env) (add_op : AddOp) (bpp : CODEGEN_PAD) (o : OP) (d : OpData) :
    Except Err (CODEGEN_PAD × Bool) := do
  let op_first ← o.first
  let op_other ← op_first.sibling
  let addop_cond_flags :=
    if d.op_flags &&& OPf_WANT == OPf_WANT_VOID then ADDOPf_BOOLEANCONTEXT else 0
  let c ← add_op bpp op_first true addop_cond_flags
  if c.2 then
    let constsv ← last_const c.1
    if logop_cond_true d.op_type constsv then
      let bpp := c.1.set_idx (c.1.idx - 1)
      add_op bpp op_other true 0
    else .ok (c.1, true)
  else
    let bpp := append_instruction env c.1 o d.op_type
    let r ← add_op bpp op_other true 0
    .ok (save_branch_point r.1 (slot d .op_other_instr), r.2)

/-- The cases `OP_ANDASSIGN`, `OP_ORASSIGN` and `OP_DORASSIGN` of `add_op`. -/
def add_op_logassign (env : Env) (add_op : AddOp) (bpp : CODEGEN_PAD) (o : OP) (d : OpData) :
    Except Err (CODEGEN_PAD × Bool) := do
  let op_first ← o.first
  let op_other ← op_first.sibling
  let r ← add_op bpp op_first true 0
  let bpp := append_instruction env r.1 o d.op_type
  let r ← add_op bpp op_other r.2 0
  .ok (save_branch_point r.1 (slot d .op_other_instr), r.2)

/-- The case `OP_ONCE` of `add_op`. -/
def add_op_once (env : Env) (add_op : AddOp) (bpp : CODEGEN_PAD) (o : OP) (d : OpData) :
    Except Err (CODEGEN_PAD × Bool) := do
  let op_first ← o.first
  let op_other ← op_first.sibling
  let bpp := append_instruction env bpp o d.op_type
  let r ← add_op bpp op_first true 0
  let start_idx := r.1.idx
  let bpp := append_instruction_x env r.1 .NULL .OP_INSTR_JUMP .null .null
  let bpp := save_branch_point bpp (slot d .op_other_instr)
  let r ← add_op bpp op_other r.2 0
  .ok (save_instr_from_to_pparg r.1 start_idx r.1.idx, r.2)

/-- The case `OP_ENTERTRY` of `add_op`. -/
def add_op_entertry (env : Env) (add_op : AddOp) (bpp : CODEGEN_PAD) (o : OP) (d : OpData) :
    Except Err (CODEGEN_PAD × Bool) := do
  let bpp := append_instruction env bpp o .OP_ENTERTRY
  let first ← o.first
  let r ← add_op bpp first true 0
  let bpp := append_instruction env r.1 o .OP_LEAVETRY
  .ok (save_branch_point bpp (slot d .op_other_instr), r.2)

/-- The common part of the two fold attempts of `add_op`: appends the temporary
`INSTR_END` and runs `instr_fold_constants` on the instructions from
`start_idx` on. Returns the value and the pad, `INSTR_END` still in place. -/
def fold_trial (env : Env) (bpp : CODEGEN_PAD) (start_idx : Nat) (o : OP) (list : Bool) :
    Except Err (Option SV × CODEGEN_PAD) := do
  let bpp := append_instruction_x env bpp .NULL .OP_INSTR_END .null .null
  let d ← o.data
  let call : TrialCall :=
    { start := start_idx, stop := bpp.idx, node := d.addr, list := list,
      n_instrpp := bpp.op_instrpp_list.length,
      n_branch := bpp.branch_point_to_pparg_list.length }
  let r ← instr_fold_constants env bpp.interp
    ((bpp.codeseq.xcodeseq_instructions.take bpp.idx).drop start_idx) o list
  .ok (r.1, bpp.after_trial r.2 call)

/-- `Perl_av_create_and_push(&bpp->codeseq.xcodeseq_svs, constsv)`. -/
def push_svs (bpp : CODEGEN_PAD) (constsv : SV) : CODEGEN_PAD :=
  { bpp with codeseq := { bpp.codeseq with xcodeseq_svs := bpp.codeseq.xcodeseq_svs ++ [constsv] } }

/-- The case `OP_RANGE` of `add_op`. -/
def add_op_range (env : Env) (add_op : AddOp) (bpp : CODEGEN_PAD) (o : OP) (d : OpData) :
    Except Err (CODEGEN_PAD × Bool) := do
  let flip ← o.first
  if d.op_flags &&& OPf_WANT == OPf_WANT_LIST then
    let start_idx := bpp.idx
    let left ← flip.first
    let r ← add_op bpp left true 0
    let right ← left.sibling
    let r ← add_op r.1 right r.2 0
    let bpp := append_instruction env r.1 o .OP_FLOP
    if r.2 then
      let t ← fold_trial env bpp start_idx o true
      match t.1 with
      | some constsv =>
        let bpp := t.2.set_idx start_idx
        let bpp := append_instruction_x env bpp .NULL .OP_INSTR_CONST_LIST (.sv constsv) .null
        .ok (push_svs bpp constsv, r.2)
      | none => .ok (t.2.set_idx (t.2.idx - 1), r.2)
    else .ok (bpp, r.2)
  else
    let bpp := append_instruction env bpp o d.op_type
    let left ← flip.first
    let r ← add_op bpp left true 0
    let flip_instr_idx := r.1.idx
    let bpp := append_instruction env r.1 o .OP_FLIP
    let bpp := save_branch_point bpp (slot d .op_other_instr)
    let right ← left.sibling
    let r ← add_op bpp right r.2 0
    let bpp := append_instruction env r.1 o .OP_FLOP
    .ok (save_instr_from_to_pparg bpp flip_instr_idx bpp.idx, r.2)

/-- The case `OP_REGCOMP` of `add_op`. -/
def add_op_regcomp (env : Env) (add_op : AddOp) (bpp : CODEGEN_PAD) (o : OP) (d : OpData) :
    Except Err (CODEGEN_PAD × Bool) := do
  let op_first ← o.first
  let fd ← op_first.data
  let r ← (if fd.op_type == .OP_REGCRESET then do
      let bpp := append_instruction env bpp op_first fd.op_type
      let bpp :=
        if hasBit d.op_flags OPf_STACKED then append_instruction env bpp .NULL .OP_PUSHMARK
        else bpp
      let kid ← op_first.first
      add_op bpp kid true 0
    else
      let bpp :=
        if hasBit d.op_flags OPf_STACKED then append_instruction env bpp .NULL .OP_PUSHMARK
        else bpp
      add_op bpp op_first true 0)
  .ok (append_instruction env r.1 o d.op_type, r.2)

/-- The case `OP_ENTERGIVEN` of `add_op`. -/
def add_op_entergiven (env : Env) (add_op : AddOp) (bpp : CODEGEN_PAD) (o : OP) (d : OpData) :
    Except Err (CODEGEN_PAD × Bool) := do
  let op_cond ← o.first
  let op_block ← op_cond.sibling
  let r ← add_op bpp op_cond true 0
  let bpp := append_instruction env r.1 o d.op_type
  let r ← add_op bpp op_block r.2 0
  let bpp := save_branch_point r.1 (slot d .op_other_instr)
  .ok (append_instruction env bpp o .OP_LEAVEGIVEN, r.2)

/-- The case `OP_ENTERWHEN` of `add_op`. -/
def add_op_enterwhen (env : Env) (add_op : AddOp) (bpp : CODEGEN_PAD) (o : OP) (d : OpData) :
    Except Err (CODEGEN_PAD × Bool) := do
  if hasBit d.op_flags OPf_SPECIAL then
    let op_block ← o.first
    let bpp := append_instruction env bpp o d.op_type
    let r ← add_op bpp op_block true 0
    let bpp := save_branch_point r.1 (slot d .op_other_instr)
    .ok (append_instruction env bpp o .OP_LEAVEWHEN, r.2)
  else
    let op_cond ← o.first
    let op_block ← op_cond.sibling
    let r ← add_op bpp op_cond true 0
    let bpp := append_instruction env r.1 o d.op_type
    let r ← add_op bpp op_block r.2 0
    let bpp := save_branch_point r.1 (slot d .op_other_instr)
    .ok (append_instruction env bpp o .OP_LEAVEWHEN, r.2)

/-- The case `OP_SUBST` of `add_op`. -/
def add_op_subst (env : Env) (add_op : AddOp) (bpp : CODEGEN_PAD) (o : OP) (d : OpData) :
    Except Err (CODEGEN_PAD × Bool) := do
  let first ← o.first
  let r ← add_chain add_op first.chain bpp true
  let bpp := append_instruction env r.1 o d.op_type
  let start_idx := bpp.idx
  let bpp := append_instruction_x env bpp .NULL .OP_INSTR_JUMP .null .null
  let bpp := save_branch_point bpp (slot d .op_pmreplroot_instr)
  let op_pmreplroot ← o.pmreplroot
  let bpp := append_instruction env bpp op_pmreplroot .OP_SUBSTCONT
  let bpp := save_branch_point bpp (slot d .op_pmreplstart_instr)
  let r ← (if op_pmreplroot.isSome then add_op bpp op_pmreplroot r.2 0 else .ok (bpp, r.2))
  let bpp := save_branch_point r.1 (slot d .op_subst_next_instr)
  .ok (save_instr_from_to_pparg bpp start_idx bpp.idx, r.2)

/-- The block at the label `compile_sort_without_kids` of `add_op`, entered
from the cases `OP_SORT` and `OP_AASSIGN`. -/
def compile_sort_without_kids (env : Env) (add_op : AddOp) (bpp : CODEGEN_PAD) (o : OP)
    (d : OpData) (kid_may_constant_fold : Bool) : Except Err (CODEGEN_PAD × Bool) := do
  let has_block := hasBit d.op_flags OPf_STACKED && hasBit d.op_flags OPf_SPECIAL
  let sort_instr_idx := bpp.idx
  let bpp := append_instruction env bpp o .OP_SORT
  let start_idx := bpp.idx
  let bpp := append_instruction_x env bpp .NULL .OP_INSTR_JUMP .null .null
  let r ← (if has_block then do
      let bpp := save_instr_from_to_pparg bpp sort_instr_idx bpp.idx
      let first ← o.first
      let r ← add_op bpp first kid_may_constant_fold 0
      .ok (append_instruction_x env r.1 .NULL .OP_INSTR_END .null .null, r.2)
    else .ok (bpp, kid_may_constant_fold))
  .ok (save_instr_from_to_pparg r.1 start_idx r.1.idx, r.2)

/-- The case `OP_SORT` of `add_op`. -/
def add_op_sort (env : Env) (add_op : AddOp) (bpp : CODEGEN_PAD) (o : OP) (d : OpData) :
    Except Err (CODEGEN_PAD × Bool) := do
  let bpp := append_instruction env bpp .NULL .OP_PUSHMARK
  let first ← o.first
  let kid ← (if hasBit d.op_flags OPf_STACKED && hasBit d.op_flags OPf_SPECIAL
    then first.sibling else .ok first)
  let r ← add_chain add_op kid.chain bpp true
  compile_sort_without_kids env add_op r.1 o d r.2

/-- The case `OP_FORMLINE` of `add_op`. -/
def add_op_formline (env : Env) (add_op : AddOp) (bpp : CODEGEN_PAD) (o : OP) (d : OpData) :
    Except Err (CODEGEN_PAD × Bool) := do
  let bpp := save_branch_point bpp (slot d .op_unstack_instr)
  let bpp := append_instruction env bpp .NULL .OP_PUSHMARK
  let r ← add_kids add_op bpp o true
  .ok (append_instruction env r.1 o d.op_type, r.2)

/-- The case `OP_RV2SV` of `add_op`. -/
def add_op_rv2sv (env : Env) (add_op : AddOp) (bpp : CODEGEN_PAD) (o : OP) (d : OpData) :
    Except Err (CODEGEN_PAD × Bool) := do
  let first ← o.first
  let fd ← first.data
  if fd.op_type == .OP_GV && !hasBit d.op_private OPpDEREF then
    .ok (append_instruction_x env bpp o .OP_GVSV (.gv fd.op_gv) .null, true)
  else
    let r ← add_kids add_op bpp o true
    .ok (append_instruction env r.1 o d.op_type, r.2)

/-- The case `OP_AELEM` of `add_op`. -/
def add_op_aelem (env : Env) (add_op : AddOp) (bpp : CODEGEN_PAD) (o : OP) (d : OpData) :
    Except Err (CODEGEN_PAD × Bool) := do
  let op_av ← o.first
  let op_index ← op_av.sibling
  let start_idx := bpp.idx
  let a ← add_op bpp op_av true 0
  let i ← add_op a.1 op_index true 0
  let index_is_constant := i.2
  let kid_may_constant_fold := a.2 && index_is_constant
  let generic : Except Err (CODEGEN_PAD × Bool) :=
    .ok (append_instruction env i.1 o d.op_type, kid_may_constant_fold)
  if index_is_constant then
    let ad ← op_av.data
    let plain ← (if ad.op_type == .OP_PADAV then .ok true
      else if ad.op_type == .OP_RV2AV then do
        let g ← op_av.first
        let gt ← g.type
        .ok (gt == .OP_GV)
      else .ok false)
    if plain && !hasBit d.op_private
        (OPpLVAL_INTRO ||| OPpLVAL_DEFER ||| OPpDEREF ||| OPpMAYBE_LVSUB) then
      let constsv ← last_const i.1
      match SvIV_of constsv with
      | some iv =>
        let cop ← i.1.PL_curcop.data
        let op_arg ← (if ad.op_type == .OP_PADAV then .ok op_av else op_av.first)
        match op_arg with
        | .NULL => .error .null_deref
        | .mk gd gf gs gr =>
          let mod_bits := d.op_flags &&& OPf_MOD
          let defer_bits := d.op_private &&& OPpLVAL_DEFER
          let op_arg := OP.mk { gd with op_flags := gd.op_flags ||| mod_bits,
                                        op_private := gd.op_private ||| defer_bits } gf gs gr
          let bpp := i.1.log_writes [.or_flags gd.addr mod_bits, .or_private gd.addr defer_bits]
          let bpp := bpp.set_idx start_idx
          .ok (append_instruction_x env bpp op_arg .OP_AELEMFAST
                (.ptr (iv - cop.cop_arybase)) .null, kid_may_constant_fold)
      | none => generic
    else generic
  else generic

/-- The flag word the case `OP_HELEM` of `add_op` puts in `instr_arg1`. -/
def helem_flags (d : OpData) : Nat :=
  (if hasBit d.op_flags OPf_MOD then INSTRf_MOD else 0) |||
  (if hasBit d.op_private OPpMAYBE_LVSUB then INSTRf_HELEM_MAYBE_LVSUB else 0) |||
  (if hasBit d.op_private OPpLVAL_DEFER then INSTRf_HELEM_LVAL_DEFER else 0) |||
  (if hasBit d.op_private OPpLVAL_INTRO then INSTRf_LVAL_INTRO else 0) |||
  (if hasBit d.op_flags OPf_SPECIAL then INSTRf_HELEM_SPECIAL else 0) |||
  (d.op_private &&& OPpDEREF)

/-- The case `OP_HELEM` of `add_op`. -/
def add_op_helem (env : Env) (add_op : AddOp) (bpp : CODEGEN_PAD) (o : OP) (d : OpData) :
    Except Err (CODEGEN_PAD × Bool) := do
  let op_hv ← o.first
  let op_key ← op_hv.sibling
  let flags := helem_flags d
  let h ← add_op bpp op_hv true 0
  let k ← add_op h.1 op_key true 0
  let key_is_constant := k.2
  let kid_may_constant_fold := h.2 && key_is_constant
  let bpp ← (if key_is_constant then do
      let keysvp ← svp_const_instruction k.1 ((k.1.idx : Int) - 1)
      let keysv ← deref_svp k.1 keysvp
      let shared_keysv := newSVpvn_share (SvPV_const keysv) (SvUTF8 keysv)
      .ok (assign_svp k.1 keysvp (k.1.idx - 1) shared_keysv)
    else .ok k.1)
  .ok (append_instruction_x env bpp o d.op_type (.ptr flags) .null, kid_may_constant_fold)

/-- The `compile_default` block of `add_op`: the default translation. -/
def add_op_default (env : Env) (add_op : AddOp) (bpp : CODEGEN_PAD) (o : OP) (d : OpData) :
    Except Err (CODEGEN_PAD × Bool) := do
  let bpp :=
    if hasBit (env.PL_opargs d.op_type) OA_MARK then append_instruction env bpp .NULL .OP_PUSHMARK
    else bpp
  let r ← add_kids add_op bpp o true
  .ok (append_instruction env r.1 o d.op_type, r.2)

/-- The case `OP_DELETE` of `add_op`. -/
def add_op_delete (env : Env) (add_op : AddOp) (bpp : CODEGEN_PAD) (o : OP) (d : OpData) :
    Except Err (CODEGEN_PAD × Bool) := do
  let bpp :=
    if hasBit d.op_private OPpSLICE then append_instruction env bpp .NULL .OP_PUSHMARK
    else bpp
  let r ← add_kids add_op bpp o true
  .ok (append_instruction env r.1 o .OP_DELETE, r.2)

/-- The case `OP_LSLICE` of `add_op`. -/
def add_op_lslice (env : Env) (add_op : AddOp) (bpp : CODEGEN_PAD) (o : OP) :
    Except Err (CODEGEN_PAD × Bool) := do
  let op_subscript ← o.first
  let op_listval ← op_subscript.sibling
  let bpp := append_instruction env bpp .NULL .OP_PUSHMARK
  let r ← add_op bpp op_subscript true 0
  let bpp := append_instruction env r.1 .NULL .OP_PUSHMARK
  let r ← add_op bpp op_listval r.2 0
  .ok (append_instruction env r.1 o .OP_LSLICE, r.2)

/-- The case `OP_RV2HV` of `add_op`. -/
def add_op_rv2hv (env : Env) (add_op : AddOp) (bpp : CODEGEN_PAD) (o : OP) (d : OpData)
    (boolean_context : Bool) : Except Err (CODEGEN_PAD × Bool) := do
  if boolean_context then
    match o with
    | .NULL => .error .null_deref
    | .mk d0 f s r =>
      let o := OP.mk { d0 with op_flags := d0.op_flags ||| (OPf_REF ||| OPf_MOD) } f s r
      let bpp := bpp.log_writes [.or_flags d0.addr (OPf_REF ||| OPf_MOD)]
      let r ← add_kids add_op bpp o true
      let bpp := append_instruction env r.1 o .OP_RV2HV
      .ok (append_instruction env bpp .NULL .OP_BOOLKEYS, r.2)
  else add_op_default env add_op bpp o d

/-- The case `OP_REPEAT` of `add_op`. -/
def add_op_repeat (env : Env) (add_op : AddOp) (bpp : CODEGEN_PAD) (o : OP) (d : OpData) :
    Except Err (CODEGEN_PAD × Bool) := do
  let bpp :=
    if hasBit d.op_private OPpREPEAT_DOLIST then append_instruction env bpp .NULL .OP_PUSHMARK
    else bpp
  let r ← add_kids add_op bpp o true
  .ok (append_instruction env r.1 o .OP_REPEAT, r.2)

/-- The case `OP_NEXTSTATE` of `add_op`. The source spells the call
`S_append_instruction(codeseq, bpp, o, o->op_type)`; it is read as
`append_instruction(bpp, o, o->op_type)`. -/
def add_op_nextstate (env : Env) (bpp : CODEGEN_PAD) (o : OP) (d : OpData) :
    Except Err (CODEGEN_PAD × Bool) :=
  if d.op_next_type == some .OP_NEXTSTATE && d.cop_label.isNone then .ok (bpp, true)
  else
    let bpp := append_instruction env bpp o d.op_type
    .ok (bpp.set_curcop o, true)

/-- The case `OP_DBSTATE` of `add_op`. -/
def add_op_dbstate (env : Env) (bpp : CODEGEN_PAD) (o : OP) (d : OpData) :
    Except Err (CODEGEN_PAD × Bool) :=
  let bpp := append_instruction env bpp o d.op_type
  .ok (bpp.set_curcop o, true)

/-- The case `OP_SASSIGN` of `add_op`. -/
def add_op_sassign (env : Env) (add_op : AddOp) (bpp : CODEGEN_PAD) (o : OP) (d : OpData) :
    Except Err (CODEGEN_PAD × Bool) := do
  let op_right ← o.first
  let op_left ← o.last
  match op_left with
  | .NULL => add_op_default env add_op bpp o d
  | .mk ld _ _ _ =>
    if ld.op_type == .OP_PADSV && !hasBit ld.op_private OPpLVAL_INTRO then do
      let rd ← op_right.data
      if hasBit (env.PL_opargs rd.op_type) OA_TARGLEX && !hasBit rd.op_flags OPf_STACKED then
        c_assert (!hasBit ld.op_flags OPf_STACKED)
        let bpp :=
          if hasBit (env.PL_opargs rd.op_type) OA_MARK
          then append_instruction env bpp .NULL .OP_PUSHMARK else bpp
        let r ← add_kids add_op bpp op_right true
        .ok (append_instruction_x env r.1 op_right rd.op_type
              (.ptr INSTRf_TARG_IN_ARG2) (.ptr ld.op_targ), r.2)
      else add_op_default env add_op bpp o d
    else add_op_default env add_op bpp o d

/-- The case `OP_AASSIGN` of `add_op`. Returns also the node `o` stands for on
leaving the switch: the in-place `sort` when the case jumps to
`compile_sort_without_kids`. -/
def add_op_aassign (env : Env) (add_op : AddOp) (bpp : CODEGEN_PAD) (o : OP) :
    Except Err (CODEGEN_PAD × Bool × OP) := do
  let op_right ← o.first
  let op_left ← op_right.sibling
  let inplace_av_op ← is_inplace_av o
  match inplace_av_op with
  | .mk sd sf ss sr =>
    if sd.op_type == .OP_SORT then
      let sd1 := { sd with op_private := sd.op_private ||| OPpSORT_INPLACE }
      let sortop := OP.mk sd1 sf ss sr
      let bpp := bpp.log_writes [.or_private sd.addr OPpSORT_INPLACE]
      let bpp := append_instruction env bpp .NULL .OP_PUSHMARK
      let bpp := append_instruction env bpp .NULL .OP_PUSHMARK
      let r ← (if hasBit sd.op_flags OPf_STACKED && !hasBit sd.op_flags OPf_SPECIAL
        then add_op bpp sf true 0 else .ok (bpp, true))
      let r ← add_op r.1 op_left r.2 0
      let r ← compile_sort_without_kids env add_op r.1 sortop sd1 r.2
      .ok (r.1, r.2, sortop)
    else
      c_assert (sd.op_type == .OP_REVERSE)
      let sd1 := { sd with op_private := sd.op_private ||| OPpREVERSE_INPLACE }
      let revop := OP.mk sd1 sf ss sr
      let bpp := bpp.log_writes [.or_private sd.addr OPpREVERSE_INPLACE]
      let bpp := append_instruction env bpp .NULL .OP_PUSHMARK
      let bpp := append_instruction env bpp .NULL .OP_PUSHMARK
      let r ← add_op bpp op_left true 0
      .ok (append_instruction env r.1 revop .OP_REVERSE, r.2, o)
  | .NULL =>
    let bpp := append_instruction env bpp .NULL .OP_PUSHMARK
    let r ← add_op bpp op_right true 0
    let bpp := append_instruction env r.1 .NULL .OP_PUSHMARK
    let r ← add_op bpp op_left r.2 0
    .ok (append_instruction env r.1 o .OP_AASSIGN, r.2, o)

/-- The case `OP_STRINGIFY` of `add_op`. -/
def add_op_stringify (env : Env) (add_op : AddOp) (bpp : CODEGEN_PAD) (o : OP) (d : OpData) :
    Except Err (CODEGEN_PAD × Bool) := do
  let first ← o.first
  let ft ← first.type
  if ft == .OP_CONCAT then add_op bpp first true 0
  else add_op_default env add_op bpp o d

/-- The case `OP_CONCAT` of `add_op`. -/
def add_op_concat (env : Env) (add_op : AddOp) (bpp : CODEGEN_PAD) (o : OP) (d : OpData) :
    Except Err (CODEGEN_PAD × Bool) := do
  if hasBit d.op_flags OPf_STACKED then
    let op_last ← o.last
    match op_last with
    | .NULL => .error .null_deref
    | .mk ld lf ls lr =>
      if ld.op_type == .OP_READLINE then
        let first ← o.first
        let r ← add_op bpp first true 0
        let r ← add_kids add_op r.1 op_last r.2
        let rcat := OP.mk { ld with op_type := .OP_RCATLINE,
                                    op_flags := ld.op_flags ||| OPf_STACKED } lf ls lr
        let bpp := r.1.log_writes [.set_type ld.addr .OP_RCATLINE, .or_flags ld.addr OPf_STACKED]
        .ok (append_instruction env bpp rcat .OP_RCATLINE, false)
      else add_op_default env add_op bpp o d
  else add_op_default env add_op bpp o d

/-- The flag word the case `OP_PADSV` of `add_op` puts in `instr_arg1`. -/
def padsv_flags (d : OpData) : Nat :=
  (if hasBit d.op_flags OPf_MOD then INSTRf_MOD else 0) |||
  (if hasBit d.op_private OPpLVAL_INTRO then INSTRf_LVAL_INTRO else 0) |||
  (if hasBit d.op_private OPpPAD_STATE then INSTRf_PADSV_STATE else 0) |||
  (d.op_private &&& OPpDEREF)

/-- The first `switch` of `add_op`: emits the instructions of the node.
Returns the pad, `kid_may_constant_fold` and the node `o` stands for on
leaving the switch. -/
def add_op_emit (env : Env) (add_op : AddOp) (bpp : CODEGEN_PAD) (o : OP) (d : OpData)
    (flags : Nat) : Except Err (CODEGEN_PAD × Bool × OP) :=
  let keep (r : Except Err (CODEGEN_PAD × Bool)) : Except Err (CODEGEN_PAD × Bool × OP) :=
    r.map fun p => (p.1, p.2, o)
  let boolean_context := flags &&& ADDOPf_BOOLEANCONTEXT != 0
  match d.op_type with
  | .OP_GREPSTART | .OP_MAPSTART => keep (add_op_grep env add_op bpp o d)
  | .OP_COND_EXPR => keep (add_op_cond_expr env add_op bpp o d)
  | .OP_ENTERLOOP => keep (add_op_enterloop env add_op bpp o d)
  | .OP_FOREACH => keep (add_op_foreach env add_op bpp o d)
  | .OP_WHILE_AND => keep (add_op_while_and env add_op bpp o d)
  | .OP_AND | .OP_OR | .OP_DOR => keep (add_op_logop env add_op bpp o d)
  | .OP_ANDASSIGN | .OP_ORASSIGN | .OP_DORASSIGN => keep (add_op_logassign env add_op bpp o d)
  | .OP_ONCE => keep (add_op_once env add_op bpp o d)
  | .OP_ENTERTRY => keep (add_op_entertry env add_op bpp o d)
  | .OP_RANGE => keep (add_op_range env add_op bpp o d)
  | .OP_REGCOMP => keep (add_op_regcomp env add_op bpp o d)
  | .OP_ENTERGIVEN => keep (add_op_entergiven env add_op bpp o d)
  | .OP_ENTERWHEN => keep (add_op_enterwhen env add_op bpp o d)
  | .OP_SUBST => keep (add_op_subst env add_op bpp o d)
  | .OP_SORT => keep (add_op_sort env add_op bpp o d)
  | .OP_FORMLINE => keep (add_op_formline env add_op bpp o d)
  | .OP_RV2SV => keep (add_op_rv2sv env add_op bpp o d)
  | .OP_AELEM => keep (add_op_aelem env add_op bpp o d)
  | .OP_HELEM => keep (add_op_helem env add_op bpp o d)
  | .OP_DELETE => keep (add_op_delete env add_op bpp o d)
  | .OP_LSLICE => keep (add_op_lslice env add_op bpp o)
  | .OP_RV2HV => keep (add_op_rv2hv env add_op bpp o d boolean_context)
  | .OP_REPEAT => keep (add_op_repeat env add_op bpp o d)
  | .OP_NULL | .OP_SCALAR | .OP_LINESEQ | .OP_SCOPE => keep (add_kids add_op bpp o true)
  | .OP_NEXTSTATE => keep (add_op_nextstate env bpp o d)
  | .OP_DBSTATE => keep (add_op_dbstate env bpp o d)
  | .OP_SASSIGN => keep (add_op_sassign env add_op bpp o d)
  | .OP_AASSIGN => add_op_aassign env add_op bpp o
  | .OP_STRINGIFY => keep (add_op_stringify env add_op bpp o d)
  | .OP_CONCAT => keep (add_op_concat env add_op bpp o d)
  | .OP_LIST =>
    if d.op_flags &&& OPf_WANT == OPf_WANT_LIST then keep (add_kids add_op bpp o true)
    else keep (add_op_default env add_op bpp o d)
  | .OP_PADSV =>
    .ok (append_instruction_x env bpp o d.op_type (.ptr (padsv_flags d)) (.ptr d.op_targ),
         true, o)
  | .OP_STUB =>
    if d.op_flags &&& OPf_WANT == OPf_WANT_LIST then .ok (bpp, true, o)
    else keep (add_op_default env add_op bpp o d)
  | _ => keep (add_op_default env add_op bpp o d)

/-- The second `switch` of `add_op`: the value of `kid_may_constant_fold`
after it, for a node of kind `t`. -/
def fold_flag (env : Env) (t : Optype) (kid_may_constant_fold : Bool) : Bool :=
  match t with
  | .OP_CONST | .OP_SCALAR | .OP_NULL => kid_may_constant_fold
  | .OP_UCFIRST | .OP_LCFIRST | .OP_UC | .OP_LC
  | .OP_SLT | .OP_SGT | .OP_SLE | .OP_SGE | .OP_SCMP =>
    if hasBit env.PL_hints HINT_LOCALE then false else kid_may_constant_fold
  | _ => kid_may_constant_fold && hasBit (env.PL_opargs t) OA_FOLDCONST

/-- The end of `add_op`, from the second `switch` on: decides whether the
instructions emitted since `start_idx` are folded, tries it, and updates
`*may_constant_fold`. -/
def add_op_fold (env : Env) (bpp : CODEGEN_PAD) (o : OP) (start_idx : Nat)
    (kid_may_constant_fold : Bool) (may_constant_fold : Bool) :
    Except Err (CODEGEN_PAD × Bool) := do
  let t ← o.type
  let kid_may_constant_fold := fold_flag env t kid_may_constant_fold
  if kid_may_constant_fold && bpp.idx > start_idx + 1 then
    let r ← fold_trial env bpp start_idx o false
    match r.1 with
    | some constsv =>
      let bpp := r.2.set_idx start_idx
      let constsv := SvREADONLY_on constsv
      let bpp := append_instruction_x env bpp .NULL .OP_INSTR_CONST (.sv constsv) .null
      .ok (push_svs bpp constsv, may_constant_fold && kid_may_constant_fold)
    | none =>
      .ok (r.2.set_idx (r.2.idx - 1), may_constant_fold && false)
  else .ok (bpp, may_constant_fold && kid_may_constant_fold)

/-- The body of `S_add_op`, with `add_op` standing for the recursive calls. -/
def add_op_body (env : Env) (add_op : AddOp) : AddOp :=
  fun bpp o may_constant_fold flags => do
    let start_idx := bpp.idx
    c_assert o.isSome
    let d ← o.data
    let e ← add_op_emit env add_op bpp o d flags
    add_op_fold env e.1 e.2.2 start_idx e.2.1 may_constant_fold

/-- `S_add_op`, by recursion on the fuel: a call with fuel `n + 1` makes its
recursive calls with fuel `n`. -/
def add_op (env : Env) : Nat → AddOp
  | 0 => fun _ _ _ _ => .error .out_of_fuel
  | fuel + 1 => add_op_body env (add_op env fuel)

/-! ## `compile_op` -/

/-- The scratch pad `compile_op` creates: 12 uninitialised slots, no fixups. -/
def new_pad (env : Env) (interp : INTERP) (curcop : OP) : CODEGEN_PAD :=
  { codeseq := { xcodeseq_size := 12,
                 xcodeseq_instructions := List.replicate 12 env.uninit,
                 xcodeseq_svs := [] },
    idx := 0,
    op_instrpp_list := [],
    branch_point_to_pparg_list := [],
    PL_curcop := curcop,
    interp := interp,
    op_writes := [],
    fold_calls := [] }

/-- The assignment `instrs[i].instr_ppaddr = NULL`. -/
def set_ppaddr_null (instrs : List INSTRUCTION) (i : Nat) : List INSTRUCTION :=
  match instrs.get? i with
  | some x => instrs.set i { x with instr_ppaddr := none }
  | none => instrs

/-- The assignment `instrs[from].instr_arg1 = &instrs[to]`. -/
def set_arg1_instr (instrs : List INSTRUCTION) (e : BRANCH_POINT_TO_PPARG) : List INSTRUCTION :=
  match instrs.get? e.instr_from_index with
  | some x => instrs.set e.instr_from_index { x with instr_arg1 := .instr e.instr_to_index }
  | none => instrs

/-- The loop of `compile_op` over the branch fixups. -/
def resolve_branch_points (instrs : List INSTRUCTION) (l : List BRANCH_POINT_TO_PPARG) :
    List INSTRUCTION :=
  l.foldl set_arg1_instr instrs

/-- The instruction-pointer fields of the op tree: for each field the index of
the element of the final instruction array it points to, `none` while it has
not been written. -/
abbrev SlotStore := Slot → Option Nat

/-- The assignment `*(i->instrpp) = &(codeseq->xcodeseq_instructions[i->instr_idx])`,
skipped for a null `instrpp`. -/
def write_instrpp (store : SlotStore) (e : OP_INSTRPP) : SlotStore :=
  match e.instrpp with
  | some p => fun q => if q = p then some e.instr_idx else store q
  | none => store

/-- The loop of `compile_op` over the pointer fixups. -/
def resolve_instrpp (store : SlotStore) (l : List OP_INSTRPP) : SlotStore :=
  l.foldl write_instrpp store

/-- What `compile_op` leaves: the code sequence, the instruction-pointer fields
of the op tree, and the scratch pad as it was when the sequence was copied. -/
structure Compiled where
  codeseq : CODESEQ
  slots : SlotStore
  pad : CODEGEN_PAD

/-- The part of `Perl_compile_op` after the translation of the tree: terminates
the sequence, copies it from the pad and resolves the fixups. -/
def finish_compile (env : Env) (bpp : CODEGEN_PAD) (codeseq : CODESEQ) (slots : SlotStore) :
    Compiled :=
  let bpp := append_instruction_x env bpp .NULL .OP_INSTR_END .null .null
  let size := bpp.idx + 1
  let instrs := bpp.codeseq.xcodeseq_instructions.take size
  let instrs := set_ppaddr_null instrs bpp.idx
  let slots := resolve_instrpp slots bpp.op_instrpp_list
  let instrs := resolve_branch_points instrs bpp.branch_point_to_pparg_list
  { codeseq := { codeseq with
      xcodeseq_size := size, xcodeseq_instructions := instrs,
      xcodeseq_svs := bpp.codeseq.xcodeseq_svs },
    slots := slots,
    pad := bpp }

/-- `Perl_compile_op`: compiles `startop` into `codeseq`. `interp` and `curcop`
are the interpreter state and `PL_curcop` at the call, `slots` the
instruction-pointer fields of the op tree before it. -/
def compile_op (env : Env) (fuel : Nat) (interp : INTERP) (curcop : OP) (slots : SlotStore)
    (startop : OP) (codeseq : CODESEQ) : Except Err Compiled := do
  let r ← add_op env fuel (new_pad env interp curcop) startop true 0
  .ok (finish_compile env r.1 codeseq slots)

/-! ## A small interpreter and example trees -/

/-- Modelled from the spec: the instruction interpreter is an external
collaborator and not part of the sources. This evaluator runs the constant
pushes and the operations `not`, `add` and `multiply` on an argument stack
(top last) and stops at `INSTR_END`; `none` stands for a run that died. -/
def demo_run : List INSTRUCTION → List Scalar → Option (List Scalar)
  | [], st => some st
  | i :: rest, st =>
    match i.instr_ppaddr with
    | some .OP_INSTR_END => some st
    | some .OP_CONST =>
      match i.instr_op with
      | .mk d _ _ _ =>
        match d.op_sv with
        | .scalar s => demo_run rest (st ++ [s])
        | .av _ => none
      | .NULL => none
    | some .OP_INSTR_CONST =>
      match i.instr_arg1 with
      | .sv (.scalar s) => demo_run rest (st ++ [s])
      | _ => none
    | some .OP_NOT =>
      match st.getLast? with
      | some a =>
        demo_run rest (st.dropLast ++
          [{ val := if a.val.isTrue then .pv "" false false else .iv 1, readonly := false }])
      | none => none
    | some .OP_ADD =>
      match st.dropLast.getLast?, st.getLast? with
      | some { val := .iv a, .. }, some { val := .iv b, .. } =>
        demo_run rest (st.dropLast.dropLast ++ [{ val := .iv (a + b), readonly := false }])
      | _, _ => none
    | some .OP_MULTIPLY =>
      match st.dropLast.getLast?, st.getLast? with
      | some { val := .iv a, .. }, some { val := .iv b, .. } =>
        demo_run rest (st.dropLast.dropLast ++ [{ val := .iv (a * b), readonly := false }])
      | _, _ => none
    | _ => none

/-- An environment for the examples: `not`, `add` and `multiply` are declared
fold-eligible and `print` takes a mark, as in Perl's opcode table; no locale
hint; the interpreter is `demo_run`, a run that dies leaving the scope it was
started in. -/
def demo_env : Env where
  PL_opargs := fun t =>
    match t with
    | .OP_NOT | .OP_ADD | .OP_MULTIPLY => OA_FOLDCONST
    | .OP_PRINT => OA_MARK
    | _ => 0
  PL_hints := 0
  CALLRUNOPS := fun st instrs _ =>
    match demo_run instrs st.PL_stack with
    | some stack =>
      { ret := 0, PL_stack := stack, PL_scopestack_ix := st.PL_scopestack_ix, errsv := false }
    | none =>
      { ret := 3, PL_stack := st.PL_stack, PL_scopestack_ix := st.PL_scopestack_ix - 1,
        errsv := true }
  uninit := { instr_ppaddr := none, instr_op := .NULL, instr_arg1 := .null, instr_arg2 := .null }

/-- An interpreter state with an empty stack. -/
def demo_interp : INTERP :=
  { PL_stack := [], PL_warnhook := none, PL_diehook := none, next_instruction := none,
    PL_scopestack_ix := 0, PL_op := .NULL, errsv := false }

/-- The scalar fields of a node of kind `t` at address `addr`. -/
def opdata (addr : Nat) (t : Optype) (flags : Nat) : OpData :=
  { addr := addr, op_type := t, op_flags := flags, op_private := 0, op_targ := 0,
    op_sv := .scalar { val := .undef, readonly := false }, op_gv := 0,
    op_next_type := none, cop_label := none, cop_arybase := 0 }

/-- A node of kind `t` with the children `first, ...` and the next sibling
`sibling`. -/
def mkop (addr : Nat) (t : Optype) (flags : Nat) (first sibling : OP) : OP :=
  .mk (opdata addr t (flags ||| (if first.isSome then OPf_KIDS else 0))) first sibling .NULL

/-- An `OP_CONST` node with the value `v`. -/
def const_op (addr : Nat) (v : SvVal) (sibling : OP) : OP :=
  .mk { opdata addr .OP_CONST 0 with op_sv := .scalar { val := v, readonly := false } }
    .NULL sibling .NULL

/-- The kinds that have a `case` label of their own in the first `switch` of
`add_op`; every other kind takes the `default` branch. -/
def has_template : Optype → Bool
  | .OP_GREPSTART | .OP_MAPSTART | .OP_COND_EXPR | .OP_ENTERLOOP | .OP_FOREACH
  | .OP_WHILE_AND | .OP_AND | .OP_OR | .OP_DOR
  | .OP_ANDASSIGN | .OP_ORASSIGN | .OP_DORASSIGN | .OP_ONCE | .OP_ENTERTRY
  | .OP_RANGE | .OP_REGCOMP | .OP_ENTERGIVEN | .OP_ENTERWHEN | .OP_SUBST | .OP_SORT
  | .OP_FORMLINE | .OP_RV2SV | .OP_AELEM | .OP_HELEM | .OP_DELETE | .OP_LSLICE
  | .OP_RV2HV | .OP_REPEAT | .OP_NULL | .OP_SCALAR | .OP_LINESEQ | .OP_SCOPE
  | .OP_NEXTSTATE | .OP_DBSTATE | .OP_SASSIGN | .OP_AASSIGN | .OP_STRINGIFY
  | .OP_CONCAT | .OP_LIST | .OP_PADSV | .OP_STUB => true
  | _ => false

/-- The kinds the second `switch` of `add_op` never folds while the locale hint
is active. -/
def locale_sensitive : Optype → Bool
  | .OP_UCFIRST | .OP_LCFIRST | .OP_UC | .OP_LC
  | .OP_SLT | .OP_SGT | .OP_SLE | .OP_SGE | .OP_SCMP => true
  | _ => false

/-! ## Relations respected by the translation -/

/-- A relation between pads that every elementary action of `add_op` respects:
appending an instruction, recording a fixup, dropping the constant at
`idx - 1`, going back to the index `idx` had in an earlier pad, removing the
temporary `INSTR_END` of a failed fold, and the updates of the other fields. -/
structure Closed (env : Env) (R : CODEGEN_PAD → CODEGEN_PAD → Prop) : Prop where
  refl : ∀ b, R b b
  trans : ∀ a b c, R a b → R b c → R a c
  append : ∀ b o t a1 a2, R b (append_instruction_x env b o t a1 a2)
  save_bp : ∀ b p, R b (save_branch_point b p)
  save_ft : ∀ b f t, R b (save_instr_from_to_pparg b f t)
  dec : ∀ b v, last_const b = .ok v → R b (b.set_idx (b.idx - 1))
  reset : ∀ a b, R a b → R a (b.set_idx a.idx)
  undo_end : ∀ (b : CODEGEN_PAD) interp call,
    R b (((append_instruction_x env b .NULL .OP_INSTR_END .null .null).after_trial interp call).set_idx
      (((append_instruction_x env b .NULL .OP_INSTR_END .null .null).after_trial interp call).idx - 1))
  after_trial : ∀ (b : CODEGEN_PAD) interp call, R b (b.after_trial interp call)
  set_curcop : ∀ (b : CODEGEN_PAD) o, R b (b.set_curcop o)
  log_writes : ∀ (b : CODEGEN_PAD) ws, R b (b.log_writes ws)
  push_svs : ∀ b v, R b (push_svs b v)
  assign_svp : ∀ b p v0 v, svp_const_instruction b ((b.idx : Int) - 1) = .ok p →
    deref_svp b p = .ok v0 → R b (assign_svp b p (b.idx - 1) v)

/-- Every result of `m` satisfies `Q`. -/
structure Sat {α : Type} (m : Except Err α) (Q : α → Prop) : Prop where
  out : ∀ a, m = .ok a → Q a

/-- The pad invariant: `idx` is below the capacity, and the buffer has as many
slots as the capacity says. -/
def pad_ok (b : CODEGEN_PAD) : Prop :=
  b.idx < b.codeseq.xcodeseq_size ∧
  b.codeseq.xcodeseq_instructions.length = b.codeseq.xcodeseq_size

/-- The capacity does not shrink from `a` to `b`, and `b` satisfies the pad
invariant if `a` does. -/
def Grows (a b : CODEGEN_PAD) : Prop :=
  a.codeseq.xcodeseq_size ≤ b.codeseq.xcodeseq_size ∧ (pad_ok a → pad_ok b)

/-! ## Example trees and pads -/

/-- The pad `compile_op` starts from in the examples. -/
def pad0 : CODEGEN_PAD := new_pad demo_env demo_interp .NULL

/-- The pad of a result, `pad0` for an error. -/
def pad_of (r : Except Err (CODEGEN_PAD × Bool)) : CODEGEN_PAD :=
  match r with
  | .ok p => p.1
  | .error _ => pad0

/-- The fold flag of a result, `false` for an error. -/
def flag_of (r : Except Err (CODEGEN_PAD × Bool)) : Bool :=
  match r with
  | .ok p => p.2
  | .error _ => false

/-- The scalar fields of the root `add` of `2 + 3 * 4`. -/
def add_data : OpData := opdata 1 .OP_ADD (OPf_WANT_SCALAR ||| OPf_KIDS)

/-- The children of the root of `2 + 3 * 4`: the constant `2`, then `3 * 4`. -/
def add_kids_2_3_4 : OP :=
  const_op 2 (.iv 2)
    (mkop 3 .OP_MULTIPLY OPf_WANT_SCALAR (const_op 4 (.iv 3) (const_op 5 (.iv 4) .NULL)) .NULL)

/-- The tree of `2 + 3 * 4`. -/
def tree_2_plus_3_times_4 : OP := .mk add_data add_kids_2_3_4 .NULL .NULL

/-- The pad after the first `switch` of `add_op` on the root of `2 + 3 * 4`. -/
def add_emitted : CODEGEN_PAD :=
  match add_op_emit demo_env (add_op demo_env 2) pad0
      (.mk add_data add_kids_2_3_4 .NULL .NULL) add_data 0 with
  | .ok e => e.1
  | .error _ => pad0

/-- The pad after the trial run on the instructions of `2 + 3 * 4`. -/
def add_tried : CODEGEN_PAD :=
  match fold_trial demo_env add_emitted pad0.idx (.mk add_data add_kids_2_3_4 .NULL .NULL)
      false with
  | .ok t => t.2
  | .error _ => pad0

/-- The node `print "hi"`, in void context. -/
def print_hi : OP :=
  mkop 22 .OP_PRINT OPf_WANT_VOID (const_op 23 (.pv "hi" false false) .NULL) .NULL

/-- The scalar fields of an `and` node in void context. -/
def and_data : OpData := opdata 20 .OP_AND (OPf_WANT_VOID ||| OPf_KIDS)

/-- The scalar fields of the `not` of `!0`. -/
def not_data : OpData := opdata 24 .OP_NOT (OPf_WANT_SCALAR ||| OPf_KIDS)

/-- The tree `AND(NOT(CONST(0)), PRINT("hi"))`. -/
def tree_and_not_print : OP :=
  .mk and_data (.mk not_data (const_op 25 (.iv 0) .NULL) print_hi .NULL) .NULL .NULL

/-- The scalar fields of a `padsv` node for the lexical in pad slot 1. -/
def padsv_data : OpData := { opdata 21 .OP_PADSV OPf_WANT_SCALAR with op_targ := 1 }

/-- The tree `AND(PADSV, PRINT("hi"))`: the left operand is not a constant. -/
def tree_and_padsv_print : OP :=
  .mk and_data (.mk padsv_data .NULL print_hi .NULL) .NULL .NULL

/-- The scalar fields of a `cond_expr` node. -/
def cond_data : OpData := opdata 30 .OP_COND_EXPR (OPf_WANT_SCALAR ||| OPf_KIDS)

/-- The scalar fields of the constant 10, the true branch of the examples. -/
def ten_data : OpData :=
  { opdata 32 .OP_CONST 0 with op_sv := .scalar { val := .iv 10, readonly := false } }

/-- The false branch of the examples: the constant 20. -/
def twenty : OP := const_op 33 (.iv 20) .NULL

/-- The scalar fields of the constant 1, the condition of `1 ? 10 : 20`. -/
def one_data : OpData :=
  { opdata 31 .OP_CONST 0 with op_sv := .scalar { val := .iv 1, readonly := false } }

/-- The tree `COND_EXPR(CONST 1, CONST 10, CONST 20)`. -/
def tree_cond_const : OP :=
  .mk cond_data (.mk one_data .NULL (.mk ten_data .NULL twenty .NULL) .NULL) .NULL .NULL

/-- The tree `COND_EXPR(PADSV, CONST 10, CONST 20)`. -/
def tree_cond_padsv : OP :=
  .mk cond_data (.mk padsv_data .NULL (.mk ten_data .NULL twenty .NULL) .NULL) .NULL .NULL

/-- An empty code sequence, as `new_codeseq` hands to `compile_op`. -/
def empty_codeseq : CODESEQ :=
  { xcodeseq_size := 0, xcodeseq_instructions := [], xcodeseq_svs := [] }

/-- No instruction-pointer field of the op tree has been written. -/
def no_slots : SlotStore := fun _ => none


/-- The scalar fields of the `print` node of `print_hi`. -/
def print_data : OpData := opdata 22 .OP_PRINT (OPf_WANT_VOID ||| OPf_KIDS)

/-- The pad after the left operand of `tree_and_not_print`: `!0` folded. -/
def not_folded_pad : CODEGEN_PAD :=
  pad_of (add_op demo_env 3 pad0 (.mk not_data (const_op 25 (.iv 0) .NULL) print_hi .NULL) true
    ADDOPf_BOOLEANCONTEXT)

/-- The pad after `tree_and_not_print`. -/
def and_not_print_pad : CODEGEN_PAD :=
  pad_of (add_op demo_env 3 (not_folded_pad.set_idx (not_folded_pad.idx - 1)) print_hi true 0)

/-- The pad after the left operand of `tree_and_padsv_print`. -/
def and_left_pad : CODEGEN_PAD :=
  pad_of (add_op demo_env 3 pad0 (.mk padsv_data .NULL print_hi .NULL) true
    ADDOPf_BOOLEANCONTEXT)

/-- The pad after the right operand of `tree_and_padsv_print`. -/
def and_right_pad : CODEGEN_PAD :=
  pad_of (add_op demo_env 3
    (append_instruction demo_env and_left_pad tree_and_padsv_print .OP_AND) print_hi true 0)

/-- The pad after the condition of `tree_cond_const`. -/
def cond_cond_pad : CODEGEN_PAD :=
  pad_of (add_op demo_env 2 pad0 (.mk one_data .NULL (.mk ten_data .NULL twenty .NULL) .NULL)
    true 0)

/-- The pad after `tree_cond_const`. -/
def cond_const_pad : CODEGEN_PAD :=
  pad_of (add_op demo_env 2 (cond_cond_pad.set_idx (cond_cond_pad.idx - 1))
    (.mk ten_data .NULL twenty .NULL) true 0)

/-- The pad after the condition of `tree_cond_padsv`. -/
def cond_padsv_pad : CODEGEN_PAD :=
  pad_of (add_op demo_env 2 pad0 (.mk padsv_data .NULL (.mk ten_data .NULL twenty .NULL) .NULL)
    true 0)

/-- The pad after the true branch of `tree_cond_padsv`. -/
def cond_true_pad : CODEGEN_PAD :=
  pad_of (add_op demo_env 2
    (append_instruction demo_env cond_padsv_pad tree_cond_padsv .OP_COND_EXPR)
    (.mk ten_data .NULL twenty .NULL) true 0)

/-- The pad after the false branch of `tree_cond_padsv`. -/
def cond_false_pad : CODEGEN_PAD :=
  pad_of (add_op demo_env 2
    (save_branch_point
      (append_instruction_x demo_env cond_true_pad .NULL .OP_INSTR_JUMP .null .null)
      (slot cond_data .op_other_instr)) twenty true 0)

/-- The pad after the whole of `tree_cond_padsv`. -/
def cond_padsv_done : CODEGEN_PAD :=
  pad_of (add_op demo_env 3 pad0 tree_cond_padsv true 0)

/-- The pad after the whole of `2 + 3 * 4`. -/
def add_done : CODEGEN_PAD :=
  pad_of (add_op demo_env 3 pad0 tree_2_plus_3_times_4 true 0)

/-- The pad after the whole of `tree_and_padsv_print`. -/
def and_padsv_done : CODEGEN_PAD :=
  pad_of (add_op demo_env 4 pad0 tree_and_padsv_print true 0)


/-- A kid-less `OP_NULL` node, as `newOP(OP_NULL, 0)` builds it. -/
def empty_null (addr : Nat) (sibling : OP) : OP :=
  .mk (opdata addr .OP_NULL 0) .NULL sibling .NULL

/-- An `and` node in void context whose children are `kids`. -/
def and_of (addr : Nat) (kids : OP) : OP :=
  .mk (opdata addr .OP_AND (OPf_WANT_VOID ||| OPf_KIDS)) kids .NULL .NULL

/-- The continue part of `tree_loop`: three nested `and`s, the left operand of
each a kid-less `OP_NULL`, the innermost right operand one as well. -/
def loop_cont : OP :=
  and_of 50 (empty_null 51 (and_of 52 (empty_null 53 (and_of 54
    (empty_null 55 (empty_null 56 .NULL))))))

/-- The body of `tree_loop`: a scope of three true constants, followed by
`sibling`. -/
def loop_block (sibling : OP) : OP :=
  .mk (opdata 42 .OP_SCOPE (OPf_WANT_VOID ||| OPf_KIDS))
    (const_op 43 (.iv 1) (const_op 44 (.iv 1) (const_op 45 (.iv 1) .NULL))) sibling .NULL

/-- An `enterloop` without condition (first child `OP_NOTHING`), with the body
`loop_block` and the continue part `loop_cont`. -/
def tree_loop : OP :=
  .mk (opdata 40 .OP_ENTERLOOP (OPf_WANT_VOID ||| OPf_KIDS))
    (.mk (opdata 41 .OP_NOTHING 0) .NULL (loop_block loop_cont) .NULL) .NULL .NULL

/-- The pad after the whole of `tree_loop`. -/
def loop_done : CODEGEN_PAD :=
  pad_of (add_op demo_env 6 pad0 tree_loop true 0)

/-- The fixup lists, the values owned by the sequence and the two ghost logs of
`b` extend those of `a`: nothing recorded in `a` has been removed or changed. -/
def Extends (a b : CODEGEN_PAD) : Prop :=
  a.op_instrpp_list <+: b.op_instrpp_list ∧
  a.branch_point_to_pparg_list <+: b.branch_point_to_pparg_list ∧
  a.codeseq.xcodeseq_svs <+: b.codeseq.xcodeseq_svs ∧
  a.op_writes <+: b.op_writes ∧
  a.fold_calls <+: b.fold_calls

/-- The block of the case `OP_FOREACH` of `add_op` that translates the iterable
`op_expr`: the two endpoints of a `RANGE`, the children of a `REVERSE`, the
expression itself otherwise. -/
def foreach_iterable (add_op : AddOp) (bpp : CODEGEN_PAD) (op_expr : OP) :
    Except Err (CODEGEN_PAD × Bool) := do
  let et ← op_expr.type
  if et == .OP_RANGE then do
    let flip ← op_expr.first
    let left ← flip.first
    let r ← add_op bpp left true 0
    let right ← left.sibling
    add_op r.1 right r.2 0
  else if et == .OP_REVERSE then add_kids add_op bpp op_expr true
  else add_op bpp op_expr true 0

/-- The case `OP_FOREACH` of `add_op` from the `enteriter` instruction on; `v` is
the pad and the value of `kid_may_constant_fold` after the iterable and the
loop variable. -/
def foreach_loop (env : Env) (add_op : AddOp) (v : CODEGEN_PAD × Bool) (o : OP) (d : OpData)
    (op_block op_cont : OP) : Except Err (CODEGEN_PAD × Bool) := do
  let bpp := append_instruction env v.1 o .OP_ENTERITER
  let start_idx := bpp.idx
  let bpp := append_instruction env bpp o .OP_ITER
  let cond_jump_idx := bpp.idx
  let bpp := append_instruction_x env bpp .NULL .OP_INSTR_COND_JUMP .null .null
  let bpp := save_branch_point bpp (slot d .op_redo_instr)
  let b ← add_op bpp op_block v.2 0
  let bpp := save_branch_point b.1 (slot d .op_next_instr)
  let bpp := append_instruction_x env bpp .NULL .OP_UNSTACK .null .null
  let k ← (if op_cont.isSome then add_op bpp op_cont b.2 0 else .ok (bpp, b.2))
  let bpp := append_instruction_x env k.1 .NULL .OP_INSTR_JUMP .null .null
  let bpp := save_instr_from_to_pparg bpp (bpp.idx - 1) start_idx
  let bpp := save_instr_from_to_pparg bpp cond_jump_idx bpp.idx
  let bpp := append_instruction_x env bpp .NULL .OP_LEAVELOOP .null .null
  let bpp := save_branch_point bpp (slot d .op_last_instr)
  .ok (bpp, k.2)

/-- The kinds whose `case` in the first `switch` of `add_op` records a fixup
(calls `save_branch_point` or `save_instr_from_to_pparg`). An `AASSIGN` records
one only when it is compiled as an in-place `sort`, and then the second
`switch` sees the `sort` node. -/
def records_fixups : Optype → Bool
  | .OP_GREPSTART | .OP_MAPSTART | .OP_COND_EXPR | .OP_ENTERLOOP | .OP_FOREACH
  | .OP_WHILE_AND | .OP_AND | .OP_OR | .OP_DOR
  | .OP_ANDASSIGN | .OP_ORASSIGN | .OP_DORASSIGN | .OP_ONCE | .OP_ENTERTRY
  | .OP_RANGE | .OP_ENTERGIVEN | .OP_ENTERWHEN | .OP_SUBST | .OP_SORT | .OP_FORMLINE => true
  | _ => false

/-- No fixup has been recorded between the pads `a` and `b`. -/
def NoFix (a b : CODEGEN_PAD) : Prop :=
  b.op_instrpp_list = a.op_instrpp_list ∧
  b.branch_point_to_pparg_list = a.branch_point_to_pparg_list

/-! ## Example loops, ranges and failing folds -/

/-- The scalar fields of the `enterloop` node of the loop examples. -/
def wl_data : OpData := opdata 70 .OP_ENTERLOOP (OPf_WANT_VOID ||| OPf_KIDS)

/-- The scalar fields of the condition of `tree_while`: a lexical. -/
def wl_cond_data : OpData := { opdata 71 .OP_PADSV OPf_WANT_SCALAR with op_targ := 1 }

/-- The scalar fields of the `OP_NOTHING` that stands for an absent condition. -/
def wl_nothing_data : OpData := opdata 71 .OP_NOTHING 0

/-- The scalar fields of the body of the loop examples, `print "hi"`. -/
def wl_body_data : OpData := opdata 72 .OP_PRINT (OPf_WANT_VOID ||| OPf_KIDS)

/-- The argument of the body of the loop examples. -/
def wl_body_kids : OP := const_op 73 (.pv "hi" false false) .NULL

/-- The loop `while ($x) { print "hi" }` as an `ENTERLOOP` node with a condition
and without a continue part. -/
def tree_while : OP :=
  .mk wl_data (.mk wl_cond_data .NULL (.mk wl_body_data wl_body_kids .NULL .NULL) .NULL)
    .NULL .NULL

/-- The bare block `{ print "hi" }`: an `ENTERLOOP` node without a condition. -/
def tree_bare_loop : OP :=
  .mk wl_data (.mk wl_nothing_data .NULL (.mk wl_body_data wl_body_kids .NULL .NULL) .NULL)
    .NULL .NULL

/-- The pad after the condition of `tree_while`. -/
def while_cond_pad : CODEGEN_PAD :=
  pad_of (add_op demo_env 3 (append_instruction demo_env pad0 tree_while .OP_ENTERLOOP)
    (.mk wl_cond_data .NULL (.mk wl_body_data wl_body_kids .NULL .NULL) .NULL) true 0)

/-- The pad after the body of `tree_while`. -/
def while_body_pad : CODEGEN_PAD :=
  pad_of (add_op demo_env 3
    (save_branch_point
      (append_instruction_x demo_env while_cond_pad .NULL .OP_INSTR_COND_JUMP .null .null)
      (slot wl_data .op_redo_instr))
    (.mk wl_body_data wl_body_kids .NULL .NULL) false 0)

/-- The pad after the whole of `tree_while`. -/
def while_done : CODEGEN_PAD := pad_of (add_op demo_env 4 pad0 tree_while true 0)

/-- The pad after the body of `tree_bare_loop`. -/
def bare_body_pad : CODEGEN_PAD :=
  pad_of (add_op demo_env 3
    (save_branch_point (append_instruction demo_env pad0 tree_bare_loop .OP_ENTERLOOP)
      (slot wl_data .op_redo_instr))
    (.mk wl_body_data wl_body_kids .NULL .NULL) true 0)

/-- The pad after the whole of `tree_bare_loop`. -/
def bare_done : CODEGEN_PAD := pad_of (add_op demo_env 4 pad0 tree_bare_loop true 0)

/-- The scalar fields of the `foreach` node of `tree_foreach`. -/
def fe_data : OpData := opdata 80 .OP_FOREACH (OPf_WANT_VOID ||| OPf_KIDS)

/-- The scalar fields of the `range` node of `tree_foreach`. -/
def fe_range_data : OpData := opdata 81 .OP_RANGE (OPf_WANT_LIST ||| OPf_KIDS)

/-- The scalar fields of the left endpoint of the range of `tree_foreach`. -/
def fe_left_data : OpData :=
  { opdata 83 .OP_CONST 0 with op_sv := .scalar { val := .iv 1, readonly := false } }

/-- The right endpoint of the range of `tree_foreach`. -/
def fe_right : OP := const_op 84 (.iv 3) .NULL

/-- The `flip` node of the range of `tree_foreach`, over the two endpoints. -/
def fe_flip : OP :=
  .mk (opdata 82 .OP_FLIP OPf_KIDS) (.mk fe_left_data .NULL fe_right .NULL) .NULL .NULL

/-- The scalar fields of the `OP_NOTHING` that stands for the loop variable. -/
def fe_var_data : OpData := opdata 85 .OP_NOTHING 0

/-- The scalar fields of the body of `tree_foreach`, `print "hi"`. -/
def fe_body_data : OpData := opdata 86 .OP_PRINT (OPf_WANT_VOID ||| OPf_KIDS)

/-- The argument of the body of `tree_foreach`. -/
def fe_body_kids : OP := const_op 87 (.pv "hi" false false) .NULL

/-- The loop `for (1..3) { print "hi" }`. -/
def tree_foreach : OP :=
  .mk fe_data
    (.mk fe_range_data fe_flip
      (.mk fe_var_data .NULL (.mk fe_body_data fe_body_kids .NULL .NULL) .NULL) .NULL)
    .NULL .NULL

/-- The pad after the iterable of `tree_foreach`. -/
def fe_iter_pad : CODEGEN_PAD :=
  pad_of (foreach_iterable (add_op demo_env 3) (append_instruction demo_env pad0 .NULL .OP_PUSHMARK)
    (.mk fe_range_data fe_flip
      (.mk fe_var_data .NULL (.mk fe_body_data fe_body_kids .NULL .NULL) .NULL) .NULL))

/-- The pad after the body of `tree_foreach`. -/
def fe_body_pad : CODEGEN_PAD :=
  pad_of (add_op demo_env 3
    (save_branch_point
      (append_instruction_x demo_env
        (append_instruction demo_env
          (append_instruction demo_env fe_iter_pad tree_foreach .OP_ENTERITER)
          tree_foreach .OP_ITER)
        .NULL .OP_INSTR_COND_JUMP .null .null)
      (slot fe_data .op_redo_instr))
    (.mk fe_body_data fe_body_kids .NULL .NULL) true 0)

/-- The pad after the `unstack` instruction of `tree_foreach`. -/
def fe_unstack_pad : CODEGEN_PAD :=
  append_instruction_x demo_env (save_branch_point fe_body_pad (slot fe_data .op_next_instr))
    .NULL .OP_UNSTACK .null .null

/-- The pad after the whole of `tree_foreach`. -/
def fe_done : CODEGEN_PAD := pad_of (add_op demo_env 4 pad0 tree_foreach true 0)

/-- The scalar fields of the `range` node of `tree_range_list`. -/
def rg_data : OpData := opdata 90 .OP_RANGE (OPf_WANT_LIST ||| OPf_KIDS)

/-- The scalar fields of the `flip` node of `tree_range_list`. -/
def rg_flip_data : OpData := opdata 91 .OP_FLIP OPf_KIDS

/-- The scalar fields of the left endpoint of `tree_range_list`. -/
def rg_left_data : OpData :=
  { opdata 92 .OP_CONST 0 with op_sv := .scalar { val := .iv 1, readonly := false } }

/-- The right endpoint of `tree_range_list`. -/
def rg_right : OP := const_op 93 (.iv 3) .NULL

/-- The range `1..3` in list context. -/
def tree_range_list : OP :=
  .mk rg_data (.mk rg_flip_data (.mk rg_left_data .NULL rg_right .NULL) .NULL .NULL) .NULL .NULL

/-- The pad after the left endpoint of `tree_range_list`. -/
def rg_left_pad : CODEGEN_PAD :=
  pad_of (add_op demo_env 1 pad0 (.mk rg_left_data .NULL rg_right .NULL) true 0)

/-- The pad after the right endpoint of `tree_range_list`. -/
def rg_right_pad : CODEGEN_PAD := pad_of (add_op demo_env 1 rg_left_pad rg_right true 0)

/-- The pad after the `flop` instruction of `tree_range_list`. -/
def rg_flop_pad : CODEGEN_PAD := append_instruction demo_env rg_right_pad tree_range_list .OP_FLOP

/-- The pad after the trial run on the instructions of `tree_range_list`. -/
def rg_tried : CODEGEN_PAD :=
  match fold_trial demo_env rg_flop_pad 0 tree_range_list true with
  | .ok t => t.2
  | .error _ => pad0

/-- The pad after the whole of `tree_range_list`. -/
def rg_done : CODEGEN_PAD := pad_of (add_op demo_env 2 pad0 tree_range_list true 0)

/-- The scalar fields of the root of `"a" + 1`. -/
def bad_add_data : OpData := opdata 95 .OP_ADD (OPf_WANT_SCALAR ||| OPf_KIDS)

/-- The operands of `"a" + 1`. -/
def bad_add_kids : OP := const_op 96 (.pv "a" false false) (const_op 97 (.iv 1) .NULL)

/-- The tree of `"a" + 1`, on which the example interpreter dies. -/
def tree_bad_add : OP := .mk bad_add_data bad_add_kids .NULL .NULL

/-- The pad after the first `switch` of `add_op` on the root of `"a" + 1`. -/
def bad_emitted : CODEGEN_PAD :=
  match add_op_emit demo_env (add_op demo_env 1) pad0 tree_bad_add bad_add_data 0 with
  | .ok e => e.1
  | .error _ => pad0

/-- The pad after the trial run on the instructions of `"a" + 1`. -/
def bad_tried : CODEGEN_PAD :=
  match fold_trial demo_env bad_emitted 0 tree_bad_add false with
  | .ok t => t.2
  | .error _ => pad0

/-- The `readline` node of `tree_rcatline`, over the glob of the file handle. -/
def rcat_readline : OP :=
  .mk (opdata 102 .OP_READLINE (OPf_WANT_SCALAR ||| OPf_KIDS))
    (.mk { opdata 103 .OP_GV 0 with op_gv := 7 } .NULL .NULL .NULL) .NULL .NULL

/-- The tree of `$x .= <FH>`: a `concat` with the `OPf_STACKED` flag whose last
child is a `readline`. -/
def tree_rcatline : OP :=
  .mk (opdata 100 .OP_CONCAT (OPf_WANT_SCALAR ||| OPf_KIDS ||| OPf_STACKED))
    (.mk { opdata 101 .OP_PADSV OPf_WANT_SCALAR with op_targ := 1 } .NULL rcat_readline .NULL)
    .NULL .NULL

/-- The pad after the whole of `tree_rcatline`. -/
def rcat_done : CODEGEN_PAD := pad_of (add_op demo_env 3 pad0 tree_rcatline true 0)

/-- The scalar fields of the root of `2 + 3`. -/
def sum_data : OpData := opdata 110 .OP_ADD (OPf_WANT_SCALAR ||| OPf_KIDS)

/-- The operands of `2 + 3`. -/
def sum_kids : OP := const_op 111 (.iv 2) (const_op 112 (.iv 3) .NULL)

/-- The tree `COND_EXPR(PADSV, CONST 10, ADD(CONST 2, CONST 3))`, that is
`$x ? 10 : 2 + 3`. -/
def tree_cond_fold : OP :=
  .mk cond_data
    (.mk padsv_data .NULL (.mk ten_data .NULL (.mk sum_data sum_kids .NULL .NULL) .NULL) .NULL)
    .NULL .NULL

/-- The pad `tree_cond_fold` hands to the translation of its false branch: the
jump is emitted and the pointer fixup of `op_other_instr` recorded. -/
def cf_false_start : CODEGEN_PAD :=
  save_branch_point
    (append_instruction_x demo_env
      (pad_of (add_op demo_env 2
        (append_instruction demo_env
          (pad_of (add_op demo_env 2 pad0
            (.mk padsv_data .NULL (.mk ten_data .NULL (.mk sum_data sum_kids .NULL .NULL) .NULL)
              .NULL) true 0))
          tree_cond_fold .OP_COND_EXPR)
        (.mk ten_data .NULL (.mk sum_data sum_kids .NULL .NULL) .NULL) true 0))
      .NULL .OP_INSTR_JUMP .null .null)
    (slot cond_data .op_other_instr)

/-- The pad after the first `switch` of `add_op` on the false branch of
`tree_cond_fold`. -/
def cf_emitted : CODEGEN_PAD :=
  match add_op_emit demo_env (add_op demo_env 1) cf_false_start
      (.mk sum_data sum_kids .NULL .NULL) sum_data 0 with
  | .ok e => e.1
  | .error _ => pad0

/-- The pad after the whole of `tree_cond_fold`. -/
def cf_done : CODEGEN_PAD := pad_of (add_op demo_env 3 pad0 tree_cond_fold true 0)

/-- The instruction that pushes the constant `2`, followed by `INSTR_END`. -/
def instrs_two : List INSTRUCTION :=
  [{ instr_ppaddr := some .OP_CONST, instr_op := const_op 2 (.iv 2) .NULL,
     instr_arg1 := .null, instr_arg2 := .null },
   { instr_ppaddr := some .OP_INSTR_END, instr_op := .NULL,
     instr_arg1 := .null, instr_arg2 := .null }]

/-- An `add` instruction alone: run on an empty stack, it dies. -/
def instrs_add : List INSTRUCTION :=
  [{ instr_ppaddr := some .OP_ADD, instr_op := tree_bad_add,
     instr_arg1 := .null, instr_arg2 := .null }]

/-- An environment whose interpreter leaves through `my_exit`: `JMPENV_PUSH`
returns 2. -/
def exit_env : Env :=
  { demo_env with
    CALLRUNOPS := fun st _ _ =>
      { ret := 2, PL_stack := st.PL_stack, PL_scopestack_ix := st.PL_scopestack_ix,
        errsv := false } }

/-! ## `compile_cv` -/

/-- A `CV` as far as `compile_cv` looks at it: the code sequence `CvCODESEQ`
(`none` for a null pointer) and the root `CvROOT` of its op tree. -/
structure CV where
  CvCODESEQ : Option CODESEQ
  CvROOT : OP
  deriving DecidableEq, Inhabited

/-- What a call of `compile_cv` leaves behind: the routine, the
instruction-pointer fields of the op tree, and how the call was left (`ok` when
it returned, the error when `compile_op` was left by a non-local exit). -/
structure CvCompiled where
  cv : CV
  slots : SlotStore
  outcome : Except Err Unit

/-- `Perl_compile_cv`. `new_codeseq` is the code sequence the function of that
name returns (it is not part of the sources). The sequence is stored in the
routine before `compile_op` runs, and `compile_op` writes to it only after the
translation of the tree has returned. Switching to the pad of the routine
(`PAD_SAVE_LOCAL`, `PAD_RESTORE_LOCAL`) is not modelled. -/
def compile_cv (env : Env) (fuel : Nat) (interp : INTERP) (curcop : OP) (slots : SlotStore)
    (new_codeseq : CODESEQ) (cv : CV) : CvCompiled :=
  if cv.CvCODESEQ.isSome then { cv := cv, slots := slots, outcome := .ok () }
  else
    let cv := { cv with CvCODESEQ := some new_codeseq }
    match compile_op env fuel interp curcop slots cv.CvROOT new_codeseq with
    | .ok c => { cv := { cv with CvCODESEQ := some c.codeseq }, slots := c.slots, outcome := .ok () }
    | .error e => { cv := cv, slots := slots, outcome := .error e }

/-- A routine that has not been compiled, with the tree of `2 + 3 * 4`. -/
def cv_sum : CV := { CvCODESEQ := none, CvROOT := tree_2_plus_3_times_4 }

/-! ## Example ranges -/

/-- Modelled from the spec: the instruction interpreter is an external
collaborator and not part of the sources. This evaluator runs the constant
pushes and `flop` in list context, which replaces the two integers on top of
the argument stack by the integers from the first to the second; `none` stands
for a run that died. -/
def range_run : List INSTRUCTION → List Scalar → Option (List Scalar)
  | [], st => some st
  | i :: rest, st =>
    match i.instr_ppaddr with
    | some .OP_INSTR_END => some st
    | some .OP_CONST =>
      match i.instr_op with
      | .mk d _ _ _ =>
        match d.op_sv with
        | .scalar s => range_run rest (st ++ [s])
        | .av _ => none
      | .NULL => none
    | some .OP_FLOP =>
      match st.dropLast.getLast?, st.getLast? with
      | some { val := .iv a, .. }, some { val := .iv b, .. } =>
        range_run rest (st.dropLast.dropLast ++
          (List.range (b - a + 1).toNat).map fun i => { val := .iv (a + i), readonly := false })
      | _, _ => none
    | _ => none

/-- The example environment with `range_run` as its interpreter. -/
def range_env : Env :=
  { demo_env with
    CALLRUNOPS := fun st instrs _ =>
      match range_run instrs st.PL_stack with
      | some stack =>
        { ret := 0, PL_stack := stack, PL_scopestack_ix := st.PL_scopestack_ix, errsv := false }
      | none =>
        { ret := 3, PL_stack := st.PL_stack, PL_scopestack_ix := st.PL_scopestack_ix - 1,
          errsv := true } }

/-- The pad after the trial run of `range_env` on the instructions of
`tree_range_list`. -/
def rg_list_tried : CODEGEN_PAD :=
  match fold_trial range_env rg_flop_pad 0 tree_range_list true with
  | .ok t => t.2
  | .error _ => pad0

/-- The list `1, 2, 3`, the value of `1..3`. -/
def one_two_three : SV :=
  .av [{ val := .iv 1, readonly := false }, { val := .iv 2, readonly := false },
       { val := .iv 3, readonly := false }]

/-- The scalar fields of a `range` node in list context at address 120. -/
def rp_list_data : OpData := opdata 120 .OP_RANGE (OPf_WANT_LIST ||| OPf_KIDS)

/-- The scalar fields of a `range` node in scalar context at address 120. -/
def rp_scalar_data : OpData := opdata 120 .OP_RANGE (OPf_WANT_SCALAR ||| OPf_KIDS)

/-- The scalar fields of the left endpoint of the ranges `$x .. 3`: a lexical. -/
def rp_left_data : OpData := { opdata 122 .OP_PADSV OPf_WANT_SCALAR with op_targ := 1 }

/-- The right endpoint of the ranges `$x .. 3`. -/
def rp_right : OP := const_op 123 (.iv 3) .NULL

/-- The `flip` node of the ranges `$x .. 3`, over the two endpoints. -/
def rp_flip : OP :=
  .mk (opdata 121 .OP_FLIP OPf_KIDS) (.mk rp_left_data .NULL rp_right .NULL) .NULL .NULL

/-- The range `$x .. 3` in list context. -/
def tree_range_padsv_list : OP := .mk rp_list_data rp_flip .NULL .NULL

/-- The range `$x .. 3` in scalar context (the flip-flop operator). -/
def tree_range_padsv_scalar : OP := .mk rp_scalar_data rp_flip .NULL .NULL

/-- The pad after the whole of `tree_range_padsv_list`. -/
def rp_list_done : CODEGEN_PAD := pad_of (add_op demo_env 2 pad0 tree_range_padsv_list true 0)

/-- The pad after the left endpoint of `tree_range_padsv_scalar`. -/
def rp_scalar_left : CODEGEN_PAD :=
  pad_of (add_op demo_env 1 (append_instruction demo_env pad0 tree_range_padsv_scalar .OP_RANGE)
    (.mk rp_left_data .NULL rp_right .NULL) true 0)

/-- The pad after the right endpoint of `tree_range_padsv_scalar`. -/
def rp_scalar_right : CODEGEN_PAD :=
  pad_of (add_op demo_env 1
    (save_branch_point (append_instruction demo_env rp_scalar_left tree_range_padsv_scalar .OP_FLIP)
      (slot rp_scalar_data .op_other_instr)) rp_right false 0)

/-- The pad after the whole of `tree_range_padsv_scalar`. -/
def rp_scalar_done : CODEGEN_PAD :=
  pad_of (add_op demo_env 2 pad0 tree_range_padsv_scalar true 0)

/-! ## Example element accesses -/

/-- A statement boundary with the array base 1, as under `$[ = 1`. -/
def cop_base_one : OP :=
  .mk { opdata 130 .OP_NEXTSTATE OPf_WANT_VOID with cop_arybase := 1 } .NULL .NULL .NULL

/-- The pad of the element examples: `PL_curcop` is `cop_base_one`. -/
def pad_cop : CODEGEN_PAD := new_pad demo_env demo_interp cop_base_one

/-- The scalar fields of the `aelem` nodes of the examples. -/
def ae_data : OpData := opdata 131 .OP_AELEM (OPf_WANT_SCALAR ||| OPf_KIDS)

/-- The scalar fields of the lexical array `@a` of the examples. -/
def ae_av_data : OpData := { opdata 132 .OP_PADAV OPf_REF with op_targ := 2 }

/-- The subscript `5`. -/
def ae_five : OP := const_op 133 (.iv 5) .NULL

/-- The subscript `$i`, a lexical. -/
def ae_padsv : OP := .mk { opdata 133 .OP_PADSV OPf_WANT_SCALAR with op_targ := 3 } .NULL .NULL .NULL

/-- The element `$a[5]` of a lexical array. -/
def tree_aelem_const : OP := .mk ae_data (.mk ae_av_data .NULL ae_five .NULL) .NULL .NULL

/-- The element `$a[$i]` of a lexical array. -/
def tree_aelem_var : OP := .mk ae_data (.mk ae_av_data .NULL ae_padsv .NULL) .NULL .NULL

/-- The pad after the container of `tree_aelem_const`. -/
def ae_av_pad : CODEGEN_PAD :=
  pad_of (add_op demo_env 1 pad_cop (.mk ae_av_data .NULL ae_five .NULL) true 0)

/-- The pad after the subscript of `tree_aelem_const`. -/
def ae_five_pad : CODEGEN_PAD := pad_of (add_op demo_env 1 ae_av_pad ae_five true 0)

/-- The pad after the container of `tree_aelem_var`. -/
def ae_av_pad_var : CODEGEN_PAD :=
  pad_of (add_op demo_env 1 pad_cop (.mk ae_av_data .NULL ae_padsv .NULL) true 0)

/-- The pad after the subscript of `tree_aelem_var`. -/
def ae_padsv_pad : CODEGEN_PAD := pad_of (add_op demo_env 1 ae_av_pad_var ae_padsv true 0)

/-- The scalar fields of the `helem` node of the examples: an lvalue
(`OPf_MOD`) under `local` (`OPpLVAL_INTRO`) that autovivifies an array
(`OPpDEREF_AV`, the bit 32). -/
def he_data : OpData :=
  { opdata 140 .OP_HELEM (OPf_WANT_SCALAR ||| OPf_KIDS ||| OPf_MOD) with
    op_private := OPpLVAL_INTRO ||| 32 }

/-- The scalar fields of the lexical hash `%h` of the examples (`OP_PADHV`, a
kind `codegen.c` does not name). -/
def he_hv_data : OpData := { opdata 141 (.OTHER 200) OPf_REF with op_targ := 4 }

/-- The key `"k"`. -/
def he_key : OP := const_op 142 (.pv "k" false false) .NULL

/-- The key `$k`, a lexical. -/
def he_padsv : OP := .mk { opdata 142 .OP_PADSV OPf_WANT_SCALAR with op_targ := 5 } .NULL .NULL .NULL

/-- The element `$h{k}` of a lexical hash. -/
def tree_helem_const : OP := .mk he_data (.mk he_hv_data .NULL he_key .NULL) .NULL .NULL

/-- The element `$h{$k}` of a lexical hash. -/
def tree_helem_var : OP := .mk he_data (.mk he_hv_data .NULL he_padsv .NULL) .NULL .NULL

/-- The pad after the container of `tree_helem_const`. -/
def he_hv_pad : CODEGEN_PAD :=
  pad_of (add_op demo_env 1 pad0 (.mk he_hv_data .NULL he_key .NULL) true 0)

/-- The pad after the key of `tree_helem_const`. -/
def he_key_pad : CODEGEN_PAD := pad_of (add_op demo_env 1 he_hv_pad he_key true 0)

/-- The pad after the container of `tree_helem_var`. -/
def he_hv_pad_var : CODEGEN_PAD :=
  pad_of (add_op demo_env 1 pad0 (.mk he_hv_data .NULL he_padsv .NULL) true 0)

/-- The pad after the key of `tree_helem_var`. -/
def he_padsv_pad : CODEGEN_PAD := pad_of (add_op demo_env 1 he_hv_pad_var he_padsv true 0)

/-- The pad after the whole of `tree_helem_const`. -/
def he_done : CODEGEN_PAD := pad_of (add_op demo_env 2 pad0 tree_helem_const true 0)

/-- The instructions in use in the pad from the index `start` on: the slots
`start`, ..., `idx - 1` of the buffer. -/
def emitted (b : CODEGEN_PAD) (start : Nat) : List INSTRUCTION :=
  (b.codeseq.xcodeseq_instructions.take b.idx).drop start

/-! ## Example substitutions, sorts and greps -/

/-- The scalar fields of the `subst` node of the examples. -/
def su_data : OpData := opdata 150 .OP_SUBST (OPf_WANT_SCALAR ||| OPf_KIDS)

/-- The subject of the substitution examples: the lexical `$x`. -/
def su_subject : OP :=
  .mk { opdata 151 .OP_PADSV OPf_WANT_SCALAR with op_targ := 1 } .NULL .NULL .NULL

/-- The replacement of `tree_subst`: the lexical `$y`. -/
def su_repl : OP :=
  .mk { opdata 152 .OP_PADSV OPf_WANT_SCALAR with op_targ := 2 } .NULL .NULL .NULL

/-- The substitution `$x =~ s/.../$y/`: the replacement is a subtree. -/
def tree_subst : OP := .mk su_data su_subject .NULL su_repl

/-- The substitution `$x =~ s/.../.../` with a constant replacement: there is
no replacement subtree. -/
def tree_subst_const : OP := .mk su_data su_subject .NULL .NULL

/-- The pad after the children of `tree_subst`. -/
def su_kids_pad : CODEGEN_PAD :=
  pad_of (add_chain (add_op demo_env 1) su_subject.chain pad0 true)

/-- The pad `tree_subst` hands to the translation of its replacement. -/
def su_cont_pad (root : OP) (o : OP) : CODEGEN_PAD :=
  save_branch_point
    (append_instruction demo_env
      (save_branch_point
        (append_instruction_x demo_env (append_instruction demo_env su_kids_pad o .OP_SUBST)
          .NULL .OP_INSTR_JUMP .null .null)
        (slot su_data .op_pmreplroot_instr))
      root .OP_SUBSTCONT)
    (slot su_data .op_pmreplstart_instr)

/-- The pad after the replacement of `tree_subst`. -/
def su_repl_pad : CODEGEN_PAD :=
  pad_of (add_op demo_env 1 (su_cont_pad su_repl tree_subst) su_repl false 0)

/-- The pad after the whole of `tree_subst`. -/
def su_done : CODEGEN_PAD := pad_of (add_op demo_env 2 pad0 tree_subst true 0)

/-- The scalar fields of a `sort` node with a comparator block (`OPf_STACKED`
and `OPf_SPECIAL`). -/
def so_block_data : OpData :=
  opdata 160 .OP_SORT (OPf_WANT_LIST ||| OPf_KIDS ||| OPf_STACKED ||| OPf_SPECIAL)

/-- The scalar fields of a `sort` node without a comparator. -/
def so_plain_data : OpData := opdata 160 .OP_SORT (OPf_WANT_LIST ||| OPf_KIDS)

/-- The list the sort examples sort: the lexical array `@x`. -/
def so_list : OP := .mk { opdata 163 .OP_PADAV OPf_WANT_LIST with op_targ := 1 } .NULL .NULL .NULL

/-- The comparator block of `tree_sort_block`, an `OP_NULL` over a lexical,
followed by the list. -/
def so_block : OP :=
  .mk (opdata 161 .OP_NULL OPf_KIDS)
    (.mk { opdata 162 .OP_PADSV OPf_WANT_SCALAR with op_targ := 2 } .NULL .NULL .NULL)
    so_list .NULL

/-- The sort `sort { ... } @x`. -/
def tree_sort_block : OP := .mk so_block_data so_block .NULL .NULL

/-- The sort `sort @x`. -/
def tree_sort_plain : OP := .mk so_plain_data so_list .NULL .NULL

/-- The pad after the list of the sort examples. -/
def so_kids_pad : CODEGEN_PAD :=
  pad_of (add_chain (add_op demo_env 2) so_list.chain
    (append_instruction demo_env pad0 .NULL .OP_PUSHMARK) true)

/-- The pad after the comparator block of `tree_sort_block`. -/
def so_block_pad : CODEGEN_PAD :=
  pad_of (add_op demo_env 2
    (save_instr_from_to_pparg
      (append_instruction_x demo_env (append_instruction demo_env so_kids_pad tree_sort_block .OP_SORT)
        .NULL .OP_INSTR_JUMP .null .null) so_kids_pad.idx (so_kids_pad.idx + 2))
    so_block false 0)

/-- The pad after the whole of `tree_sort_block`. -/
def so_block_done : CODEGEN_PAD := pad_of (add_op demo_env 3 pad0 tree_sort_block true 0)

/-- The pad after the whole of `tree_sort_plain`. -/
def so_plain_done : CODEGEN_PAD := pad_of (add_op demo_env 3 pad0 tree_sort_plain true 0)

/-- The scalar fields of the `grepstart` node of `tree_grep`. -/
def gr_data : OpData := opdata 170 .OP_GREPSTART (OPf_WANT_LIST ||| OPf_KIDS)

/-- The scalar fields of the `mapstart` node of `tree_map`. -/
def mp_data : OpData := opdata 170 .OP_MAPSTART (OPf_WANT_LIST ||| OPf_KIDS)

/-- The scalar fields of the `OP_NULL` that holds the block of the grep
examples. -/
def gr_block_data : OpData := opdata 171 .OP_NULL OPf_KIDS

/-- The block of the grep examples: the lexical `$t`. -/
def gr_body : OP :=
  .mk { opdata 172 .OP_PADSV OPf_WANT_SCALAR with op_targ := 2 } .NULL .NULL .NULL

/-- The source list of the grep examples: the lexical array `@x`. -/
def gr_list : OP := .mk { opdata 173 .OP_PADAV OPf_WANT_LIST with op_targ := 1 } .NULL .NULL .NULL

/-- The tree of `grep { $t } @x`. -/
def tree_grep : OP := .mk gr_data (.mk gr_block_data gr_body gr_list .NULL) .NULL .NULL

/-- The tree of `map { $t } @x`. -/
def tree_map : OP := .mk mp_data (.mk gr_block_data gr_body gr_list .NULL) .NULL .NULL

/-- The pad after the source list of the grep examples. -/
def gr_kids_pad : CODEGEN_PAD :=
  pad_of (add_chain (add_op demo_env 1) gr_list.chain
    (append_instruction demo_env pad0 .NULL .OP_PUSHMARK) true)

/-- The pad after the block of `tree_grep`. -/
def gr_body_pad : CODEGEN_PAD :=
  pad_of (add_op demo_env 1 (append_instruction demo_env gr_kids_pad tree_grep .OP_GREPSTART)
    gr_body false 0)

/-- The pad after the block of `tree_map`. -/
def mp_body_pad : CODEGEN_PAD :=
  pad_of (add_op demo_env 1 (append_instruction demo_env gr_kids_pad tree_map .OP_MAPSTART)
    gr_body false 0)

/-- The pad after the whole of `tree_grep`. -/
def gr_done : CODEGEN_PAD := pad_of (add_op demo_env 2 pad0 tree_grep true 0)

/-- The pad after the whole of `tree_map`. -/
def mp_done : CODEGEN_PAD := pad_of (add_op demo_env 2 pad0 tree_map true 0)

/-! ## Example statement boundaries and folds -/

/-- A `nextstate` node at address `addr` without a label; `next` is the kind of
the node `op_next` points to. -/
def nextstate_op (addr : Nat) (next : Option Optype) (sibling : OP) : OP :=
  .mk { opdata addr .OP_NEXTSTATE OPf_WANT_VOID with op_next_type := next } .NULL sibling .NULL

/-- The last `nextstate` of the example run: the statement `print` follows it
in execution order. -/
def ns_last : OP := nextstate_op 183 (some .OP_PUSHMARK) .NULL

/-- Two label-free `nextstate` nodes, each followed in execution order by
another `nextstate`. -/
def ns_run : List OP :=
  [nextstate_op 181 (some .OP_NEXTSTATE) .NULL, nextstate_op 182 (some .OP_NEXTSTATE) .NULL]

/-- A `nextstate` with the label `L`, followed in execution order by another
`nextstate`. -/
def ns_labelled : OP :=
  .mk { opdata 184 .OP_NEXTSTATE OPf_WANT_VOID with
        op_next_type := some .OP_NEXTSTATE, cop_label := some "L" } .NULL .NULL .NULL

/-! ## Example string comparison under the locale hint -/

/-- An environment with the locale hint active: the table of `demo_env` with
the string comparison `slt` declared fold-eligible as well, as in Perl's opcode
table. -/
def locale_env : Env :=
  { demo_env with
    PL_hints := HINT_LOCALE,
    PL_opargs := fun t =>
      match t with
      | .OP_SLT => OA_FOLDCONST
      | t => demo_env.PL_opargs t }

/-- The pad `compile_op` starts from under `locale_env`. -/
def locale_pad : CODEGEN_PAD := new_pad locale_env demo_interp .NULL

/-- The scalar fields of the root of `"a" lt "b"`. -/
def slt_data : OpData := opdata 1 .OP_SLT (OPf_WANT_SCALAR ||| OPf_KIDS)

/-- The operands of `"a" lt "b"`, two constants. -/
def slt_kids : OP :=
  const_op 2 (.pv "a" false false) (const_op 3 (.pv "b" false false) .NULL)

/-- The pad after the two operands of `"a" lt "b"`. -/
def slt_kids_pad : CODEGEN_PAD :=
  pad_of (add_chain (add_op locale_env 1) slt_kids.chain locale_pad true)

/-! ## Example of a full buffer -/

/-- The pad after eleven `pushmark` instructions: one free slot is left of the
initial twelve. -/
def pad_eleven : CODEGEN_PAD :=
  Nat.iterate (fun b => append_instruction demo_env b .NULL .OP_PUSHMARK) 11 pad0

/-! ## Example operands that emit nothing -/

/-- The pad after the translation of an earlier sibling, the constant `1`: one
instruction, at index 0. -/
def pad_after_const : CODEGEN_PAD :=
  pad_of (add_op demo_env 1 pad0 (const_op 60 (.iv 1) .NULL) true 0)

/-- An `and` whose left operand is a kid-less `OP_NULL` and whose right operand
is the constant `7`. -/
def and_null_const : OP :=
  and_of 61 (empty_null 62 (const_op 63 (.iv 7) .NULL))

/-- An `and` whose operands are both kid-less `OP_NULL` nodes. -/
def and_null_null : OP :=
  and_of 61 (empty_null 62 (empty_null 63 .NULL))

/-! ## Example trial that leaves two values -/

/-- An `OP_NULL` node over the two constants `2` and `3` (a list turned into a
null op). -/
def null_two_consts : OP :=
  mkop 70 .OP_NULL OPf_WANT_SCALAR (const_op 71 (.iv 2) (const_op 72 (.iv 3) .NULL)) .NULL

/-- The instructions of `null_two_consts` with the temporary `INSTR_END`, as the
fold attempt of `add_op` hands them to `instr_fold_constants`. -/
def two_consts_trial : List INSTRUCTION :=
  [{ instr_ppaddr := some .OP_CONST, instr_op := const_op 71 (.iv 2) (const_op 72 (.iv 3) .NULL),
     instr_arg1 := .null, instr_arg2 := .null },
   { instr_ppaddr := some .OP_CONST, instr_op := const_op 72 (.iv 3) .NULL,
     instr_arg1 := .null, instr_arg2 := .null },
   { instr_ppaddr := some .OP_INSTR_END, instr_op := .NULL,
     instr_arg1 := .null, instr_arg2 := .null }]

/-- The interpreter state of a result, `demo_interp` for an error. -/
def interp_of (r : Except Err (Option SV × INTERP)) : INTERP :=
  match r with
  | .ok p => p.2
  | .error _ => demo_interp

/-- The value of a result, `none` for an error. -/
def value_of (r : Except Err (Option SV × INTERP)) : Option SV :=
  match r with
  | .ok p => p.1
  | .error _ => none

/-! ## Example while loops -/

/-- The body of the while examples: the lexical `$t`. -/
def wa_body : OP :=
  .mk { opdata 202 .OP_PADSV OPf_WANT_VOID with op_targ := 2 } .NULL .NULL .NULL

/-- The scalar fields of the condition of the while examples, the lexical
`$c`. -/
def wa_cond_data : OpData := { opdata 201 .OP_PADSV OPf_WANT_SCALAR with op_targ := 1 }

/-- The condition of the while examples, followed by the body. -/
def wa_cond : OP := .mk wa_cond_data .NULL wa_body .NULL

/-- The scalar fields of the `while_and` node of `while ($c) { $t }`. -/
def wa_data : OpData := opdata 200 .OP_WHILE_AND (OPf_WANT_VOID ||| OPf_KIDS)

/-- The scalar fields of the `while_and` node of `do { $t } while ($c)`: the
body runs once before the first test. -/
def wa_once_data : OpData :=
  { opdata 200 .OP_WHILE_AND (OPf_WANT_VOID ||| OPf_KIDS) with op_private := OPpWHILE_AND_ONCE }

/-- The tree of `while ($c) { $t }`. -/
def tree_while_and : OP := .mk wa_data wa_cond .NULL .NULL

/-- The tree of `do { $t } while ($c)`. -/
def tree_while_and_once : OP := .mk wa_once_data wa_cond .NULL .NULL

/-- The pad after the body of `tree_while_and`. -/
def wa_body_pad : CODEGEN_PAD :=
  pad_of (add_op demo_env 1
    (save_branch_point (append_instruction_x demo_env pad0 .NULL .OP_INSTR_JUMP .null .null)
      (slot wa_data .op_other_instr)) wa_body true 0)

/-- The pad after the condition of `tree_while_and`. -/
def wa_cond_pad : CODEGEN_PAD :=
  pad_of (add_op demo_env 1 (save_instr_from_to_pparg wa_body_pad pad0.idx wa_body_pad.idx)
    wa_cond false 0)

/-- The pad after the body of `tree_while_and_once`. -/
def wa_once_body_pad : CODEGEN_PAD :=
  pad_of (add_op demo_env 1 (save_branch_point pad0 (slot wa_once_data .op_other_instr))
    wa_body true 0)

/-- The pad after the condition of `tree_while_and_once`. -/
def wa_once_cond_pad : CODEGEN_PAD :=
  pad_of (add_op demo_env 1 wa_once_body_pad wa_cond false 0)

/-! ## Example scalar assignments -/

/-- An environment whose table declares `add` fold-eligible and able to store
its result in a lexical (`OA_TARGLEX`), as in Perl's opcode table; otherwise
`demo_env`. -/
def targlex_env : Env :=
  { demo_env with
    PL_opargs := fun t =>
      match t with
      | .OP_ADD => OA_FOLDCONST ||| OA_TARGLEX
      | t => demo_env.PL_opargs t }

/-- The pad `compile_op` starts from under `targlex_env`. -/
def targlex_pad : CODEGEN_PAD := new_pad targlex_env demo_interp .NULL

/-- The scalar fields of the `sassign` node of the examples. -/
def sa_data : OpData := opdata 210 .OP_SASSIGN (OPf_WANT_VOID ||| OPf_KIDS)

/-- The scalar fields of the right operand of the examples, `2 + 3`. -/
def sa_right_data : OpData := opdata 211 .OP_ADD (OPf_WANT_SCALAR ||| OPf_KIDS)

/-- The operands of `2 + 3`. -/
def sa_right_kids : OP := const_op 212 (.iv 2) (const_op 213 (.iv 3) .NULL)

/-- The scalar fields of the left operand `$x`, the lexical in pad slot 5. -/
def sa_left_data : OpData :=
  { opdata 214 .OP_PADSV (OPf_WANT_SCALAR ||| OPf_MOD) with op_targ := 5 }

/-- The scalar fields of the left operand `my $x`. -/
def sa_left_my_data : OpData :=
  { opdata 214 .OP_PADSV (OPf_WANT_SCALAR ||| OPf_MOD) with
    op_targ := 5, op_private := OPpLVAL_INTRO }

/-- The tree of `$x = 2 + 3`. -/
def tree_sassign : OP :=
  .mk sa_data (.mk sa_right_data sa_right_kids (.mk sa_left_data .NULL .NULL .NULL) .NULL)
    .NULL .NULL

/-- The tree of `my $x = 2 + 3`. -/
def tree_sassign_my : OP :=
  .mk sa_data (.mk sa_right_data sa_right_kids (.mk sa_left_my_data .NULL .NULL .NULL) .NULL)
    .NULL .NULL

/-- The pad after the operands of the right operand of `tree_sassign`. -/
def sa_kids_pad : CODEGEN_PAD :=
  pad_of (add_chain (add_op targlex_env 1) sa_right_kids.chain targlex_pad true)

/-- The pad after the two children of `tree_sassign_my`. -/
def sa_my_kids_pad : CODEGEN_PAD :=
  pad_of (add_chain (add_op targlex_env 2)
    (OP.mk sa_right_data sa_right_kids (.mk sa_left_my_data .NULL .NULL .NULL) .NULL).chain
    targlex_pad true)

/-! ## In-place array assignments -/

/-- The conditions of an in-place `sort` or `reverse`, stated on the tree of the
array assignment `o` (an `AASSIGN` whose children are the right list and the
left list, both `LIST` nodes) and the candidate `sortop`: the assignment is in
void context; the right list has exactly one element, `sortop`, a `SORT` or a
`REVERSE`; after the comparator, skipped when `sortop` is `OPf_STACKED`, it has
exactly one argument, an `RV2AV` or a `PADAV` without `OPpLVAL_INTRO`; the left
list has exactly one element, an `RV2AV` or a `PADAV` without `OPpLVAL_INTRO`;
and both name the same array: two `RV2AV` whose children carry the same glob
(the one on the right being a `GV` node), or two `PADAV` with the same pad
slot. -/
def InplaceAssign (o sortop : OP) : Prop :=
  ∃ (d rld lld sd ad ld : OpData) (sfirst afirst lfirst s r rr lls llr sr ar lr : OP),
    o = .mk d (.mk rld sortop (.mk lld (.mk ld lfirst .NULL lr) lls llr) rr) s r ∧
    d.op_type = .OP_AASSIGN ∧ rld.op_type = .OP_LIST ∧ lld.op_type = .OP_LIST ∧
    d.op_flags &&& OPf_WANT = OPf_WANT_VOID ∧
    sortop = .mk sd sfirst .NULL sr ∧
    (sd.op_type = .OP_SORT ∨ sd.op_type = .OP_REVERSE) ∧
    (if hasBit sd.op_flags OPf_STACKED then sfirst.sibling else .ok sfirst)
      = .ok (.mk ad afirst .NULL ar) ∧
    (ad.op_type = .OP_RV2AV ∨ ad.op_type = .OP_PADAV) ∧
    hasBit ad.op_private OPpLVAL_INTRO = false ∧
    (ld.op_type = .OP_RV2AV ∨ ld.op_type = .OP_PADAV) ∧
    hasBit ld.op_private OPpLVAL_INTRO = false ∧
    ((ld.op_type = .OP_RV2AV ∧ ad.op_type = .OP_RV2AV ∧
        ∃ (gd lg : OpData) (gf gs gr : OP), afirst = .mk gd gf gs gr ∧ gd.op_type = .OP_GV ∧
          lfirst.data = .ok lg ∧ lg.op_gv = gd.op_gv) ∨
     (ld.op_type = .OP_PADAV ∧ ad.op_type = .OP_PADAV ∧ ad.op_targ = ld.op_targ))

/-- The `sort` node of `@a = sort @a` for the lexical array in pad slot 3; the
argument is the `PADAV` of the right side. -/
def ip_sortop : OP :=
  .mk (opdata 221 .OP_SORT (OPf_WANT_LIST ||| OPf_KIDS))
    (.mk { opdata 222 .OP_PADAV OPf_WANT_LIST with op_targ := 3 } .NULL .NULL .NULL) .NULL .NULL

/-- The left list of the in-place examples, followed by nothing: the lexical
array in pad slot `targ`. -/
def ip_left (targ : Nat) : OP :=
  .mk (opdata 223 .OP_LIST (OPf_WANT_LIST ||| OPf_KIDS))
    (.mk { opdata 224 .OP_PADAV (OPf_WANT_LIST ||| OPf_MOD) with op_targ := targ }
      .NULL .NULL .NULL) .NULL .NULL

/-- The tree of `@a = sort @a` in void context, both arrays in pad slot 3. -/
def tree_inplace_sort : OP :=
  .mk (opdata 219 .OP_AASSIGN (OPf_WANT_VOID ||| OPf_KIDS))
    (.mk (opdata 220 .OP_LIST (OPf_WANT_LIST ||| OPf_KIDS)) ip_sortop (ip_left 3) .NULL)
    .NULL .NULL

/-- The tree of `@b = sort @a` in void context: the left array is in pad slot
4. -/
def tree_sort_other : OP :=
  .mk (opdata 219 .OP_AASSIGN (OPf_WANT_VOID ||| OPf_KIDS))
    (.mk (opdata 220 .OP_LIST (OPf_WANT_LIST ||| OPf_KIDS)) ip_sortop (ip_left 4) .NULL)
    .NULL .NULL

/-! ## `uvcompare` of `op.c` -/

/-- Modelled from the spec: the width of a `UV` (`perl.h` is not part of the
sources); unsigned arithmetic wraps at `2 ^ UV_BITS`. -/
def UV_BITS : Nat := 64

/-- `uvcompare` of `op.c`, the comparison `S_pmtrans` hands to `qsort`; `a` and
`b` each point at two consecutive `UV`s, given here as pairs. The third and
fourth tests read `*((const UV *)a+1)`, the second element of `a`, and
`(*(const UV *)b+1)`, the first element of `b` plus one. -/
def uvcompare (a b : Nat × Nat) : Int :=
  if a.1 < b.1 then -1
  else if a.1 > b.1 then 1
  else if a.2 < (b.1 + 1) % 2 ^ UV_BITS then -1
  else if a.2 > (b.1 + 1) % 2 ^ UV_BITS then 1
  else 0

/-! ## `newFOROP` of `op.c` -/

/-- Modelled from the spec: `OPpITER_REVERSED` of `op.h`. -/
def OPpITER_REVERSED : Nat := 4

/-- The context functions of `op.c` that `newFOROP` applies to the iterable and
to the loop variable. They walk and rebuild op trees; `newFOROP` is embedded
for every behaviour of them. -/
structure OpContext where
  ref : OP → Optype → OP
  mod : OP → Optype → OP
  scalar : OP → OP
  list : OP → OP
  force_list : OP → OP

/-- The assignment `o->op_first = kid`. -/
def OP.set_first : OP → OP → OP
  | .NULL, _ => .NULL
  | .mk d _ s r, kid => .mk d kid s r

/-- The assignment `o->op_sibling = sib`. -/
def OP.set_sibling : OP → OP → OP
  | .NULL, _ => .NULL
  | .mk d f _ r, sib => .mk d f sib r

/-- The children of the loop node after `loop->op_first = expr` and the three
calls of `append_elem(OP_FOREACH, loop, ...)`: each non-null node becomes the
sibling of the one before it. -/
def link_kids : List OP → OP
  | [] => .NULL
  | [o] => o
  | o :: rest => o.set_sibling (link_kids rest)

/-- The block of `Perl_newFOROP` that prepares the iterable `expr`, from
`if (expr->op_type == OP_RV2AV || expr->op_type == OP_PADAV)` to
`expr = list(expr)`. Takes and returns `iterflags` and `iterpflags`. The test
on the argument of a `REVERSE` reads `cLISTOPx(expr)->op_first->op_type` for
`OP_RV2AV` and `cLISTOPx(expr)->op_type` for `OP_PADAV`. -/
def newFOROP_expr (cx : OpContext) (expr : OP) (iterflags iterpflags : Nat) :
    Except Err (OP × Nat × Nat) := do
  let d ← expr.data
  let (expr, iterflags) :=
    if d.op_type == .OP_RV2AV || d.op_type == .OP_PADAV then
      (cx.mod (cx.force_list (cx.scalar (cx.ref expr .OP_ITER))) .OP_GREPSTART,
       iterflags ||| OPf_STACKED)
    else (expr, iterflags)
  let d ← expr.data
  if d.op_type == .OP_REVERSE then
    let first ← expr.first
    let sib ← first.sibling
    let fd ← first.data
    let (expr, iterflags) :=
      if !sib.isSome && (fd.op_type == .OP_RV2AV || d.op_type == .OP_PADAV) then
        (expr.set_first
           (cx.mod (cx.force_list (cx.scalar (cx.ref first .OP_ITER))) .OP_GREPSTART),
         iterflags ||| OPf_STACKED)
      else (expr, iterflags)
    .ok (cx.list expr, iterflags, iterpflags ||| OPpITER_REVERSED)
  else if d.op_type == .OP_RANGE then
    .ok (cx.list expr, iterflags ||| OPf_STACKED, iterpflags)
  else
    .ok (cx.list (cx.mod (cx.list expr) .OP_GREPSTART), iterflags, iterpflags)

/-- `Perl_newFOROP` from the preparation of the iterable on: `sv`, `padoff` and
`iterpflags` are what the examination of the loop variable left (a null `sv`
for a lexical variable), `addr` and `nothing_addr` the addresses of the nodes
`NewOp` and `newOP` allocate. Returns the `FOREACH` node, which the source
wraps in a state op (`newSTATEOP`). -/
def newFOROP (cx : OpContext) (addr nothing_addr : Nat) (padoff iterpflags : Nat)
    (sv expr block cont : OP) : Except Err OP := do
  let e ← newFOROP_expr cx expr 0 iterpflags
  let sv := if sv.isSome then sv else .mk (opdata nothing_addr .OP_NOTHING 0) .NULL .NULL .NULL
  let sv := cx.scalar sv
  .ok (.mk { opdata addr .OP_FOREACH (OPf_KIDS ||| e.2.1) with
             op_private := e.2.2 % 256, op_targ := padoff }
        (link_kids ((e.1 :: [sv, block, cont]).filter OP.isSome)) .NULL .NULL)

/-- A context for the examples: `ref` sets `OPf_REF` and `mod` sets `OPf_MOD` on
the node they are given, as `op.c` does for an array op; the other functions
leave the tree alone. -/
def mark_context : OpContext where
  ref := fun o _ =>
    match o with
    | .NULL => .NULL
    | .mk d f s r => .mk { d with op_flags := d.op_flags ||| OPf_REF } f s r
  mod := fun o _ =>
    match o with
    | .NULL => .NULL
    | .mk d f s r => .mk { d with op_flags := d.op_flags ||| OPf_MOD } f s r
  scalar := fun o => o
  list := fun o => o
  force_list := fun o => o

/-- The tree of `reverse @a` for a lexical array `@a` in pad slot 3. -/
def rev_padav : OP :=
  .mk (opdata 231 .OP_REVERSE (OPf_WANT_LIST ||| OPf_KIDS))
    (.mk { opdata 232 .OP_PADAV OPf_WANT_LIST with op_targ := 3 } .NULL .NULL .NULL) .NULL .NULL

/-- The tree of `reverse @a` for a package array `@a`. -/
def rev_rv2av : OP :=
  .mk (opdata 231 .OP_REVERSE (OPf_WANT_LIST ||| OPf_KIDS))
    (.mk (opdata 232 .OP_RV2AV (OPf_WANT_LIST ||| OPf_KIDS))
      (.mk { opdata 233 .OP_GV 0 with op_gv := 7 } .NULL .NULL .NULL) .NULL .NULL) .NULL .NULL

/-- The scalar fields of a result, those of an `OP_NULL` for an error. -/
def data_of (r : Except Err OP) : OpData :=
  match r with
  | .ok (.mk d _ _ _) => d
  | _ => opdata 0 .OP_NULL 0

/-- The first child of a result, null for an error. -/
def first_of (r : Except Err OP) : OP :=
  match r with
  | .ok (.mk _ f _ _) => f
  | _ => .NULL

/-! ## Example fixups left behind by a rewind -/

/-- The tree of two statements: `COND_EXPR(PADSV, CONST 10, SCOPE(1, 1, 1))`,
whose jump over the false branch is a branch fixup, followed by `loop_cont`,
three nested `and`s whose left operands are kid-less `OP_NULL` nodes. -/
def tree_cond_then_ands : OP :=
  .mk (opdata 80 .OP_LINESEQ (OPf_WANT_VOID ||| OPf_KIDS))
    (.mk cond_data (.mk padsv_data .NULL (.mk ten_data .NULL (loop_block .NULL) .NULL) .NULL)
      loop_cont .NULL) .NULL .NULL

/-- The pad after the whole of `tree_cond_then_ands`. -/
def cond_then_ands_done : CODEGEN_PAD :=
  pad_of (add_op demo_env 7 pad0 tree_cond_then_ands true 0)

/-- The tree of two statements: `OR(PADSV, SCOPE(1, 1, 1))`, whose other-target
slot is a pointer fixup recorded after the right operand, followed by
`loop_cont`. -/
def tree_or_then_ands : OP :=
  .mk (opdata 80 .OP_LINESEQ (OPf_WANT_VOID ||| OPf_KIDS))
    (.mk (opdata 81 .OP_OR (OPf_WANT_VOID ||| OPf_KIDS))
      (.mk padsv_data .NULL (loop_block .NULL) .NULL) loop_cont .NULL) .NULL .NULL

/-- The pad after the whole of `tree_or_then_ands`. -/
def or_then_ands_done : CODEGEN_PAD :=
  pad_of (add_op demo_env 7 pad0 tree_or_then_ands true 0)

/-! ## Fold candidates -/

/-- The translation of every node of `kids`, in sibling order and starting from
the pad `p`, left the fold flag true: each node is entered with the flag true,
in the pad the node before it left, and returns with the flag true; `q` is the
pad after the last node. -/
def KidsTrue (rec : AddOp) : List OP → CODEGEN_PAD → CODEGEN_PAD → Prop
  | [], p, q => q = p
  | kid :: rest, p, q => ∃ p1, rec p kid true 0 = .ok (p1, true) ∧ KidsTrue rec rest p1 q

/-- The kinds whose `case` in the first `switch` of `add_op` translates the
children of the node by one walk over the sibling chain (`add_kids`, or
`add_op` on the only child of a `STRINGIFY` over a `CONCAT`), so that
`kid_may_constant_fold` is what the children left: the kinds without a `case`
of their own, and `NULL`, `SCALAR`, `LINESEQ`, `SCOPE`, `LIST`, `REPEAT`,
`DELETE`, `CONCAT` and `STRINGIFY`. The remaining kinds (control constructs,
assignments, element accesses, variables, statement boundaries) translate
their children one by one or not at all; Perl's opcode table declares none of
them `OA_FOLDCONST`. -/
def kids_in_order : Optype → Bool
  | .OP_NULL | .OP_SCALAR | .OP_LINESEQ | .OP_SCOPE | .OP_LIST | .OP_REPEAT | .OP_DELETE
  | .OP_CONCAT | .OP_STRINGIFY => true
  | t => !has_template t

/-! ## Theorems -/

theorem sat_bind {α β : Type} (x : Except Err α) (f : α → Except Err β) (Q : β → Prop)
    (h : Sat x (fun a => Sat (f a) Q)) : Sat (x >>= f) Q := by
  constructor
  intro r hr
  cases x with
  | error e => simp [bind, Except.bind] at hr
  | ok a => exact (h.out a rfl).out r hr

theorem sat_ok {α : Type} (a : α) (Q : α → Prop) (h : Q a) : Sat (Except.ok a) Q := by
  constructor; intro r hr; cases hr; exact h

theorem sat_error {α : Type} (e : Err) (Q : α → Prop) : Sat (Except.error e) Q := by
  constructor; intro r hr; cases hr

theorem sat_ite {α : Type} (c : Prop) [Decidable c] (x y : Except Err α) (Q : α → Prop)
    (hx : c → Sat x Q) (hy : ¬c → Sat y Q) : Sat (if c then x else y) Q := by
  by_cases hc : c
  · rw [if_pos hc]; exact hx hc
  · rw [if_neg hc]; exact hy hc

theorem sat_map {α β : Type} (x : Except Err α) (g : α → β) (Q : β → Prop)
    (h : Sat x (fun a => Q (g a))) : Sat (Except.map g x) Q := by
  constructor
  intro r hr
  cases x with
  | error e => simp [Except.map] at hr
  | ok a => simp [Except.map] at hr; subst hr; exact h.out a rfl

theorem bind_ok_iff {α β : Type} (x : Except Err α) (f : α → Except Err β) (r : β) :
    (x >>= f) = .ok r ↔ ∃ a, x = .ok a ∧ f a = .ok r := by
  cases x <;> simp [bind, Except.bind]

theorem add_chain_rel (env : Env) (R) (hR : Closed env R) (rec : AddOp)
    (hrec : ∀ b o m f r, rec b o m f = .ok r → R b r.1) :
    ∀ (l : List OP) (bpp : CODEGEN_PAD) (m : Bool) (r : CODEGEN_PAD × Bool),
      add_chain rec l bpp m = .ok r → R bpp r.1 := by
  intro l
  induction l with
  | nil => intro bpp m r h; cases h; exact hR.refl _
  | cons k ks ih =>
    intro bpp m r h
    unfold add_chain at h
    simp only [bind_ok_iff] at h
    obtain ⟨a, ha, h⟩ := h
    exact hR.trans _ _ _ (hrec _ _ _ _ _ ha) (ih _ _ _ h)

theorem add_kids_rel (env : Env) (R) (hR : Closed env R) (rec : AddOp)
    (hrec : ∀ b o m f r, rec b o m f = .ok r → R b r.1)
    (bpp o m r) (h : add_kids rec bpp o m = .ok r) : R bpp r.1 := by
  revert r h
  apply Sat.out
  unfold add_kids
  apply sat_bind
  refine ⟨fun d _ => ?_⟩
  apply sat_ite
  · intro _
    apply sat_bind
    refine ⟨fun f _ => ?_⟩
    exact ⟨add_chain_rel env R hR rec hrec _ _ _⟩
  · intro _
    exact sat_ok _ _ (hR.refl _)

set_option maxHeartbeats 4000000 in
theorem add_op_emit_rel (env : Env) (R) (hR : Closed env R) (rec : AddOp)
    (hrec : ∀ b o m f r, rec b o m f = .ok r → R b r.1)
    (bpp o d flags) : Sat (add_op_emit env rec bpp o d flags) (fun r => R bpp r.1) := by
  have hchain := add_chain_rel env R hR rec hrec
  have hkids := add_kids_rel env R hR rec hrec
  unfold add_op_emit
  dsimp only
  split
  all_goals (try simp only [add_op_grep, add_op_cond_expr, add_op_enterloop, add_op_foreach,
    add_op_while_and, add_op_logop, add_op_logassign, add_op_once, add_op_entertry,
    add_op_range, add_op_regcomp, add_op_entergiven, add_op_enterwhen, add_op_subst,
    add_op_sort, compile_sort_without_kids, add_op_formline, add_op_rv2sv, add_op_aelem,
    add_op_helem, add_op_delete, add_op_lslice, add_op_rv2hv, add_op_repeat,
    add_op_nextstate, add_op_dbstate, add_op_sassign, add_op_aassign, add_op_stringify,
    add_op_concat, add_op_default, fold_trial, append_instruction])
  all_goals
    with_reducible repeat' (first
      | (apply sat_map)
      | (apply sat_bind)
      | (apply sat_ok)
      | (apply sat_error)
      | (apply sat_ite <;> intro _)
      | exact hR.refl _
      | (refine hR.trans _ _ _ ?_ (hrec _ _ _ _ _ (by assumption)))
      | (refine hR.trans _ _ _ ?_ (hkids _ _ _ _ (by assumption)))
      | (refine hR.trans _ _ _ ?_ (hchain _ _ _ _ (by assumption)))
      | (refine hR.trans _ _ _ ?_ (hR.dec _ _ (by assumption)))
      | (refine hR.trans _ _ _ ?_ (hR.append _ _ _ _ _))
      | (refine hR.trans _ _ _ ?_ (hR.save_bp _ _))
      | (refine hR.trans _ _ _ ?_ (hR.save_ft _ _ _))
      | (refine hR.trans _ _ _ ?_ (hR.push_svs _ _))
      | (refine hR.trans _ _ _ ?_ (hR.assign_svp _ _ _ _ (by assumption) (by assumption)))
      | (refine hR.trans _ _ _ ?_ (hR.undo_end _ _ _))
      | (refine hR.reset _ _ ?_)
      | (refine hR.trans _ _ _ ?_ (hR.after_trial _ _ _))
      | (refine hR.trans _ _ _ ?_ (hR.set_curcop _ _))
      | (refine hR.trans _ _ _ ?_ (hR.log_writes _ _))
      | (dsimp only)
      | split
      | (refine Sat.mk (fun _ _ => ?_)))


theorem add_op_fold_rel (env : Env) (R) (hR : Closed env R) (a bpp : CODEGEN_PAD) (o : OP)
    (k m : Bool) (hab : R a bpp) :
    Sat (add_op_fold env bpp o a.idx k m) (fun r => R a r.1) := by
  simp only [add_op_fold, fold_trial]
  with_reducible repeat' (first
      | (apply sat_bind)
      | (apply sat_ok)
      | (apply sat_error)
      | (apply sat_ite <;> intro _)
      | assumption
      | (refine hR.trans _ _ _ ?_ (hR.undo_end _ _ _))
      | (refine hR.trans _ _ _ ?_ (hR.append _ _ _ _ _))
      | (refine hR.trans _ _ _ ?_ (hR.push_svs _ _))
      | (refine hR.reset _ _ ?_)
      | (refine hR.trans _ _ _ ?_ (hR.after_trial _ _ _))
      | (dsimp only)
      | split
      | (refine Sat.mk (fun _ _ => ?_)))

theorem add_op_body_rel (env : Env) (R) (hR : Closed env R) (rec : AddOp)
    (hrec : ∀ b o m f r, rec b o m f = .ok r → R b r.1)
    (bpp o m f r) (h : add_op_body env rec bpp o m f = .ok r) : R bpp r.1 := by
  unfold add_op_body at h
  simp only [bind_ok_iff] at h
  obtain ⟨_, -, d, -, e, he, h⟩ := h
  have h1 := (add_op_emit_rel env R hR rec hrec bpp o d f).out e he
  exact (add_op_fold_rel env R hR bpp e.1 e.2.2 e.2.1 m h1).out r h

/-- Every relation respected by the elementary actions is respected by
`add_op`. -/
theorem add_op_rel (env : Env) (R) (hR : Closed env R) :
    ∀ (n : Nat) (bpp : CODEGEN_PAD) (o : OP) (m : Bool) (f : Nat) (r : CODEGEN_PAD × Bool),
      add_op env n bpp o m f = .ok r → R bpp r.1 := by
  intro n
  induction n with
  | zero => intro bpp o m f r h; cases h
  | succ n ih =>
    intro bpp o m f r h
    exact add_op_body_rel env R hR (add_op env n) ih bpp o m f r h

theorem append_idx (env : Env) (b : CODEGEN_PAD) (o t a1 a2) :
    (append_instruction_x env b o t a1 a2).idx = b.idx + 1 := by
  unfold append_instruction_x
  dsimp only
  split <;> rfl

theorem append_lists (env : Env) (b : CODEGEN_PAD) (o t a1 a2) :
    (append_instruction_x env b o t a1 a2).op_instrpp_list = b.op_instrpp_list ∧
    (append_instruction_x env b o t a1 a2).branch_point_to_pparg_list =
      b.branch_point_to_pparg_list ∧
    (append_instruction_x env b o t a1 a2).codeseq.xcodeseq_svs = b.codeseq.xcodeseq_svs := by
  unfold append_instruction_x
  dsimp only
  split <;> exact ⟨rfl, rfl, rfl⟩

theorem append_size_le (env : Env) (b : CODEGEN_PAD) (o t a1 a2) :
    b.codeseq.xcodeseq_size ≤ (append_instruction_x env b o t a1 a2).codeseq.xcodeseq_size := by
  unfold append_instruction_x
  dsimp only
  split
  · exact Nat.le_add_right _ _
  · exact Nat.le_refl _

theorem append_pad_ok (env : Env) (b : CODEGEN_PAD) (o t a1 a2) (h : pad_ok b) :
    pad_ok (append_instruction_x env b o t a1 a2) := by
  obtain ⟨h1, h2⟩ := h
  unfold append_instruction_x pad_ok
  dsimp only
  split
  · dsimp only
    simp only [List.length_append, List.length_set, List.length_replicate]
    omega
  · dsimp only
    simp only [List.length_set]
    omega

/-- The instruction `append_instruction_x` writes can be read back at the old
`idx`, in a pad that satisfies the invariant. -/
theorem append_get_new (env : Env) (b : CODEGEN_PAD) (o t a1 a2) (h : pad_ok b) :
    (append_instruction_x env b o t a1 a2).codeseq.xcodeseq_instructions.get? b.idx =
      some { instr_ppaddr := some t, instr_op := o, instr_arg1 := a1, instr_arg2 := a2 } := by
  obtain ⟨h1, h2⟩ := h
  have hlt : b.idx < b.codeseq.xcodeseq_instructions.length := by omega
  unfold append_instruction_x
  dsimp only
  split
  · simp only [List.get?_eq_getElem?]
    rw [List.getElem?_append_left (by simpa using hlt)]
    simp [hlt]
  · simp [hlt]

/-- `append_instruction_x` leaves every slot other than `idx` as it was. -/
theorem append_get_old (env : Env) (b : CODEGEN_PAD) (o t a1 a2) (i : Nat)
    (hi : i ≠ b.idx) (hlen : i < b.codeseq.xcodeseq_instructions.length) :
    (append_instruction_x env b o t a1 a2).codeseq.xcodeseq_instructions.get? i =
      b.codeseq.xcodeseq_instructions.get? i := by
  unfold append_instruction_x
  dsimp only
  split
  · simp only [List.get?_eq_getElem?]
    rw [List.getElem?_append_left (by simpa using hlen)]
    rw [List.getElem?_set_ne (Ne.symm hi)]
  · simp only [List.get?_eq_getElem?]
    rw [List.getElem?_set_ne (Ne.symm hi)]

theorem assign_svp_fields (b : CODEGEN_PAD) (p : SVPtr) (i : Nat) (v : SV) :
    (assign_svp b p i v).idx = b.idx ∧
    (assign_svp b p i v).codeseq.xcodeseq_size = b.codeseq.xcodeseq_size ∧
    (assign_svp b p i v).codeseq.xcodeseq_instructions.length =
      b.codeseq.xcodeseq_instructions.length := by
  unfold assign_svp
  split
  · exact ⟨rfl, rfl, rfl⟩
  · split <;> simp

theorem grows_closed (env : Env) : Closed env Grows where
  refl := fun b => ⟨Nat.le_refl _, id⟩
  trans := fun a b c h1 h2 => ⟨Nat.le_trans h1.1 h2.1, fun h => h2.2 (h1.2 h)⟩
  append := fun b o t a1 a2 => ⟨append_size_le env b o t a1 a2, append_pad_ok env b o t a1 a2⟩
  save_bp := fun b p => ⟨Nat.le_refl _, id⟩
  save_ft := fun b f t => ⟨Nat.le_refl _, id⟩
  dec := fun b v _ => ⟨Nat.le_refl _, fun h => ⟨Nat.lt_of_le_of_lt (Nat.sub_le _ _) h.1, h.2⟩⟩
  reset := fun a b h => ⟨h.1, fun ha => ⟨Nat.lt_of_lt_of_le ha.1 h.1, (h.2 ha).2⟩⟩
  undo_end := fun b interp call => by
    refine ⟨append_size_le env b _ _ _ _, fun h => ?_⟩
    have h1 := append_pad_ok env b .NULL .OP_INSTR_END .null .null h
    have h2 := append_idx env b .NULL .OP_INSTR_END .null .null
    refine ⟨?_, h1.2⟩
    show (append_instruction_x env b .NULL .OP_INSTR_END .null .null).idx - 1 <
      (append_instruction_x env b .NULL .OP_INSTR_END .null .null).codeseq.xcodeseq_size
    have := h1.1
    omega
  after_trial := fun b interp call => ⟨Nat.le_refl _, id⟩
  set_curcop := fun b o => ⟨Nat.le_refl _, id⟩
  log_writes := fun b ws => ⟨Nat.le_refl _, id⟩
  push_svs := fun b v => ⟨Nat.le_refl _, id⟩
  assign_svp := fun b p v0 v _ _ => by
    obtain ⟨h1, h2, h3⟩ := assign_svp_fields b p (b.idx - 1) v
    refine ⟨Nat.le_of_eq h2.symm, fun h => ⟨?_, ?_⟩⟩
    · rw [h1, h2]; exact h.1
    · rw [h3, h2]; exact h.2

/-- `add_op` keeps the pad invariant and never shrinks the buffer. -/
theorem add_op_grows (env : Env) (n : Nat) (bpp : CODEGEN_PAD) (o : OP) (m : Bool) (f : Nat)
    (r : CODEGEN_PAD × Bool) (h : add_op env n bpp o m f = .ok r) : Grows bpp r.1 :=
  add_op_rel env Grows (grows_closed env) n bpp o m f r h

theorem add_op_unfold (env : Env) (n : Nat) (bpp : CODEGEN_PAD) (d : OpData) (f s r : OP)
    (m : Bool) (fl : Nat) :
    add_op env (n + 1) bpp (.mk d f s r) m fl =
      (add_op_emit env (add_op env n) bpp (.mk d f s r) d fl >>= fun e =>
        add_op_fold env e.1 e.2.2 bpp.idx e.2.1 m) := by
  rfl

theorem logop_emit_eq (env : Env) (rec : AddOp) (bpp : CODEGEN_PAD) (o : OP) (d : OpData)
    (fl : Nat) (ht : d.op_type = .OP_AND ∨ d.op_type = .OP_OR ∨ d.op_type = .OP_DOR) :
    add_op_emit env rec bpp o d fl =
      (add_op_logop env rec bpp o d).map fun p => (p.1, p.2, o) := by
  unfold add_op_emit
  rcases ht with h | h | h <;> simp only [h]

theorem fold_flag_control (env : Env) (t : Optype) (k : Bool)
    (ht : t = .OP_AND ∨ t = .OP_OR ∨ t = .OP_DOR ∨ t = .OP_COND_EXPR)
    (htab : hasBit (env.PL_opargs t) OA_FOLDCONST = false) : fold_flag env t k = false := by
  rcases ht with h | h | h | h <;> subst h <;> simp [fold_flag, htab]

/-- Claim C3. An `OP_AND`, `OP_OR` or `OP_DOR` node whose left operand leaves the fold
flag false: `add_op` translates the left operand, appends one instruction for
the connective (selector the node's kind, source the node), translates the
right operand after it, and records one pointer fixup for the node's
`op_other_instr`, at the index that follows the right operand. Nothing else is
emitted or recorded. The connective is assumed not to be declared
fold-eligible in `PL_opargs`, as in Perl's opcode table. -/
theorem logop_left_not_folded (env : Env) (n : Nat) (bpp b1 b2 : CODEGEN_PAD)
    (d ld : OpData) (lf right lr s r : OP) (k2 m : Bool) (fl : Nat)
    (ht : d.op_type = .OP_AND ∨ d.op_type = .OP_OR ∨ d.op_type = .OP_DOR)
    (htab : hasBit (env.PL_opargs d.op_type) OA_FOLDCONST = false)
    (hok : pad_ok bpp)
    (hleft : add_op env n bpp (.mk ld lf right lr) true
      (if d.op_flags &&& OPf_WANT == OPf_WANT_VOID then ADDOPf_BOOLEANCONTEXT else 0)
        = .ok (b1, false))
    (hright : add_op env n
      (append_instruction env b1 (.mk d (.mk ld lf right lr) s r) d.op_type) right true 0
        = .ok (b2, k2)) :
    add_op env (n + 1) bpp (.mk d (.mk ld lf right lr) s r) m fl
        = .ok (save_branch_point b2 (slot d .op_other_instr), false) ∧
    (append_instruction env b1 (.mk d (.mk ld lf right lr) s r) d.op_type
        ).codeseq.xcodeseq_instructions.get? b1.idx
        = some { instr_ppaddr := some d.op_type, instr_op := .mk d (.mk ld lf right lr) s r,
                 instr_arg1 := .null, instr_arg2 := .null } ∧
    (save_branch_point b2 (slot d .op_other_instr)).op_instrpp_list
        = b2.op_instrpp_list ++
          [{ instrpp := some { node := d.addr, field := .op_other_instr }, instr_idx := b2.idx }] ∧
    (save_branch_point b2 (slot d .op_other_instr)).branch_point_to_pparg_list
        = b2.branch_point_to_pparg_list ∧
    (save_branch_point b2 (slot d .op_other_instr)).idx = b2.idx := by
  have hok1 : pad_ok b1 := (add_op_grows env n _ _ _ _ _ hleft).2 hok
  refine ⟨?_, append_get_new env b1 _ _ _ _ hok1, rfl, rfl, rfl⟩
  have hff : fold_flag env d.op_type k2 = false :=
    fold_flag_control env d.op_type k2 (by tauto) htab
  rw [add_op_unfold, logop_emit_eq env _ _ _ _ _ ht]
  simp only [add_op_logop, OP.first, OP.sibling, bind, Except.bind, hleft, hright, Except.map,
    add_op_fold, OP.type, OP.data, pure, Except.pure]
  simp [hff]

theorem cond_expr_emit_eq (env : Env) (rec : AddOp) (bpp : CODEGEN_PAD) (o : OP) (d : OpData)
    (fl : Nat) (ht : d.op_type = .OP_COND_EXPR) :
    add_op_emit env rec bpp o d fl =
      (add_op_cond_expr env rec bpp o d).map fun p => (p.1, p.2, o) := by
  unfold add_op_emit
  simp only [ht]

/-- Claim C2. An `OP_AND`, `OP_OR` or `OP_DOR` node whose left operand leaves the fold
flag true, `c` being the constant carried by the last instruction: the right
operand is translated exactly when `cond_true` holds, that is for `AND` with
`c` true, `OR` with `c` false and `DOR` with `c` undefined. In that case the
constant's instruction is dropped (`idx` goes back by one) and the result of
`add_op` is the translation of the right operand from there; otherwise the
result is the pad the left operand left. In both cases no instruction is
appended and no fixup is recorded for the node itself. The connective is
assumed not to be declared fold-eligible in `PL_opargs`, as in Perl's opcode
table. -/
theorem logop_left_constant (env : Env) (n : Nat) (bpp b1 : CODEGEN_PAD)
    (d ld : OpData) (lf right lr s r : OP) (c : SV) (m : Bool) (fl : Nat)
    (ht : d.op_type = .OP_AND ∨ d.op_type = .OP_OR ∨ d.op_type = .OP_DOR)
    (htab : hasBit (env.PL_opargs d.op_type) OA_FOLDCONST = false)
    (hleft : add_op env n bpp (.mk ld lf right lr) true
      (if d.op_flags &&& OPf_WANT == OPf_WANT_VOID then ADDOPf_BOOLEANCONTEXT else 0)
        = .ok (b1, true))
    (hc : last_const b1 = .ok c) :
    (logop_cond_true d.op_type c = true ↔
      (d.op_type = .OP_AND ∧ SvTRUE c = true) ∨ (d.op_type = .OP_OR ∧ SvTRUE c = false) ∨
      (d.op_type = .OP_DOR ∧ SvOK c = false)) ∧
    (logop_cond_true d.op_type c = true →
      ∀ (b2 : CODEGEN_PAD) (k2 : Bool),
        add_op env n (b1.set_idx (b1.idx - 1)) right true 0 = .ok (b2, k2) →
        add_op env (n + 1) bpp (.mk d (.mk ld lf right lr) s r) m fl = .ok (b2, false)) ∧
    (logop_cond_true d.op_type c = false →
      add_op env (n + 1) bpp (.mk d (.mk ld lf right lr) s r) m fl = .ok (b1, false)) := by
  have hff : ∀ k, fold_flag env d.op_type k = false := fun k =>
    fold_flag_control env d.op_type k (by tauto) htab
  refine ⟨?_, ?_, ?_⟩
  · unfold logop_cond_true
    rcases ht with h | h | h <;> simp [h]
  · intro hct b2 k2 hright
    rw [add_op_unfold, logop_emit_eq env _ _ _ _ _ ht]
    simp only [add_op_logop, OP.first, OP.sibling, bind, Except.bind, hleft, hc, hct, hright,
      Except.map, add_op_fold, OP.type, OP.data, pure, Except.pure]
    simp [hff]
  · intro hct
    rw [add_op_unfold, logop_emit_eq env _ _ _ _ _ ht]
    simp only [add_op_logop, OP.first, OP.sibling, bind, Except.bind, hleft, hc, hct,
      Except.map, add_op_fold, OP.type, OP.data, pure, Except.pure]
    simp [hff]

/-- Claim C9. An `OP_COND_EXPR` node whose condition leaves the fold flag true, `c`
being the constant carried by the last instruction: the constant's instruction
is dropped (`idx` goes back by one) and the result of `add_op` is the
translation, from there, of the true branch when `c` is true and of the false
branch otherwise. No `cond_expr` instruction, no jump and no fixup is produced
for the node, and the other branch is not translated. `OP_COND_EXPR` is assumed
not to be declared fold-eligible in `PL_opargs`, as in Perl's opcode table. -/
theorem cond_expr_constant (env : Env) (n : Nat) (bpp b1 b2 : CODEGEN_PAD)
    (d cd td : OpData) (cf cr tf op_false tr s r : OP) (c : SV) (k2 m : Bool) (fl : Nat)
    (ht : d.op_type = .OP_COND_EXPR)
    (htab : hasBit (env.PL_opargs d.op_type) OA_FOLDCONST = false)
    (hcond : add_op env n bpp (.mk cd cf (.mk td tf op_false tr) cr) true 0 = .ok (b1, true))
    (hc : last_const b1 = .ok c)
    (hbranch : add_op env n (b1.set_idx (b1.idx - 1))
      (if SvTRUE c then .mk td tf op_false tr else op_false) true 0 = .ok (b2, k2)) :
    add_op env (n + 1) bpp (.mk d (.mk cd cf (.mk td tf op_false tr) cr) s r) m fl
      = .ok (b2, false) := by
  have hff : ∀ k, fold_flag env d.op_type k = false := fun k =>
    fold_flag_control env d.op_type k (by tauto) htab
  rw [add_op_unfold, cond_expr_emit_eq env _ _ _ _ _ ht]
  simp only [add_op_cond_expr, OP.first, OP.sibling, bind, Except.bind, hcond, hc, hbranch,
    Except.map, add_op_fold, OP.type, OP.data, pure, Except.pure]
  simp [hff]

/-- Claim C10. An `OP_COND_EXPR` node whose condition leaves the fold flag false:
`add_op` translates the condition, appends one `cond_expr` instruction (source
the node), translates the true branch, appends one `INSTR_JUMP`, records the
pointer fixup of `op_other_instr` at the index that follows the jump (where the
false branch starts), translates the false branch, and records the branch fixup
from the jump to the index that follows the false branch. In a pad that
satisfies the invariant the jump sits at the index the true branch ended at.
`OP_COND_EXPR` is assumed not to be declared fold-eligible in `PL_opargs`. -/
theorem cond_expr_not_folded (env : Env) (n : Nat) (bpp b1 b2 b3 : CODEGEN_PAD)
    (d cd td : OpData) (cf cr tf op_false tr s r : OP) (k2 k3 m : Bool) (fl : Nat)
    (ht : d.op_type = .OP_COND_EXPR)
    (htab : hasBit (env.PL_opargs d.op_type) OA_FOLDCONST = false)
    (hok : pad_ok bpp)
    (hcond : add_op env n bpp (.mk cd cf (.mk td tf op_false tr) cr) true 0 = .ok (b1, false))
    (htrue : add_op env n
      (append_instruction env b1 (.mk d (.mk cd cf (.mk td tf op_false tr) cr) s r) d.op_type)
      (.mk td tf op_false tr) true 0 = .ok (b2, k2))
    (hfalse : add_op env n
      (save_branch_point (append_instruction_x env b2 .NULL .OP_INSTR_JUMP .null .null)
        (slot d .op_other_instr)) op_false k2 0 = .ok (b3, k3)) :
    add_op env (n + 1) bpp (.mk d (.mk cd cf (.mk td tf op_false tr) cr) s r) m fl
      = .ok (save_instr_from_to_pparg b3 b2.idx b3.idx, false) ∧
    (append_instruction_x env b2 .NULL .OP_INSTR_JUMP .null .null).codeseq.xcodeseq_instructions.get?
        b2.idx
      = some { instr_ppaddr := some .OP_INSTR_JUMP, instr_op := .NULL,
               instr_arg1 := .null, instr_arg2 := .null } ∧
    (save_branch_point (append_instruction_x env b2 .NULL .OP_INSTR_JUMP .null .null)
        (slot d .op_other_instr)).op_instrpp_list
      = b2.op_instrpp_list ++
        [{ instrpp := some { node := d.addr, field := .op_other_instr },
           instr_idx := b2.idx + 1 }] ∧
    (save_instr_from_to_pparg b3 b2.idx b3.idx).branch_point_to_pparg_list
      = b3.branch_point_to_pparg_list ++
        [{ instr_from_index := b2.idx, instr_to_index := b3.idx }] ∧
    (save_instr_from_to_pparg b3 b2.idx b3.idx).idx = b3.idx := by
  have hff : ∀ k, fold_flag env d.op_type k = false := fun k =>
    fold_flag_control env d.op_type k (by tauto) htab
  have hok1 : pad_ok b1 := (add_op_grows env n _ _ _ _ _ hcond).2 hok
  have hok1' : pad_ok (append_instruction env b1
      (.mk d (.mk cd cf (.mk td tf op_false tr) cr) s r) d.op_type) :=
    append_pad_ok env b1 _ _ _ _ hok1
  have hok2 : pad_ok b2 := (add_op_grows env n _ _ _ _ _ htrue).2 hok1'
  refine ⟨?_, append_get_new env b2 _ _ _ _ hok2, ?_, rfl, rfl⟩
  · rw [add_op_unfold, cond_expr_emit_eq env _ _ _ _ _ ht]
    simp only [add_op_cond_expr, OP.first, OP.sibling, bind, Except.bind, hcond, htrue, hfalse,
      Except.map, add_op_fold, OP.type, OP.data, pure, Except.pure]
    simp [hff]
  · simp only [save_branch_point, slot, (append_lists env b2 _ _ _ _).1, append_idx]

/-- Claim C4. A node whose kind has no `case` of its own in the first `switch` of
`add_op`: before any attempt to fold, `add_op` appends a `pushmark` instruction
exactly when the kind's `OA_MARK` bit is set, then translates the children in
sibling order (none when `OPf_KIDS` is not set), then appends one instruction
for the node: selector the node's kind, source the node, both arguments
null. -/
theorem default_translation (env : Env) (rec : AddOp) (bpp : CODEGEN_PAD) (d : OpData)
    (f s r : OP) (fl : Nat) (ht : has_template d.op_type = false) :
    add_op_emit env rec bpp (.mk d f s r) d fl =
      (add_chain rec (if hasBit d.op_flags OPf_KIDS then f.chain else [])
          (if hasBit (env.PL_opargs d.op_type) OA_MARK
            then append_instruction_x env bpp .NULL .OP_PUSHMARK .null .null else bpp) true
        >>= fun kids =>
          .ok (append_instruction_x env kids.1 (.mk d f s r) d.op_type .null .null,
               kids.2, .mk d f s r)) := by
  have hemit : add_op_emit env rec bpp (.mk d f s r) d fl =
      (add_op_default env rec bpp (.mk d f s r) d).map fun p => (p.1, p.2, .mk d f s r) := by
    unfold add_op_emit
    generalize d.op_type = t at ht
    cases t <;> first | rfl | (simp [has_template] at ht)
  rw [hemit]
  unfold add_op_default add_kids append_instruction
  by_cases hk : hasBit d.op_flags OPf_KIDS = true
  · simp only [hk, if_true, OP.data, OP.first, bind, Except.bind, Except.map, add_chain]
    generalize add_chain rec f.chain _ true = x
    cases x <;> rfl
  · simp only [hk, OP.data, OP.first, bind, Except.bind, Except.map, add_chain]
    rfl

theorem add_op_emit_grows (env : Env) (n : Nat) (bpp : CODEGEN_PAD) (o : OP) (d : OpData)
    (fl : Nat) (e : CODEGEN_PAD × Bool × OP)
    (h : add_op_emit env (add_op env n) bpp o d fl = .ok e) : Grows bpp e.1 :=
  (add_op_emit_rel env Grows (grows_closed env) (add_op env n)
    (add_op_rel env Grows (grows_closed env) n) bpp o d fl).out e h

theorem fold_trial_eq (env : Env) (b : CODEGEN_PAD) (start : Nat) (o : OP) (list : Bool)
    (t : Option SV × CODEGEN_PAD) (h : fold_trial env b start o list = .ok t) :
    ∃ interp call, t.2 =
      (append_instruction_x env b .NULL .OP_INSTR_END .null .null).after_trial interp call := by
  unfold fold_trial at h
  simp only [bind_ok_iff] at h
  obtain ⟨d, -, x, -, h⟩ := h
  cases h
  exact ⟨_, _, rfl⟩

theorem fold_flag_eligible (env : Env) (t : Optype)
    (hfc : hasBit (env.PL_opargs t) OA_FOLDCONST = true)
    (hloc : ¬(locale_sensitive t = true ∧ hasBit env.PL_hints HINT_LOCALE = true)) :
    fold_flag env t true = true := by
  unfold fold_flag
  cases t <;> simp_all [locale_sensitive]

/-- Claim C1. A node whose kind is fold-eligible (declared `OA_FOLDCONST`, and not one
of the locale-sensitive kinds while the locale hint is active), for which the
first `switch` of `add_op` left `kid_may_constant_fold` true and more than one
instruction in the pad, and for which the scalar-mode trial of the emitted
range returns the value `v`: `add_op` returns with `idx` one past the node's
start index, with the single instruction `INSTR_CONST` (null source node,
`instr_arg1` the value `v`, now read-only, null `instr_arg2`) at the start
index, with `v` added to the values owned by the sequence, and with the
caller's fold flag unchanged. -/
theorem fold_replaces_range (env : Env) (n : Nat) (bpp b1 bt : CODEGEN_PAD)
    (d : OpData) (f s r o1 : OP) (t : Optype) (v : SV) (m : Bool) (fl : Nat)
    (hok : pad_ok bpp)
    (hemit : add_op_emit env (add_op env n) bpp (.mk d f s r) d fl = .ok (b1, true, o1))
    (htype : o1.type = .ok t)
    (hfc : hasBit (env.PL_opargs t) OA_FOLDCONST = true)
    (hloc : ¬(locale_sensitive t = true ∧ hasBit env.PL_hints HINT_LOCALE = true))
    (hmore : bpp.idx + 1 < b1.idx)
    (htrial : fold_trial env b1 bpp.idx o1 false = .ok (some v, bt)) :
    ∃ b2 : CODEGEN_PAD,
      add_op env (n + 1) bpp (.mk d f s r) m fl = .ok (b2, m) ∧
      b2.idx = bpp.idx + 1 ∧
      b2.codeseq.xcodeseq_instructions.get? bpp.idx =
        some { instr_ppaddr := some .OP_INSTR_CONST, instr_op := .NULL,
               instr_arg1 := .sv (SvREADONLY_on v), instr_arg2 := .null } ∧
      b2.codeseq.xcodeseq_svs = b1.codeseq.xcodeseq_svs ++ [SvREADONLY_on v] ∧
      b2.op_instrpp_list = b1.op_instrpp_list ∧
      b2.branch_point_to_pparg_list = b1.branch_point_to_pparg_list := by
  have hff := fold_flag_eligible env t hfc hloc
  have hg1 : Grows bpp b1 := add_op_emit_grows env n _ _ _ _ _ hemit
  obtain ⟨interp, call, hbt⟩ := fold_trial_eq env b1 bpp.idx o1 false _ htrial
  replace hbt : bt = (append_instruction_x env b1 .NULL .OP_INSTR_END .null .null).after_trial
      interp call := hbt
  have hokE : pad_ok (append_instruction_x env b1 .NULL .OP_INSTR_END .null .null) :=
    append_pad_ok env b1 _ _ _ _ (hg1.2 hok)
  have hsz : bpp.codeseq.xcodeseq_size ≤
      (append_instruction_x env b1 .NULL .OP_INSTR_END .null .null).codeseq.xcodeseq_size :=
    Nat.le_trans hg1.1 (append_size_le env b1 _ _ _ _)
  have hokR : pad_ok (bt.set_idx bpp.idx) := by
    rw [hbt]
    exact ⟨Nat.lt_of_lt_of_le hok.1 hsz, hokE.2⟩
  have hlists := append_lists env b1 .NULL .OP_INSTR_END .null .null
  have hlists2 := append_lists env (bt.set_idx bpp.idx) .NULL .OP_INSTR_CONST
    (.sv (SvREADONLY_on v)) .null
  refine ⟨push_svs (append_instruction_x env (bt.set_idx bpp.idx) .NULL .OP_INSTR_CONST
      (.sv (SvREADONLY_on v)) .null) (SvREADONLY_on v), ?_, ?_, ?_, ?_, ?_, ?_⟩
  · rw [add_op_unfold]
    simp only [hemit, bind, Except.bind, add_op_fold, htype, hff, htrial]
    simp [hmore]
  · show (append_instruction_x env (bt.set_idx bpp.idx) _ _ _ _).idx = _
    rw [append_idx]; rfl
  · exact append_get_new env (bt.set_idx bpp.idx) _ _ _ _ hokR
  · show (append_instruction_x env (bt.set_idx bpp.idx) _ _ _ _).codeseq.xcodeseq_svs ++ _ = _
    rw [hlists2.2.2, hbt]
    show (append_instruction_x env b1 _ _ _ _).codeseq.xcodeseq_svs ++ _ = _
    rw [hlists.2.2]
  · show (append_instruction_x env (bt.set_idx bpp.idx) _ _ _ _).op_instrpp_list = _
    rw [hlists2.1, hbt]
    exact hlists.1
  · show (append_instruction_x env (bt.set_idx bpp.idx) _ _ _ _).branch_point_to_pparg_list = _
    rw [hlists2.2.1, hbt]
    exact hlists.2.1

theorem write_instrpp_other (store : SlotStore) (e : OP_INSTRPP) (p : Slot)
    (h : e.instrpp ≠ some p) : write_instrpp store e p = store p := by
  unfold write_instrpp
  cases hq : e.instrpp with
  | none => rfl
  | some q =>
    have : p ≠ q := fun hpq => h (by rw [hq, hpq])
    simp [this]

theorem resolve_instrpp_other (l : List OP_INSTRPP) :
    ∀ (store : SlotStore) (p : Slot), (∀ e ∈ l, e.instrpp ≠ some p) →
      resolve_instrpp store l p = store p := by
  induction l with
  | nil => intro store p _; rfl
  | cons e l ih =>
    intro store p h
    show resolve_instrpp (write_instrpp store e) l p = store p
    rw [ih _ _ (fun e' he' => h e' (List.mem_cons_of_mem _ he'))]
    exact write_instrpp_other store e p (h e (List.mem_cons_self _ _))

theorem resolve_instrpp_last (store : SlotStore) (l1 l2 : List OP_INSTRPP) (e : OP_INSTRPP)
    (p : Slot) (he : e.instrpp = some p) (hl2 : ∀ e' ∈ l2, e'.instrpp ≠ some p) :
    resolve_instrpp store (l1 ++ e :: l2) p = some e.instr_idx := by
  unfold resolve_instrpp
  rw [List.foldl_append, List.foldl_cons]
  show resolve_instrpp (write_instrpp (List.foldl write_instrpp store l1) e) l2 p = _
  rw [resolve_instrpp_other l2 _ p hl2]
  unfold write_instrpp
  simp [he]

theorem compile_op_eq (env : Env) (fuel : Nat) (interp : INTERP) (curcop : OP)
    (slots : SlotStore) (startop : OP) (codeseq : CODESEQ) (b : CODEGEN_PAD) (k : Bool)
    (hadd : add_op env fuel (new_pad env interp curcop) startop true 0 = .ok (b, k)) :
    compile_op env fuel interp curcop slots startop codeseq
      = .ok (finish_compile env b codeseq slots) := by
  unfold compile_op
  simp only [hadd, bind, Except.bind]

/-- What the pointer loop of `compile_op` writes: a slot `p` recorded by a
pointer fixup receives the index stored with its last recording, the value
`idx` had then (`save_branch_point` stores `bpp->idx`). Nothing is said here
about that index being an index of the final array. -/
theorem pointer_fixups_resolved (env : Env) (fuel : Nat) (interp : INTERP) (curcop : OP)
    (slots : SlotStore) (startop : OP) (codeseq : CODESEQ) (b : CODEGEN_PAD) (k : Bool)
    (l1 l2 : List OP_INSTRPP) (e : OP_INSTRPP) (p : Slot)
    (hadd : add_op env fuel (new_pad env interp curcop) startop true 0 = .ok (b, k))
    (hl : b.op_instrpp_list = l1 ++ e :: l2)
    (he : e.instrpp = some p)
    (hlast : ∀ e' ∈ l2, e'.instrpp ≠ some p) :
    ∃ c : Compiled,
      compile_op env fuel interp curcop slots startop codeseq = .ok c ∧
      c.slots p = some e.instr_idx ∧
      (∀ (bpp : CODEGEN_PAD) (q : Option Slot),
        (save_branch_point bpp q).op_instrpp_list =
          bpp.op_instrpp_list ++ [{ instrpp := q, instr_idx := bpp.idx }]) := by
  refine ⟨_, compile_op_eq env fuel interp curcop slots startop codeseq b k hadd, ?_,
    fun _ _ => rfl⟩
  show resolve_instrpp slots
    (append_instruction_x env b .NULL .OP_INSTR_END .null .null).op_instrpp_list p = _
  rw [(append_lists env b _ _ _ _).1, hl]
  exact resolve_instrpp_last slots l1 l2 e p he hlast

theorem set_arg1_instr_length (instrs : List INSTRUCTION) (e : BRANCH_POINT_TO_PPARG) :
    (set_arg1_instr instrs e).length = instrs.length := by
  unfold set_arg1_instr
  split <;> simp

theorem resolve_branch_points_length (l : List BRANCH_POINT_TO_PPARG) :
    ∀ instrs : List INSTRUCTION, (resolve_branch_points instrs l).length = instrs.length := by
  induction l with
  | nil => intro instrs; rfl
  | cons e l ih =>
    intro instrs
    show (resolve_branch_points (set_arg1_instr instrs e) l).length = _
    rw [ih, set_arg1_instr_length]

theorem set_arg1_instr_get (instrs : List INSTRUCTION) (e : BRANCH_POINT_TO_PPARG) (i : Nat) :
    (set_arg1_instr instrs e).get? i =
      (instrs.get? i).map fun x =>
        if e.instr_from_index = i then { x with instr_arg1 := .instr e.instr_to_index } else x := by
  unfold set_arg1_instr
  simp only [List.get?_eq_getElem?]
  by_cases h : e.instr_from_index = i
  · subst h
    cases hx : instrs[e.instr_from_index]? with
    | none => simp [hx]
    | some x =>
      have hlt : e.instr_from_index < instrs.length := by
        rcases Nat.lt_or_ge e.instr_from_index instrs.length with h | h
        · exact h
        · rw [List.getElem?_eq_none h] at hx; cases hx
      simp [hx, hlt]
  · cases hx : instrs[e.instr_from_index]? with
    | none => simp [h]
    | some x => simp [h, List.getElem?_set_ne h]

/-- The element `i` after the branch fixups `l` have been resolved: the fields
other than `instr_arg1` are those of the element before, and `instr_arg1` is
the one before unless a fixup names `i` as its `from`. -/
theorem resolve_branch_points_frame (l : List BRANCH_POINT_TO_PPARG) :
    ∀ (instrs : List INSTRUCTION) (i : Nat) (y : INSTRUCTION), instrs.get? i = some y →
      ∃ x, (resolve_branch_points instrs l).get? i = some x ∧
        x.instr_ppaddr = y.instr_ppaddr ∧ x.instr_op = y.instr_op ∧
        x.instr_arg2 = y.instr_arg2 ∧
        ((∀ e ∈ l, e.instr_from_index ≠ i) → x.instr_arg1 = y.instr_arg1) := by
  induction l with
  | nil => intro instrs i y h; exact ⟨y, h, rfl, rfl, rfl, fun _ => rfl⟩
  | cons e l ih =>
    intro instrs i y h
    have h1 := set_arg1_instr_get instrs e i
    rw [h] at h1
    obtain ⟨x, hx, hp, ho, ha2, ha1⟩ := ih (set_arg1_instr instrs e) i _ h1
    refine ⟨x, hx, ?_, ?_, ?_, ?_⟩
    · rw [hp]; split <;> rfl
    · rw [ho]; split <;> rfl
    · rw [ha2]; split <;> rfl
    · intro hall
      rw [ha1 (fun e' he' => hall e' (List.mem_cons_of_mem _ he'))]
      have hne : e.instr_from_index ≠ i := hall e (List.mem_cons_self _ _)
      simp [hne]

/-- The fixup recorded last for an index inside the array decides the
`instr_arg1` of that element. -/
theorem resolve_branch_points_last (l1 l2 : List BRANCH_POINT_TO_PPARG)
    (e : BRANCH_POINT_TO_PPARG) (instrs : List INSTRUCTION)
    (hl2 : ∀ e' ∈ l2, e'.instr_from_index ≠ e.instr_from_index)
    (hin : e.instr_from_index < instrs.length) :
    ∃ x, (resolve_branch_points instrs (l1 ++ e :: l2)).get? e.instr_from_index = some x ∧
      x.instr_arg1 = .instr e.instr_to_index := by
  unfold resolve_branch_points
  rw [List.foldl_append, List.foldl_cons]
  have hlen : (List.foldl set_arg1_instr instrs l1).length = instrs.length :=
    resolve_branch_points_length l1 instrs
  obtain ⟨y, hy⟩ : ∃ y, (List.foldl set_arg1_instr instrs l1).get? e.instr_from_index = some y := by
    rw [List.get?_eq_getElem?, List.getElem?_eq_getElem (by omega)]
    exact ⟨_, rfl⟩
  have h1 := set_arg1_instr_get (List.foldl set_arg1_instr instrs l1) e e.instr_from_index
  rw [hy] at h1
  simp only [Option.map_some', if_true] at h1
  obtain ⟨x, hx, -, -, -, ha1⟩ := resolve_branch_points_frame l2 _ _ _ h1
  exact ⟨x, hx, ha1 hl2⟩

theorem new_pad_ok (env : Env) (interp : INTERP) (curcop : OP) :
    pad_ok (new_pad env interp curcop) := by
  unfold pad_ok new_pad
  simp

theorem set_ppaddr_null_length (instrs : List INSTRUCTION) (i : Nat) :
    (set_ppaddr_null instrs i).length = instrs.length := by
  unfold set_ppaddr_null
  split <;> simp

theorem set_ppaddr_null_get (instrs : List INSTRUCTION) (i j : Nat) :
    (set_ppaddr_null instrs i).get? j =
      (instrs.get? j).map fun x => if i = j then { x with instr_ppaddr := none } else x := by
  unfold set_ppaddr_null
  simp only [List.get?_eq_getElem?]
  by_cases h : i = j
  · subst h
    cases hx : instrs[i]? with
    | none => simp [hx]
    | some x =>
      have hlt : i < instrs.length := by
        rcases Nat.lt_or_ge i instrs.length with h | h
        · exact h
        · rw [List.getElem?_eq_none h] at hx; cases hx
      simp [hx, hlt]
  · cases hx : instrs[i]? with
    | none => simp [h]
    | some x => simp [h, List.getElem?_set_ne h]

/-- The array `finish_compile` builds, element by element, against the scratch
buffer `pad` it was copied from (the buffer after the closing `INSTR_END` was
appended): it has `idx + 1` elements; each agrees with the buffer on the source
node and on `instr_arg2`, on the selector except for the last element, whose
selector is null, and on `instr_arg1` unless a branch fixup names it. -/
theorem finish_compile_frame (env : Env) (b : CODEGEN_PAD) (codeseq : CODESEQ)
    (slots : SlotStore) (hok : pad_ok b) :
    (finish_compile env b codeseq slots).codeseq.xcodeseq_size = b.idx + 2 ∧
    (finish_compile env b codeseq slots).codeseq.xcodeseq_instructions.length = b.idx + 2 ∧
    (finish_compile env b codeseq slots).pad =
      append_instruction_x env b .NULL .OP_INSTR_END .null .null ∧
    ∀ i, i < b.idx + 2 →
      ∃ x y,
        (finish_compile env b codeseq slots).codeseq.xcodeseq_instructions.get? i = some x ∧
        (finish_compile env b codeseq slots).pad.codeseq.xcodeseq_instructions.get? i = some y ∧
        x.instr_op = y.instr_op ∧ x.instr_arg2 = y.instr_arg2 ∧
        (i ≠ b.idx + 1 → x.instr_ppaddr = y.instr_ppaddr) ∧
        (i = b.idx + 1 → x.instr_ppaddr = none) ∧
        ((∀ e ∈ b.branch_point_to_pparg_list, e.instr_from_index ≠ i) →
          x.instr_arg1 = y.instr_arg1) := by
  have hE := append_pad_ok env b .NULL .OP_INSTR_END .null .null hok
  have hidx := append_idx env b .NULL .OP_INSTR_END .null .null
  have hl := (append_lists env b .NULL .OP_INSTR_END .null .null).2.1
  obtain ⟨hE1, hE2⟩ := hE
  have htake : ((append_instruction_x env b .NULL .OP_INSTR_END .null .null
      ).codeseq.xcodeseq_instructions.take (b.idx + 2)).length = b.idx + 2 := by
    rw [List.length_take]; omega
  refine ⟨?_, ?_, rfl, ?_⟩
  · show (append_instruction_x env b .NULL .OP_INSTR_END .null .null).idx + 1 = _
    omega
  · show (resolve_branch_points (set_ppaddr_null (List.take _ _) _) _).length = _
    rw [resolve_branch_points_length, set_ppaddr_null_length, hidx]
    exact htake
  · intro i hi
    have hilen : i < (append_instruction_x env b .NULL .OP_INSTR_END .null .null
        ).codeseq.xcodeseq_instructions.length := by omega
    obtain ⟨y, hy⟩ : ∃ y, (append_instruction_x env b .NULL .OP_INSTR_END .null .null
        ).codeseq.xcodeseq_instructions.get? i = some y := by
      rw [List.get?_eq_getElem?, List.getElem?_eq_getElem hilen]
      exact ⟨_, rfl⟩
    have h0 : ((append_instruction_x env b .NULL .OP_INSTR_END .null .null
        ).codeseq.xcodeseq_instructions.take (b.idx + 2)).get? i = some y := by
      rw [List.get?_eq_getElem?, List.getElem?_take_of_lt hi, ← List.get?_eq_getElem?]
      exact hy
    have h1 := set_ppaddr_null_get ((append_instruction_x env b .NULL .OP_INSTR_END .null .null
        ).codeseq.xcodeseq_instructions.take (b.idx + 2)) (b.idx + 1) i
    rw [h0] at h1
    obtain ⟨x, hx, hp, ho, ha2, ha1⟩ :=
      resolve_branch_points_frame b.branch_point_to_pparg_list _ i _ h1
    refine ⟨x, y, ?_, hy, ?_, ?_, ?_, ?_, ?_⟩
    · show (resolve_branch_points (set_ppaddr_null (List.take _ _) _) _).get? i = _
      rw [hidx, hl]
      exact hx
    · rw [ho]; split <;> rfl
    · rw [ha2]; split <;> rfl
    · intro hne
      rw [hp]
      simp [Ne.symm hne]
    · intro heq
      rw [hp]
      simp [heq]
    · intro hall
      rw [ha1 hall]
      split <;> rfl

/-- What the branch loop of `compile_op` writes: for a pending branch fixup
`(from, to)` whose `from` is an index of the final array and is not named by a
fixup recorded later, `instr_arg1` of element `from` holds the index `to`
(nothing is said here about `to` being an index of the final array); and every
element agrees with the scratch buffer
on the source node and on `instr_arg2`, on the selector except for the last
element (whose selector `compile_op` sets to null), and on `instr_arg1` unless
a branch fixup names the element. -/
theorem branch_fixups_resolved (env : Env) (fuel : Nat) (interp : INTERP) (curcop : OP)
    (slots : SlotStore) (startop : OP) (codeseq : CODESEQ) (b : CODEGEN_PAD) (k : Bool)
    (hadd : add_op env fuel (new_pad env interp curcop) startop true 0 = .ok (b, k)) :
    ∃ c : Compiled,
      compile_op env fuel interp curcop slots startop codeseq = .ok c ∧
      c.pad.branch_point_to_pparg_list = b.branch_point_to_pparg_list ∧
      (∀ (l1 l2 : List BRANCH_POINT_TO_PPARG) (e : BRANCH_POINT_TO_PPARG),
        b.branch_point_to_pparg_list = l1 ++ e :: l2 →
        (∀ e' ∈ l2, e'.instr_from_index ≠ e.instr_from_index) →
        e.instr_from_index < c.codeseq.xcodeseq_instructions.length →
        ∃ x, c.codeseq.xcodeseq_instructions.get? e.instr_from_index = some x ∧
          x.instr_arg1 = .instr e.instr_to_index) ∧
      (∀ i, i < c.codeseq.xcodeseq_instructions.length →
        ∃ x y,
          c.codeseq.xcodeseq_instructions.get? i = some x ∧
          c.pad.codeseq.xcodeseq_instructions.get? i = some y ∧
          x.instr_op = y.instr_op ∧ x.instr_arg2 = y.instr_arg2 ∧
          (i + 1 ≠ c.codeseq.xcodeseq_instructions.length → x.instr_ppaddr = y.instr_ppaddr) ∧
          (i + 1 = c.codeseq.xcodeseq_instructions.length → x.instr_ppaddr = none) ∧
          ((∀ e ∈ b.branch_point_to_pparg_list, e.instr_from_index ≠ i) →
            x.instr_arg1 = y.instr_arg1)) := by
  have hok : pad_ok b := (add_op_grows env fuel _ _ _ _ _ hadd).2 (new_pad_ok env interp curcop)
  obtain ⟨-, hlen, hpad, hframe⟩ := finish_compile_frame env b codeseq slots hok
  have hl := (append_lists env b .NULL .OP_INSTR_END .null .null).2.1
  have hidx := append_idx env b .NULL .OP_INSTR_END .null .null
  refine ⟨_, compile_op_eq env fuel interp curcop slots startop codeseq b k hadd, ?_, ?_, ?_⟩
  · rw [hpad]; exact hl
  · intro l1 l2 e hlist hl2 hin
    rw [hlen] at hin
    show ∃ x, (resolve_branch_points (set_ppaddr_null (List.take _ _) _) _).get? _ = some x ∧ _
    rw [hl, hlist]
    apply resolve_branch_points_last l1 l2 e _ hl2
    rw [set_ppaddr_null_length, List.length_take, hidx]
    have := (append_pad_ok env b .NULL .OP_INSTR_END .null .null hok)
    obtain ⟨h1, h2⟩ := this
    omega
  · intro i hi
    rw [hlen] at hi
    obtain ⟨x, y, hx, hy, ho, ha2, hp1, hp2, ha1⟩ := hframe i hi
    refine ⟨x, y, hx, hy, ho, ha2, ?_, ?_, ha1⟩
    · intro hne; apply hp1; rw [hlen] at hne; omega
    · intro heq; apply hp2; rw [hlen] at heq; omega

/-- Claim C7, as amended. The code sequence `compile_op` produces has
`xcodeseq_size = n + 2` and `n + 2` elements, `n` being the value of `idx` left
by the translation of the root. Elements `0 .. n-1` are the instructions the
translation left in the buffer, in order, except that `instr_arg1` holds the
resolved target in the elements a branch fixup names; element `n` is the
`INSTR_END` instruction; element `n + 1`, the last, has a null selector. -/
theorem compiled_layout (env : Env) (fuel : Nat) (interp : INTERP) (curcop : OP)
    (slots : SlotStore) (startop : OP) (codeseq : CODESEQ) (b : CODEGEN_PAD) (k : Bool)
    (hadd : add_op env fuel (new_pad env interp curcop) startop true 0 = .ok (b, k)) :
    ∃ c : Compiled,
      compile_op env fuel interp curcop slots startop codeseq = .ok c ∧
      c.codeseq.xcodeseq_size = b.idx + 2 ∧
      c.codeseq.xcodeseq_instructions.length = b.idx + 2 ∧
      (∀ i, i < b.idx →
        ∃ x y,
          c.codeseq.xcodeseq_instructions.get? i = some x ∧
          b.codeseq.xcodeseq_instructions.get? i = some y ∧
          x.instr_ppaddr = y.instr_ppaddr ∧ x.instr_op = y.instr_op ∧
          x.instr_arg2 = y.instr_arg2 ∧
          ((∀ e ∈ b.branch_point_to_pparg_list, e.instr_from_index ≠ i) →
            x.instr_arg1 = y.instr_arg1)) ∧
      (∃ x, c.codeseq.xcodeseq_instructions.get? b.idx = some x ∧
        x.instr_ppaddr = some .OP_INSTR_END ∧ x.instr_op = .NULL ∧ x.instr_arg2 = .null) ∧
      (∃ x, c.codeseq.xcodeseq_instructions.get? (b.idx + 1) = some x ∧
        x.instr_ppaddr = none) := by
  have hok : pad_ok b := (add_op_grows env fuel _ _ _ _ _ hadd).2 (new_pad_ok env interp curcop)
  obtain ⟨hsize, hlen, hpad, hframe⟩ := finish_compile_frame env b codeseq slots hok
  refine ⟨_, compile_op_eq env fuel interp curcop slots startop codeseq b k hadd,
    hsize, hlen, ?_, ?_, ?_⟩
  · intro i hi
    obtain ⟨x, y, hx, hy, ho, ha2, hp1, -, ha1⟩ := hframe i (by omega)
    rw [hpad, append_get_old env b _ _ _ _ i (by omega) (by have := hok.1; have := hok.2; omega)]
      at hy
    exact ⟨x, y, hx, hy, hp1 (by omega), ho, ha2, ha1⟩
  · obtain ⟨x, y, hx, hy, ho, ha2, hp1, -, -⟩ := hframe b.idx (by omega)
    rw [hpad, append_get_new env b _ _ _ _ hok] at hy
    cases hy
    exact ⟨x, hx, hp1 (by omega), ho, ha2⟩
  · obtain ⟨x, y, hx, -, -, -, -, hp2, -⟩ := hframe (b.idx + 1) (by omega)
    exact ⟨x, hx, hp2 rfl⟩

/-- Witness of C1: the tree of `2 + 3 * 4` ends as the single instruction
`INSTR_CONST` carrying 14. -/
theorem fold_replaces_range_witness :
    ∃ b2 : CODEGEN_PAD,
      add_op demo_env 3 pad0 tree_2_plus_3_times_4 true 0 = .ok (b2, true) ∧
      b2.idx = pad0.idx + 1 ∧
      b2.codeseq.xcodeseq_instructions.get? pad0.idx =
        some { instr_ppaddr := some .OP_INSTR_CONST, instr_op := .NULL,
               instr_arg1 := .sv (SvREADONLY_on (.scalar { val := .iv 14, readonly := false })),
               instr_arg2 := .null } ∧
      b2.codeseq.xcodeseq_svs = add_emitted.codeseq.xcodeseq_svs ++
        [SvREADONLY_on (.scalar { val := .iv 14, readonly := false })] ∧
      b2.op_instrpp_list = add_emitted.op_instrpp_list ∧
      b2.branch_point_to_pparg_list = add_emitted.branch_point_to_pparg_list :=
  fold_replaces_range demo_env 2 pad0 add_emitted add_tried add_data add_kids_2_3_4 .NULL .NULL
    tree_2_plus_3_times_4 .OP_ADD (.scalar { val := .iv 14, readonly := false }) true 0
    (new_pad_ok _ _ _) (by decide) (by decide) (by decide) (by decide) (by decide) (by decide)

/-- Witness of C2: `AND(NOT(CONST(0)), PRINT("hi"))` yields the three
instructions of `print "hi"` and nothing else: no `and`, no `not`, no fixup. -/
theorem logop_left_constant_witness :
    add_op demo_env 4 pad0 tree_and_not_print true 0 = .ok (and_not_print_pad, false) ∧
    and_not_print_pad.idx = 3 ∧
    and_not_print_pad.codeseq.xcodeseq_instructions.take 3 =
      [{ instr_ppaddr := some .OP_PUSHMARK, instr_op := .NULL,
         instr_arg1 := .null, instr_arg2 := .null },
       { instr_ppaddr := some .OP_CONST, instr_op := const_op 23 (.pv "hi" false false) .NULL,
         instr_arg1 := .null, instr_arg2 := .null },
       { instr_ppaddr := some .OP_PRINT, instr_op := print_hi,
         instr_arg1 := .null, instr_arg2 := .null }] ∧
    and_not_print_pad.op_instrpp_list = [] ∧
    and_not_print_pad.branch_point_to_pparg_list = [] :=
  ⟨(logop_left_constant demo_env 3 pad0 not_folded_pad and_data not_data
      (const_op 25 (.iv 0) .NULL) print_hi .NULL .NULL .NULL
      (.scalar { val := .iv 1, readonly := true }) true 0
      (by decide) (by decide) (by decide) (by decide)).2.1 (by decide)
      and_not_print_pad false (by decide),
    by decide, by decide, by decide, by decide⟩

/-- Witness of C3: `AND(PADSV, PRINT("hi"))` keeps both operands, with the `and`
instruction between them and the fixup after `print`. -/
theorem logop_left_not_folded_witness :
    add_op demo_env 4 pad0 tree_and_padsv_print true 0
      = .ok (save_branch_point and_right_pad (slot and_data .op_other_instr), false) ∧
    (append_instruction demo_env and_left_pad tree_and_padsv_print .OP_AND
        ).codeseq.xcodeseq_instructions.get? 1
      = some { instr_ppaddr := some .OP_AND, instr_op := tree_and_padsv_print,
               instr_arg1 := .null, instr_arg2 := .null } ∧
    (save_branch_point and_right_pad (slot and_data .op_other_instr)).op_instrpp_list
      = [{ instrpp := some { node := 20, field := .op_other_instr }, instr_idx := 5 }] :=
  have h := logop_left_not_folded demo_env 3 pad0 and_left_pad and_right_pad and_data padsv_data
    .NULL print_hi .NULL .NULL .NULL false true 0
    (by decide) (by decide) (new_pad_ok _ _ _) (by decide) (by decide)
  ⟨h.1, h.2.1, by decide⟩

/-- Witness of C4: `print` has no template of its own; its translation is a
`pushmark`, its child, and the `print` instruction. -/
theorem default_translation_witness :
    has_template Optype.OP_PRINT = false ∧
    add_op_emit demo_env (add_op demo_env 1) pad0 print_hi print_data 0 =
      (add_chain (add_op demo_env 1)
          (if hasBit print_data.op_flags OPf_KIDS
            then (const_op 23 (.pv "hi" false false) .NULL).chain else [])
          (if hasBit (demo_env.PL_opargs print_data.op_type) OA_MARK
            then append_instruction_x demo_env pad0 .NULL .OP_PUSHMARK .null .null else pad0) true
        >>= fun kids =>
          .ok (append_instruction_x demo_env kids.1 print_hi print_data.op_type .null .null,
               kids.2, print_hi)) :=
  ⟨by decide,
   default_translation demo_env (add_op demo_env 1) pad0 print_data
    (const_op 23 (.pv "hi" false false) .NULL) .NULL .NULL 0 (by decide)⟩

/-- Witness of C9: `COND_EXPR(CONST 1, CONST 10, CONST 20)` yields the single
instruction of the true branch. -/
theorem cond_expr_constant_witness :
    add_op demo_env 3 pad0 tree_cond_const true 0 = .ok (cond_const_pad, false) ∧
    cond_const_pad.idx = 1 ∧
    cond_const_pad.codeseq.xcodeseq_instructions.take 1 =
      [{ instr_ppaddr := some .OP_CONST, instr_op := .mk ten_data .NULL twenty .NULL,
         instr_arg1 := .null, instr_arg2 := .null }] ∧
    cond_const_pad.op_instrpp_list = [] ∧
    cond_const_pad.branch_point_to_pparg_list = [] :=
  ⟨cond_expr_constant demo_env 2 pad0 cond_cond_pad cond_const_pad cond_data one_data ten_data
    .NULL .NULL .NULL twenty .NULL .NULL .NULL (.scalar { val := .iv 1, readonly := false })
    true true 0 (by decide) (by decide) (by decide) (by decide) (by decide),
   by decide, by decide, by decide, by decide⟩

/-- Witness of C10: `COND_EXPR(PADSV, CONST 10, CONST 20)` yields `padsv`,
`cond_expr`, the constant 10, a jump, the constant 20; the pointer fixup is at
index 4 and the branch fixup goes from 3 to 5. -/
theorem cond_expr_not_folded_witness :
    add_op demo_env 3 pad0 tree_cond_padsv true 0
      = .ok (save_instr_from_to_pparg cond_false_pad cond_true_pad.idx cond_false_pad.idx,
             false) ∧
    (save_instr_from_to_pparg cond_false_pad cond_true_pad.idx
        cond_false_pad.idx).branch_point_to_pparg_list
      = [{ instr_from_index := 3, instr_to_index := 5 }] ∧
    cond_false_pad.op_instrpp_list
      = [{ instrpp := some { node := 30, field := .op_other_instr }, instr_idx := 4 }] ∧
    (cond_false_pad.codeseq.xcodeseq_instructions.take 5).map (fun x => x.instr_ppaddr)
      = [some .OP_PADSV, some .OP_COND_EXPR, some .OP_CONST, some .OP_INSTR_JUMP,
         some .OP_CONST] :=
  have h := cond_expr_not_folded demo_env 2 pad0 cond_padsv_pad cond_true_pad cond_false_pad
    cond_data padsv_data ten_data .NULL .NULL .NULL twenty .NULL .NULL .NULL true true true 0
    (by decide) (by decide) (new_pad_ok _ _ _) (by decide) (by decide) (by decide)
  ⟨h.1, by decide, by decide, by decide⟩

/-- After `2 + 3 * 4` has been folded there is no branch fixup at all, and the
selector of the last element of the final array (null, set by `compile_op`) is
not the one the scratch buffer holds in that place (the stale `add` of the
folded range). -/
theorem last_selector_set_to_null :
    ∃ (c : Compiled) (x y : INSTRUCTION),
      compile_op demo_env 3 demo_interp .NULL no_slots tree_2_plus_3_times_4 empty_codeseq
        = .ok c ∧
      c.pad.branch_point_to_pparg_list = [] ∧
      c.codeseq.xcodeseq_instructions.get? 2 = some x ∧
      c.pad.codeseq.xcodeseq_instructions.get? 2 = some y ∧
      x.instr_ppaddr = none ∧ y.instr_ppaddr = some .OP_ADD ∧
      x.instr_ppaddr ≠ y.instr_ppaddr :=
  ⟨finish_compile demo_env add_done empty_codeseq no_slots,
   { instr_ppaddr := none, instr_op := tree_2_plus_3_times_4,
     instr_arg1 := .null, instr_arg2 := .null },
   { instr_ppaddr := some .OP_ADD, instr_op := tree_2_plus_3_times_4,
     instr_arg1 := .null, instr_arg2 := .null },
   compile_op_eq demo_env 3 demo_interp .NULL no_slots tree_2_plus_3_times_4 empty_codeseq
     add_done true (by decide),
   by decide, by decide, by decide, rfl, rfl, by decide⟩

/-- The branch loop on `COND_EXPR(PADSV, CONST 10, CONST 20)`, whose
translation records the branch fixup from 3 to 5. -/
theorem branch_fixups_resolved_cond_expr :
    add_op demo_env 3 (new_pad demo_env demo_interp .NULL) tree_cond_padsv true 0
      = .ok (cond_padsv_done, false) ∧
    cond_padsv_done.branch_point_to_pparg_list
      = [{ instr_from_index := 3, instr_to_index := 5 }] ∧
    ∃ c : Compiled,
      compile_op demo_env 3 demo_interp .NULL no_slots tree_cond_padsv empty_codeseq = .ok c ∧
      c.pad.branch_point_to_pparg_list = cond_padsv_done.branch_point_to_pparg_list ∧
      (∀ (l1 l2 : List BRANCH_POINT_TO_PPARG) (e : BRANCH_POINT_TO_PPARG),
        cond_padsv_done.branch_point_to_pparg_list = l1 ++ e :: l2 →
        (∀ e' ∈ l2, e'.instr_from_index ≠ e.instr_from_index) →
        e.instr_from_index < c.codeseq.xcodeseq_instructions.length →
        ∃ x, c.codeseq.xcodeseq_instructions.get? e.instr_from_index = some x ∧
          x.instr_arg1 = .instr e.instr_to_index) ∧
      (∀ i, i < c.codeseq.xcodeseq_instructions.length →
        ∃ x y,
          c.codeseq.xcodeseq_instructions.get? i = some x ∧
          c.pad.codeseq.xcodeseq_instructions.get? i = some y ∧
          x.instr_op = y.instr_op ∧ x.instr_arg2 = y.instr_arg2 ∧
          (i + 1 ≠ c.codeseq.xcodeseq_instructions.length → x.instr_ppaddr = y.instr_ppaddr) ∧
          (i + 1 = c.codeseq.xcodeseq_instructions.length → x.instr_ppaddr = none) ∧
          ((∀ e ∈ cond_padsv_done.branch_point_to_pparg_list, e.instr_from_index ≠ i) →
            x.instr_arg1 = y.instr_arg1)) :=
  ⟨by decide, by decide,
   branch_fixups_resolved demo_env 3 demo_interp .NULL no_slots tree_cond_padsv empty_codeseq
     cond_padsv_done false (by decide)⟩

/-- The `and` of `AND(PADSV, PRINT("hi"))` has its `op_other_instr` resolved to
element 5 of the final array. -/
theorem pointer_fixups_resolved_and :
    ∃ c : Compiled,
      compile_op demo_env 4 demo_interp .NULL no_slots tree_and_padsv_print empty_codeseq
        = .ok c ∧
      c.slots { node := 20, field := .op_other_instr } = some 5 ∧
      (∀ (bpp : CODEGEN_PAD) (q : Option Slot),
        (save_branch_point bpp q).op_instrpp_list =
          bpp.op_instrpp_list ++ [{ instrpp := q, instr_idx := bpp.idx }]) :=
  pointer_fixups_resolved demo_env 4 demo_interp .NULL no_slots tree_and_padsv_print
    empty_codeseq and_padsv_done false [] []
    { instrpp := some { node := 20, field := .op_other_instr }, instr_idx := 5 }
    { node := 20, field := .op_other_instr }
    (by decide) (by decide) rfl (by simp)

/-- Counterexample to C7 as stated: in `COND_EXPR(PADSV, CONST 10, CONST 20)` the
translation leaves five instructions, the jump at index 3 with a null
`instr_arg1`; element 3 of the code sequence carries the resolved target
instead, so it is not exactly the instruction the translation left. -/
theorem compiled_layout_counterexample :
    ∃ (c : Compiled) (x y : INSTRUCTION),
      add_op demo_env 3 (new_pad demo_env demo_interp .NULL) tree_cond_padsv true 0
        = .ok (cond_padsv_done, false) ∧
      compile_op demo_env 3 demo_interp .NULL no_slots tree_cond_padsv empty_codeseq = .ok c ∧
      cond_padsv_done.idx = 5 ∧
      c.codeseq.xcodeseq_instructions.get? 3 = some x ∧
      cond_padsv_done.codeseq.xcodeseq_instructions.get? 3 = some y ∧
      x.instr_arg1 = .instr 5 ∧ y.instr_arg1 = .null ∧ x ≠ y :=
  ⟨finish_compile demo_env cond_padsv_done empty_codeseq no_slots,
   { instr_ppaddr := some .OP_INSTR_JUMP, instr_op := .NULL,
     instr_arg1 := .instr 5, instr_arg2 := .null },
   { instr_ppaddr := some .OP_INSTR_JUMP, instr_op := .NULL,
     instr_arg1 := .null, instr_arg2 := .null },
   by decide,
   compile_op_eq demo_env 3 demo_interp .NULL no_slots tree_cond_padsv empty_codeseq
     cond_padsv_done false (by decide),
   by decide, by decide, by decide, rfl, rfl, by decide⟩

/-- Witness of C7 as amended, on `COND_EXPR(PADSV, CONST 10, CONST 20)`: five
instructions, so a code sequence of seven elements. -/
theorem compiled_layout_witness :
    add_op demo_env 3 (new_pad demo_env demo_interp .NULL) tree_cond_padsv true 0
      = .ok (cond_padsv_done, false) ∧
    cond_padsv_done.idx = 5 ∧
    ∃ c : Compiled,
      compile_op demo_env 3 demo_interp .NULL no_slots tree_cond_padsv empty_codeseq = .ok c ∧
      c.codeseq.xcodeseq_size = cond_padsv_done.idx + 2 ∧
      c.codeseq.xcodeseq_instructions.length = cond_padsv_done.idx + 2 ∧
      (∀ i, i < cond_padsv_done.idx →
        ∃ x y,
          c.codeseq.xcodeseq_instructions.get? i = some x ∧
          cond_padsv_done.codeseq.xcodeseq_instructions.get? i = some y ∧
          x.instr_ppaddr = y.instr_ppaddr ∧ x.instr_op = y.instr_op ∧
          x.instr_arg2 = y.instr_arg2 ∧
          ((∀ e ∈ cond_padsv_done.branch_point_to_pparg_list, e.instr_from_index ≠ i) →
            x.instr_arg1 = y.instr_arg1)) ∧
      (∃ x, c.codeseq.xcodeseq_instructions.get? cond_padsv_done.idx = some x ∧
        x.instr_ppaddr = some .OP_INSTR_END ∧ x.instr_op = .NULL ∧ x.instr_arg2 = .null) ∧
      (∃ x, c.codeseq.xcodeseq_instructions.get? (cond_padsv_done.idx + 1) = some x ∧
        x.instr_ppaddr = none) :=
  ⟨by decide, by decide,
   compiled_layout demo_env 3 demo_interp .NULL no_slots tree_cond_padsv empty_codeseq
     cond_padsv_done false (by decide)⟩

set_option maxHeartbeats 4000000 in
/-- Claim C8 fails on `tree_loop`: the code sequence has four elements
(`enterloop`, `leaveloop`, `INSTR_END` and the sentinel), the `next` slot of the
loop designates index 4, which is not an index of the array; `redo` is 1 and
`last` is 2. Each `and` of the continue part found the fold flag still true
after its empty left operand and removed one instruction of the loop body. -/
theorem loop_next_slot_past_the_end :
    ∃ c : Compiled,
      compile_op demo_env 6 demo_interp .NULL no_slots tree_loop empty_codeseq = .ok c ∧
      c.codeseq.xcodeseq_size = 4 ∧
      c.codeseq.xcodeseq_instructions.map (fun x => x.instr_ppaddr)
        = [some .OP_ENTERLOOP, some .OP_LEAVELOOP, some .OP_INSTR_END, none] ∧
      c.slots { node := 40, field := .op_redo_instr } = some 1 ∧
      c.slots { node := 40, field := .op_next_instr } = some 4 ∧
      c.slots { node := 40, field := .op_last_instr } = some 2 ∧
      ¬ (4 < c.codeseq.xcodeseq_size) :=
  ⟨finish_compile demo_env loop_done empty_codeseq no_slots,
   compile_op_eq demo_env 6 demo_interp .NULL no_slots tree_loop empty_codeseq
     loop_done false (by decide),
   by decide, by decide, by decide, by decide, by decide, by decide⟩

theorem drop_singleton_getLast {α : Type} (l : List α) (n : Nat) (h : l.length = n + 1) :
    ∃ s, l.getLast? = some s ∧ l.drop n = [s] ∧ l.dropLast = l.take n := by
  induction l generalizing n with
  | nil => simp at h
  | cons a t ih =>
    cases n with
    | zero =>
      have ht : t = [] := List.length_eq_zero.mp (by simpa using h)
      subst ht
      exact ⟨a, rfl, rfl, rfl⟩
    | succ n =>
      have hl : t.length = n + 1 := by simpa using h
      obtain ⟨s, h1, h2, h3⟩ := ih n hl
      cases t with
      | nil => simp at hl
      | cons b u =>
        refine ⟨s, ?_, ?_, ?_⟩
        · rw [List.getLast?_cons_cons]; exact h1
        · simpa using h2
        · rw [List.dropLast_cons₂, List.take_succ_cons, h3]

theorem drop_singleton_length {α : Type} (l : List α) (n : Nat) (s : α)
    (h : l.drop n = [s]) : l.length = n + 1 := by
  have := congrArg List.length h
  simp only [List.length_drop, List.length_singleton] at this
  omega

/-- Claim C15. A trial run that completes without raising (`ret` is 0, the scope
depth back where the eval scope was opened or at the depth of the call): in list
mode `instr_fold_constants` returns an array holding a copy (`newSVsv`) of
every value the run left above the entry height of the stack, bottom first,
empty when there is none; in scalar mode it returns the value when exactly
one was left above the entry height, and `NULL` otherwise. -/
theorem fold_constants_value (env : Env) (st : INTERP) (instr : List INSTRUCTION) (o : OP)
    (list : Bool) (out : RunOutcome)
    (hout : env.CALLRUNOPS
      { st with PL_op := o, PL_scopestack_ix := st.PL_scopestack_ix + 1,
                PL_warnhook := PERL_WARNHOOK_FATAL, PL_diehook := none } instr list = out)
    (hret : out.ret = 0)
    (hscope : out.PL_scopestack_ix = st.PL_scopestack_ix + 1 ∨
      out.PL_scopestack_ix = st.PL_scopestack_ix) :
    ∃ (v : Option SV) (st2 : INTERP),
      instr_fold_constants env st instr o list = .ok (v, st2) ∧
      (list = true →
        v = some (.av ((out.PL_stack.drop st.PL_stack.length).map newSVsv))) ∧
      (list = false → ∀ s, out.PL_stack.drop st.PL_stack.length = [s] →
        v = some (.scalar s)) ∧
      (list = false → (∀ s, out.PL_stack.drop st.PL_stack.length ≠ [s]) → v = none) := by
  have hsc : (if out.PL_scopestack_ix > st.PL_scopestack_ix then out.PL_scopestack_ix - 1
      else out.PL_scopestack_ix) = st.PL_scopestack_ix := by
    rcases hscope with h | h <;> simp [h]
  unfold instr_fold_constants
  simp only [hout, hret, hsc, if_true]
  cases list with
  | true =>
    refine ⟨_, _, rfl, fun _ => rfl, ?_, ?_⟩
    · intro h; cases h
    · intro h; cases h
  | false =>
    by_cases hlen : out.PL_stack.length = st.PL_stack.length + 1
    · obtain ⟨s, h1, h2, h3⟩ := drop_singleton_getLast out.PL_stack st.PL_stack.length hlen
      simp only [hlen, h1, if_true]
      refine ⟨_, _, rfl, ?_, ?_, ?_⟩
      · intro h; cases h
      · intro _ s2 hs2
        rw [h2] at hs2
        cases hs2
        rfl
      · intro _ hn
        exact absurd h2 (hn s)
    · simp only [hlen, if_false]
      refine ⟨_, _, rfl, ?_, ?_, ?_⟩
      · intro h; cases h
      · intro _ s2 hs2
        exact absurd (drop_singleton_length _ _ _ hs2) hlen
      · intro _ _
        rfl

/-- Claim C17. A trial run that raises an error (`ret` is 3) makes
`instr_fold_constants` return `NULL` to its caller, with no error pending
(`ERRSV` cleared) and the hooks and the next-instruction pointer restored, so
that `fold_trial`, and with it `add_op`, goes on; for any other non-zero `ret`
the function does not return but croaks with that code. -/
theorem fold_constants_error (env : Env) (st : INTERP) (instr : List INSTRUCTION) (o : OP)
    (list : Bool) (out : RunOutcome)
    (hout : env.CALLRUNOPS
      { st with PL_op := o, PL_scopestack_ix := st.PL_scopestack_ix + 1,
                PL_warnhook := PERL_WARNHOOK_FATAL, PL_diehook := none } instr list = out) :
    (out.ret = 3 →
      (out.PL_scopestack_ix = st.PL_scopestack_ix + 1 ∨
        out.PL_scopestack_ix = st.PL_scopestack_ix) →
      ∃ st2 : INTERP,
        instr_fold_constants env st instr o list = .ok (none, st2) ∧
        st2.errsv = false ∧ st2.PL_warnhook = st.PL_warnhook ∧
        st2.PL_diehook = st.PL_diehook ∧ st2.next_instruction = st.next_instruction ∧
        st2.PL_scopestack_ix = st.PL_scopestack_ix) ∧
    (out.ret ≠ 0 → out.ret ≠ 3 →
      instr_fold_constants env st instr o list = .error (.croak out.ret)) := by
  constructor
  · intro hret hscope
    have hsc : (if out.PL_scopestack_ix > st.PL_scopestack_ix then out.PL_scopestack_ix - 1
        else out.PL_scopestack_ix) = st.PL_scopestack_ix := by
      rcases hscope with h | h <;> simp [h]
    unfold instr_fold_constants
    simp only [hout, hret, hsc, if_true]
    exact ⟨_, rfl, rfl, rfl, rfl, rfl, rfl⟩
  · intro h0 h3
    unfold instr_fold_constants
    simp only [hout]

theorem take_set_self {α : Type} (l : List α) (n : Nat) (a : α) :
    (l.set n a).take n = l.take n :=
  List.ext_getElem? fun i => by
    rw [List.getElem?_take, List.getElem?_take]
    split
    · next h => rw [List.getElem?_set_ne (by omega)]
    · rfl

/-- `append_instruction_x` leaves the instructions below `idx` as they were. -/
theorem append_take (env : Env) (b : CODEGEN_PAD) (o t a1 a2) (h : pad_ok b) :
    (append_instruction_x env b o t a1 a2).codeseq.xcodeseq_instructions.take b.idx =
      b.codeseq.xcodeseq_instructions.take b.idx := by
  obtain ⟨h1, h2⟩ := h
  unfold append_instruction_x
  dsimp only
  split
  · dsimp only
    rw [List.take_append_of_le_length (by rw [List.length_set]; omega), take_set_self]
  · dsimp only
    rw [take_set_self]

theorem range_emit_eq (env : Env) (rec : AddOp) (bpp : CODEGEN_PAD) (o : OP) (d : OpData)
    (fl : Nat) (ht : d.op_type = .OP_RANGE) :
    add_op_emit env rec bpp o d fl =
      (add_op_range env rec bpp o d).map fun p => (p.1, p.2, o) := by
  unfold add_op_emit
  simp only [ht]

/-- The pad a failed fold attempt leaves, against the pad `b` it started from:
same `idx`, same instructions below `idx`, same fixups and values. -/
theorem failed_trial_pad (env : Env) (b bt : CODEGEN_PAD) (start : Nat) (o : OP) (list : Bool)
    (v : Option SV) (hok : pad_ok b) (h : fold_trial env b start o list = .ok (v, bt)) :
    (bt.set_idx (bt.idx - 1)).idx = b.idx ∧
    (bt.set_idx (bt.idx - 1)).codeseq.xcodeseq_instructions.take b.idx =
      b.codeseq.xcodeseq_instructions.take b.idx ∧
    (bt.set_idx (bt.idx - 1)).codeseq.xcodeseq_svs = b.codeseq.xcodeseq_svs ∧
    (bt.set_idx (bt.idx - 1)).op_instrpp_list = b.op_instrpp_list ∧
    (bt.set_idx (bt.idx - 1)).branch_point_to_pparg_list = b.branch_point_to_pparg_list := by
  obtain ⟨interp, call, hbt⟩ := fold_trial_eq env b start o list _ h
  replace hbt : bt = (append_instruction_x env b .NULL .OP_INSTR_END .null .null).after_trial
      interp call := hbt
  have hl := append_lists env b .NULL .OP_INSTR_END .null .null
  have hi := append_idx env b .NULL .OP_INSTR_END .null .null
  subst hbt
  refine ⟨?_, ?_, hl.2.2, hl.1, hl.2.1⟩
  · show (append_instruction_x env b .NULL .OP_INSTR_END .null .null).idx - 1 = b.idx
    omega
  · exact append_take env b _ _ _ _ hok

/-- Claim C16. A fold attempt of `add_op` whose trial returns no value, in the
general attempt at the end of `add_op` (first part) and in the list-mode
attempt of a `RANGE` node in list context (second part): `add_op` returns with
`idx` and the instructions below `idx` as they were just before the temporary
`INSTR_END` was appended, with the values owned by the sequence unchanged, and
with the caller's fold flag false. For `RANGE` the flag is false because the
kind is not declared fold-eligible in `PL_opargs`, as in Perl's opcode
table. -/
theorem fold_failure_restores (env : Env) (n : Nat) (bpp : CODEGEN_PAD) (m : Bool) (fl : Nat)
    (hok : pad_ok bpp) :
    (∀ (b1 bt : CODEGEN_PAD) (d : OpData) (f s r o1 : OP) (t : Optype),
      add_op_emit env (add_op env n) bpp (.mk d f s r) d fl = .ok (b1, true, o1) →
      o1.type = .ok t →
      fold_flag env t true = true →
      bpp.idx + 1 < b1.idx →
      fold_trial env b1 bpp.idx o1 false = .ok (none, bt) →
      ∃ b2 : CODEGEN_PAD,
        add_op env (n + 1) bpp (.mk d f s r) m fl = .ok (b2, false) ∧
        b2.idx = b1.idx ∧
        b2.codeseq.xcodeseq_instructions.take b1.idx =
          b1.codeseq.xcodeseq_instructions.take b1.idx ∧
        b2.codeseq.xcodeseq_svs = b1.codeseq.xcodeseq_svs) ∧
    (∀ (b1 b2 bt : CODEGEN_PAD) (d fd ld : OpData) (lf right lr fs fr s r : OP) (k1 : Bool),
      d.op_type = .OP_RANGE →
      (d.op_flags &&& OPf_WANT == OPf_WANT_LIST) = true →
      hasBit (env.PL_opargs .OP_RANGE) OA_FOLDCONST = false →
      add_op env n bpp (.mk ld lf right lr) true 0 = .ok (b1, k1) →
      add_op env n b1 right k1 0 = .ok (b2, true) →
      fold_trial env
        (append_instruction env b2 (.mk d (.mk fd (.mk ld lf right lr) fs fr) s r) .OP_FLOP)
        bpp.idx (.mk d (.mk fd (.mk ld lf right lr) fs fr) s r) true = .ok (none, bt) →
      ∃ b3 : CODEGEN_PAD,
        add_op env (n + 1) bpp (.mk d (.mk fd (.mk ld lf right lr) fs fr) s r) m fl
          = .ok (b3, false) ∧
        b3.idx = b2.idx + 1 ∧
        b3.codeseq.xcodeseq_instructions.take (b2.idx + 1) =
          (append_instruction env b2 (.mk d (.mk fd (.mk ld lf right lr) fs fr) s r)
            .OP_FLOP).codeseq.xcodeseq_instructions.take (b2.idx + 1) ∧
        b3.codeseq.xcodeseq_svs = b2.codeseq.xcodeseq_svs) := by
  constructor
  · intro b1 bt d f s r o1 t hemit htype hff hmore htrial
    have hg1 : Grows bpp b1 := add_op_emit_grows env n _ _ _ _ _ hemit
    obtain ⟨h1, h2, h3, -, -⟩ := failed_trial_pad env b1 bt bpp.idx o1 false none (hg1.2 hok) htrial
    refine ⟨bt.set_idx (bt.idx - 1), ?_, h1, h2, h3⟩
    rw [add_op_unfold]
    simp only [hemit, bind, Except.bind, add_op_fold, htype, hff, htrial]
    simp [hmore]
  · intro b1 b2 bt d fd ld lf right lr fs fr s r k1 ht hlist htab hleft hright htrial
    have hg1 : Grows bpp b1 := add_op_grows env n _ _ _ _ _ hleft
    have hg2 : Grows b1 b2 := add_op_grows env n _ _ _ _ _ hright
    have hok2 : pad_ok b2 := hg2.2 (hg1.2 hok)
    have hokF : pad_ok (append_instruction env b2
        (.mk d (.mk fd (.mk ld lf right lr) fs fr) s r) .OP_FLOP) :=
      append_pad_ok env b2 _ _ _ _ hok2
    have hiF : (append_instruction env b2
        (.mk d (.mk fd (.mk ld lf right lr) fs fr) s r) .OP_FLOP).idx = b2.idx + 1 :=
      append_idx env b2 _ _ _ _
    have hlF := append_lists env b2 (.mk d (.mk fd (.mk ld lf right lr) fs fr) s r) .OP_FLOP
      .null .null
    obtain ⟨h1, h2, h3, -, -⟩ := failed_trial_pad env _ bt bpp.idx _ true none hokF htrial
    rw [hiF] at h1 h2
    refine ⟨bt.set_idx (bt.idx - 1), ?_, h1, h2, ?_⟩
    · have hff : fold_flag env d.op_type true = false := by
        rw [ht]; simp [fold_flag, htab]
      rw [add_op_unfold, range_emit_eq env _ _ _ _ _ ht]
      simp only [add_op_range, OP.first, OP.sibling, bind, Except.bind, hlist, if_true, hleft,
        hright, htrial, Except.map, add_op_fold, OP.type, OP.data, pure, Except.pure]
      simp [hff]
    · rw [h3]; exact hlF.2.2

theorem enterloop_emit_eq (env : Env) (rec : AddOp) (bpp : CODEGEN_PAD) (o : OP) (d : OpData)
    (fl : Nat) (ht : d.op_type = .OP_ENTERLOOP) :
    add_op_emit env rec bpp o d fl =
      (add_op_enterloop env rec bpp o d).map fun p => (p.1, p.2, o) := by
  unfold add_op_emit
  simp only [ht]

theorem isSome_of_ne_null (o : OP) (h : o ≠ .NULL) : o.isSome = true := by
  cases o with
  | NULL => exact absurd rfl h
  | mk d f s r => rfl

/-- The result of `add_op` on an `ENTERLOOP` node with a condition, from the
results of the translations of its parts. -/
theorem enterloop_with_condition (env : Env) (n : Nat) (bpp b1 b2 b3 : CODEGEN_PAD)
    (d sd bd : OpData) (sf sr bf op_cont br s r : OP) (k1 k2 k3 m : Bool) (fl : Nat)
    (ht : d.op_type = .OP_ENTERLOOP)
    (htab : hasBit (env.PL_opargs .OP_ENTERLOOP) OA_FOLDCONST = false)
    (hne : sd.op_type ≠ .OP_NOTHING)
    (hcond : add_op env n
      (append_instruction env bpp (.mk d (.mk sd sf (.mk bd bf op_cont br) sr) s r) .OP_ENTERLOOP)
      (.mk sd sf (.mk bd bf op_cont br) sr) true 0 = .ok (b1, k1))
    (hblock : add_op env n
      (save_branch_point (append_instruction_x env b1 .NULL .OP_INSTR_COND_JUMP .null .null)
        (slot d .op_redo_instr))
      (.mk bd bf op_cont br) k1 0 = .ok (b2, k2))
    (hcont : (op_cont = .NULL ∧ b3 = save_branch_point b2 (slot d .op_next_instr) ∧ k3 = k2) ∨
      (op_cont ≠ .NULL ∧
        add_op env n (save_branch_point b2 (slot d .op_next_instr)) op_cont k2 0 = .ok (b3, k3))) :
    add_op env (n + 1) bpp (.mk d (.mk sd sf (.mk bd bf op_cont br) sr) s r) m fl =
      .ok (save_branch_point
        (append_instruction env
          (save_instr_from_to_pparg
            (save_instr_from_to_pparg
              (append_instruction_x env b3 .NULL .OP_INSTR_JUMP .null .null)
              b3.idx (bpp.idx + 1))
            b1.idx (b3.idx + 1))
          (.mk d (.mk sd sf (.mk bd bf op_cont br) sr) s r) .OP_LEAVELOOP)
        (slot d .op_last_instr), false) := by
  have hff : ∀ k, fold_flag env .OP_ENTERLOOP k = false := by
    intro k; simp [fold_flag, htab]
  have hi0 : (append_instruction env bpp (.mk d (.mk sd sf (.mk bd bf op_cont br) sr) s r)
      .OP_ENTERLOOP).idx = bpp.idx + 1 := append_idx env bpp _ _ _ _
  have hiJ := append_idx env b3 .NULL .OP_INSTR_JUMP .null .null
  have hc : (sd.op_type != .OP_NOTHING) = true := by simpa using hne
  rw [add_op_unfold, enterloop_emit_eq env _ _ _ _ _ ht]
  rcases hcont with ⟨h1, h2, h3⟩ | ⟨h1, h2⟩
  · subst h1
    simp only [add_op_enterloop, OP.first, OP.sibling, OP.type, OP.data, bind, Except.bind, hc,
      if_true, ht, hcond, hblock, OP.isSome, Bool.false_eq_true, reduceIte, Except.map, add_op_fold, pure, Except.pure, hff]
    rw [← h2, hiJ, hi0]
    simp only [Nat.add_sub_cancel]
    rw [show (save_instr_from_to_pparg
      (append_instruction_x env b3 .NULL .OP_INSTR_JUMP .null .null) b3.idx (bpp.idx + 1)).idx
        = b3.idx + 1 from hiJ]
    simp
  · have hs := isSome_of_ne_null op_cont h1
    simp only [add_op_enterloop, OP.first, OP.sibling, OP.type, OP.data, bind, Except.bind, hc,
      if_true, ht, hcond, hblock, hs, h2, Bool.false_eq_true, reduceIte, Except.map, add_op_fold, pure, Except.pure, hff]
    rw [hiJ, hi0]
    simp only [Nat.add_sub_cancel]
    rw [show (save_instr_from_to_pparg
      (append_instruction_x env b3 .NULL .OP_INSTR_JUMP .null .null) b3.idx (bpp.idx + 1)).idx
        = b3.idx + 1 from hiJ]
    simp

/-- The result of `add_op` on an `ENTERLOOP` node without a condition (the first
child is an `OP_NOTHING`), from the results of the translations of its parts. -/
theorem enterloop_without_condition (env : Env) (n : Nat) (bpp b2 b3 : CODEGEN_PAD)
    (d sd bd : OpData) (sf sr bf op_cont br s r : OP) (k2 k3 m : Bool) (fl : Nat)
    (ht : d.op_type = .OP_ENTERLOOP)
    (htab : hasBit (env.PL_opargs .OP_ENTERLOOP) OA_FOLDCONST = false)
    (hno : sd.op_type = .OP_NOTHING)
    (hblock : add_op env n
      (save_branch_point
        (append_instruction env bpp (.mk d (.mk sd sf (.mk bd bf op_cont br) sr) s r)
          .OP_ENTERLOOP)
        (slot d .op_redo_instr))
      (.mk bd bf op_cont br) true 0 = .ok (b2, k2))
    (hcont : (op_cont = .NULL ∧ b3 = save_branch_point b2 (slot d .op_next_instr) ∧ k3 = k2) ∨
      (op_cont ≠ .NULL ∧
        add_op env n (save_branch_point b2 (slot d .op_next_instr)) op_cont k2 0 = .ok (b3, k3))) :
    add_op env (n + 1) bpp (.mk d (.mk sd sf (.mk bd bf op_cont br) sr) s r) m fl =
      .ok (save_branch_point
        (append_instruction env b3 (.mk d (.mk sd sf (.mk bd bf op_cont br) sr) s r)
          .OP_LEAVELOOP)
        (slot d .op_last_instr), false) := by
  have hff : ∀ k, fold_flag env .OP_ENTERLOOP k = false := by
    intro k; simp [fold_flag, htab]
  have hc : (sd.op_type != .OP_NOTHING) = false := by simp [hno]
  rw [add_op_unfold, enterloop_emit_eq env _ _ _ _ _ ht]
  rcases hcont with ⟨h1, h2, h3⟩ | ⟨h1, h2⟩
  · subst h1
    simp only [add_op_enterloop, OP.first, OP.sibling, OP.type, OP.data, bind, Except.bind, hc,
      ht, hblock, OP.isSome, Bool.false_eq_true, reduceIte, Except.map, add_op_fold, pure, Except.pure, hff]
    rw [← h2]
    simp
  · have hs := isSome_of_ne_null op_cont h1
    simp only [add_op_enterloop, OP.first, OP.sibling, OP.type, OP.data, bind, Except.bind, hc,
      ht, hblock, hs, h2, Bool.false_eq_true, reduceIte, Except.map, add_op_fold, pure, Except.pure, hff]
    simp

theorem append_logs (env : Env) (b : CODEGEN_PAD) (o t a1 a2) :
    (append_instruction_x env b o t a1 a2).op_writes = b.op_writes ∧
    (append_instruction_x env b o t a1 a2).fold_calls = b.fold_calls := by
  unfold append_instruction_x
  dsimp only
  split <;> exact ⟨rfl, rfl⟩

theorem extends_of_eq (a b : CODEGEN_PAD)
    (h1 : b.op_instrpp_list = a.op_instrpp_list)
    (h2 : b.branch_point_to_pparg_list = a.branch_point_to_pparg_list)
    (h3 : b.codeseq.xcodeseq_svs = a.codeseq.xcodeseq_svs)
    (h4 : b.op_writes = a.op_writes) (h5 : b.fold_calls = a.fold_calls) : Extends a b := by
  unfold Extends
  rw [h1, h2, h3, h4, h5]
  exact ⟨List.prefix_refl _, List.prefix_refl _, List.prefix_refl _, List.prefix_refl _,
    List.prefix_refl _⟩

theorem extends_append (env : Env) (b : CODEGEN_PAD) (o t a1 a2) :
    Extends b (append_instruction_x env b o t a1 a2) :=
  extends_of_eq _ _ (append_lists env b o t a1 a2).1 (append_lists env b o t a1 a2).2.1
    (append_lists env b o t a1 a2).2.2 (append_logs env b o t a1 a2).1
    (append_logs env b o t a1 a2).2

theorem extends_trans (a b c : CODEGEN_PAD) (h1 : Extends a b) (h2 : Extends b c) :
    Extends a c :=
  ⟨h1.1.trans h2.1, h1.2.1.trans h2.2.1, h1.2.2.1.trans h2.2.2.1, h1.2.2.2.1.trans h2.2.2.2.1,
    h1.2.2.2.2.trans h2.2.2.2.2⟩

theorem assign_svp_extends (b : CODEGEN_PAD) (p : SVPtr) (i : Nat) (v : SV) :
    Extends b (assign_svp b p i v) := by
  unfold assign_svp
  split
  · exact extends_of_eq _ _ rfl rfl rfl rfl rfl
  · split
    · exact ⟨List.prefix_refl _, List.prefix_refl _, List.prefix_refl _,
        List.prefix_append _ _, List.prefix_refl _⟩
    · exact extends_of_eq _ _ rfl rfl rfl rfl rfl

theorem extends_closed (env : Env) : Closed env Extends where
  refl := fun _ => extends_of_eq _ _ rfl rfl rfl rfl rfl
  trans := extends_trans
  append := extends_append env
  save_bp := fun _ _ => ⟨List.prefix_append _ _, List.prefix_refl _, List.prefix_refl _,
    List.prefix_refl _, List.prefix_refl _⟩
  save_ft := fun _ _ _ => ⟨List.prefix_refl _, List.prefix_append _ _, List.prefix_refl _,
    List.prefix_refl _, List.prefix_refl _⟩
  dec := fun _ _ _ => extends_of_eq _ _ rfl rfl rfl rfl rfl
  reset := fun _ _ h => h
  undo_end := fun b _ _ =>
    extends_trans _ _ _ (extends_append env b .NULL .OP_INSTR_END .null .null)
      ⟨List.prefix_refl _, List.prefix_refl _, List.prefix_refl _, List.prefix_refl _,
        List.prefix_append _ _⟩
  after_trial := fun _ _ _ => ⟨List.prefix_refl _, List.prefix_refl _,
    List.prefix_refl _, List.prefix_refl _, List.prefix_append _ _⟩
  set_curcop := fun _ _ => extends_of_eq _ _ rfl rfl rfl rfl rfl
  log_writes := fun _ _ => ⟨List.prefix_refl _, List.prefix_refl _, List.prefix_refl _,
    List.prefix_append _ _, List.prefix_refl _⟩
  push_svs := fun _ _ => ⟨List.prefix_refl _, List.prefix_refl _, List.prefix_append _ _,
    List.prefix_refl _, List.prefix_refl _⟩
  assign_svp := fun b p _ v _ _ => assign_svp_extends b p (b.idx - 1) v

/-- `add_op` only adds to the fixup lists, to the values owned by the sequence
and to the logs. -/
theorem add_op_extends (env : Env) (n : Nat) (bpp : CODEGEN_PAD) (o : OP) (m : Bool) (f : Nat)
    (r : CODEGEN_PAD × Bool) (h : add_op env n bpp o m f = .ok r) : Extends bpp r.1 :=
  add_op_rel env Extends (extends_closed env) n bpp o m f r h

theorem pad_ok_save_bp (b : CODEGEN_PAD) (p : Option Slot) (h : pad_ok b) :
    pad_ok (save_branch_point b p) := h

theorem pad_ok_save_ft (b : CODEGEN_PAD) (f t : Nat) (h : pad_ok b) :
    pad_ok (save_instr_from_to_pparg b f t) := h

/-- What the translation of the continue part of a loop records, whether the
part is present or not: the pad invariant is kept and the pointer fixups are
extended. -/
theorem cont_part (env : Env) (n : Nat) (p b3 : CODEGEN_PAD) (op_cont : OP) (k2 k3 : Bool)
    (hcont : (op_cont = .NULL ∧ b3 = p ∧ k3 = k2) ∨
      (op_cont ≠ .NULL ∧ add_op env n p op_cont k2 0 = .ok (b3, k3))) :
    (pad_ok p → pad_ok b3) ∧ p.op_instrpp_list <+: b3.op_instrpp_list := by
  rcases hcont with ⟨-, h, -⟩ | ⟨-, h⟩
  · subst h
    exact ⟨id, List.prefix_refl _⟩
  · exact ⟨(add_op_grows env n _ _ _ _ _ h).2, (add_op_extends env n _ _ _ _ _ h).1⟩

/-- Claim C11. For an `ENTERLOOP` node, with or without a condition and with or
without a continue part, `add_op` records three pointer fixups for the node and
no other: `op_redo_instr` at the index where the translation of the body
starts, `op_next_instr` at the index the translation of the body ends at
(before the continue part), and `op_last_instr` at the index after the
`leaveloop` instruction. The lists `l2` and `l3` are what the translations of
the body and of the continue part record themselves. `ENTERLOOP` is assumed
not to be declared fold-eligible in `PL_opargs`, as in Perl's opcode table. -/
theorem enterloop_pointer_fixups (env : Env) (n : Nat) (bpp bc b2 b3 : CODEGEN_PAD)
    (d sd bd : OpData) (sf sr bf op_cont br s r : OP) (kc k2 k3 m : Bool) (fl : Nat)
    (ht : d.op_type = .OP_ENTERLOOP)
    (htab : hasBit (env.PL_opargs .OP_ENTERLOOP) OA_FOLDCONST = false)
    (hok : pad_ok bpp)
    (hcond :
      (sd.op_type = .OP_NOTHING ∧ kc = true ∧
        bc = append_instruction env bpp (.mk d (.mk sd sf (.mk bd bf op_cont br) sr) s r)
          .OP_ENTERLOOP) ∨
      (sd.op_type ≠ .OP_NOTHING ∧ ∃ b1 : CODEGEN_PAD,
        add_op env n
          (append_instruction env bpp (.mk d (.mk sd sf (.mk bd bf op_cont br) sr) s r)
            .OP_ENTERLOOP)
          (.mk sd sf (.mk bd bf op_cont br) sr) true 0 = .ok (b1, kc) ∧
        bc = append_instruction_x env b1 .NULL .OP_INSTR_COND_JUMP .null .null))
    (hblock : add_op env n (save_branch_point bc (slot d .op_redo_instr))
      (.mk bd bf op_cont br) kc 0 = .ok (b2, k2))
    (hcont : (op_cont = .NULL ∧ b3 = save_branch_point b2 (slot d .op_next_instr) ∧ k3 = k2) ∨
      (op_cont ≠ .NULL ∧
        add_op env n (save_branch_point b2 (slot d .op_next_instr)) op_cont k2 0 = .ok (b3, k3))) :
    ∃ (b4 : CODEGEN_PAD) (l2 l3 : List OP_INSTRPP),
      add_op env (n + 1) bpp (.mk d (.mk sd sf (.mk bd bf op_cont br) sr) s r) m fl
        = .ok (b4, false) ∧
      b2.op_instrpp_list = bc.op_instrpp_list ++
        [{ instrpp := slot d .op_redo_instr, instr_idx := bc.idx }] ++ l2 ∧
      b3.op_instrpp_list = b2.op_instrpp_list ++
        [{ instrpp := slot d .op_next_instr, instr_idx := b2.idx }] ++ l3 ∧
      b4.op_instrpp_list = b3.op_instrpp_list ++
        [{ instrpp := slot d .op_last_instr, instr_idx := b4.idx }] ∧
      0 < b4.idx ∧
      b4.codeseq.xcodeseq_instructions.get? (b4.idx - 1) =
        some { instr_ppaddr := some .OP_LEAVELOOP,
               instr_op := .mk d (.mk sd sf (.mk bd bf op_cont br) sr) s r,
               instr_arg1 := .null, instr_arg2 := .null } := by
  have hok0 : pad_ok (append_instruction env bpp
      (.mk d (.mk sd sf (.mk bd bf op_cont br) sr) s r) .OP_ENTERLOOP) :=
    append_pad_ok env bpp _ _ _ _ hok
  have hokc : pad_ok bc := by
    rcases hcond with ⟨-, -, h⟩ | ⟨-, b1, h1, h⟩
    · rw [h]; exact hok0
    · rw [h]; exact append_pad_ok env b1 _ _ _ _ ((add_op_grows env n _ _ _ _ _ h1).2 hok0)
  have hok2 : pad_ok b2 := (add_op_grows env n _ _ _ _ _ hblock).2 hokc
  obtain ⟨l2, hl2⟩ := (add_op_extends env n _ _ _ _ _ hblock).1
  obtain ⟨hok3, l3, hl3⟩ := cont_part env n _ b3 op_cont k2 k3 hcont
  replace hok3 : pad_ok b3 := hok3 hok2
  rcases hcond with ⟨hno, hk, hbc⟩ | ⟨hne, b1, h1, hbc⟩
  · subst hk hbc
    have heq := enterloop_without_condition env n bpp b2 b3 d sd bd sf sr bf op_cont br s r
      k2 k3 m fl ht htab hno hblock hcont
    refine ⟨_, l2, l3, heq, hl2.symm, hl3.symm, ?_, ?_, ?_⟩
    · show (append_instruction_x env b3 _ _ _ _).op_instrpp_list ++ _ = _
      rw [(append_lists env b3 _ _ _ _).1]
      rfl
    · show 0 < (append_instruction_x env b3 _ _ _ _).idx
      rw [append_idx]; omega
    · show (append_instruction_x env b3 _ _ _ _).codeseq.xcodeseq_instructions.get?
        ((append_instruction_x env b3 _ _ _ _).idx - 1) = _
      rw [append_idx, Nat.add_sub_cancel]
      exact append_get_new env b3 _ _ _ _ hok3
  · subst hbc
    have heq := enterloop_with_condition env n bpp b1 b2 b3 d sd bd sf sr bf op_cont br s r
      kc k2 k3 m fl ht htab hne h1 hblock hcont
    have hokJ : pad_ok (save_instr_from_to_pparg (save_instr_from_to_pparg
        (append_instruction_x env b3 .NULL .OP_INSTR_JUMP .null .null) b3.idx (bpp.idx + 1))
        b1.idx (b3.idx + 1)) := append_pad_ok env b3 _ _ _ _ hok3
    refine ⟨_, l2, l3, heq, hl2.symm, hl3.symm, ?_, ?_, ?_⟩
    · show (append_instruction_x env _ _ _ _ _).op_instrpp_list ++ _ = _
      rw [(append_lists env _ _ _ _ _).1]
      show (append_instruction_x env b3 _ _ _ _).op_instrpp_list ++ _ = _
      rw [(append_lists env b3 _ _ _ _).1]
      rfl
    · show 0 < (append_instruction_x env _ _ _ _ _).idx
      rw [append_idx]; omega
    · show (append_instruction_x env _ _ _ _ _).codeseq.xcodeseq_instructions.get?
        ((append_instruction_x env _ _ _ _ _).idx - 1) = _
      rw [append_idx, Nat.add_sub_cancel]
      exact append_get_new env _ _ _ _ _ hokJ

/-- Claim C12, as amended. The layout `add_op` gives an `ENTERLOOP` node. With a
condition (first part): `enterloop`, the condition test, a conditional jump,
the body, the continue part if present, an unconditional jump, `leaveloop`;
two branch fixups are recorded, one sending the unconditional jump to the
index right after `enterloop` (the start of the condition test) and one
sending the conditional jump to the `leaveloop` instruction. Without a
condition (second part, the first child is an `OP_NOTHING`): `enterloop`, the
body, the continue part if present, `leaveloop`, with no jump and no branch
fixup for the node. `ENTERLOOP` is assumed not to be declared fold-eligible in
`PL_opargs`, as in Perl's opcode table. -/
theorem enterloop_layout (env : Env) (n : Nat) (bpp b2 b3 : CODEGEN_PAD)
    (d sd bd : OpData) (sf sr bf op_cont br s r : OP) (k2 k3 m : Bool) (fl : Nat)
    (ht : d.op_type = .OP_ENTERLOOP)
    (htab : hasBit (env.PL_opargs .OP_ENTERLOOP) OA_FOLDCONST = false)
    (hok : pad_ok bpp)
    (hcont : (op_cont = .NULL ∧ b3 = save_branch_point b2 (slot d .op_next_instr) ∧ k3 = k2) ∨
      (op_cont ≠ .NULL ∧
        add_op env n (save_branch_point b2 (slot d .op_next_instr)) op_cont k2 0 = .ok (b3, k3))) :
    (∀ (b1 : CODEGEN_PAD) (k1 : Bool),
      sd.op_type ≠ .OP_NOTHING →
      add_op env n
        (append_instruction env bpp (.mk d (.mk sd sf (.mk bd bf op_cont br) sr) s r)
          .OP_ENTERLOOP)
        (.mk sd sf (.mk bd bf op_cont br) sr) true 0 = .ok (b1, k1) →
      add_op env n
        (save_branch_point (append_instruction_x env b1 .NULL .OP_INSTR_COND_JUMP .null .null)
          (slot d .op_redo_instr))
        (.mk bd bf op_cont br) k1 0 = .ok (b2, k2) →
      ∃ b4 : CODEGEN_PAD,
        add_op env (n + 1) bpp (.mk d (.mk sd sf (.mk bd bf op_cont br) sr) s r) m fl
          = .ok (b4, false) ∧
        (append_instruction env bpp (.mk d (.mk sd sf (.mk bd bf op_cont br) sr) s r)
            .OP_ENTERLOOP).codeseq.xcodeseq_instructions.get? bpp.idx =
          some { instr_ppaddr := some .OP_ENTERLOOP,
                 instr_op := .mk d (.mk sd sf (.mk bd bf op_cont br) sr) s r,
                 instr_arg1 := .null, instr_arg2 := .null } ∧
        (append_instruction_x env b1 .NULL .OP_INSTR_COND_JUMP .null .null
            ).codeseq.xcodeseq_instructions.get? b1.idx =
          some { instr_ppaddr := some .OP_INSTR_COND_JUMP, instr_op := .NULL,
                 instr_arg1 := .null, instr_arg2 := .null } ∧
        b4.codeseq.xcodeseq_instructions.get? b3.idx =
          some { instr_ppaddr := some .OP_INSTR_JUMP, instr_op := .NULL,
                 instr_arg1 := .null, instr_arg2 := .null } ∧
        b4.codeseq.xcodeseq_instructions.get? (b3.idx + 1) =
          some { instr_ppaddr := some .OP_LEAVELOOP,
                 instr_op := .mk d (.mk sd sf (.mk bd bf op_cont br) sr) s r,
                 instr_arg1 := .null, instr_arg2 := .null } ∧
        b4.idx = b3.idx + 2 ∧
        b4.branch_point_to_pparg_list = b3.branch_point_to_pparg_list ++
          [{ instr_from_index := b3.idx, instr_to_index := bpp.idx + 1 },
           { instr_from_index := b1.idx, instr_to_index := b3.idx + 1 }]) ∧
    (sd.op_type = .OP_NOTHING →
      add_op env n
        (save_branch_point
          (append_instruction env bpp (.mk d (.mk sd sf (.mk bd bf op_cont br) sr) s r)
            .OP_ENTERLOOP)
          (slot d .op_redo_instr))
        (.mk bd bf op_cont br) true 0 = .ok (b2, k2) →
      ∃ b4 : CODEGEN_PAD,
        add_op env (n + 1) bpp (.mk d (.mk sd sf (.mk bd bf op_cont br) sr) s r) m fl
          = .ok (b4, false) ∧
        (append_instruction env bpp (.mk d (.mk sd sf (.mk bd bf op_cont br) sr) s r)
            .OP_ENTERLOOP).codeseq.xcodeseq_instructions.get? bpp.idx =
          some { instr_ppaddr := some .OP_ENTERLOOP,
                 instr_op := .mk d (.mk sd sf (.mk bd bf op_cont br) sr) s r,
                 instr_arg1 := .null, instr_arg2 := .null } ∧
        b4.codeseq.xcodeseq_instructions.get? b3.idx =
          some { instr_ppaddr := some .OP_LEAVELOOP,
                 instr_op := .mk d (.mk sd sf (.mk bd bf op_cont br) sr) s r,
                 instr_arg1 := .null, instr_arg2 := .null } ∧
        b4.idx = b3.idx + 1 ∧
        b4.branch_point_to_pparg_list = b3.branch_point_to_pparg_list) := by
  have hok0 : pad_ok (append_instruction env bpp
      (.mk d (.mk sd sf (.mk bd bf op_cont br) sr) s r) .OP_ENTERLOOP) :=
    append_pad_ok env bpp _ _ _ _ hok
  have hget0 := append_get_new env bpp (.mk d (.mk sd sf (.mk bd bf op_cont br) sr) s r)
    .OP_ENTERLOOP .null .null hok
  have hc3 := cont_part env n _ b3 op_cont k2 k3 hcont
  constructor
  · intro b1 k1 hne h1 hblock
    have hok1 : pad_ok b1 := (add_op_grows env n _ _ _ _ _ h1).2 hok0
    have hokc : pad_ok (append_instruction_x env b1 .NULL .OP_INSTR_COND_JUMP .null .null) :=
      append_pad_ok env b1 _ _ _ _ hok1
    have hok2 : pad_ok b2 := (add_op_grows env n _ _ _ _ _ hblock).2 hokc
    have hok3 : pad_ok b3 := hc3.1 hok2
    have hokJ : pad_ok (append_instruction_x env b3 .NULL .OP_INSTR_JUMP .null .null) :=
      append_pad_ok env b3 _ _ _ _ hok3
    have hiJ := append_idx env b3 .NULL .OP_INSTR_JUMP .null .null
    have heq := enterloop_with_condition env n bpp b1 b2 b3 d sd bd sf sr bf op_cont br s r
      k1 k2 k3 m fl ht htab hne h1 hblock hcont
    refine ⟨_, heq, hget0, append_get_new env b1 _ _ _ _ hok1, ?_, ?_, ?_, ?_⟩
    · show (append_instruction_x env (save_instr_from_to_pparg (save_instr_from_to_pparg
        (append_instruction_x env b3 .NULL .OP_INSTR_JUMP .null .null) b3.idx (bpp.idx + 1))
        b1.idx (b3.idx + 1)) _ _ _ _).codeseq.xcodeseq_instructions.get? b3.idx = _
      rw [append_get_old]
      · exact append_get_new env b3 _ _ _ _ hok3
      · show b3.idx ≠ (append_instruction_x env b3 .NULL .OP_INSTR_JUMP .null .null).idx
        omega
      · show b3.idx < (append_instruction_x env b3 .NULL .OP_INSTR_JUMP .null
          .null).codeseq.xcodeseq_instructions.length
        have := hokJ.1
        rw [hokJ.2]
        omega
    · show (append_instruction_x env (save_instr_from_to_pparg (save_instr_from_to_pparg
        (append_instruction_x env b3 .NULL .OP_INSTR_JUMP .null .null) b3.idx (bpp.idx + 1))
        b1.idx (b3.idx + 1)) _ _ _ _).codeseq.xcodeseq_instructions.get? (b3.idx + 1) = _
      have hnew := append_get_new env (save_instr_from_to_pparg (save_instr_from_to_pparg
        (append_instruction_x env b3 .NULL .OP_INSTR_JUMP .null .null) b3.idx (bpp.idx + 1))
        b1.idx (b3.idx + 1)) (.mk d (.mk sd sf (.mk bd bf op_cont br) sr) s r) .OP_LEAVELOOP
        .null .null hokJ
      rw [show (save_instr_from_to_pparg (save_instr_from_to_pparg
        (append_instruction_x env b3 .NULL .OP_INSTR_JUMP .null .null) b3.idx (bpp.idx + 1))
        b1.idx (b3.idx + 1)).idx = b3.idx + 1 from hiJ] at hnew
      exact hnew
    · show (append_instruction_x env (save_instr_from_to_pparg (save_instr_from_to_pparg
        (append_instruction_x env b3 .NULL .OP_INSTR_JUMP .null .null) b3.idx (bpp.idx + 1))
        b1.idx (b3.idx + 1)) _ _ _ _).idx = _
      rw [append_idx]
      show (append_instruction_x env b3 .NULL .OP_INSTR_JUMP .null .null).idx + 1 = _
      omega
    · show (append_instruction_x env (save_instr_from_to_pparg (save_instr_from_to_pparg
        (append_instruction_x env b3 .NULL .OP_INSTR_JUMP .null .null) b3.idx (bpp.idx + 1))
        b1.idx (b3.idx + 1)) _ _ _ _).branch_point_to_pparg_list = _
      rw [(append_lists env _ _ _ _ _).2.1]
      show ((append_instruction_x env b3 .NULL .OP_INSTR_JUMP .null
        .null).branch_point_to_pparg_list ++ _) ++ _ = _
      rw [(append_lists env b3 _ _ _ _).2.1, List.append_assoc]
      rfl
  · intro hno hblock
    have hok2 : pad_ok b2 := (add_op_grows env n _ _ _ _ _ hblock).2 hok0
    have hok3 : pad_ok b3 := hc3.1 hok2
    have heq := enterloop_without_condition env n bpp b2 b3 d sd bd sf sr bf op_cont br s r
      k2 k3 m fl ht htab hno hblock hcont
    refine ⟨_, heq, hget0, append_get_new env b3 _ _ _ _ hok3, append_idx env b3 _ _ _ _,
      (append_lists env b3 _ _ _ _).2.1⟩

theorem foreach_emit_eq (env : Env) (rec : AddOp) (bpp : CODEGEN_PAD) (o : OP) (d : OpData)
    (fl : Nat) (ht : d.op_type = .OP_FOREACH) :
    add_op_emit env rec bpp o d fl =
      (add_op_foreach env rec bpp o d).map fun p => (p.1, p.2, o) := by
  unfold add_op_emit
  simp only [ht]

/-- The case `OP_FOREACH` of `add_op` is the translation of the iterable, then of
the loop variable unless it is an `OP_NOTHING`, then `foreach_loop`. -/
theorem foreach_split (env : Env) (rec : AddOp) (bpp : CODEGEN_PAD) (d ed vd bd : OpData)
    (ef er vf vr bf op_cont br s r : OP) :
    add_op_foreach env rec bpp
        (.mk d (.mk ed ef (.mk vd vf (.mk bd bf op_cont br) vr) er) s r) d =
      (foreach_iterable rec (append_instruction env bpp .NULL .OP_PUSHMARK)
          (.mk ed ef (.mk vd vf (.mk bd bf op_cont br) vr) er) >>= fun e =>
        (if vd.op_type != .OP_NOTHING then
            rec e.1 (.mk vd vf (.mk bd bf op_cont br) vr) e.2 0
          else .ok e) >>= fun v =>
        foreach_loop env rec v (.mk d (.mk ed ef (.mk vd vf (.mk bd bf op_cont br) vr) er) s r) d
          (.mk bd bf op_cont br) op_cont) := by
  simp only [add_op_foreach, foreach_iterable, foreach_loop, OP.first, OP.sibling, OP.type,
    OP.data, bind, Except.bind, pure, Except.pure]

/-- Claim C14. In the translation of a `FOREACH` node the iterable comes right
after the initial `pushmark` and before the loop variable, and it is: for a
`RANGE` node, the translation of the left endpoint followed by that of the
right endpoint (the children of the `flip` node), with no instruction for the
range itself; for a `REVERSE` node, the translations of its children in order
(`add_kids`), with no `reverse` instruction; in every other case the
translation of the iterable expression itself. -/
theorem foreach_iterable_cases (env : Env) (rec : AddOp) (bpp : CODEGEN_PAD)
    (d ed vd bd : OpData) (ef er vf vr bf op_cont br s r : OP) (fl : Nat)
    (ht : d.op_type = .OP_FOREACH) :
    add_op_emit env rec bpp (.mk d (.mk ed ef (.mk vd vf (.mk bd bf op_cont br) vr) er) s r) d fl
      = ((foreach_iterable rec (append_instruction env bpp .NULL .OP_PUSHMARK)
            (.mk ed ef (.mk vd vf (.mk bd bf op_cont br) vr) er) >>= fun e =>
          (if vd.op_type != .OP_NOTHING then
              rec e.1 (.mk vd vf (.mk bd bf op_cont br) vr) e.2 0
            else .ok e) >>= fun v =>
          foreach_loop env rec v (.mk d (.mk ed ef (.mk vd vf (.mk bd bf op_cont br) vr) er) s r)
            d (.mk bd bf op_cont br) op_cont).map
          fun p => (p.1, p.2, .mk d (.mk ed ef (.mk vd vf (.mk bd bf op_cont br) vr) er) s r)) ∧
    (∀ (fd ld : OpData) (lf right lr fs fr : OP),
      ed.op_type = .OP_RANGE → ef = .mk fd (.mk ld lf right lr) fs fr →
      foreach_iterable rec (append_instruction env bpp .NULL .OP_PUSHMARK)
          (.mk ed ef (.mk vd vf (.mk bd bf op_cont br) vr) er) =
        (rec (append_instruction env bpp .NULL .OP_PUSHMARK) (.mk ld lf right lr) true 0
          >>= fun l => rec l.1 right l.2 0)) ∧
    (ed.op_type = .OP_REVERSE →
      foreach_iterable rec (append_instruction env bpp .NULL .OP_PUSHMARK)
          (.mk ed ef (.mk vd vf (.mk bd bf op_cont br) vr) er) =
        add_chain rec (if hasBit ed.op_flags OPf_KIDS then ef.chain else [])
          (append_instruction env bpp .NULL .OP_PUSHMARK) true) ∧
    (ed.op_type ≠ .OP_RANGE → ed.op_type ≠ .OP_REVERSE →
      foreach_iterable rec (append_instruction env bpp .NULL .OP_PUSHMARK)
          (.mk ed ef (.mk vd vf (.mk bd bf op_cont br) vr) er) =
        rec (append_instruction env bpp .NULL .OP_PUSHMARK)
          (.mk ed ef (.mk vd vf (.mk bd bf op_cont br) vr) er) true 0) := by
  refine ⟨?_, ?_, ?_, ?_⟩
  · rw [foreach_emit_eq env _ _ _ _ _ ht, foreach_split]
  · intro fd ld lf right lr fs fr he hf
    subst hf
    have e1 : (Optype.OP_RANGE == Optype.OP_RANGE) = true := by decide
    simp only [foreach_iterable, OP.type, OP.data, OP.first, OP.sibling, bind, Except.bind, he,
      e1, pure, Except.pure, reduceIte]
  · intro he
    have e1 : (Optype.OP_REVERSE == Optype.OP_RANGE) = false := by decide
    have e2 : (Optype.OP_REVERSE == Optype.OP_REVERSE) = true := by decide
    simp only [foreach_iterable, OP.type, OP.data, bind, Except.bind, he, e1, e2, pure,
      Except.pure, add_kids, OP.first, Bool.false_eq_true, reduceIte]
    by_cases hk : hasBit ed.op_flags OPf_KIDS = true
    · simp only [hk, reduceIte]
    · simp only [hk, reduceIte, Bool.false_eq_true]
      rfl
  · intro h1 h2
    have e1 : (ed.op_type == .OP_RANGE) = false := by simpa using h1
    have e2 : (ed.op_type == .OP_REVERSE) = false := by simpa using h2
    simp only [foreach_iterable, OP.type, OP.data, bind, Except.bind, e1, e2, pure, Except.pure,
      Bool.false_eq_true, reduceIte]

theorem foreach_iterable_rel (env : Env) (R) (hR : Closed env R) (rec : AddOp)
    (hrec : ∀ b o m f r, rec b o m f = .ok r → R b r.1)
    (bpp e r) (h : foreach_iterable rec bpp e = .ok r) : R bpp r.1 := by
  have hkids := add_kids_rel env R hR rec hrec
  revert r h
  apply Sat.out
  unfold foreach_iterable
  with_reducible repeat' (first
    | (apply sat_bind)
    | (apply sat_ok)
    | (apply sat_error)
    | (apply sat_ite <;> intro _)
    | exact hR.refl _
    | (refine hR.trans _ _ _ ?_ (hrec _ _ _ _ _ (by assumption)))
    | (refine hR.trans _ _ _ ?_ (hkids _ _ _ _ (by assumption)))
    | (dsimp only)
    | split
    | (refine Sat.mk (fun _ _ => ?_)))

/-- The result of `add_op` on a `FOREACH` node, from the results of the
translations of its parts. -/
theorem foreach_eq (env : Env) (n : Nat) (bpp b1 bv b2 b3 : CODEGEN_PAD)
    (d ed vd bd : OpData) (ef er vf vr bf op_cont br s r : OP) (k1 kv k2 k3 m : Bool) (fl : Nat)
    (ht : d.op_type = .OP_FOREACH)
    (htab : hasBit (env.PL_opargs .OP_FOREACH) OA_FOLDCONST = false)
    (hiter : foreach_iterable (add_op env n) (append_instruction env bpp .NULL .OP_PUSHMARK)
      (.mk ed ef (.mk vd vf (.mk bd bf op_cont br) vr) er) = .ok (b1, k1))
    (hvar : (vd.op_type = .OP_NOTHING ∧ bv = b1 ∧ kv = k1) ∨
      (vd.op_type ≠ .OP_NOTHING ∧
        add_op env n b1 (.mk vd vf (.mk bd bf op_cont br) vr) k1 0 = .ok (bv, kv)))
    (hblock : add_op env n
      (save_branch_point
        (append_instruction_x env
          (append_instruction env
            (append_instruction env bv
              (.mk d (.mk ed ef (.mk vd vf (.mk bd bf op_cont br) vr) er) s r) .OP_ENTERITER)
            (.mk d (.mk ed ef (.mk vd vf (.mk bd bf op_cont br) vr) er) s r) .OP_ITER)
          .NULL .OP_INSTR_COND_JUMP .null .null)
        (slot d .op_redo_instr))
      (.mk bd bf op_cont br) kv 0 = .ok (b2, k2))
    (hcont :
      (op_cont = .NULL ∧ k3 = k2 ∧
        b3 = append_instruction_x env (save_branch_point b2 (slot d .op_next_instr))
          .NULL .OP_UNSTACK .null .null) ∨
      (op_cont ≠ .NULL ∧
        add_op env n
          (append_instruction_x env (save_branch_point b2 (slot d .op_next_instr))
            .NULL .OP_UNSTACK .null .null) op_cont k2 0 = .ok (b3, k3))) :
    add_op env (n + 1) bpp (.mk d (.mk ed ef (.mk vd vf (.mk bd bf op_cont br) vr) er) s r) m fl =
      .ok (save_branch_point
        (append_instruction_x env
          (save_instr_from_to_pparg
            (save_instr_from_to_pparg
              (append_instruction_x env b3 .NULL .OP_INSTR_JUMP .null .null)
              b3.idx (bv.idx + 1))
            (bv.idx + 2) (b3.idx + 1))
          .NULL .OP_LEAVELOOP .null .null)
        (slot d .op_last_instr), false) := by
  have hff : ∀ k, fold_flag env .OP_FOREACH k = false := by
    intro k; simp [fold_flag, htab]
  have hi1 : (append_instruction env bv
      (.mk d (.mk ed ef (.mk vd vf (.mk bd bf op_cont br) vr) er) s r) .OP_ENTERITER).idx
        = bv.idx + 1 := append_idx env bv _ _ _ _
  have hi2 : (append_instruction env (append_instruction env bv
      (.mk d (.mk ed ef (.mk vd vf (.mk bd bf op_cont br) vr) er) s r) .OP_ENTERITER)
      (.mk d (.mk ed ef (.mk vd vf (.mk bd bf op_cont br) vr) er) s r) .OP_ITER).idx
        = bv.idx + 2 := by
    show (append_instruction_x env _ _ _ _ _).idx = _
    rw [append_idx, hi1]
  have hiJ := append_idx env b3 .NULL .OP_INSTR_JUMP .null .null
  have hv : (if vd.op_type != .OP_NOTHING then
      add_op env n b1 (.mk vd vf (.mk bd bf op_cont br) vr) k1 0 else .ok (b1, k1))
        = .ok (bv, kv) := by
    rcases hvar with ⟨h1, h2, h3⟩ | ⟨h1, h2⟩
    · subst h2 h3; simp [h1]
    · have : (vd.op_type != .OP_NOTHING) = true := by simpa using h1
      simp only [this, reduceIte, h2]
  have hk : (if op_cont.isSome then
      add_op env n (append_instruction_x env (save_branch_point b2 (slot d .op_next_instr))
        .NULL .OP_UNSTACK .null .null) op_cont k2 0
      else .ok (append_instruction_x env (save_branch_point b2 (slot d .op_next_instr))
        .NULL .OP_UNSTACK .null .null, k2)) = .ok (b3, k3) := by
    rcases hcont with ⟨h1, h2, h3⟩ | ⟨h1, h2⟩
    · subst h1 h2 h3; rfl
    · rw [isSome_of_ne_null op_cont h1]; simpa using h2
  rw [add_op_unfold, foreach_emit_eq env _ _ _ _ _ ht, foreach_split]
  simp only [bind, Except.bind, hiter, hv, foreach_loop, hblock, hk, Except.map, add_op_fold,
    OP.type, OP.data, pure, Except.pure, ht, hff, hi1, hi2, hiJ, Nat.add_sub_cancel]
  rw [show (save_instr_from_to_pparg
    (append_instruction_x env b3 .NULL .OP_INSTR_JUMP .null .null) b3.idx (bv.idx + 1)).idx
      = b3.idx + 1 from hiJ]
  simp

/-- Claim C13. The layout `add_op` gives a `FOREACH` node: `pushmark`, the
iterable, the loop variable unless it is an `OP_NOTHING`, `enteriter`, `iter`,
a conditional jump, the body, `unstack`, the continue part if present, an
unconditional jump, `leaveloop`. Two branch fixups are recorded: the
unconditional jump goes to the `iter` instruction and the conditional jump to
the `leaveloop` instruction. Three pointer fixups are recorded for the node:
`op_redo_instr` at the index the body starts at, `op_next_instr` at the index
of `unstack`, `op_last_instr` at the index after `leaveloop`. `FOREACH` is
assumed not to be declared fold-eligible in `PL_opargs`, as in Perl's opcode
table. -/
theorem foreach_layout (env : Env) (n : Nat) (bpp b1 bv b2 b3 : CODEGEN_PAD)
    (d ed vd bd : OpData) (ef er vf vr bf op_cont br s r : OP) (k1 kv k2 k3 m : Bool) (fl : Nat)
    (ht : d.op_type = .OP_FOREACH)
    (htab : hasBit (env.PL_opargs .OP_FOREACH) OA_FOLDCONST = false)
    (hok : pad_ok bpp)
    (hiter : foreach_iterable (add_op env n) (append_instruction env bpp .NULL .OP_PUSHMARK)
      (.mk ed ef (.mk vd vf (.mk bd bf op_cont br) vr) er) = .ok (b1, k1))
    (hvar : (vd.op_type = .OP_NOTHING ∧ bv = b1 ∧ kv = k1) ∨
      (vd.op_type ≠ .OP_NOTHING ∧
        add_op env n b1 (.mk vd vf (.mk bd bf op_cont br) vr) k1 0 = .ok (bv, kv)))
    (hblock : add_op env n
      (save_branch_point
        (append_instruction_x env
          (append_instruction env
            (append_instruction env bv
              (.mk d (.mk ed ef (.mk vd vf (.mk bd bf op_cont br) vr) er) s r) .OP_ENTERITER)
            (.mk d (.mk ed ef (.mk vd vf (.mk bd bf op_cont br) vr) er) s r) .OP_ITER)
          .NULL .OP_INSTR_COND_JUMP .null .null)
        (slot d .op_redo_instr))
      (.mk bd bf op_cont br) kv 0 = .ok (b2, k2))
    (hcont :
      (op_cont = .NULL ∧ k3 = k2 ∧
        b3 = append_instruction_x env (save_branch_point b2 (slot d .op_next_instr))
          .NULL .OP_UNSTACK .null .null) ∨
      (op_cont ≠ .NULL ∧
        add_op env n
          (append_instruction_x env (save_branch_point b2 (slot d .op_next_instr))
            .NULL .OP_UNSTACK .null .null) op_cont k2 0 = .ok (b3, k3))) :
    ∃ b4 : CODEGEN_PAD,
      add_op env (n + 1) bpp (.mk d (.mk ed ef (.mk vd vf (.mk bd bf op_cont br) vr) er) s r) m fl
        = .ok (b4, false) ∧
      (append_instruction env bpp .NULL .OP_PUSHMARK).codeseq.xcodeseq_instructions.get? bpp.idx =
        some { instr_ppaddr := some .OP_PUSHMARK, instr_op := .NULL,
               instr_arg1 := .null, instr_arg2 := .null } ∧
      (((append_instruction_x env
          (append_instruction env
            (append_instruction env bv
              (.mk d (.mk ed ef (.mk vd vf (.mk bd bf op_cont br) vr) er) s r) .OP_ENTERITER)
            (.mk d (.mk ed ef (.mk vd vf (.mk bd bf op_cont br) vr) er) s r) .OP_ITER)
          .NULL .OP_INSTR_COND_JUMP .null .null).codeseq.xcodeseq_instructions.drop
            bv.idx).take 3) =
        [{ instr_ppaddr := some .OP_ENTERITER,
           instr_op := .mk d (.mk ed ef (.mk vd vf (.mk bd bf op_cont br) vr) er) s r,
           instr_arg1 := .null, instr_arg2 := .null },
         { instr_ppaddr := some .OP_ITER,
           instr_op := .mk d (.mk ed ef (.mk vd vf (.mk bd bf op_cont br) vr) er) s r,
           instr_arg1 := .null, instr_arg2 := .null },
         { instr_ppaddr := some .OP_INSTR_COND_JUMP, instr_op := .NULL,
           instr_arg1 := .null, instr_arg2 := .null }] ∧
      (append_instruction_x env (save_branch_point b2 (slot d .op_next_instr))
          .NULL .OP_UNSTACK .null .null).codeseq.xcodeseq_instructions.get? b2.idx =
        some { instr_ppaddr := some .OP_UNSTACK, instr_op := .NULL,
               instr_arg1 := .null, instr_arg2 := .null } ∧
      b4.codeseq.xcodeseq_instructions.get? b3.idx =
        some { instr_ppaddr := some .OP_INSTR_JUMP, instr_op := .NULL,
               instr_arg1 := .null, instr_arg2 := .null } ∧
      b4.codeseq.xcodeseq_instructions.get? (b3.idx + 1) =
        some { instr_ppaddr := some .OP_LEAVELOOP, instr_op := .NULL,
               instr_arg1 := .null, instr_arg2 := .null } ∧
      b4.idx = b3.idx + 2 ∧
      b4.branch_point_to_pparg_list = b3.branch_point_to_pparg_list ++
        [{ instr_from_index := b3.idx, instr_to_index := bv.idx + 1 },
         { instr_from_index := bv.idx + 2, instr_to_index := b3.idx + 1 }] ∧
      (∃ l2 l3 : List OP_INSTRPP,
        b2.op_instrpp_list = bv.op_instrpp_list ++
          [{ instrpp := slot d .op_redo_instr, instr_idx := bv.idx + 3 }] ++ l2 ∧
        b3.op_instrpp_list = b2.op_instrpp_list ++
          [{ instrpp := slot d .op_next_instr, instr_idx := b2.idx }] ++ l3 ∧
        b4.op_instrpp_list = b3.op_instrpp_list ++
          [{ instrpp := slot d .op_last_instr, instr_idx := b3.idx + 2 }]) := by
  have hokP : pad_ok (append_instruction env bpp .NULL .OP_PUSHMARK) :=
    append_pad_ok env bpp _ _ _ _ hok
  have hok1 : pad_ok b1 :=
    (foreach_iterable_rel env Grows (grows_closed env) (add_op env n)
      (add_op_rel env Grows (grows_closed env) n) _ _ _ hiter).2 hokP
  have hokv : pad_ok bv := by
    rcases hvar with ⟨-, h, -⟩ | ⟨-, h⟩
    · rw [h]; exact hok1
    · exact (add_op_grows env n _ _ _ _ _ h).2 hok1
  have hokE1 := append_pad_ok env bv
    (.mk d (.mk ed ef (.mk vd vf (.mk bd bf op_cont br) vr) er) s r) .OP_ENTERITER .null .null hokv
  have hokE2 := append_pad_ok env _
    (.mk d (.mk ed ef (.mk vd vf (.mk bd bf op_cont br) vr) er) s r) .OP_ITER .null .null hokE1
  have hokE3 := append_pad_ok env _ .NULL .OP_INSTR_COND_JUMP .null .null hokE2
  have hi1 := append_idx env bv
    (.mk d (.mk ed ef (.mk vd vf (.mk bd bf op_cont br) vr) er) s r) .OP_ENTERITER .null .null
  have hi2 := append_idx env (append_instruction_x env bv
    (.mk d (.mk ed ef (.mk vd vf (.mk bd bf op_cont br) vr) er) s r) .OP_ENTERITER .null .null)
    (.mk d (.mk ed ef (.mk vd vf (.mk bd bf op_cont br) vr) er) s r) .OP_ITER .null .null
  have hi3 := append_idx env (append_instruction_x env (append_instruction_x env bv
    (.mk d (.mk ed ef (.mk vd vf (.mk bd bf op_cont br) vr) er) s r) .OP_ENTERITER .null .null)
    (.mk d (.mk ed ef (.mk vd vf (.mk bd bf op_cont br) vr) er) s r) .OP_ITER .null .null)
    .NULL .OP_INSTR_COND_JUMP .null .null
  have hok2 : pad_ok b2 := (add_op_grows env n _ _ _ _ _ hblock).2 hokE3
  obtain ⟨l2, hl2⟩ := (add_op_extends env n _ _ _ _ _ hblock).1
  have hokU := append_pad_ok env (save_branch_point b2 (slot d .op_next_instr))
    .NULL .OP_UNSTACK .null .null hok2
  have hlU := append_lists env (save_branch_point b2 (slot d .op_next_instr))
    .NULL .OP_UNSTACK .null .null
  obtain ⟨hok3, l3, hl3⟩ : pad_ok b3 ∧ ∃ l3, (append_instruction_x env
      (save_branch_point b2 (slot d .op_next_instr)) .NULL .OP_UNSTACK .null
        .null).op_instrpp_list ++ l3 = b3.op_instrpp_list := by
    rcases hcont with ⟨-, -, h⟩ | ⟨-, h⟩
    · rw [h]; exact ⟨hokU, [], List.append_nil _⟩
    · exact ⟨(add_op_grows env n _ _ _ _ _ h).2 hokU, (add_op_extends env n _ _ _ _ _ h).1⟩
  have hokJ := append_pad_ok env b3 .NULL .OP_INSTR_JUMP .null .null hok3
  have hiJ := append_idx env b3 .NULL .OP_INSTR_JUMP .null .null
  have heq := foreach_eq env n bpp b1 bv b2 b3 d ed vd bd ef er vf vr bf op_cont br s r
    k1 kv k2 k3 m fl ht htab hiter hvar hblock hcont
  refine ⟨_, heq, append_get_new env bpp _ _ _ _ hok, ?_,
    append_get_new env (save_branch_point b2 (slot d .op_next_instr)) _ _ _ _ hok2,
    ?_, ?_, ?_, ?_, l2, l3, ?_, ?_, ?_⟩
  · have g3 := append_get_new env _ .NULL .OP_INSTR_COND_JUMP .null .null hokE2
    have g2 := append_get_new env _
      (.mk d (.mk ed ef (.mk vd vf (.mk bd bf op_cont br) vr) er) s r) .OP_ITER .null .null hokE1
    have g1 := append_get_new env bv
      (.mk d (.mk ed ef (.mk vd vf (.mk bd bf op_cont br) vr) er) s r) .OP_ENTERITER .null .null
      hokv
    have l1 := hokE1.1
    have l2 := hokE2.1
    have l3 := hokE3.1
    have e1 := hokE1.2
    have e2 := hokE2.2
    have e3 := hokE3.2
    have g2' := append_get_old env _ .NULL .OP_INSTR_COND_JUMP .null .null (bv.idx + 1)
      (by rw [hi2, hi1]; omega) (by rw [e2]; omega) |>.trans (hi1 ▸ g2)
    have g1a := append_get_old env _
      (.mk d (.mk ed ef (.mk vd vf (.mk bd bf op_cont br) vr) er) s r) .OP_ITER .null .null
      bv.idx (by rw [hi1]; omega) (by rw [e1]; omega) |>.trans g1
    have g1' := append_get_old env _ .NULL .OP_INSTR_COND_JUMP .null .null bv.idx
      (by rw [hi2, hi1]; omega) (by rw [e2]; omega) |>.trans g1a
    rw [hi2, hi1] at g3
    apply List.ext_getElem?
    intro i
    rw [List.getElem?_take]
    split
    · rw [List.getElem?_drop]
      rename_i hi
      rcases i with _ | _ | _ | i
      · simpa [List.get?_eq_getElem?] using g1'
      · simpa [List.get?_eq_getElem?] using g2'
      · simpa [List.get?_eq_getElem?] using g3
      · omega
    · rename_i hi
      rcases i with _ | _ | _ | i
      · omega
      · omega
      · omega
      · simp
  · show (append_instruction_x env (save_instr_from_to_pparg (save_instr_from_to_pparg
      (append_instruction_x env b3 .NULL .OP_INSTR_JUMP .null .null) b3.idx (bv.idx + 1))
      (bv.idx + 2) (b3.idx + 1)) _ _ _ _).codeseq.xcodeseq_instructions.get? b3.idx = _
    rw [append_get_old]
    · exact append_get_new env b3 _ _ _ _ hok3
    · show b3.idx ≠ (append_instruction_x env b3 .NULL .OP_INSTR_JUMP .null .null).idx
      omega
    · show b3.idx < (append_instruction_x env b3 .NULL .OP_INSTR_JUMP .null
        .null).codeseq.xcodeseq_instructions.length
      have := hokJ.1
      rw [hokJ.2]
      omega
  · have hnew := append_get_new env (save_instr_from_to_pparg (save_instr_from_to_pparg
      (append_instruction_x env b3 .NULL .OP_INSTR_JUMP .null .null) b3.idx (bv.idx + 1))
      (bv.idx + 2) (b3.idx + 1)) .NULL .OP_LEAVELOOP .null .null hokJ
    rw [show (save_instr_from_to_pparg (save_instr_from_to_pparg
      (append_instruction_x env b3 .NULL .OP_INSTR_JUMP .null .null) b3.idx (bv.idx + 1))
      (bv.idx + 2) (b3.idx + 1)).idx = b3.idx + 1 from hiJ] at hnew
    exact hnew
  · show (append_instruction_x env (save_instr_from_to_pparg (save_instr_from_to_pparg
      (append_instruction_x env b3 .NULL .OP_INSTR_JUMP .null .null) b3.idx (bv.idx + 1))
      (bv.idx + 2) (b3.idx + 1)) _ _ _ _).idx = _
    rw [append_idx]
    show (append_instruction_x env b3 .NULL .OP_INSTR_JUMP .null .null).idx + 1 = _
    omega
  · show (append_instruction_x env (save_instr_from_to_pparg (save_instr_from_to_pparg
      (append_instruction_x env b3 .NULL .OP_INSTR_JUMP .null .null) b3.idx (bv.idx + 1))
      (bv.idx + 2) (b3.idx + 1)) _ _ _ _).branch_point_to_pparg_list = _
    rw [(append_lists env _ _ _ _ _).2.1]
    show ((append_instruction_x env b3 .NULL .OP_INSTR_JUMP .null
      .null).branch_point_to_pparg_list ++ _) ++ _ = _
    rw [(append_lists env b3 _ _ _ _).2.1, List.append_assoc]
    rfl
  · rw [← hl2]
    show _ = bv.op_instrpp_list ++ _ ++ l2
    have h3 : (append_instruction_x env (append_instruction_x env (append_instruction_x env bv
        (.mk d (.mk ed ef (.mk vd vf (.mk bd bf op_cont br) vr) er) s r) .OP_ENTERITER .null .null)
        (.mk d (.mk ed ef (.mk vd vf (.mk bd bf op_cont br) vr) er) s r) .OP_ITER .null .null)
        .NULL .OP_INSTR_COND_JUMP .null .null).op_instrpp_list = bv.op_instrpp_list := by
      rw [(append_lists env _ _ _ _ _).1, (append_lists env _ _ _ _ _).1,
        (append_lists env _ _ _ _ _).1]
    show ((append_instruction_x env (append_instruction_x env (append_instruction_x env bv
        _ _ _ _) _ _ _ _) _ _ _ _).op_instrpp_list ++
        [{ instrpp := slot d .op_redo_instr,
           instr_idx := (append_instruction_x env (append_instruction_x env
            (append_instruction_x env bv _ _ _ _) _ _ _ _) _ _ _ _).idx }]) ++ l2 = _
    rw [h3, hi3, hi2, hi1]
  · rw [← hl3, hlU.1]
    rfl
  · show (append_instruction_x env (save_instr_from_to_pparg (save_instr_from_to_pparg
      (append_instruction_x env b3 .NULL .OP_INSTR_JUMP .null .null) b3.idx (bv.idx + 1))
      (bv.idx + 2) (b3.idx + 1)) _ _ _ _).op_instrpp_list ++
        [{ instrpp := slot d .op_last_instr,
           instr_idx := (append_instruction_x env (save_instr_from_to_pparg
            (save_instr_from_to_pparg
              (append_instruction_x env b3 .NULL .OP_INSTR_JUMP .null .null) b3.idx (bv.idx + 1))
            (bv.idx + 2) (b3.idx + 1)) _ _ _ _).idx }] = _
    rw [(append_lists env _ _ _ _ _).1, append_idx]
    show (append_instruction_x env b3 .NULL .OP_INSTR_JUMP .null .null).op_instrpp_list ++
      [{ instrpp := slot d .op_last_instr,
         instr_idx := (append_instruction_x env b3 .NULL .OP_INSTR_JUMP .null .null).idx + 1 }]
        = _
    rw [(append_lists env b3 _ _ _ _).1, hiJ]

/-- `add_op` never turns the caller's fold flag on. -/
theorem add_op_flag_mono (env : Env) (n : Nat) (bpp b : CODEGEN_PAD) (o : OP) (m : Bool)
    (fl : Nat) (h : add_op env n bpp o m fl = .ok (b, true)) : m = true := by
  cases n with
  | zero => cases h
  | succ n =>
    simp only [add_op, add_op_body, bind_ok_iff] at h
    obtain ⟨_, -, d, -, e, -, h⟩ := h
    simp only [add_op_fold, bind_ok_iff] at h
    obtain ⟨t, -, h⟩ := h
    cases m with
    | true => rfl
    | false =>
      exfalso
      split at h
      · simp only [bind_ok_iff] at h
        obtain ⟨x, -, h⟩ := h
        split at h <;> simp at h
      · simp at h

/-- A sibling chain that leaves the fold flag true was entered with the flag
true, and the translation of each of its nodes left the flag true. -/
theorem add_chain_flags (env : Env) (n : Nat) :
    ∀ (l : List OP) (bpp b : CODEGEN_PAD) (m : Bool),
      add_chain (add_op env n) l bpp m = .ok (b, true) →
      m = true ∧ ∀ kid ∈ l, ∃ p q : CODEGEN_PAD, add_op env n p kid true 0 = .ok (q, true) := by
  intro l
  induction l with
  | nil =>
    intro bpp b m h
    cases h
    exact ⟨rfl, fun kid hk => by cases hk⟩
  | cons k ks ih =>
    intro bpp b m h
    unfold add_chain at h
    simp only [bind_ok_iff] at h
    obtain ⟨a, ha, h⟩ := h
    obtain ⟨h1, h2⟩ := ih _ _ _ h
    obtain ⟨a1, a2⟩ := a
    replace h1 : a2 = true := h1
    subst h1
    have hm := add_op_flag_mono env n _ _ _ _ _ ha
    subst hm
    refine ⟨rfl, fun kid hk => ?_⟩
    rcases List.mem_cons.mp hk with h | h
    · subst h; exact ⟨_, _, ha⟩
    · exact h2 kid h

/-- The node the second `switch` of `add_op` looks at is the node itself, except
for an `AASSIGN` that is compiled as an in-place `sort`. -/
theorem emit_node (env : Env) (rec : AddOp) (bpp b1 : CODEGEN_PAD) (o o1 : OP) (d : OpData)
    (fl : Nat) (k1 : Bool) (h : add_op_emit env rec bpp o d fl = .ok (b1, k1, o1)) :
    o1 = o ∨ (d.op_type = .OP_AASSIGN ∧ o1.type = .ok .OP_SORT) := by
  have hkeep : ∀ (x : Except Err (CODEGEN_PAD × Bool)),
      (x.map fun p => (p.1, p.2, o)) = .ok (b1, k1, o1) → o1 = o := by
    intro x hx
    cases x with
    | error e => simp [Except.map] at hx
    | ok a => simp [Except.map] at hx; exact hx.2.2.symm
  unfold add_op_emit at h
  dsimp only at h
  split at h
  any_goals exact Or.inl (hkeep _ h)
  · -- AASSIGN
    rename_i ht
    simp only [add_op_aassign, bind_ok_iff] at h
    obtain ⟨op_right, -, op_left, -, ip, -, h⟩ := h
    split at h
    · split at h
      · simp only [bind_ok_iff] at h
        obtain ⟨r1, -, r2, -, r3, -, h⟩ := h
        cases h
        rename_i sd sf ss sr hsd
        refine Or.inr ⟨ht, ?_⟩
        have : sd.op_type = .OP_SORT := by simpa using hsd
        simp [OP.type, OP.data, bind, Except.bind, this, pure, Except.pure]
      · simp only [bind_ok_iff] at h
        obtain ⟨_, -, r, -, h⟩ := h
        cases h
        exact Or.inl rfl
    · simp only [bind_ok_iff] at h
      obtain ⟨r1, -, r2, -, h⟩ := h
      cases h
      exact Or.inl rfl
  · split at h
    · exact Or.inl (hkeep _ h)
    · exact Or.inl (hkeep _ h)
  · cases h; exact Or.inl rfl
  · split at h
    · cases h; exact Or.inl rfl
    · exact Or.inl (hkeep _ h)

theorem emit_default_eq (env : Env) (rec : AddOp) (bpp : CODEGEN_PAD) (o : OP) (d : OpData)
    (fl : Nat) (ht : has_template d.op_type = false) :
    add_op_emit env rec bpp o d fl =
      (add_op_default env rec bpp o d).map fun p => (p.1, p.2, o) := by
  unfold add_op_emit
  generalize d.op_type = t at ht
  cases t <;> first | rfl | (simp [has_template] at ht)

theorem add_kids_chain (rec : AddOp) (bpp : CODEGEN_PAD) (d : OpData) (f s r : OP) (m : Bool) :
    add_kids rec bpp (.mk d f s r) m =
      add_chain rec (if hasBit d.op_flags OPf_KIDS then f.chain else []) bpp m := by
  unfold add_kids
  by_cases hk : hasBit d.op_flags OPf_KIDS = true
  · simp only [hk, if_true, OP.data, OP.first, bind, Except.bind]
  · simp only [hk, OP.data, bind, Except.bind, add_chain]
    rfl

theorem map_ok_iff {α β : Type} (x : Except Err α) (g : α → β) (r : β) :
    x.map g = .ok r ↔ ∃ a, x = .ok a ∧ g a = r := by
  cases x <;> simp [Except.map]

/-- For a node translated by the default rule or as a transparent wrapper, the
value of `kid_may_constant_fold` after the first `switch` is the one the chain
of its children leaves. -/
theorem emit_kids (env : Env) (rec : AddOp) (bpp b1 : CODEGEN_PAD) (d : OpData)
    (f s r o1 : OP) (fl : Nat) (k1 : Bool)
    (ht : has_template d.op_type = false ∨ d.op_type = .OP_NULL ∨ d.op_type = .OP_SCALAR)
    (h : add_op_emit env rec bpp (.mk d f s r) d fl = .ok (b1, k1, o1)) :
    ∃ p q : CODEGEN_PAD,
      add_chain rec (if hasBit d.op_flags OPf_KIDS then f.chain else []) p true = .ok (q, k1) := by
  rcases ht with ht | ht | ht
  · rw [emit_default_eq env _ _ _ _ _ ht, map_ok_iff] at h
    obtain ⟨a, ha, h⟩ := h
    simp only [add_op_default, add_kids_chain, bind_ok_iff] at ha
    obtain ⟨x, hx, ha⟩ := ha
    cases ha
    cases h
    exact ⟨_, x.1, hx⟩
  · unfold add_op_emit at h
    simp only [ht, add_kids_chain, map_ok_iff] at h
    obtain ⟨a, ha, h⟩ := h
    cases h
    exact ⟨_, a.1, ha⟩
  · unfold add_op_emit at h
    simp only [ht, add_kids_chain, map_ok_iff] at h
    obtain ⟨a, ha, h⟩ := h
    cases h
    exact ⟨_, a.1, ha⟩

theorem fold_flag_true (env : Env) (t : Optype) (k : Bool)
    (hloc : locale_sensitive t = true → hasBit (env.PL_opargs t) OA_FOLDCONST = true)
    (h : fold_flag env t k = true) :
    k = true ∧ (t = .OP_CONST ∨ t = .OP_NULL ∨ t = .OP_SCALAR ∨
      hasBit (env.PL_opargs t) OA_FOLDCONST = true) := by
  unfold fold_flag at h
  cases t <;> simp_all [locale_sensitive]

theorem append_instrpp (env : Env) (b : CODEGEN_PAD) (o t a1 a2) :
    (append_instruction_x env b o t a1 a2).op_instrpp_list = b.op_instrpp_list :=
  (append_lists env b o t a1 a2).1

theorem append_branch (env : Env) (b : CODEGEN_PAD) (o t a1 a2) :
    (append_instruction_x env b o t a1 a2).branch_point_to_pparg_list =
      b.branch_point_to_pparg_list :=
  (append_lists env b o t a1 a2).2.1

theorem assign_svp_lists (b : CODEGEN_PAD) (p : SVPtr) (i : Nat) (v : SV) :
    (assign_svp b p i v).op_instrpp_list = b.op_instrpp_list ∧
    (assign_svp b p i v).branch_point_to_pparg_list = b.branch_point_to_pparg_list := by
  unfold assign_svp
  split
  · exact ⟨rfl, rfl⟩
  · split <;> exact ⟨rfl, rfl⟩

theorem assign_svp_instrpp (b : CODEGEN_PAD) (p : SVPtr) (i : Nat) (v : SV) :
    (assign_svp b p i v).op_instrpp_list = b.op_instrpp_list := (assign_svp_lists b p i v).1

theorem assign_svp_branch (b : CODEGEN_PAD) (p : SVPtr) (i : Nat) (v : SV) :
    (assign_svp b p i v).branch_point_to_pparg_list = b.branch_point_to_pparg_list :=
  (assign_svp_lists b p i v).2

theorem add_chain_nofix (rec : AddOp)
    (hrec : ∀ b o m f r, rec b o m f = .ok r → r.2 = true → m = true ∧ NoFix b r.1) :
    ∀ (l : List OP) (bpp : CODEGEN_PAD) (m : Bool) (r : CODEGEN_PAD × Bool),
      add_chain rec l bpp m = .ok r → r.2 = true → m = true ∧ NoFix bpp r.1 := by
  intro l
  induction l with
  | nil =>
    intro bpp m r h hr
    cases h
    exact ⟨hr, rfl, rfl⟩
  | cons k ks ih =>
    intro bpp m r h hr
    unfold add_chain at h
    simp only [bind_ok_iff] at h
    obtain ⟨a, ha, h⟩ := h
    obtain ⟨h1, h2⟩ := ih _ _ _ h hr
    obtain ⟨h3, h4⟩ := hrec _ _ _ _ _ ha h1
    exact ⟨h3, h2.1.trans h4.1, h2.2.trans h4.2⟩

theorem add_kids_nofix (rec : AddOp)
    (hrec : ∀ b o m f r, rec b o m f = .ok r → r.2 = true → m = true ∧ NoFix b r.1)
    (bpp : CODEGEN_PAD) (o : OP) (m : Bool) (r : CODEGEN_PAD × Bool)
    (h : add_kids rec bpp o m = .ok r) (hr : r.2 = true) : m = true ∧ NoFix bpp r.1 := by
  unfold add_kids at h
  simp only [bind_ok_iff] at h
  obtain ⟨d, -, h⟩ := h
  split at h
  · simp only [bind_ok_iff] at h
    obtain ⟨f, -, h⟩ := h
    exact add_chain_nofix rec hrec _ _ _ _ h hr
  · cases h
    exact ⟨hr, rfl, rfl⟩

set_option maxRecDepth 8000 in
set_option maxHeartbeats 4000000 in
/-- The first `switch` of `add_op` on a node whose kind records no fixup: when it
leaves `kid_may_constant_fold` true, no fixup has been recorded, provided the
same holds of the recursive calls. -/
theorem emit_nofix_sat (env : Env) (rec : AddOp)
    (hrec : ∀ b o m f r, rec b o m f = .ok r → r.2 = true → m = true ∧ NoFix b r.1)
    (bpp : CODEGEN_PAD) (o : OP) (d : OpData) (fl : Nat)
    (hnr : records_fixups d.op_type = false) (hna : d.op_type ≠ .OP_AASSIGN) :
    Sat (add_op_emit env rec bpp o d fl) (fun e => e.2.1 = true → NoFix bpp e.1) := by
  have hkids := add_kids_nofix rec hrec
  unfold add_op_emit
  dsimp only
  split
  all_goals (first
    | (exfalso; rename_i heq; rw [heq] at hnr; simp [records_fixups] at hnr; done)
    | (exfalso; rename_i heq; exact hna heq)
    | skip)
  all_goals (try simp only [add_op_regcomp, add_op_rv2sv, add_op_aelem,
    add_op_helem, add_op_delete, add_op_lslice, add_op_rv2hv, add_op_repeat,
    add_op_nextstate, add_op_dbstate, add_op_sassign, add_op_stringify,
    add_op_concat, add_op_default, append_instruction])
  all_goals
    with_reducible repeat' (first
      | (apply sat_map)
      | (apply sat_bind)
      | (apply sat_ok)
      | (apply sat_error)
      | (apply sat_ite <;> intro _)
      | (refine Sat.mk (fun _ hx => ?_); have := hrec _ _ _ _ _ hx)
      | (refine Sat.mk (fun _ hx => ?_); have := hkids _ _ _ _ hx)
      | (dsimp only)
      | split
      | (refine Sat.mk (fun _ _ => ?_)))
  all_goals (intro hflag)
  all_goals (clear hrec hkids hnr hna)
  all_goals (first | contradiction | simp_all only [NoFix, append_instrpp, append_branch, assign_svp_instrpp,
    assign_svp_branch, CODEGEN_PAD.set_idx, CODEGEN_PAD.set_curcop, CODEGEN_PAD.log_writes,
    Bool.and_eq_true, true_and, and_true, and_self, forall_const, true_implies, imp_self,
    apply_ite CODEGEN_PAD.op_instrpp_list, apply_ite CODEGEN_PAD.branch_point_to_pparg_list,
    ite_self, Bool.false_eq_true, false_implies, and_false, false_and])

theorem aassign_nofix (env : Env) (rec : AddOp)
    (hrec : ∀ b o m f r, rec b o m f = .ok r → r.2 = true → m = true ∧ NoFix b r.1)
    (bpp b1 : CODEGEN_PAD) (o o1 : OP) (t : Optype)
    (h : add_op_aassign env rec bpp o = .ok (b1, true, o1))
    (ht : o1.type = .ok t) (hnr : records_fixups t = false) : NoFix bpp b1 := by
  simp only [add_op_aassign, bind_ok_iff] at h
  obtain ⟨op_right, -, op_left, -, ip, -, h⟩ := h
  split at h
  · split at h
    · rename_i sd sf ss sr hsd
      simp only [bind_ok_iff] at h
      obtain ⟨r1, -, r2, -, r3, -, h⟩ := h
      simp only [Except.ok.injEq, Prod.mk.injEq] at h
      obtain ⟨-, -, ho⟩ := h
      subst ho
      have hs : sd.op_type = .OP_SORT := by simpa using hsd
      simp only [OP.type, OP.data, bind, Except.bind, pure, Except.pure, hs] at ht
      cases ht
      simp [records_fixups] at hnr
    · simp only [bind_ok_iff] at h
      obtain ⟨_, -, r, hr, h⟩ := h
      simp only [Except.ok.injEq, Prod.mk.injEq] at h
      obtain ⟨hb, hk, -⟩ := h
      subst hb
      obtain ⟨-, h1, h2⟩ := hrec _ _ _ _ _ hr hk
      simp only [append_instruction] at h1 h2
      rw [append_instrpp, append_instrpp, CODEGEN_PAD.log_writes] at h1
      rw [append_branch, append_branch, CODEGEN_PAD.log_writes] at h2
      exact ⟨by rw [append_instruction, append_instrpp]; exact h1,
        by rw [append_instruction, append_branch]; exact h2⟩
  · simp only [bind_ok_iff] at h
    obtain ⟨r1, hr1, r2, hr2, h⟩ := h
    simp only [Except.ok.injEq, Prod.mk.injEq] at h
    obtain ⟨hb, hk, -⟩ := h
    subst hb
    obtain ⟨hm, h1, h2⟩ := hrec _ _ _ _ _ hr2 hk
    obtain ⟨-, h3, h4⟩ := hrec _ _ _ _ _ hr1 hm
    simp only [append_instruction] at h1 h2 h3 h4
    rw [append_instrpp] at h1 h3
    rw [append_branch] at h2 h4
    exact ⟨by rw [append_instruction, append_instrpp, h1, h3],
      by rw [append_instruction, append_branch, h2, h4]⟩

/-- The first `switch` of `add_op`: when it leaves `kid_may_constant_fold` true
on a node whose kind (as the second `switch` sees it) records no fixup, no
fixup has been recorded, provided the same holds of the recursive calls. -/
theorem emit_nofix (env : Env) (rec : AddOp)
    (hrec : ∀ b o m f r, rec b o m f = .ok r → r.2 = true → m = true ∧ NoFix b r.1)
    (bpp b1 : CODEGEN_PAD) (d : OpData) (f s r o1 : OP) (fl : Nat) (t : Optype)
    (h : add_op_emit env rec bpp (.mk d f s r) d fl = .ok (b1, true, o1))
    (ht : o1.type = .ok t) (hnr : records_fixups t = false) : NoFix bpp b1 := by
  by_cases ha : d.op_type = .OP_AASSIGN
  · unfold add_op_emit at h
    simp only [ha] at h
    exact aassign_nofix env rec hrec _ _ _ _ _ h ht hnr
  · rcases emit_node env rec _ _ _ _ _ _ _ h with h1 | ⟨h2, -⟩
    · subst h1
      simp only [OP.type, OP.data, bind, Except.bind, pure, Except.pure] at ht
      cases ht
      exact (emit_nofix_sat env rec hrec bpp _ d fl hnr ha).out _ h rfl
    · exact absurd h2 ha

theorem fold_flag_no_fixups (env : Env) (t : Optype) (k : Bool)
    (htab : ∀ t, records_fixups t = true → hasBit (env.PL_opargs t) OA_FOLDCONST = false)
    (h : fold_flag env t k = true) : k = true ∧ records_fixups t = false := by
  have ht := htab t
  unfold fold_flag at h
  cases t <;> simp_all [records_fixups]

/-- The end of `add_op` records no fixup. -/
theorem add_op_fold_lists (env : Env) (b1 b : CODEGEN_PAD) (o : OP) (start : Nat) (k m j : Bool)
    (h : add_op_fold env b1 o start k m = .ok (b, j)) : NoFix b1 b := by
  simp only [add_op_fold, bind_ok_iff] at h
  obtain ⟨t, -, h⟩ := h
  split at h
  · simp only [bind_ok_iff] at h
    obtain ⟨x, hx, h⟩ := h
    obtain ⟨interp, call, hbt⟩ := fold_trial_eq env b1 start o false _ hx
    split at h
    · cases h
      refine ⟨?_, ?_⟩
      · show (append_instruction_x env _ _ _ _ _).op_instrpp_list = _
        rw [append_instrpp, hbt]
        exact append_instrpp env b1 _ _ _ _
      · show (append_instruction_x env _ _ _ _ _).branch_point_to_pparg_list = _
        rw [append_branch, hbt]
        exact append_branch env b1 _ _ _ _
    · cases h
      rw [hbt]
      exact ⟨append_instrpp env b1 _ _ _ _, append_branch env b1 _ _ _ _⟩
  · cases h
    exact ⟨rfl, rfl⟩

/-- A translation that leaves the fold flag true has recorded no fixup, when no
kind that records fixups is declared fold-eligible. -/
theorem add_op_nofix (env : Env)
    (htab : ∀ t, records_fixups t = true → hasBit (env.PL_opargs t) OA_FOLDCONST = false) :
    ∀ (n : Nat) (bpp : CODEGEN_PAD) (o : OP) (m : Bool) (fl : Nat) (r : CODEGEN_PAD × Bool),
      add_op env n bpp o m fl = .ok r → r.2 = true → m = true ∧ NoFix bpp r.1 := by
  intro n
  induction n with
  | zero => intro bpp o m fl r h; cases h
  | succ n ih =>
    intro bpp o m fl r h hr
    obtain ⟨rb, rk⟩ := r
    replace hr : rk = true := hr
    subst hr
    refine ⟨add_op_flag_mono env _ _ _ _ _ _ h, ?_⟩
    cases o with
    | NULL => simp [add_op, add_op_body, c_assert, OP.isSome, bind, Except.bind] at h
    | mk d f s r =>
      rw [add_op_unfold] at h
      simp only [bind_ok_iff] at h
      obtain ⟨⟨b1, k1, o1⟩, hemit, hfold⟩ := h
      have hl := add_op_fold_lists env _ _ _ _ _ _ _ hfold
      simp only [add_op_fold, bind_ok_iff] at hfold
      obtain ⟨t, htype, hfold⟩ := hfold
      have hff : fold_flag env t k1 = true := by
        split at hfold
        · rename_i hc
          simp only [Bool.and_eq_true] at hc
          exact hc.1
        · simp only [Except.ok.injEq, Prod.mk.injEq, Bool.and_eq_true] at hfold
          exact hfold.2.2
      obtain ⟨hk1, hnr⟩ := fold_flag_no_fixups env t k1 htab hff
      subst hk1
      have he := emit_nofix env (add_op env n) ih bpp b1 d f s r o1 fl t hemit htype hnr
      exact ⟨hl.1.trans he.1, hl.2.trans he.2⟩

/-- Claim C20, as amended. At a call of the trial evaluator made by `add_op` for
a node, every pending pointer or branch fixup was recorded before the
translation of that node began, that is before any instruction of the range
handed to the evaluator was emitted: no fixup has been recorded for the range.
This holds of the attempt at the end of `add_op` (first part: the pad `b1`
left by the first `switch` has the fixup lists of the pad `bpp` the node was
entered with, and the call is logged with those counts) and of the list-mode
attempt of a `RANGE` node (second part). Hence a pending branch fixup has its
`from` inside the range, or a pending pointer fixup its target after the first
index of the range, only if that was so when the node was entered; a pointer
fixup recorded just before the node, such as the one of the false branch of a
`COND_EXPR`, targets the first index of the range. No kind that records
fixups is assumed to be declared fold-eligible in `PL_opargs`, as in Perl's
opcode table. -/
theorem trial_range_fixups (env : Env) (n : Nat) (bpp : CODEGEN_PAD) (d : OpData) (f s r : OP)
    (fl : Nat)
    (htab : ∀ t, records_fixups t = true → hasBit (env.PL_opargs t) OA_FOLDCONST = false) :
    (∀ (b1 : CODEGEN_PAD) (k1 : Bool) (o1 : OP) (t : Optype),
      add_op_emit env (add_op env n) bpp (.mk d f s r) d fl = .ok (b1, k1, o1) →
      o1.type = .ok t →
      fold_flag env t k1 = true →
      b1.op_instrpp_list = bpp.op_instrpp_list ∧
      b1.branch_point_to_pparg_list = bpp.branch_point_to_pparg_list ∧
      ((∀ e ∈ bpp.op_instrpp_list, e.instr_idx ≤ bpp.idx) →
        ∀ e ∈ b1.op_instrpp_list, e.instr_idx ≤ bpp.idx) ∧
      ((∀ e ∈ bpp.branch_point_to_pparg_list, e.instr_from_index < bpp.idx) →
        ∀ e ∈ b1.branch_point_to_pparg_list, e.instr_from_index < bpp.idx) ∧
      (∀ (v : Option SV) (bt : CODEGEN_PAD),
        fold_trial env b1 bpp.idx o1 false = .ok (v, bt) →
        ∃ node : Nat, bt.fold_calls = b1.fold_calls ++
          [{ start := bpp.idx, stop := b1.idx + 1, node := node, list := false,
             n_instrpp := bpp.op_instrpp_list.length,
             n_branch := bpp.branch_point_to_pparg_list.length }])) ∧
    (∀ (fd ld : OpData) (lf right lr fs fr : OP) (c1 c2 : CODEGEN_PAD) (j1 : Bool),
      d.op_type = .OP_RANGE → (d.op_flags &&& OPf_WANT == OPf_WANT_LIST) = true →
      f = .mk fd (.mk ld lf right lr) fs fr →
      add_op env n bpp (.mk ld lf right lr) true 0 = .ok (c1, j1) →
      add_op env n c1 right j1 0 = .ok (c2, true) →
      (append_instruction env c2 (.mk d f s r) .OP_FLOP).op_instrpp_list
        = bpp.op_instrpp_list ∧
      (append_instruction env c2 (.mk d f s r) .OP_FLOP).branch_point_to_pparg_list
        = bpp.branch_point_to_pparg_list) := by
  constructor
  · intro b1 k1 o1 t hemit htype hff
    obtain ⟨hk1, hnr⟩ := fold_flag_no_fixups env t k1 htab hff
    subst hk1
    have he := emit_nofix env (add_op env n) (add_op_nofix env htab n) bpp b1 d f s r o1 fl t
      hemit htype hnr
    refine ⟨he.1, he.2, ?_, ?_, ?_⟩
    · intro h; rw [he.1]; exact h
    · intro h; rw [he.2]; exact h
    · intro v bt htrial
      simp only [fold_trial, bind_ok_iff] at htrial
      obtain ⟨od, -, x, -, h⟩ := htrial
      simp only [Except.ok.injEq, Prod.mk.injEq] at h
      obtain ⟨-, hbt⟩ := h
      subst hbt
      refine ⟨od.addr, ?_⟩
      simp only [CODEGEN_PAD.after_trial, append_idx, append_instrpp, append_branch,
        (append_logs env b1 _ _ _ _).2, he.1, he.2]
  · intro fd ld lf right lr fs fr c1 c2 j1 _ _ _ hl hr
    obtain ⟨hj, h1⟩ := add_op_nofix env htab n _ _ _ _ _ hr rfl
    replace hj : j1 = true := hj
    subst hj
    obtain ⟨-, h2⟩ := add_op_nofix env htab n _ _ _ _ _ hl rfl
    constructor
    · rw [append_instruction, append_instrpp]; exact h1.1.trans h2.1
    · rw [append_instruction, append_branch]; exact h1.2.trans h2.2

/-- The example environment declares no kind that records fixups
fold-eligible. -/
theorem demo_env_table :
    ∀ t, records_fixups t = true → hasBit (demo_env.PL_opargs t) OA_FOLDCONST = false := by
  intro t ht
  cases t <;> first | rfl | (simp [records_fixups] at ht)

/-- Witness of C11: `while ($x) { print "hi" }` records `redo` at 3, `next` at 6
and `last` at 8, the index after `leaveloop`. -/
theorem enterloop_pointer_fixups_witness :
    ∃ (b4 : CODEGEN_PAD) (l2 l3 : List OP_INSTRPP),
      add_op demo_env 4 pad0 tree_while true 0 = .ok (b4, false) ∧
      while_body_pad.op_instrpp_list =
        (append_instruction_x demo_env while_cond_pad .NULL .OP_INSTR_COND_JUMP .null
          .null).op_instrpp_list ++
        [{ instrpp := slot wl_data .op_redo_instr,
           instr_idx := (append_instruction_x demo_env while_cond_pad .NULL .OP_INSTR_COND_JUMP
             .null .null).idx }] ++ l2 ∧
      (save_branch_point while_body_pad (slot wl_data .op_next_instr)).op_instrpp_list =
        while_body_pad.op_instrpp_list ++
        [{ instrpp := slot wl_data .op_next_instr, instr_idx := while_body_pad.idx }] ++ l3 ∧
      b4.op_instrpp_list =
        (save_branch_point while_body_pad (slot wl_data .op_next_instr)).op_instrpp_list ++
        [{ instrpp := slot wl_data .op_last_instr, instr_idx := b4.idx }] ∧
      0 < b4.idx ∧
      b4.codeseq.xcodeseq_instructions.get? (b4.idx - 1) =
        some { instr_ppaddr := some .OP_LEAVELOOP, instr_op := tree_while,
               instr_arg1 := .null, instr_arg2 := .null } :=
  enterloop_pointer_fixups demo_env 3 pad0
    (append_instruction_x demo_env while_cond_pad .NULL .OP_INSTR_COND_JUMP .null .null)
    while_body_pad (save_branch_point while_body_pad (slot wl_data .op_next_instr))
    wl_data wl_cond_data wl_body_data .NULL .NULL wl_body_kids .NULL .NULL .NULL .NULL
    false false false true 0 (by decide) (by decide) (new_pad_ok _ _ _)
    (Or.inr ⟨by decide, while_cond_pad, by decide, rfl⟩) (by decide)
    (Or.inl ⟨rfl, rfl, rfl⟩)

/-- Counterexample to C12 as stated: the bare block `{ print "hi" }` is an
`ENTERLOOP` node without a condition; its translation is `enterloop`,
`pushmark`, the constant, `print`, `leaveloop`, with no unconditional jump and
no branch fixup. -/
theorem enterloop_layout_counterexample :
    add_op demo_env 4 pad0 tree_bare_loop true 0 = .ok (bare_done, false) ∧
    bare_done.idx = 5 ∧
    (bare_done.codeseq.xcodeseq_instructions.take 5).map (fun x => x.instr_ppaddr) =
      [some .OP_ENTERLOOP, some .OP_PUSHMARK, some .OP_CONST, some .OP_PRINT,
       some .OP_LEAVELOOP] ∧
    bare_done.branch_point_to_pparg_list = [] ∧
    ¬ ∃ x ∈ bare_done.codeseq.xcodeseq_instructions.take 5,
      x.instr_ppaddr = some .OP_INSTR_JUMP := by
  decide

/-- Witness of C12 as amended: `while ($x) { print "hi" }` has the jump at 6
sent to 1 and the conditional jump at 2 sent to `leaveloop` at 7; the bare
block has neither. -/
theorem enterloop_layout_witness :
    (∃ b4 : CODEGEN_PAD,
      add_op demo_env 4 pad0 tree_while true 0 = .ok (b4, false) ∧
      (append_instruction demo_env pad0 tree_while .OP_ENTERLOOP
          ).codeseq.xcodeseq_instructions.get? pad0.idx =
        some { instr_ppaddr := some .OP_ENTERLOOP, instr_op := tree_while,
               instr_arg1 := .null, instr_arg2 := .null } ∧
      (append_instruction_x demo_env while_cond_pad .NULL .OP_INSTR_COND_JUMP .null .null
          ).codeseq.xcodeseq_instructions.get? while_cond_pad.idx =
        some { instr_ppaddr := some .OP_INSTR_COND_JUMP, instr_op := .NULL,
               instr_arg1 := .null, instr_arg2 := .null } ∧
      b4.codeseq.xcodeseq_instructions.get?
          (save_branch_point while_body_pad (slot wl_data .op_next_instr)).idx =
        some { instr_ppaddr := some .OP_INSTR_JUMP, instr_op := .NULL,
               instr_arg1 := .null, instr_arg2 := .null } ∧
      b4.codeseq.xcodeseq_instructions.get?
          ((save_branch_point while_body_pad (slot wl_data .op_next_instr)).idx + 1) =
        some { instr_ppaddr := some .OP_LEAVELOOP, instr_op := tree_while,
               instr_arg1 := .null, instr_arg2 := .null } ∧
      b4.idx = (save_branch_point while_body_pad (slot wl_data .op_next_instr)).idx + 2 ∧
      b4.branch_point_to_pparg_list =
        (save_branch_point while_body_pad
          (slot wl_data .op_next_instr)).branch_point_to_pparg_list ++
        [{ instr_from_index :=
             (save_branch_point while_body_pad (slot wl_data .op_next_instr)).idx,
           instr_to_index := pad0.idx + 1 },
         { instr_from_index := while_cond_pad.idx,
           instr_to_index :=
             (save_branch_point while_body_pad (slot wl_data .op_next_instr)).idx + 1 }]) ∧
    (∃ b4 : CODEGEN_PAD,
      add_op demo_env 4 pad0 tree_bare_loop true 0 = .ok (b4, false) ∧
      (append_instruction demo_env pad0 tree_bare_loop .OP_ENTERLOOP
          ).codeseq.xcodeseq_instructions.get? pad0.idx =
        some { instr_ppaddr := some .OP_ENTERLOOP, instr_op := tree_bare_loop,
               instr_arg1 := .null, instr_arg2 := .null } ∧
      b4.codeseq.xcodeseq_instructions.get?
          (save_branch_point bare_body_pad (slot wl_data .op_next_instr)).idx =
        some { instr_ppaddr := some .OP_LEAVELOOP, instr_op := tree_bare_loop,
               instr_arg1 := .null, instr_arg2 := .null } ∧
      b4.idx = (save_branch_point bare_body_pad (slot wl_data .op_next_instr)).idx + 1 ∧
      b4.branch_point_to_pparg_list =
        (save_branch_point bare_body_pad
          (slot wl_data .op_next_instr)).branch_point_to_pparg_list) :=
  ⟨(enterloop_layout demo_env 3 pad0 while_body_pad
      (save_branch_point while_body_pad (slot wl_data .op_next_instr))
      wl_data wl_cond_data wl_body_data .NULL .NULL wl_body_kids .NULL .NULL .NULL .NULL
      false false true 0 (by decide) (by decide) (new_pad_ok _ _ _)
      (Or.inl ⟨rfl, rfl, rfl⟩)).1 while_cond_pad false (by decide) (by decide) (by decide),
   (enterloop_layout demo_env 3 pad0 bare_body_pad
      (save_branch_point bare_body_pad (slot wl_data .op_next_instr))
      wl_data wl_nothing_data wl_body_data .NULL .NULL wl_body_kids .NULL .NULL .NULL .NULL
      false false true 0 (by decide) (by decide) (new_pad_ok _ _ _)
      (Or.inl ⟨rfl, rfl, rfl⟩)).2 (by decide) (by decide)⟩

/-- Witness of C13: `for (1..3) { print "hi" }` gives `pushmark`, the two
endpoints, `enteriter`, `iter`, the conditional jump, the three instructions of
the body, `unstack`, the jump and `leaveloop`; the jump at 10 goes to `iter` at
4 and the conditional jump at 5 to `leaveloop` at 11; `redo` is 6, `next` is 9
and `last` is 12. -/
theorem foreach_layout_witness :
    (fe_done.codeseq.xcodeseq_instructions.take 12).map (fun x => x.instr_ppaddr) =
      [some .OP_PUSHMARK, some .OP_CONST, some .OP_CONST, some .OP_ENTERITER, some .OP_ITER,
       some .OP_INSTR_COND_JUMP, some .OP_PUSHMARK, some .OP_CONST, some .OP_PRINT,
       some .OP_UNSTACK, some .OP_INSTR_JUMP, some .OP_LEAVELOOP] ∧
    fe_done.branch_point_to_pparg_list =
      [{ instr_from_index := 10, instr_to_index := 4 },
       { instr_from_index := 5, instr_to_index := 11 }] ∧
    fe_done.op_instrpp_list =
      [{ instrpp := some { node := 80, field := .op_redo_instr }, instr_idx := 6 },
       { instrpp := some { node := 80, field := .op_next_instr }, instr_idx := 9 },
       { instrpp := some { node := 80, field := .op_last_instr }, instr_idx := 12 }] ∧
    ∃ b4 : CODEGEN_PAD,
      add_op demo_env 4 pad0 tree_foreach true 0 = .ok (b4, false) ∧
      (append_instruction demo_env pad0 .NULL .OP_PUSHMARK).codeseq.xcodeseq_instructions.get?
          pad0.idx =
        some { instr_ppaddr := some .OP_PUSHMARK, instr_op := .NULL,
               instr_arg1 := .null, instr_arg2 := .null } ∧
      (((append_instruction_x demo_env
          (append_instruction demo_env
            (append_instruction demo_env fe_iter_pad tree_foreach .OP_ENTERITER)
            tree_foreach .OP_ITER)
          .NULL .OP_INSTR_COND_JUMP .null .null).codeseq.xcodeseq_instructions.drop
            fe_iter_pad.idx).take 3) =
        [{ instr_ppaddr := some .OP_ENTERITER, instr_op := tree_foreach,
           instr_arg1 := .null, instr_arg2 := .null },
         { instr_ppaddr := some .OP_ITER, instr_op := tree_foreach,
           instr_arg1 := .null, instr_arg2 := .null },
         { instr_ppaddr := some .OP_INSTR_COND_JUMP, instr_op := .NULL,
           instr_arg1 := .null, instr_arg2 := .null }] ∧
      fe_unstack_pad.codeseq.xcodeseq_instructions.get? fe_body_pad.idx =
        some { instr_ppaddr := some .OP_UNSTACK, instr_op := .NULL,
               instr_arg1 := .null, instr_arg2 := .null } ∧
      b4.codeseq.xcodeseq_instructions.get? fe_unstack_pad.idx =
        some { instr_ppaddr := some .OP_INSTR_JUMP, instr_op := .NULL,
               instr_arg1 := .null, instr_arg2 := .null } ∧
      b4.codeseq.xcodeseq_instructions.get? (fe_unstack_pad.idx + 1) =
        some { instr_ppaddr := some .OP_LEAVELOOP, instr_op := .NULL,
               instr_arg1 := .null, instr_arg2 := .null } ∧
      b4.idx = fe_unstack_pad.idx + 2 ∧
      b4.branch_point_to_pparg_list = fe_unstack_pad.branch_point_to_pparg_list ++
        [{ instr_from_index := fe_unstack_pad.idx, instr_to_index := fe_iter_pad.idx + 1 },
         { instr_from_index := fe_iter_pad.idx + 2, instr_to_index := fe_unstack_pad.idx + 1 }] ∧
      (∃ l2 l3 : List OP_INSTRPP,
        fe_body_pad.op_instrpp_list = fe_iter_pad.op_instrpp_list ++
          [{ instrpp := slot fe_data .op_redo_instr, instr_idx := fe_iter_pad.idx + 3 }] ++ l2 ∧
        fe_unstack_pad.op_instrpp_list = fe_body_pad.op_instrpp_list ++
          [{ instrpp := slot fe_data .op_next_instr, instr_idx := fe_body_pad.idx }] ++ l3 ∧
        b4.op_instrpp_list = fe_unstack_pad.op_instrpp_list ++
          [{ instrpp := slot fe_data .op_last_instr, instr_idx := fe_unstack_pad.idx + 2 }]) :=
  ⟨by decide, by decide, by decide,
   foreach_layout demo_env 3 pad0 fe_iter_pad fe_iter_pad fe_body_pad fe_unstack_pad
    fe_data fe_range_data fe_var_data fe_body_data fe_flip .NULL .NULL .NULL fe_body_kids
    .NULL .NULL .NULL .NULL true true false false true 0
    (by decide) (by decide) (new_pad_ok _ _ _) (by decide) (Or.inl ⟨by decide, rfl, rfl⟩)
    (by decide) (Or.inl ⟨rfl, rfl, rfl⟩)⟩

/-- Witness of C14: the iterable of `for (1..3) { print "hi" }` is the
translation of `1` followed by that of `3`, two `const` instructions after the
`pushmark`. -/
theorem foreach_iterable_cases_witness :
    foreach_iterable (add_op demo_env 3) (append_instruction demo_env pad0 .NULL .OP_PUSHMARK)
        (.mk fe_range_data fe_flip
          (.mk fe_var_data .NULL (.mk fe_body_data fe_body_kids .NULL .NULL) .NULL) .NULL) =
      (add_op demo_env 3 (append_instruction demo_env pad0 .NULL .OP_PUSHMARK)
          (.mk fe_left_data .NULL fe_right .NULL) true 0
        >>= fun l => add_op demo_env 3 l.1 fe_right l.2 0) ∧
    fe_iter_pad.idx = 3 ∧
    (fe_iter_pad.codeseq.xcodeseq_instructions.take 3).map (fun x => x.instr_ppaddr) =
      [some .OP_PUSHMARK, some .OP_CONST, some .OP_CONST] :=
  ⟨(foreach_iterable_cases demo_env (add_op demo_env 3) pad0 fe_data fe_range_data fe_var_data
      fe_body_data fe_flip .NULL .NULL .NULL fe_body_kids .NULL .NULL .NULL .NULL 0
      (by decide)).2.1 (opdata 82 .OP_FLIP OPf_KIDS) fe_left_data .NULL fe_right .NULL .NULL
      .NULL (by decide) rfl,
   by decide, by decide⟩

/-- Witness of C15: in scalar mode the run of the single push of `2` returns
that value. -/
theorem fold_constants_value_witness :
    ∃ (v : Option SV) (st2 : INTERP),
      instr_fold_constants demo_env demo_interp instrs_two (const_op 2 (.iv 2) .NULL) false
        = .ok (v, st2) ∧
      v = some (.scalar { val := .iv 2, readonly := false }) :=
  match fold_constants_value demo_env demo_interp instrs_two (const_op 2 (.iv 2) .NULL) false
      _ rfl (by decide) (Or.inl (by decide)) with
  | ⟨v, st2, h1, _, h3, _⟩ => ⟨v, st2, h1, h3 rfl _ (by decide)⟩

/-- Witness of C17: an `add` run on an empty stack dies, and the call returns
`NULL` with no error pending; an interpreter that leaves with code 2 makes the
call croak. -/
theorem fold_constants_error_witness :
    (∃ st2 : INTERP,
      instr_fold_constants demo_env demo_interp instrs_add tree_bad_add false = .ok (none, st2) ∧
      st2.errsv = false ∧ st2.PL_warnhook = demo_interp.PL_warnhook ∧
      st2.PL_diehook = demo_interp.PL_diehook ∧
      st2.next_instruction = demo_interp.next_instruction ∧
      st2.PL_scopestack_ix = demo_interp.PL_scopestack_ix) ∧
    instr_fold_constants exit_env demo_interp instrs_add tree_bad_add false
      = .error (.croak 2) :=
  ⟨(fold_constants_error demo_env demo_interp instrs_add tree_bad_add false _ rfl).1
      (by decide) (Or.inr (by decide)),
   (fold_constants_error exit_env demo_interp instrs_add tree_bad_add false _ rfl).2
      (by decide) (by decide)⟩

/-- Witness of C16: the fold of `"a" + 1` fails and leaves the three
instructions `const`, `const`, `add`; the list-mode fold of `1..3` fails and
leaves `const`, `const`, `flop`; in both cases the fold flag is false. -/
theorem fold_failure_restores_witness :
    (∃ b2 : CODEGEN_PAD,
      add_op demo_env 2 pad0 tree_bad_add true 0 = .ok (b2, false) ∧
      b2.idx = bad_emitted.idx ∧
      b2.codeseq.xcodeseq_instructions.take bad_emitted.idx =
        bad_emitted.codeseq.xcodeseq_instructions.take bad_emitted.idx ∧
      b2.codeseq.xcodeseq_svs = bad_emitted.codeseq.xcodeseq_svs) ∧
    (∃ b3 : CODEGEN_PAD,
      add_op demo_env 2 pad0 tree_range_list true 0 = .ok (b3, false) ∧
      b3.idx = rg_right_pad.idx + 1 ∧
      b3.codeseq.xcodeseq_instructions.take (rg_right_pad.idx + 1) =
        rg_flop_pad.codeseq.xcodeseq_instructions.take (rg_right_pad.idx + 1) ∧
      b3.codeseq.xcodeseq_svs = rg_right_pad.codeseq.xcodeseq_svs) ∧
    bad_emitted.idx = 3 ∧ rg_right_pad.idx = 2 :=
  ⟨(fold_failure_restores demo_env 1 pad0 true 0 (new_pad_ok _ _ _)).1
      bad_emitted bad_tried bad_add_data bad_add_kids .NULL .NULL tree_bad_add .OP_ADD
      (by decide) (by decide) (by decide) (by decide) (by decide),
   (fold_failure_restores demo_env 1 pad0 true 0 (new_pad_ok _ _ _)).2
      rg_left_pad rg_right_pad rg_tried rg_data rg_flip_data rg_left_data .NULL rg_right .NULL
      .NULL .NULL .NULL .NULL true (by decide) (by decide) (by decide) (by decide) (by decide)
      (by decide),
   by decide, by decide⟩

/-- Counterexample to C18 as stated: the range `1..3` in list context is handed
to the trial evaluator (one call is logged, in list mode, for the `range` node
at address 90), although `RANGE` is neither declared `OA_FOLDCONST` in the
table nor one of `CONST`, `NULL`, `SCALAR`. -/
theorem fold_candidates_counterexample :
    add_op demo_env 2 pad0 tree_range_list true 0 = .ok (rg_done, false) ∧
    rg_done.fold_calls =
      [{ start := 0, stop := 4, node := 90, list := true, n_instrpp := 0, n_branch := 0 }] ∧
    hasBit (demo_env.PL_opargs .OP_RANGE) OA_FOLDCONST = false ∧
    Optype.OP_RANGE ≠ .OP_CONST ∧ Optype.OP_RANGE ≠ .OP_NULL ∧
    Optype.OP_RANGE ≠ .OP_SCALAR := by
  decide

/-- Claim C19 fails on `$x .= <FH>`: during `add_op` the kind of the `readline`
node (address 102) is set to `OP_RCATLINE` and `OPf_STACKED` is set in its flags,
and the instruction emitted for it carries the rewritten node. -/
theorem concat_readline_rewrites_node :
    add_op demo_env 3 pad0 tree_rcatline true 0 = .ok (rcat_done, false) ∧
    rcat_done.op_writes = [.set_type 102 .OP_RCATLINE, .or_flags 102 OPf_STACKED] ∧
    rcat_readline.type = .ok .OP_READLINE ∧
    rcat_done.idx = 3 ∧
    (rcat_done.codeseq.xcodeseq_instructions.get? 2).map
        (fun x => (x.instr_ppaddr, x.instr_op.type)) =
      some (some .OP_RCATLINE, .ok .OP_RCATLINE) := by
  decide

/-- Counterexample to C20 as stated: in `$x ? 10 : 2 + 3` the trial evaluator is
called on the range from 4 to 8 (the instructions of `2 + 3` and the
temporary `INSTR_END`) while one pointer fixup is pending, the one of
`op_other_instr` of the `cond_expr` node, whose target is the index 4, inside
that range. -/
theorem trial_range_fixups_counterexample :
    add_op demo_env 3 pad0 tree_cond_fold true 0 = .ok (cf_done, false) ∧
    cf_done.fold_calls =
      [{ start := 4, stop := 8, node := 110, list := false, n_instrpp := 1, n_branch := 0 }] ∧
    cf_done.op_instrpp_list.take 1 =
      [{ instrpp := some { node := 30, field := .op_other_instr }, instr_idx := 4 }] ∧
    (4 ≤ 4 ∧ 4 < 8) := by
  decide

/-- Witness of C20 as amended: when the false branch `2 + 3` of `$x ? 10 : 2 + 3`
is handed to the trial evaluator, the pending fixups are those of the pad the
branch was entered with (the pointer fixup at 4 and no branch fixup from inside
the range). -/
theorem trial_range_fixups_witness :
    cf_emitted.op_instrpp_list = cf_false_start.op_instrpp_list ∧
    cf_emitted.branch_point_to_pparg_list = cf_false_start.branch_point_to_pparg_list ∧
    ((∀ e ∈ cf_false_start.op_instrpp_list, e.instr_idx ≤ cf_false_start.idx) →
      ∀ e ∈ cf_emitted.op_instrpp_list, e.instr_idx ≤ cf_false_start.idx) ∧
    ((∀ e ∈ cf_false_start.branch_point_to_pparg_list,
        e.instr_from_index < cf_false_start.idx) →
      ∀ e ∈ cf_emitted.branch_point_to_pparg_list, e.instr_from_index < cf_false_start.idx) ∧
    (∀ (v : Option SV) (bt : CODEGEN_PAD),
      fold_trial demo_env cf_emitted cf_false_start.idx (.mk sum_data sum_kids .NULL .NULL) false
        = .ok (v, bt) →
      ∃ node : Nat, bt.fold_calls = cf_emitted.fold_calls ++
        [{ start := cf_false_start.idx, stop := cf_emitted.idx + 1, node := node, list := false,
           n_instrpp := cf_false_start.op_instrpp_list.length,
           n_branch := cf_false_start.branch_point_to_pparg_list.length }]) :=
  (trial_range_fixups demo_env 1 cf_false_start sum_data sum_kids .NULL .NULL 0
    demo_env_table).1 cf_emitted true (.mk sum_data sum_kids .NULL .NULL) .OP_ADD
    (by decide) (by decide) (by decide)

theorem add_chain_grows (env : Env) (n : Nat) (l : List OP) (bpp : CODEGEN_PAD) (m : Bool)
    (r : CODEGEN_PAD × Bool) (h : add_chain (add_op env n) l bpp m = .ok r) : Grows bpp r.1 :=
  add_chain_rel env Grows (grows_closed env) (add_op env n)
    (add_op_rel env Grows (grows_closed env) n) l bpp m r h

theorem add_chain_extends (env : Env) (n : Nat) (l : List OP) (bpp : CODEGEN_PAD) (m : Bool)
    (r : CODEGEN_PAD × Bool) (h : add_chain (add_op env n) l bpp m = .ok r) : Extends bpp r.1 :=
  add_chain_rel env Extends (extends_closed env) (add_op env n)
    (add_op_rel env Extends (extends_closed env) n) l bpp m r h

theorem take_succ_set {α : Type} (l : List α) (n : Nat) (a : α) (h : n < l.length) :
    (l.set n a).take (n + 1) = l.take n ++ [a] := by
  apply List.ext_getElem?
  intro i
  rw [List.getElem?_take]
  by_cases hi : i < n
  · rw [if_pos (by omega), List.getElem?_set_ne (by omega),
      List.getElem?_append_left (by rw [List.length_take]; omega), List.getElem?_take, if_pos hi]
  · by_cases hin : i = n
    · subst hin
      rw [if_pos (by omega), List.getElem?_set_self h,
        List.getElem?_append_right (by rw [List.length_take]; omega)]
      simp [List.length_take, Nat.min_eq_left (Nat.le_of_lt h)]
    · rw [if_neg (by omega), List.getElem?_append_right (by rw [List.length_take]; omega)]
      simp only [List.length_take, Nat.min_eq_left (Nat.le_of_lt h)]
      rw [List.getElem?_eq_none (by simp; omega)]

/-- One more instruction is in use after `append_instruction_x`, the one it
wrote; those before it are as they were. -/
theorem emitted_append (env : Env) (b : CODEGEN_PAD) (o t a1 a2) (start : Nat)
    (hok : pad_ok b) (hs : start ≤ b.idx) :
    emitted (append_instruction_x env b o t a1 a2) start =
      emitted b start ++
        [{ instr_ppaddr := some t, instr_op := o, instr_arg1 := a1, instr_arg2 := a2 }] := by
  obtain ⟨h1, h2⟩ := hok
  have hlt : b.idx < b.codeseq.xcodeseq_instructions.length := by omega
  have key : (append_instruction_x env b o t a1 a2).codeseq.xcodeseq_instructions.take
      (b.idx + 1) = b.codeseq.xcodeseq_instructions.take b.idx ++
        [{ instr_ppaddr := some t, instr_op := o, instr_arg1 := a1, instr_arg2 := a2 }] := by
    unfold append_instruction_x
    dsimp only
    split
    · dsimp only
      rw [List.take_append_of_le_length (by rw [List.length_set]; omega), take_succ_set _ _ _ hlt]
    · dsimp only
      rw [take_succ_set _ _ _ hlt]
  unfold emitted
  rw [append_idx, key, List.drop_append_of_le_length (by rw [List.length_take]; omega)]

theorem emitted_self (b : CODEGEN_PAD) : emitted b b.idx = [] := by
  unfold emitted
  rw [List.drop_eq_nil_iff]
  rw [List.length_take]
  omega

theorem emitted_save_bp (b : CODEGEN_PAD) (p : Option Slot) (start : Nat) :
    emitted (save_branch_point b p) start = emitted b start := rfl

theorem emitted_save_ft (b : CODEGEN_PAD) (f t start : Nat) :
    emitted (save_instr_from_to_pparg b f t) start = emitted b start := rfl

theorem save_bp_idx (b : CODEGEN_PAD) (p : Option Slot) : (save_branch_point b p).idx = b.idx :=
  rfl

theorem save_ft_idx (b : CODEGEN_PAD) (f t : Nat) :
    (save_instr_from_to_pparg b f t).idx = b.idx := rfl

theorem save_bp_instrpp (b : CODEGEN_PAD) (p : Option Slot) :
    (save_branch_point b p).op_instrpp_list =
      b.op_instrpp_list ++ [{ instrpp := p, instr_idx := b.idx }] := rfl

theorem save_bp_branch (b : CODEGEN_PAD) (p : Option Slot) :
    (save_branch_point b p).branch_point_to_pparg_list = b.branch_point_to_pparg_list := rfl

theorem save_ft_instrpp (b : CODEGEN_PAD) (f t : Nat) :
    (save_instr_from_to_pparg b f t).op_instrpp_list = b.op_instrpp_list := rfl

theorem save_ft_branch (b : CODEGEN_PAD) (f t : Nat) :
    (save_instr_from_to_pparg b f t).branch_point_to_pparg_list =
      b.branch_point_to_pparg_list ++ [{ instr_from_index := f, instr_to_index := t }] := rfl

theorem compile_op_error (env : Env) (fuel : Nat) (interp : INTERP) (curcop : OP)
    (slots : SlotStore) (startop : OP) (codeseq : CODESEQ) (e : Err)
    (hadd : add_op env fuel (new_pad env interp curcop) startop true 0 = .error e) :
    compile_op env fuel interp curcop slots startop codeseq = .error e := by
  unfold compile_op
  simp only [hadd, bind, Except.bind]

/-- Claim C21, as amended. For a routine without a code sequence: when the
translation of its tree inside `compile_op` fails, `compile_cv` is left with
the routine holding the fresh sequence of `new_codeseq`, exactly as
`new_codeseq` returned it (nothing generated has been written into it), and a
later `compile_cv` on the routine returns at once, leaving it so; when the
translation succeeds, the routine holds the finished sequence of
`compile_op`. -/
theorem compile_cv_failure (env : Env) (fuel : Nat) (interp : INTERP) (curcop : OP)
    (slots : SlotStore) (fresh : CODESEQ) (cv : CV) (hnone : cv.CvCODESEQ = none) :
    (∀ e, add_op env fuel (new_pad env interp curcop) cv.CvROOT true 0 = .error e →
      (compile_cv env fuel interp curcop slots fresh cv).outcome = .error e ∧
      (compile_cv env fuel interp curcop slots fresh cv).cv =
        { CvCODESEQ := some fresh, CvROOT := cv.CvROOT } ∧
      ∀ fuel2 interp2 curcop2 slots2 fresh2,
        (compile_cv env fuel2 interp2 curcop2 slots2 fresh2
          (compile_cv env fuel interp curcop slots fresh cv).cv).outcome = .ok () ∧
        (compile_cv env fuel2 interp2 curcop2 slots2 fresh2
          (compile_cv env fuel interp curcop slots fresh cv).cv).cv =
          { CvCODESEQ := some fresh, CvROOT := cv.CvROOT }) ∧
    (∀ b k, add_op env fuel (new_pad env interp curcop) cv.CvROOT true 0 = .ok (b, k) →
      (compile_cv env fuel interp curcop slots fresh cv).outcome = .ok () ∧
      (compile_cv env fuel interp curcop slots fresh cv).cv =
        { CvCODESEQ := some (finish_compile env b fresh slots).codeseq, CvROOT := cv.CvROOT }) := by
  constructor
  · intro e hadd
    have hc := compile_op_error env fuel interp curcop slots cv.CvROOT fresh e hadd
    have h1 : compile_cv env fuel interp curcop slots fresh cv =
        { cv := { CvCODESEQ := some fresh, CvROOT := cv.CvROOT }, slots := slots,
          outcome := .error e } := by
      unfold compile_cv
      simp only [hnone, Option.isSome_none, Bool.false_eq_true, if_false, hc]
    rw [h1]
    refine ⟨rfl, rfl, fun fuel2 interp2 curcop2 slots2 fresh2 => ?_⟩
    unfold compile_cv
    simp only [Option.isSome_some, if_true, and_self]
  · intro b k hadd
    have hc := compile_op_eq env fuel interp curcop slots cv.CvROOT fresh b k hadd
    unfold compile_cv
    simp only [hnone, Option.isSome_none, Bool.false_eq_true, if_false, hc]
    constructor <;> first | rfl | trivial

/-- Counterexample to C21 as stated: with an interpreter that leaves the trial
run of `3 * 4` through `my_exit`, `compile_op` croaks while it translates
`2 + 3 * 4`, and `compile_cv` is left with the routine holding a code sequence,
the empty one `new_codeseq` returned; a second `compile_cv` returns normally
and the routine still holds that sequence. -/
theorem compile_cv_failure_counterexample :
    cv_sum.CvCODESEQ = none ∧
    (compile_cv exit_env 3 demo_interp .NULL no_slots empty_codeseq cv_sum).outcome
      = .error (.croak 2) ∧
    (compile_cv exit_env 3 demo_interp .NULL no_slots empty_codeseq cv_sum).cv.CvCODESEQ
      = some empty_codeseq ∧
    (compile_cv exit_env 3 demo_interp .NULL no_slots empty_codeseq
      (compile_cv exit_env 3 demo_interp .NULL no_slots empty_codeseq cv_sum).cv).outcome
      = .ok () ∧
    (compile_cv exit_env 3 demo_interp .NULL no_slots empty_codeseq
      (compile_cv exit_env 3 demo_interp .NULL no_slots empty_codeseq cv_sum).cv).cv.CvCODESEQ
      = some empty_codeseq := by
  decide

/-- Witness of C21 as amended: the failing compilation of `2 + 3 * 4` leaves the
routine with the empty sequence; the compilation with the example interpreter
succeeds and leaves the finished sequence, the folded constant and the final
instruction in a sequence of size 3. -/
theorem compile_cv_failure_witness :
    ((compile_cv exit_env 3 demo_interp .NULL no_slots empty_codeseq cv_sum).outcome
        = .error (.croak 2) ∧
      (compile_cv exit_env 3 demo_interp .NULL no_slots empty_codeseq cv_sum).cv =
        { CvCODESEQ := some empty_codeseq, CvROOT := cv_sum.CvROOT }) ∧
    ((compile_cv demo_env 3 demo_interp .NULL no_slots empty_codeseq cv_sum).outcome = .ok () ∧
      (compile_cv demo_env 3 demo_interp .NULL no_slots empty_codeseq cv_sum).cv =
        { CvCODESEQ := some (finish_compile demo_env add_done empty_codeseq no_slots).codeseq,
          CvROOT := cv_sum.CvROOT }) ∧
    (finish_compile demo_env add_done empty_codeseq no_slots).codeseq.xcodeseq_size = 3 :=
  ⟨match (compile_cv_failure exit_env 3 demo_interp .NULL no_slots empty_codeseq cv_sum rfl).1
      (.croak 2) (by decide) with
    | ⟨h1, h2, _⟩ => ⟨h1, h2⟩,
   (compile_cv_failure demo_env 3 demo_interp .NULL no_slots empty_codeseq cv_sum rfl).2
      add_done true (by decide),
   by decide⟩

/-- Claim C22. A `RANGE` node in list context whose two endpoints both leave the
fold flag true, and for which the list-mode trial of the emitted range (left
endpoint, right endpoint, `flop`, then the temporary `INSTR_END`) returns the
list `L`: `add_op` returns with `idx` one past the node's start index, with the
single instruction `INSTR_CONST_LIST` (null source node, `instr_arg1` the list
`L`, null `instr_arg2`) at the start index, and with `L` appended to the values
owned by the sequence. -/
theorem range_list_constant (env : Env) (n : Nat) (bpp b1 b2 bt : CODEGEN_PAD)
    (d fd ld : OpData) (lf right lr fs fr s r : OP) (L : SV) (m : Bool) (fl : Nat)
    (hok : pad_ok bpp)
    (ht : d.op_type = .OP_RANGE)
    (hlist : (d.op_flags &&& OPf_WANT == OPf_WANT_LIST) = true)
    (hleft : add_op env n bpp (.mk ld lf right lr) true 0 = .ok (b1, true))
    (hright : add_op env n b1 right true 0 = .ok (b2, true))
    (htrial : fold_trial env
      (append_instruction env b2 (.mk d (.mk fd (.mk ld lf right lr) fs fr) s r) .OP_FLOP)
      bpp.idx (.mk d (.mk fd (.mk ld lf right lr) fs fr) s r) true = .ok (some L, bt)) :
    ∃ (b3 : CODEGEN_PAD) (k : Bool),
      add_op env (n + 1) bpp (.mk d (.mk fd (.mk ld lf right lr) fs fr) s r) m fl
        = .ok (b3, k) ∧
      b3.idx = bpp.idx + 1 ∧
      b3.codeseq.xcodeseq_instructions.get? bpp.idx =
        some { instr_ppaddr := some .OP_INSTR_CONST_LIST, instr_op := .NULL,
               instr_arg1 := .sv L, instr_arg2 := .null } ∧
      b3.codeseq.xcodeseq_svs = b2.codeseq.xcodeseq_svs ++ [L] := by
  have hg1 : Grows bpp b1 := add_op_grows env n _ _ _ _ _ hleft
  have hg2 : Grows b1 b2 := add_op_grows env n _ _ _ _ _ hright
  have hok2 : pad_ok b2 := hg2.2 (hg1.2 hok)
  have hokF : pad_ok (append_instruction env b2
      (.mk d (.mk fd (.mk ld lf right lr) fs fr) s r) .OP_FLOP) :=
    append_pad_ok env b2 _ _ _ _ hok2
  have hlF := append_lists env b2 (.mk d (.mk fd (.mk ld lf right lr) fs fr) s r) .OP_FLOP
    .null .null
  obtain ⟨interp, call, hbt⟩ := fold_trial_eq env _ bpp.idx _ true _ htrial
  replace hbt : bt = (append_instruction_x env (append_instruction env b2
      (.mk d (.mk fd (.mk ld lf right lr) fs fr) s r) .OP_FLOP) .NULL .OP_INSTR_END .null
      .null).after_trial interp call := hbt
  have hokE := append_pad_ok env _ .NULL .OP_INSTR_END .null .null hokF
  have hlE := append_lists env (append_instruction env b2
      (.mk d (.mk fd (.mk ld lf right lr) fs fr) s r) .OP_FLOP) .NULL .OP_INSTR_END .null .null
  have hsz : bpp.codeseq.xcodeseq_size ≤ bt.codeseq.xcodeseq_size := by
    rw [hbt]
    exact Nat.le_trans (Nat.le_trans hg1.1 hg2.1)
      (Nat.le_trans (append_size_le env b2 _ _ _ _) (append_size_le env _ _ _ _ _))
  have hokR : pad_ok (bt.set_idx bpp.idx) := by
    refine ⟨Nat.lt_of_lt_of_le hok.1 hsz, ?_⟩
    rw [hbt]
    exact hokE.2
  have hi3 : (append_instruction_x env (bt.set_idx bpp.idx) .NULL .OP_INSTR_CONST_LIST
      (.sv L) .null).idx = bpp.idx + 1 := append_idx env _ _ _ _ _
  have hl3 := append_lists env (bt.set_idx bpp.idx) .NULL .OP_INSTR_CONST_LIST (.sv L) .null
  refine ⟨push_svs (append_instruction_x env (bt.set_idx bpp.idx) .NULL .OP_INSTR_CONST_LIST
      (.sv L) .null) L, m && fold_flag env d.op_type true, ?_, hi3, ?_, ?_⟩
  · have hnot : ¬ (bpp.idx + 1 < (push_svs (append_instruction_x env (bt.set_idx bpp.idx) .NULL
        .OP_INSTR_CONST_LIST (.sv L) .null) L).idx) := by
      show ¬ (bpp.idx + 1 < (append_instruction_x env (bt.set_idx bpp.idx) .NULL
        .OP_INSTR_CONST_LIST (.sv L) .null).idx)
      omega
    rw [add_op_unfold, range_emit_eq env _ _ _ _ _ ht]
    simp only [add_op_range, OP.first, OP.sibling, bind, Except.bind, hlist, if_true, hleft,
      hright, htrial, Except.map, add_op_fold, OP.type, OP.data, pure, Except.pure]
    simp [hnot]
  · exact append_get_new env (bt.set_idx bpp.idx) _ _ _ _ hokR
  · show (append_instruction_x env (bt.set_idx bpp.idx) _ _ _ _).codeseq.xcodeseq_svs ++ _ = _
    rw [hl3.2.2, hbt]
    show (append_instruction_x env (append_instruction env b2 _ _) _ _ _ _).codeseq.xcodeseq_svs
      ++ _ = _
    rw [hlE.2.2]
    exact congrArg (· ++ [L]) hlF.2.2

/-- Witness of C22: with an interpreter that runs `flop`, the range `1..3` in
list context becomes the single instruction `INSTR_CONST_LIST` carrying the
list `1, 2, 3`, which is the one value owned by the sequence. -/
theorem range_list_constant_witness :
    (∃ (b3 : CODEGEN_PAD) (k : Bool),
      add_op range_env 2 pad0 tree_range_list true 0 = .ok (b3, k) ∧
      b3.idx = pad0.idx + 1 ∧
      b3.codeseq.xcodeseq_instructions.get? pad0.idx =
        some { instr_ppaddr := some .OP_INSTR_CONST_LIST, instr_op := .NULL,
               instr_arg1 := .sv one_two_three, instr_arg2 := .null } ∧
      b3.codeseq.xcodeseq_svs = rg_right_pad.codeseq.xcodeseq_svs ++ [one_two_three]) ∧
    pad0.idx = 0 ∧ rg_right_pad.codeseq.xcodeseq_svs = [] :=
  ⟨range_list_constant range_env 1 pad0 rg_left_pad rg_right_pad rg_list_tried
      rg_data rg_flip_data rg_left_data .NULL rg_right .NULL .NULL .NULL .NULL .NULL
      one_two_three true 0 (new_pad_ok _ _ _) (by decide) (by decide) (by decide) (by decide)
      (by decide),
   by decide, by decide⟩

/-- Claim C23, as amended. A `RANGE` node that is not in list context is
translated as: one `range` instruction, the left endpoint, one `flip`
instruction, the right endpoint, one `flop` instruction; the pointer fixup of
`op_other_instr` is recorded at the index that follows `flip`, and a branch
fixup links the `flip` instruction to the index that follows `flop`. A `RANGE`
node in list context that is not replaced by a list constant (an endpoint left
the fold flag false, or the trial returned no value) is translated as the left
endpoint, the right endpoint and one `flop` instruction, without a `flip`
instruction and without a fixup. `RANGE` is assumed not to be declared
fold-eligible in `PL_opargs`, as in Perl's opcode table. -/
theorem range_flip_flop (env : Env) (n : Nat) (bpp : CODEGEN_PAD)
    (d fd ld : OpData) (lf right lr fs fr s r : OP) (m : Bool) (fl : Nat)
    (ht : d.op_type = .OP_RANGE)
    (htab : hasBit (env.PL_opargs .OP_RANGE) OA_FOLDCONST = false)
    (hok : pad_ok bpp) :
    (∀ (b1 b2 : CODEGEN_PAD) (k1 k2 : Bool),
      (d.op_flags &&& OPf_WANT == OPf_WANT_LIST) = false →
      add_op env n
        (append_instruction env bpp (.mk d (.mk fd (.mk ld lf right lr) fs fr) s r) d.op_type)
        (.mk ld lf right lr) true 0 = .ok (b1, k1) →
      add_op env n
        (save_branch_point
          (append_instruction env b1 (.mk d (.mk fd (.mk ld lf right lr) fs fr) s r) .OP_FLIP)
          (slot d .op_other_instr)) right k1 0 = .ok (b2, k2) →
      ∃ b3 : CODEGEN_PAD,
        add_op env (n + 1) bpp (.mk d (.mk fd (.mk ld lf right lr) fs fr) s r) m fl
          = .ok (b3, false) ∧
        (append_instruction env bpp (.mk d (.mk fd (.mk ld lf right lr) fs fr) s r) d.op_type
            ).codeseq.xcodeseq_instructions.get? bpp.idx =
          some { instr_ppaddr := some .OP_RANGE,
                 instr_op := .mk d (.mk fd (.mk ld lf right lr) fs fr) s r,
                 instr_arg1 := .null, instr_arg2 := .null } ∧
        (append_instruction env b1 (.mk d (.mk fd (.mk ld lf right lr) fs fr) s r) .OP_FLIP
            ).codeseq.xcodeseq_instructions.get? b1.idx =
          some { instr_ppaddr := some .OP_FLIP,
                 instr_op := .mk d (.mk fd (.mk ld lf right lr) fs fr) s r,
                 instr_arg1 := .null, instr_arg2 := .null } ∧
        (save_branch_point
          (append_instruction env b1 (.mk d (.mk fd (.mk ld lf right lr) fs fr) s r) .OP_FLIP)
          (slot d .op_other_instr)).op_instrpp_list =
          b1.op_instrpp_list ++
            [{ instrpp := slot d .op_other_instr, instr_idx := b1.idx + 1 }] ∧
        b3.codeseq.xcodeseq_instructions.get? b2.idx =
          some { instr_ppaddr := some .OP_FLOP,
                 instr_op := .mk d (.mk fd (.mk ld lf right lr) fs fr) s r,
                 instr_arg1 := .null, instr_arg2 := .null } ∧
        b3.idx = b2.idx + 1 ∧
        b3.op_instrpp_list = b2.op_instrpp_list ∧
        b3.branch_point_to_pparg_list = b2.branch_point_to_pparg_list ++
          [{ instr_from_index := b1.idx, instr_to_index := b2.idx + 1 }]) ∧
    (∀ (b1 b2 : CODEGEN_PAD) (k1 k2 : Bool),
      (d.op_flags &&& OPf_WANT == OPf_WANT_LIST) = true →
      add_op env n bpp (.mk ld lf right lr) true 0 = .ok (b1, k1) →
      add_op env n b1 right k1 0 = .ok (b2, k2) →
      (k2 = true → ∃ bt : CODEGEN_PAD, fold_trial env
        (append_instruction env b2 (.mk d (.mk fd (.mk ld lf right lr) fs fr) s r) .OP_FLOP)
        bpp.idx (.mk d (.mk fd (.mk ld lf right lr) fs fr) s r) true = .ok (none, bt)) →
      ∃ b3 : CODEGEN_PAD,
        add_op env (n + 1) bpp (.mk d (.mk fd (.mk ld lf right lr) fs fr) s r) m fl
          = .ok (b3, false) ∧
        b3.idx = b2.idx + 1 ∧
        b3.codeseq.xcodeseq_instructions.take (b2.idx + 1) =
          (append_instruction env b2 (.mk d (.mk fd (.mk ld lf right lr) fs fr) s r)
            .OP_FLOP).codeseq.xcodeseq_instructions.take (b2.idx + 1) ∧
        (append_instruction env b2 (.mk d (.mk fd (.mk ld lf right lr) fs fr) s r) .OP_FLOP
            ).codeseq.xcodeseq_instructions.get? b2.idx =
          some { instr_ppaddr := some .OP_FLOP,
                 instr_op := .mk d (.mk fd (.mk ld lf right lr) fs fr) s r,
                 instr_arg1 := .null, instr_arg2 := .null } ∧
        b3.op_instrpp_list = b2.op_instrpp_list ∧
        b3.branch_point_to_pparg_list = b2.branch_point_to_pparg_list) := by
  have hff : ∀ k, fold_flag env d.op_type k = false := by
    intro k; rw [ht]; simp [fold_flag, htab]
  constructor
  · intro b1 b2 k1 k2 hnl hleft hright
    have hok0 := append_pad_ok env bpp (.mk d (.mk fd (.mk ld lf right lr) fs fr) s r) d.op_type
      .null .null hok
    have hok1 : pad_ok b1 := (add_op_grows env n _ _ _ _ _ hleft).2 hok0
    have hokF := append_pad_ok env b1 (.mk d (.mk fd (.mk ld lf right lr) fs fr) s r) .OP_FLIP
      .null .null hok1
    have hok2 : pad_ok b2 := (add_op_grows env n _ _ _ _ _ hright).2 (pad_ok_save_bp _ _ hokF)
    have hiP := append_idx env b2 (.mk d (.mk fd (.mk ld lf right lr) fs fr) s r) .OP_FLOP
      .null .null
    have hlP := append_lists env b2 (.mk d (.mk fd (.mk ld lf right lr) fs fr) s r) .OP_FLOP
      .null .null
    refine ⟨save_instr_from_to_pparg
        (append_instruction env b2 (.mk d (.mk fd (.mk ld lf right lr) fs fr) s r) .OP_FLOP)
        b1.idx
        (append_instruction env b2 (.mk d (.mk fd (.mk ld lf right lr) fs fr) s r) .OP_FLOP).idx,
      ?_, ?_, append_get_new env b1 _ _ _ _ hok1, ?_, append_get_new env b2 _ _ _ _ hok2,
      hiP, hlP.1, ?_⟩
    · rw [add_op_unfold, range_emit_eq env _ _ _ _ _ ht]
      simp only [add_op_range, OP.first, OP.sibling, bind, Except.bind, hnl, Bool.false_eq_true,
        if_false, hleft, hright, Except.map, add_op_fold, OP.type, OP.data, pure, Except.pure]
      simp [hff]
    · have := append_get_new env bpp (.mk d (.mk fd (.mk ld lf right lr) fs fr) s r) d.op_type
        .null .null hok
      rw [ht] at this ⊢
      exact this
    · simp only [save_branch_point, append_instruction, (append_lists env b1 _ _ _ _).1,
        append_idx]
    · simp only [save_instr_from_to_pparg, append_instruction,
        (append_lists env b2 _ _ _ _).2.1, append_idx]
  · intro b1 b2 k1 k2 hlist hleft hright htr
    have hok1 : pad_ok b1 := (add_op_grows env n _ _ _ _ _ hleft).2 hok
    have hok2 : pad_ok b2 := (add_op_grows env n _ _ _ _ _ hright).2 hok1
    have hokF := append_pad_ok env b2 (.mk d (.mk fd (.mk ld lf right lr) fs fr) s r) .OP_FLOP
      .null .null hok2
    have hiF := append_idx env b2 (.mk d (.mk fd (.mk ld lf right lr) fs fr) s r) .OP_FLOP
      .null .null
    have hlF := append_lists env b2 (.mk d (.mk fd (.mk ld lf right lr) fs fr) s r) .OP_FLOP
      .null .null
    cases k2 with
    | false =>
      refine ⟨append_instruction env b2 (.mk d (.mk fd (.mk ld lf right lr) fs fr) s r) .OP_FLOP,
        ?_, hiF, rfl, append_get_new env b2 _ _ _ _ hok2, hlF.1, hlF.2.1⟩
      rw [add_op_unfold, range_emit_eq env _ _ _ _ _ ht]
      simp only [add_op_range, OP.first, OP.sibling, bind, Except.bind, hlist, if_true, hleft,
        hright, Bool.false_eq_true, if_false, Except.map, add_op_fold, OP.type, OP.data, pure,
        Except.pure]
      simp [hff]
    | true =>
      obtain ⟨bt, htrial⟩ := htr rfl
      obtain ⟨h1, h2, -, h4, h5⟩ := failed_trial_pad env _ bt bpp.idx _ true none hokF htrial
      rw [hiF] at h1 h2
      refine ⟨bt.set_idx (bt.idx - 1), ?_, h1, h2, append_get_new env b2 _ _ _ _ hok2,
        h4.trans hlF.1, h5.trans hlF.2.1⟩
      rw [add_op_unfold, range_emit_eq env _ _ _ _ _ ht]
      simp only [add_op_range, OP.first, OP.sibling, bind, Except.bind, hlist, if_true, hleft,
        hright, htrial, Except.map, add_op_fold, OP.type, OP.data, pure, Except.pure]
      simp [hff]

/-- Counterexample to C23 as stated: the range `$x .. 3` in list context is not
replaced by a list constant (its left endpoint is a lexical); its translation
is `padsv`, `const`, `flop`, with no `flip` instruction and no fixup. -/
theorem range_flip_flop_counterexample :
    add_op demo_env 2 pad0 tree_range_padsv_list true 0 = .ok (rp_list_done, false) ∧
    rp_list_done.idx = 3 ∧
    (rp_list_done.codeseq.xcodeseq_instructions.take 3).map (fun x => x.instr_ppaddr) =
      [some .OP_PADSV, some .OP_CONST, some .OP_FLOP] ∧
    rp_list_done.branch_point_to_pparg_list = [] ∧
    rp_list_done.op_instrpp_list = [] ∧
    ¬ ∃ x ∈ rp_list_done.codeseq.xcodeseq_instructions.take 3,
      x.instr_ppaddr = some .OP_FLIP ∨ x.instr_ppaddr = some .OP_INSTR_CONST_LIST := by
  decide

/-- Witness of C23 as amended: `$x .. 3` in scalar context gives `range`,
`padsv`, `flip`, `const`, `flop`, with `op_other_instr` recorded at 3 and the
branch fixup from `flip` at 2 to the index 5 after `flop`; in list context it
gives `padsv`, `const`, `flop` and no fixup. -/
theorem range_flip_flop_witness :
    (∃ b3 : CODEGEN_PAD,
      add_op demo_env 2 pad0 tree_range_padsv_scalar true 0 = .ok (b3, false) ∧
      (append_instruction demo_env pad0 tree_range_padsv_scalar rp_scalar_data.op_type
          ).codeseq.xcodeseq_instructions.get? pad0.idx =
        some { instr_ppaddr := some .OP_RANGE, instr_op := tree_range_padsv_scalar,
               instr_arg1 := .null, instr_arg2 := .null } ∧
      (append_instruction demo_env rp_scalar_left tree_range_padsv_scalar .OP_FLIP
          ).codeseq.xcodeseq_instructions.get? rp_scalar_left.idx =
        some { instr_ppaddr := some .OP_FLIP, instr_op := tree_range_padsv_scalar,
               instr_arg1 := .null, instr_arg2 := .null } ∧
      (save_branch_point
        (append_instruction demo_env rp_scalar_left tree_range_padsv_scalar .OP_FLIP)
        (slot rp_scalar_data .op_other_instr)).op_instrpp_list =
        rp_scalar_left.op_instrpp_list ++
          [{ instrpp := slot rp_scalar_data .op_other_instr,
             instr_idx := rp_scalar_left.idx + 1 }] ∧
      b3.codeseq.xcodeseq_instructions.get? rp_scalar_right.idx =
        some { instr_ppaddr := some .OP_FLOP, instr_op := tree_range_padsv_scalar,
               instr_arg1 := .null, instr_arg2 := .null } ∧
      b3.idx = rp_scalar_right.idx + 1 ∧
      b3.op_instrpp_list = rp_scalar_right.op_instrpp_list ∧
      b3.branch_point_to_pparg_list = rp_scalar_right.branch_point_to_pparg_list ++
        [{ instr_from_index := rp_scalar_left.idx,
           instr_to_index := rp_scalar_right.idx + 1 }]) ∧
    rp_scalar_left.idx = 2 ∧ rp_scalar_right.idx = 4 ∧
    rp_scalar_done.branch_point_to_pparg_list =
      [{ instr_from_index := 2, instr_to_index := 5 }] ∧
    rp_scalar_done.op_instrpp_list =
      [{ instrpp := some { node := 120, field := .op_other_instr }, instr_idx := 3 }] :=
  ⟨(range_flip_flop demo_env 1 pad0 rp_scalar_data (opdata 121 .OP_FLIP OPf_KIDS) rp_left_data
      .NULL rp_right .NULL .NULL .NULL .NULL .NULL true 0 (by decide) (by decide)
      (new_pad_ok _ _ _)).1 rp_scalar_left rp_scalar_right false false (by decide) (by decide)
      (by decide),
   by decide, by decide, by decide, by decide⟩

theorem aelem_emit_eq (env : Env) (rec : AddOp) (bpp : CODEGEN_PAD) (o : OP) (d : OpData)
    (fl : Nat) (ht : d.op_type = .OP_AELEM) :
    add_op_emit env rec bpp o d fl =
      (add_op_aelem env rec bpp o d).map fun p => (p.1, p.2, o) := by
  unfold add_op_emit
  simp only [ht]

/-- The test of the case `OP_AELEM` on the container: a `PADAV`, or an `RV2AV`
over a `GV`. -/
theorem aelem_plain (ad : OpData) (af op_index ar : OP)
    (hkid : ad.op_type = .OP_RV2AV → ∃ t, af.type = .ok t) :
    (if ad.op_type == .OP_PADAV then (Except.ok true : Except Err Bool)
      else if ad.op_type == .OP_RV2AV then do
        let g ← (OP.mk ad af op_index ar).first
        let gt ← g.type
        .ok (gt == .OP_GV)
      else .ok false) =
    .ok (decide (ad.op_type = .OP_PADAV ∨ (ad.op_type = .OP_RV2AV ∧ af.type = .ok .OP_GV))) := by
  by_cases hp : ad.op_type = .OP_PADAV
  · simp [hp]
  · by_cases hr : ad.op_type = .OP_RV2AV
    · obtain ⟨t, ht⟩ := hkid hr
      have e1 : (Optype.OP_RV2AV == Optype.OP_PADAV) = false := by decide
      simp only [hr, e1, Bool.false_eq_true, if_false, beq_self_eq_true, if_true, OP.first, bind,
        Except.bind, ht]
      by_cases hg : t = .OP_GV
      · subst hg; simp
      · simp [hg]
    · simp [hp, hr]

/-- The case `OP_AELEM` when the fast form does not apply. -/
theorem aelem_generic (env : Env) (rec : AddOp) (bpp b1 b2 : CODEGEN_PAD)
    (d ad : OpData) (af op_index ar s r : OP) (ka ki : Bool)
    (hav : rec bpp (.mk ad af op_index ar) true 0 = .ok (b1, ka))
    (hidx : rec b1 op_index true 0 = .ok (b2, ki))
    (hkid : ad.op_type = .OP_RV2AV → ∃ t, af.type = .ok t)
    (hcase : ki = false ∨
      ¬(ad.op_type = .OP_PADAV ∨ (ad.op_type = .OP_RV2AV ∧ af.type = .ok .OP_GV)) ∨
      hasBit d.op_private (OPpLVAL_INTRO ||| OPpLVAL_DEFER ||| OPpDEREF ||| OPpMAYBE_LVSUB)
        = true ∨
      ∃ c, last_const b2 = .ok c ∧ SvIV_of c = none) :
    add_op_aelem env rec bpp (.mk d (.mk ad af op_index ar) s r) d =
      .ok (append_instruction env b2 (.mk d (.mk ad af op_index ar) s r) d.op_type,
           ka && ki) := by
  have hpl := aelem_plain ad af op_index ar hkid
  unfold add_op_aelem
  simp only [OP.first, OP.sibling, bind, Except.bind, hav, hidx, OP.data] at hpl ⊢
  cases ki with
  | false => simp
  | true =>
    simp only [if_true]
    rw [hpl]
    dsimp only
    rcases hcase with h | h | h | ⟨c, hc, hk⟩
    · cases h
    · simp [h]
    · simp [h]
    · split
      · simp only [hc, hk]
      · rfl

/-- The case `OP_AELEM` when the fast form applies: `gd` is the `PADAV` node or
the `GV` node the instruction refers to. -/
theorem aelem_fast (env : Env) (rec : AddOp) (bpp b1 b2 : CODEGEN_PAD)
    (d ad : OpData) (af op_index ar s r : OP) (ka : Bool)
    (c : SV) (k : Int) (cd : OpData) (cf cs cr : OP)
    (hav : rec bpp (.mk ad af op_index ar) true 0 = .ok (b1, ka))
    (hidx : rec b1 op_index true 0 = .ok (b2, true))
    (hplain : ad.op_type = .OP_PADAV ∨ (ad.op_type = .OP_RV2AV ∧ af.type = .ok .OP_GV))
    (hpriv : hasBit d.op_private
      (OPpLVAL_INTRO ||| OPpLVAL_DEFER ||| OPpDEREF ||| OPpMAYBE_LVSUB) = false)
    (hc : last_const b2 = .ok c)
    (hk : SvIV_of c = some k)
    (hcop : b2.PL_curcop = .mk cd cf cs cr) :
    ∃ (gd : OpData) (gf gs gr : OP),
      (gd.op_type = .OP_PADAV ∨ gd.op_type = .OP_GV) ∧
      add_op_aelem env rec bpp (.mk d (.mk ad af op_index ar) s r) d =
        .ok (append_instruction_x env
              ((b2.log_writes [.or_flags gd.addr (d.op_flags &&& OPf_MOD),
                  .or_private gd.addr (d.op_private &&& OPpLVAL_DEFER)]).set_idx bpp.idx)
              (.mk { gd with op_flags := gd.op_flags ||| (d.op_flags &&& OPf_MOD),
                             op_private := gd.op_private ||| (d.op_private &&& OPpLVAL_DEFER) }
                gf gs gr)
              .OP_AELEMFAST (.ptr (k - cd.cop_arybase)) .null, ka && true) := by
  have hkid : ad.op_type = .OP_RV2AV → ∃ t, af.type = .ok t := by
    intro hr
    rcases hplain with h | h
    · rw [h] at hr; exact absurd hr (by decide)
    · exact ⟨_, h.2⟩
  have hpl := aelem_plain ad af op_index ar hkid
  simp only [hplain, decide_True] at hpl
  rcases hplain with hp | ⟨hr, hg⟩
  · refine ⟨ad, af, op_index, ar, Or.inl hp, ?_⟩
    unfold add_op_aelem
    simp only [OP.first, OP.sibling, bind, Except.bind, hav, hidx, OP.data] at hpl ⊢
    simp only [if_true]
    rw [hpl]
    simp only [hpriv, Bool.not_false, Bool.and_self, if_true, hc, hk, hcop, hp, beq_self_eq_true]
  · cases af with
    | NULL => simp [OP.type, OP.data, bind, Except.bind] at hg
    | mk gd gf gs gr =>
      have hgd : gd.op_type = .OP_GV := by
        simpa [OP.type, OP.data, bind, Except.bind, pure, Except.pure] using hg
      have e1 : (Optype.OP_RV2AV == Optype.OP_PADAV) = false := by decide
      refine ⟨gd, gf, gs, gr, Or.inr hgd, ?_⟩
      unfold add_op_aelem
      simp only [OP.first, OP.sibling, bind, Except.bind, hav, hidx, OP.data] at hpl ⊢
      simp only [if_true]
      rw [hpl]
      simp only [hpriv, Bool.not_false, Bool.and_self, if_true, hc, hk, hcop, hr, e1,
        Bool.false_eq_true, if_false]

/-- Claim C24. An `AELEM` node, after the translation of the container and of the
subscript. When the subscript left the fold flag true (`c` being the constant
carried by the last instruction, with the integer value `k`), the container is
a `PADAV` node or an `RV2AV` node whose child is a `GV`, and the private bits
hold none of `OPpLVAL_INTRO`, `OPpLVAL_DEFER`, `OPpDEREF`, `OPpMAYBE_LVSUB`:
`add_op` returns with `idx` one past the node's start index and the single
instruction `AELEMFAST` at the start index, `instr_arg1` being `k` minus the
array base of `PL_curcop`. In every other case `add_op` appends one `aelem`
instruction (source the node) after the container and the subscript. For the
second part `AELEM` is assumed not to be declared fold-eligible in `PL_opargs`,
as in Perl's opcode table, and an `RV2AV` container to have a child. -/
theorem aelem_translation (env : Env) (n : Nat) (bpp b1 b2 : CODEGEN_PAD)
    (d ad : OpData) (af op_index ar s r : OP) (ka ki m : Bool) (fl : Nat)
    (ht : d.op_type = .OP_AELEM)
    (hok : pad_ok bpp)
    (hav : add_op env n bpp (.mk ad af op_index ar) true 0 = .ok (b1, ka))
    (hidx : add_op env n b1 op_index true 0 = .ok (b2, ki)) :
    (∀ (c : SV) (k : Int) (cd : OpData) (cf cs cr : OP),
      ki = true →
      (ad.op_type = .OP_PADAV ∨ (ad.op_type = .OP_RV2AV ∧ af.type = .ok .OP_GV)) →
      hasBit d.op_private (OPpLVAL_INTRO ||| OPpLVAL_DEFER ||| OPpDEREF ||| OPpMAYBE_LVSUB)
        = false →
      last_const b2 = .ok c →
      SvIV_of c = some k →
      b2.PL_curcop = .mk cd cf cs cr →
      ∃ (b3 : CODEGEN_PAD) (j : Bool) (x : INSTRUCTION),
        add_op env (n + 1) bpp (.mk d (.mk ad af op_index ar) s r) m fl = .ok (b3, j) ∧
        b3.idx = bpp.idx + 1 ∧
        b3.codeseq.xcodeseq_instructions.get? bpp.idx = some x ∧
        x.instr_ppaddr = some .OP_AELEMFAST ∧
        x.instr_arg1 = .ptr (k - cd.cop_arybase) ∧
        x.instr_arg2 = .null ∧
        (x.instr_op.type = .ok .OP_PADAV ∨ x.instr_op.type = .ok .OP_GV)) ∧
    (hasBit (env.PL_opargs .OP_AELEM) OA_FOLDCONST = false →
      (ad.op_type = .OP_RV2AV → ∃ t, af.type = .ok t) →
      (ki = false ∨
        ¬(ad.op_type = .OP_PADAV ∨ (ad.op_type = .OP_RV2AV ∧ af.type = .ok .OP_GV)) ∨
        hasBit d.op_private (OPpLVAL_INTRO ||| OPpLVAL_DEFER ||| OPpDEREF ||| OPpMAYBE_LVSUB)
          = true ∨
        ∃ c, last_const b2 = .ok c ∧ SvIV_of c = none) →
      add_op env (n + 1) bpp (.mk d (.mk ad af op_index ar) s r) m fl
        = .ok (append_instruction env b2 (.mk d (.mk ad af op_index ar) s r) .OP_AELEM, false) ∧
      (append_instruction env b2 (.mk d (.mk ad af op_index ar) s r) .OP_AELEM
          ).codeseq.xcodeseq_instructions.get? b2.idx =
        some { instr_ppaddr := some .OP_AELEM, instr_op := .mk d (.mk ad af op_index ar) s r,
               instr_arg1 := .null, instr_arg2 := .null } ∧
      (append_instruction env b2 (.mk d (.mk ad af op_index ar) s r) .OP_AELEM).idx
        = b2.idx + 1) := by
  have hok1 : pad_ok b1 := (add_op_grows env n _ _ _ _ _ hav).2 hok
  have hg1 := add_op_grows env n _ _ _ _ _ hav
  have hg2 := add_op_grows env n _ _ _ _ _ hidx
  have hok2 : pad_ok b2 := hg2.2 hok1
  constructor
  · intro c k cd cf cs cr hki hplain hpriv hc hk hcop
    subst hki
    obtain ⟨gd, gf, gs, gr, hgd, hemit⟩ := aelem_fast env (add_op env n) bpp b1 b2 d ad af
      op_index ar s r ka c k cd cf cs cr hav hidx hplain hpriv hc hk hcop
    have hsz : bpp.codeseq.xcodeseq_size ≤ b2.codeseq.xcodeseq_size :=
      Nat.le_trans hg1.1 hg2.1
    have hokR : pad_ok ((b2.log_writes [.or_flags gd.addr (d.op_flags &&& OPf_MOD),
        .or_private gd.addr (d.op_private &&& OPpLVAL_DEFER)]).set_idx bpp.idx) :=
      ⟨Nat.lt_of_lt_of_le hok.1 hsz, hok2.2⟩
    have hi3 := append_idx env ((b2.log_writes [.or_flags gd.addr (d.op_flags &&& OPf_MOD),
        .or_private gd.addr (d.op_private &&& OPpLVAL_DEFER)]).set_idx bpp.idx)
      (.mk { gd with op_flags := gd.op_flags ||| (d.op_flags &&& OPf_MOD),
                     op_private := gd.op_private ||| (d.op_private &&& OPpLVAL_DEFER) }
        gf gs gr) .OP_AELEMFAST (.ptr (k - cd.cop_arybase)) .null
    replace hi3 : (append_instruction_x env
        ((b2.log_writes [.or_flags gd.addr (d.op_flags &&& OPf_MOD),
          .or_private gd.addr (d.op_private &&& OPpLVAL_DEFER)]).set_idx bpp.idx)
        (.mk { gd with op_flags := gd.op_flags ||| (d.op_flags &&& OPf_MOD),
                       op_private := gd.op_private ||| (d.op_private &&& OPpLVAL_DEFER) }
          gf gs gr) .OP_AELEMFAST (.ptr (k - cd.cop_arybase)) .null).idx = bpp.idx + 1 := hi3
    refine ⟨_, m && fold_flag env d.op_type (ka && true), _, ?_, hi3,
      append_get_new env _ _ _ _ _ hokR, rfl, rfl, rfl, ?_⟩
    · have hnot : ¬ (bpp.idx + 1 < (append_instruction_x env
          ((b2.log_writes [.or_flags gd.addr (d.op_flags &&& OPf_MOD),
            .or_private gd.addr (d.op_private &&& OPpLVAL_DEFER)]).set_idx bpp.idx)
          (.mk { gd with op_flags := gd.op_flags ||| (d.op_flags &&& OPf_MOD),
                         op_private := gd.op_private ||| (d.op_private &&& OPpLVAL_DEFER) }
            gf gs gr) .OP_AELEMFAST (.ptr (k - cd.cop_arybase)) .null).idx) := by
        omega
      rw [add_op_unfold, aelem_emit_eq env _ _ _ _ _ ht, hemit]
      simp only [Except.map, bind, Except.bind, add_op_fold, OP.type, OP.data, pure, Except.pure]
      simp [hnot]
    · rcases hgd with h | h
      · left; simp [OP.type, OP.data, bind, Except.bind, pure, Except.pure, h]
      · right; simp [OP.type, OP.data, bind, Except.bind, pure, Except.pure, h]
  · intro htab hkid hcase
    refine ⟨?_, append_get_new env b2 _ _ _ _ hok2, append_idx env b2 _ _ _ _⟩
    have hff : ∀ k, fold_flag env .OP_AELEM k = false := by
      intro k; simp [fold_flag, htab]
    rw [add_op_unfold, aelem_emit_eq env _ _ _ _ _ ht,
      aelem_generic env (add_op env n) bpp b1 b2 d ad af op_index ar s r ka ki hav hidx hkid
        hcase]
    simp only [Except.map, bind, Except.bind, add_op_fold, OP.type, OP.data, pure, Except.pure]
    simp [hff, ht]

/-- Witness of C24: under the array base 1, `$a[5]` on a lexical array becomes
the single instruction `AELEMFAST` with the argument 4; `$a[$i]` becomes
`padav`, `padsv`, `aelem`. -/
theorem aelem_translation_witness :
    (∃ (b3 : CODEGEN_PAD) (j : Bool) (x : INSTRUCTION),
      add_op demo_env 2 pad_cop tree_aelem_const true 0 = .ok (b3, j) ∧
      b3.idx = pad_cop.idx + 1 ∧
      b3.codeseq.xcodeseq_instructions.get? pad_cop.idx = some x ∧
      x.instr_ppaddr = some .OP_AELEMFAST ∧
      x.instr_arg1 = .ptr (5 - (1 : Int)) ∧
      x.instr_arg2 = .null ∧
      (x.instr_op.type = .ok .OP_PADAV ∨ x.instr_op.type = .ok .OP_GV)) ∧
    (add_op demo_env 2 pad_cop tree_aelem_var true 0
        = .ok (append_instruction demo_env ae_padsv_pad tree_aelem_var .OP_AELEM, false) ∧
      (append_instruction demo_env ae_padsv_pad tree_aelem_var .OP_AELEM
          ).codeseq.xcodeseq_instructions.get? ae_padsv_pad.idx =
        some { instr_ppaddr := some .OP_AELEM, instr_op := tree_aelem_var,
               instr_arg1 := .null, instr_arg2 := .null } ∧
      (append_instruction demo_env ae_padsv_pad tree_aelem_var .OP_AELEM).idx
        = ae_padsv_pad.idx + 1) ∧
    pad_cop.idx = 0 ∧ ae_five_pad.idx = 2 ∧ ae_padsv_pad.idx = 2 ∧
    ((append_instruction demo_env ae_padsv_pad tree_aelem_var .OP_AELEM
        ).codeseq.xcodeseq_instructions.take 3).map (fun x => x.instr_ppaddr) =
      [some .OP_PADAV, some .OP_PADSV, some .OP_AELEM] :=
  ⟨(aelem_translation demo_env 1 pad_cop ae_av_pad ae_five_pad ae_data ae_av_data .NULL ae_five
      .NULL .NULL .NULL false true true 0 (by decide) (new_pad_ok _ _ _) (by decide)
      (by decide)).1 (.scalar { val := .iv 5, readonly := false }) 5
      { opdata 130 .OP_NEXTSTATE OPf_WANT_VOID with cop_arybase := 1 } .NULL .NULL .NULL
      rfl (Or.inl (by decide)) (by decide) (by decide) (by decide) (by decide),
   (aelem_translation demo_env 1 pad_cop ae_av_pad_var ae_padsv_pad ae_data ae_av_data .NULL
      ae_padsv .NULL .NULL .NULL false false true 0 (by decide) (new_pad_ok _ _ _) (by decide)
      (by decide)).2 (by decide) (fun h => absurd h (by decide)) (Or.inl rfl),
   by decide, by decide, by decide, by decide⟩

theorem helem_emit_eq (env : Env) (rec : AddOp) (bpp : CODEGEN_PAD) (o : OP) (d : OpData)
    (fl : Nat) (ht : d.op_type = .OP_HELEM) :
    add_op_emit env rec bpp o d fl =
      (add_op_helem env rec bpp o d).map fun p => (p.1, p.2, o) := by
  unfold add_op_emit
  simp only [ht]

/-- The `OPpDEREF` bits of a word are one of the four combinations of the bits
32 and 64. -/
theorem deref_bits (p : Nat) :
    p &&& 96 = 0 ∨ p &&& 96 = 32 ∨ p &&& 96 = 64 ∨ p &&& 96 = 96 := by
  have h1 : p &&& 96 ≤ 96 := Nat.and_le_right
  have h2 : (p &&& 96) &&& 96 = p &&& 96 := by
    rw [Nat.and_assoc, Nat.and_self]
  generalize p &&& 96 = x at h1 h2
  interval_cases x <;> first | (exfalso; revert h2; decide) | simp

/-- Each source flag of an `HELEM` node can be read back from the flag word of
its instruction. -/
theorem helem_flags_bits (d : OpData) :
    hasBit (helem_flags d) INSTRf_MOD = hasBit d.op_flags OPf_MOD ∧
    hasBit (helem_flags d) INSTRf_HELEM_MAYBE_LVSUB = hasBit d.op_private OPpMAYBE_LVSUB ∧
    hasBit (helem_flags d) INSTRf_HELEM_LVAL_DEFER = hasBit d.op_private OPpLVAL_DEFER ∧
    hasBit (helem_flags d) INSTRf_LVAL_INTRO = hasBit d.op_private OPpLVAL_INTRO ∧
    hasBit (helem_flags d) INSTRf_HELEM_SPECIAL = hasBit d.op_flags OPf_SPECIAL ∧
    helem_flags d &&& OPpDEREF = d.op_private &&& OPpDEREF := by
  unfold helem_flags
  generalize hasBit d.op_flags OPf_MOD = a1
  generalize hasBit d.op_private OPpMAYBE_LVSUB = a2
  generalize hasBit d.op_private OPpLVAL_DEFER = a3
  generalize hasBit d.op_private OPpLVAL_INTRO = a4
  generalize hasBit d.op_flags OPf_SPECIAL = a5
  have hd := deref_bits d.op_private
  simp only [OPpDEREF]
  generalize d.op_private &&& 96 = x at hd
  rcases hd with h | h | h | h <;> subst h <;>
    cases a1 <;> cases a2 <;> cases a3 <;> cases a4 <;> cases a5 <;> decide

/-- After the assignment through the pointer to the constant of the last
instruction, the last instruction carries the assigned value. -/
theorem assign_svp_last_const (b : CODEGEN_PAD) (p : SVPtr) (v : SV)
    (hp : svp_const_instruction b ((b.idx : Int) - 1) = .ok p) :
    last_const (assign_svp b p (b.idx - 1) v) = .ok v := by
  unfold svp_const_instruction at hp
  split at hp
  · cases hp
  · rename_i hneg
    have hpos : 1 ≤ b.idx := by omega
    have hnat : ((b.idx : Int) - 1).toNat = b.idx - 1 := by omega
    rw [hnat] at hp
    have hidx : (assign_svp b p (b.idx - 1) v).idx = b.idx := (assign_svp_fields b p _ v).1
    unfold last_const svp_const_instruction
    rw [hidx]
    simp only [hneg, if_false, hnat]
    cases hget : b.codeseq.xcodeseq_instructions.get? (b.idx - 1) with
    | none => simp only [hget] at hp; cases hp
    | some instr =>
      have hget2 := hget
      rw [List.get?_eq_getElem?] at hget2
      obtain ⟨hlt, heq⟩ := List.getElem?_eq_some_iff.mp hget2
      simp only [hget] at hp
      cases hop : instr.instr_op with
      | NULL =>
        simp only [hop] at hp
        cases hp
        simp [assign_svp, hget, hlt, bind, Except.bind, deref_svp, heq, hop]
      | mk d0 f0 s0 r0 =>
        simp only [hop] at hp
        split at hp
        · rename_i hconst
          cases hp
          simp [assign_svp, hget, hlt, bind, Except.bind, deref_svp, heq, hop, hconst]
        · cases hp

/-- The assignment through the pointer to a constant changes one slot only. -/
theorem assign_svp_get_other (b : CODEGEN_PAD) (p : SVPtr) (i j : Nat) (v : SV) (h : j ≠ i) :
    (assign_svp b p i v).codeseq.xcodeseq_instructions.get? j =
      b.codeseq.xcodeseq_instructions.get? j := by
  unfold assign_svp
  split
  · rfl
  · split <;> simp [List.getElem?_set_ne (Ne.symm h)]

/-- Claim C25. An `HELEM` node, after the translation of the container and of the
key: `add_op` appends one `helem` instruction (source the node) whose
`instr_arg1` is the flag word `helem_flags`; the word has the bit `0x2` exactly
when the node has `OPf_MOD`, `0x4` for `OPpMAYBE_LVSUB`, `0x8` for
`OPpLVAL_DEFER`, `0x10` for `OPpLVAL_INTRO`, `0x100` for `OPf_SPECIAL`, and its
`OPpDEREF` bits are those of the node. When the key left the fold flag true,
the value `v0` carried by the last instruction is first replaced by the shared
string `newSVpvn_share` builds from the bytes and the UTF-8 flag of `v0`; no
other instruction is changed. `HELEM` is assumed not to be declared
fold-eligible in `PL_opargs`, as in Perl's opcode table. -/
theorem helem_translation (env : Env) (n : Nat) (bpp b1 b2 : CODEGEN_PAD)
    (d hd : OpData) (hf op_key hr s r : OP) (kh kk m : Bool) (fl : Nat)
    (ht : d.op_type = .OP_HELEM)
    (htab : hasBit (env.PL_opargs .OP_HELEM) OA_FOLDCONST = false)
    (hok : pad_ok bpp)
    (hhv : add_op env n bpp (.mk hd hf op_key hr) true 0 = .ok (b1, kh))
    (hkey : add_op env n b1 op_key true 0 = .ok (b2, kk)) :
    (kk = false →
      add_op env (n + 1) bpp (.mk d (.mk hd hf op_key hr) s r) m fl
        = .ok (append_instruction_x env b2 (.mk d (.mk hd hf op_key hr) s r) .OP_HELEM
            (.ptr (helem_flags d)) .null, false) ∧
      (append_instruction_x env b2 (.mk d (.mk hd hf op_key hr) s r) .OP_HELEM
          (.ptr (helem_flags d)) .null).codeseq.xcodeseq_instructions.get? b2.idx =
        some { instr_ppaddr := some .OP_HELEM, instr_op := .mk d (.mk hd hf op_key hr) s r,
               instr_arg1 := .ptr (helem_flags d), instr_arg2 := .null } ∧
      (append_instruction_x env b2 (.mk d (.mk hd hf op_key hr) s r) .OP_HELEM
          (.ptr (helem_flags d)) .null).idx = b2.idx + 1) ∧
    (kk = true → ∀ (p : SVPtr) (v0 : SV),
      svp_const_instruction b2 ((b2.idx : Int) - 1) = .ok p →
      deref_svp b2 p = .ok v0 →
      add_op env (n + 1) bpp (.mk d (.mk hd hf op_key hr) s r) m fl
        = .ok (append_instruction_x env
            (assign_svp b2 p (b2.idx - 1) (newSVpvn_share (SvPV_const v0) (SvUTF8 v0)))
            (.mk d (.mk hd hf op_key hr) s r) .OP_HELEM (.ptr (helem_flags d)) .null, false) ∧
      (append_instruction_x env
          (assign_svp b2 p (b2.idx - 1) (newSVpvn_share (SvPV_const v0) (SvUTF8 v0)))
          (.mk d (.mk hd hf op_key hr) s r) .OP_HELEM (.ptr (helem_flags d)) .null
          ).codeseq.xcodeseq_instructions.get? b2.idx =
        some { instr_ppaddr := some .OP_HELEM, instr_op := .mk d (.mk hd hf op_key hr) s r,
               instr_arg1 := .ptr (helem_flags d), instr_arg2 := .null } ∧
      (append_instruction_x env
          (assign_svp b2 p (b2.idx - 1) (newSVpvn_share (SvPV_const v0) (SvUTF8 v0)))
          (.mk d (.mk hd hf op_key hr) s r) .OP_HELEM (.ptr (helem_flags d)) .null).idx
        = b2.idx + 1 ∧
      last_const (assign_svp b2 p (b2.idx - 1) (newSVpvn_share (SvPV_const v0) (SvUTF8 v0)))
        = .ok (newSVpvn_share (SvPV_const v0) (SvUTF8 v0)) ∧
      SvPV_const (newSVpvn_share (SvPV_const v0) (SvUTF8 v0)) = SvPV_const v0 ∧
      SvUTF8 (newSVpvn_share (SvPV_const v0) (SvUTF8 v0)) = SvUTF8 v0 ∧
      newSVpvn_share (SvPV_const v0) (SvUTF8 v0) =
        .scalar { val := .pv (SvPV_const v0) (SvUTF8 v0) true, readonly := false } ∧
      (∀ j, j ≠ b2.idx - 1 →
        (assign_svp b2 p (b2.idx - 1) (newSVpvn_share (SvPV_const v0) (SvUTF8 v0))
          ).codeseq.xcodeseq_instructions.get? j = b2.codeseq.xcodeseq_instructions.get? j)) ∧
    (hasBit (helem_flags d) INSTRf_MOD = hasBit d.op_flags OPf_MOD ∧
      hasBit (helem_flags d) INSTRf_HELEM_MAYBE_LVSUB = hasBit d.op_private OPpMAYBE_LVSUB ∧
      hasBit (helem_flags d) INSTRf_HELEM_LVAL_DEFER = hasBit d.op_private OPpLVAL_DEFER ∧
      hasBit (helem_flags d) INSTRf_LVAL_INTRO = hasBit d.op_private OPpLVAL_INTRO ∧
      hasBit (helem_flags d) INSTRf_HELEM_SPECIAL = hasBit d.op_flags OPf_SPECIAL ∧
      helem_flags d &&& OPpDEREF = d.op_private &&& OPpDEREF) := by
  have hok1 : pad_ok b1 := (add_op_grows env n _ _ _ _ _ hhv).2 hok
  have hok2 : pad_ok b2 := (add_op_grows env n _ _ _ _ _ hkey).2 hok1
  have hff : ∀ k, fold_flag env .OP_HELEM k = false := by
    intro k; simp [fold_flag, htab]
  refine ⟨?_, ?_, helem_flags_bits d⟩
  · intro hkk
    subst hkk
    refine ⟨?_, append_get_new env b2 _ _ _ _ hok2, append_idx env b2 _ _ _ _⟩
    rw [add_op_unfold, helem_emit_eq env _ _ _ _ _ ht]
    simp only [add_op_helem, OP.first, OP.sibling, bind, Except.bind, hhv, hkey,
      Bool.false_eq_true, if_false, Except.map, add_op_fold, OP.type, OP.data, pure,
      Except.pure]
    simp [hff, ht]
  · intro hkk p v0 hp hv
    subst hkk
    obtain ⟨hi, hs, hl⟩ := assign_svp_fields b2 p (b2.idx - 1)
      (newSVpvn_share (SvPV_const v0) (SvUTF8 v0))
    have hokA : pad_ok (assign_svp b2 p (b2.idx - 1)
        (newSVpvn_share (SvPV_const v0) (SvUTF8 v0))) := by
      refine ⟨?_, ?_⟩
      · rw [hi, hs]; exact hok2.1
      · rw [hl, hs]; exact hok2.2
    have hget := append_get_new env _ (.mk d (.mk hd hf op_key hr) s r) .OP_HELEM
      (.ptr (helem_flags d)) .null hokA
    have hidx := append_idx env (assign_svp b2 p (b2.idx - 1)
      (newSVpvn_share (SvPV_const v0) (SvUTF8 v0))) (.mk d (.mk hd hf op_key hr) s r) .OP_HELEM
      (.ptr (helem_flags d)) .null
    rw [hi] at hget hidx
    refine ⟨?_, hget, hidx, assign_svp_last_const b2 p _ hp, ?_, ?_, rfl,
      fun j hj => assign_svp_get_other b2 p _ j _ hj⟩
    · rw [add_op_unfold, helem_emit_eq env _ _ _ _ _ ht]
      simp only [add_op_helem, OP.first, OP.sibling, bind, Except.bind, hhv, hkey, if_true, hp,
        hv, Except.map, add_op_fold, OP.type, OP.data, pure, Except.pure]
      simp [hff, ht]
    · rfl
    · rfl

/-- Witness of C25: for `$h{k}` as an lvalue under `local` the instruction
`helem` carries the word `0x32` (`INSTRf_MOD`, `INSTRf_LVAL_INTRO` and the
`OPpDEREF` bit 32), and the key of the `const` instruction before it has become
the shared string `"k"`; for `$h{$k}` no value is replaced. -/
theorem helem_translation_witness :
    (add_op demo_env 2 pad0 tree_helem_const true 0
        = .ok (append_instruction_x demo_env
            (assign_svp he_key_pad (.in_op { opdata 142 .OP_CONST 0 with
                op_sv := .scalar { val := .pv "k" false false, readonly := false } })
              (he_key_pad.idx - 1) (newSVpvn_share "k" false))
            tree_helem_const .OP_HELEM (.ptr (helem_flags he_data)) .null, false) ∧
      last_const (assign_svp he_key_pad (.in_op { opdata 142 .OP_CONST 0 with
                op_sv := .scalar { val := .pv "k" false false, readonly := false } })
              (he_key_pad.idx - 1) (newSVpvn_share "k" false))
        = .ok (.scalar { val := .pv "k" false true, readonly := false })) ∧
    (add_op demo_env 2 pad0 tree_helem_var true 0
        = .ok (append_instruction_x demo_env he_padsv_pad tree_helem_var .OP_HELEM
            (.ptr (helem_flags he_data)) .null, false)) ∧
    helem_flags he_data = 0x32 ∧ he_key_pad.idx = 2 ∧
    (he_done.codeseq.xcodeseq_instructions.take 3).map (fun x => x.instr_ppaddr) =
      [some (.OTHER 200), some .OP_CONST, some .OP_HELEM] ∧
    he_done.op_writes = [.set_sv 142 (newSVpvn_share "k" false)] :=
  ⟨match (helem_translation demo_env 1 pad0 he_hv_pad he_key_pad he_data he_hv_data .NULL he_key
      .NULL .NULL .NULL false true true 0 (by decide) (by decide) (new_pad_ok _ _ _) (by decide)
      (by decide)).2.1 rfl (.in_op { opdata 142 .OP_CONST 0 with
        op_sv := .scalar { val := .pv "k" false false, readonly := false } })
      (.scalar { val := .pv "k" false false, readonly := false }) (by decide) (by decide) with
    | ⟨h1, _, _, h4, _⟩ => ⟨h1, h4⟩,
   ((helem_translation demo_env 1 pad0 he_hv_pad_var he_padsv_pad he_data he_hv_data .NULL
      he_padsv .NULL .NULL .NULL false false true 0 (by decide) (by decide) (new_pad_ok _ _ _)
      (by decide) (by decide)).1 rfl).1,
   by decide, by decide, by decide, by decide⟩

theorem subst_emit_eq (env : Env) (rec : AddOp) (bpp : CODEGEN_PAD) (o : OP) (d : OpData)
    (fl : Nat) (ht : d.op_type = .OP_SUBST) :
    add_op_emit env rec bpp o d fl =
      (add_op_subst env rec bpp o d).map fun p => (p.1, p.2, o) := by
  unfold add_op_emit
  simp only [ht]

/-- Claim C26. The layout `add_op` gives a `SUBST` node: the children, one
`subst` instruction, one unconditional jump, one `substcont` instruction, the
replacement subtree if there is one. Three pointer fixups are recorded for the
node: `op_pmreplroot_instr` at the index of `substcont`, `op_pmreplstart_instr`
at the index after it, `op_subst_next_instr` at the index the replacement ends
at; one branch fixup is recorded, from the jump to that last index, so that the
displacement of the jump is 2 plus the number of instructions of the
replacement. The translation is a function of the tree and of the pad it
starts from: equal inputs give equal offsets. `SUBST` is assumed not to be
declared fold-eligible in `PL_opargs`, as in Perl's opcode table. -/
theorem subst_layout (env : Env) (n : Nat) (bpp b1 b2 : CODEGEN_PAD)
    (d : OpData) (f s r : OP) (k1 k2 m : Bool) (fl : Nat)
    (ht : d.op_type = .OP_SUBST)
    (htab : hasBit (env.PL_opargs .OP_SUBST) OA_FOLDCONST = false)
    (hok : pad_ok bpp)
    (hkids : add_chain (add_op env n) f.chain bpp true = .ok (b1, k1))
    (hrepl :
      (r = .NULL ∧ k2 = k1 ∧
        b2 = save_branch_point
          (append_instruction env
            (save_branch_point
              (append_instruction_x env (append_instruction env b1 (.mk d f s r) .OP_SUBST)
                .NULL .OP_INSTR_JUMP .null .null)
              (slot d .op_pmreplroot_instr))
            r .OP_SUBSTCONT)
          (slot d .op_pmreplstart_instr)) ∨
      (r ≠ .NULL ∧
        add_op env n
          (save_branch_point
            (append_instruction env
              (save_branch_point
                (append_instruction_x env (append_instruction env b1 (.mk d f s r) .OP_SUBST)
                  .NULL .OP_INSTR_JUMP .null .null)
                (slot d .op_pmreplroot_instr))
              r .OP_SUBSTCONT)
            (slot d .op_pmreplstart_instr)) r k1 0 = .ok (b2, k2))) :
    ∃ b3 : CODEGEN_PAD,
      add_op env (n + 1) bpp (.mk d f s r) m fl = .ok (b3, false) ∧
      emitted
        (save_branch_point
          (append_instruction env
            (save_branch_point
              (append_instruction_x env (append_instruction env b1 (.mk d f s r) .OP_SUBST)
                .NULL .OP_INSTR_JUMP .null .null)
              (slot d .op_pmreplroot_instr))
            r .OP_SUBSTCONT)
          (slot d .op_pmreplstart_instr)) b1.idx =
        [{ instr_ppaddr := some .OP_SUBST, instr_op := .mk d f s r,
           instr_arg1 := .null, instr_arg2 := .null },
         { instr_ppaddr := some .OP_INSTR_JUMP, instr_op := .NULL,
           instr_arg1 := .null, instr_arg2 := .null },
         { instr_ppaddr := some .OP_SUBSTCONT, instr_op := r,
           instr_arg1 := .null, instr_arg2 := .null }] ∧
      (∃ l2 : List OP_INSTRPP,
        b2.op_instrpp_list = b1.op_instrpp_list ++
          [{ instrpp := slot d .op_pmreplroot_instr, instr_idx := b1.idx + 2 },
           { instrpp := slot d .op_pmreplstart_instr, instr_idx := b1.idx + 3 }] ++ l2) ∧
      b3.op_instrpp_list = b2.op_instrpp_list ++
        [{ instrpp := slot d .op_subst_next_instr, instr_idx := b2.idx }] ∧
      b3.branch_point_to_pparg_list = b2.branch_point_to_pparg_list ++
        [{ instr_from_index := b1.idx + 1, instr_to_index := b2.idx }] ∧
      b3.idx = b2.idx ∧
      (r = .NULL → b2.idx = b1.idx + 3) ∧
      (b2.idx : Int) - ((b1.idx + 1 : Nat) : Int) = 2 + ((b2.idx : Int) - ((b1.idx + 3 : Nat) : Int)) := by
  have hff : ∀ k, fold_flag env .OP_SUBST k = false := by
    intro k; simp [fold_flag, htab]
  have hok1 : pad_ok b1 := (add_chain_grows env n _ _ _ _ hkids).2 hok
  have hokA := append_pad_ok env b1 (.mk d f s r) .OP_SUBST .null .null hok1
  have hiA := append_idx env b1 (.mk d f s r) .OP_SUBST .null .null
  have hlA := append_lists env b1 (.mk d f s r) .OP_SUBST .null .null
  have hokJ := append_pad_ok env _ .NULL .OP_INSTR_JUMP .null .null hokA
  have hiJ := append_idx env (append_instruction_x env b1 (.mk d f s r) .OP_SUBST .null .null)
    .NULL .OP_INSTR_JUMP .null .null
  have hlJ := append_lists env (append_instruction_x env b1 (.mk d f s r) .OP_SUBST .null .null)
    .NULL .OP_INSTR_JUMP .null .null
  have hokC := append_pad_ok env (save_branch_point
    (append_instruction_x env (append_instruction_x env b1 (.mk d f s r) .OP_SUBST .null .null)
      .NULL .OP_INSTR_JUMP .null .null) (slot d .op_pmreplroot_instr)) r .OP_SUBSTCONT .null .null
    hokJ
  have hiC := append_idx env (save_branch_point
    (append_instruction_x env (append_instruction_x env b1 (.mk d f s r) .OP_SUBST .null .null)
      .NULL .OP_INSTR_JUMP .null .null) (slot d .op_pmreplroot_instr)) r .OP_SUBSTCONT .null .null
  have hlC := append_lists env (save_branch_point
    (append_instruction_x env (append_instruction_x env b1 (.mk d f s r) .OP_SUBST .null .null)
      .NULL .OP_INSTR_JUMP .null .null) (slot d .op_pmreplroot_instr)) r .OP_SUBSTCONT .null .null
  have hiP : (save_branch_point
      (append_instruction env
        (save_branch_point
          (append_instruction_x env (append_instruction env b1 (.mk d f s r) .OP_SUBST)
            .NULL .OP_INSTR_JUMP .null .null)
          (slot d .op_pmreplroot_instr))
        r .OP_SUBSTCONT)
      (slot d .op_pmreplstart_instr)).idx = b1.idx + 3 := by
    simp only [save_bp_idx, append_instruction, append_idx]
  have hlP : (save_branch_point
      (append_instruction env
        (save_branch_point
          (append_instruction_x env (append_instruction env b1 (.mk d f s r) .OP_SUBST)
            .NULL .OP_INSTR_JUMP .null .null)
          (slot d .op_pmreplroot_instr))
        r .OP_SUBSTCONT)
      (slot d .op_pmreplstart_instr)).op_instrpp_list = b1.op_instrpp_list ++
        [{ instrpp := slot d .op_pmreplroot_instr, instr_idx := b1.idx + 2 },
         { instrpp := slot d .op_pmreplstart_instr, instr_idx := b1.idx + 3 }] := by
    simp only [save_bp_instrpp, save_bp_idx, append_instruction, append_instrpp, append_idx,
      List.append_assoc, List.singleton_append]
  have hbP : (save_branch_point
      (append_instruction env
        (save_branch_point
          (append_instruction_x env (append_instruction env b1 (.mk d f s r) .OP_SUBST)
            .NULL .OP_INSTR_JUMP .null .null)
          (slot d .op_pmreplroot_instr))
        r .OP_SUBSTCONT)
      (slot d .op_pmreplstart_instr)).branch_point_to_pparg_list
        = b1.branch_point_to_pparg_list := by
    simp only [save_bp_branch, append_instruction, append_branch]
  have hem : emitted
      (save_branch_point
        (append_instruction env
          (save_branch_point
            (append_instruction_x env (append_instruction env b1 (.mk d f s r) .OP_SUBST)
              .NULL .OP_INSTR_JUMP .null .null)
            (slot d .op_pmreplroot_instr))
          r .OP_SUBSTCONT)
        (slot d .op_pmreplstart_instr)) b1.idx =
      [{ instr_ppaddr := some .OP_SUBST, instr_op := .mk d f s r,
         instr_arg1 := .null, instr_arg2 := .null },
       { instr_ppaddr := some .OP_INSTR_JUMP, instr_op := .NULL,
         instr_arg1 := .null, instr_arg2 := .null },
       { instr_ppaddr := some .OP_SUBSTCONT, instr_op := r,
         instr_arg1 := .null, instr_arg2 := .null }] := by
    have hA := emitted_append env b1 (.mk d f s r) .OP_SUBST .null .null b1.idx hok1
      (Nat.le_refl _)
    have hJ := emitted_append env _ .NULL .OP_INSTR_JUMP .null .null b1.idx hokA
      (by rw [hiA]; omega)
    have hC := emitted_append env (save_branch_point
      (append_instruction_x env (append_instruction_x env b1 (.mk d f s r) .OP_SUBST .null .null)
        .NULL .OP_INSTR_JUMP .null .null) (slot d .op_pmreplroot_instr)) r .OP_SUBSTCONT .null
      .null b1.idx hokJ (by rw [save_bp_idx, hiJ, hiA]; omega)
    rw [emitted_save_bp] at hC
    rw [hJ, hA, emitted_self] at hC
    exact hC
  have hidx2 : r = .NULL → b2.idx = b1.idx + 3 := by
    intro hr
    rcases hrepl with ⟨-, -, h⟩ | ⟨hne, -⟩
    · rw [h]; exact hiP
    · exact absurd hr hne
  obtain ⟨l2, hl2⟩ : ∃ l2, b2.op_instrpp_list = b1.op_instrpp_list ++
      [{ instrpp := slot d .op_pmreplroot_instr, instr_idx := b1.idx + 2 },
       { instrpp := slot d .op_pmreplstart_instr, instr_idx := b1.idx + 3 }] ++ l2 := by
    rcases hrepl with ⟨-, -, h⟩ | ⟨-, h⟩
    · exact ⟨[], by rw [h, hlP, List.append_nil]⟩
    · obtain ⟨l2, hl2⟩ := (add_op_extends env n _ _ _ _ _ h).1
      exact ⟨l2, by rw [← hl2, hlP]⟩
  refine ⟨save_instr_from_to_pparg (save_branch_point b2 (slot d .op_subst_next_instr))
    (b1.idx + 1) b2.idx, ?_, hem, ⟨l2, hl2⟩, rfl, rfl, rfl, hidx2, by push_cast; ring⟩
  clear hokA hiA hlA hokJ hiJ hlJ hokC hiC hlC hiP hlP hbP hem hidx2 hl2
  rw [add_op_unfold, subst_emit_eq env _ _ _ _ _ ht]
  rcases hrepl with ⟨hr, hk, hb⟩ | ⟨hne, hr⟩
  · subst hr hk
    simp only [add_op_subst, OP.first, OP.pmreplroot, bind, Except.bind, hkids, OP.isSome,
      Bool.false_eq_true, if_false, Except.map, add_op_fold, OP.type, OP.data, pure,
      Except.pure, ht]
    rw [hb]
    simp [hff, append_instruction, append_idx, save_bp_idx]
  · have hsome : r.isSome = true := isSome_of_ne_null r hne
    simp only [add_op_subst, OP.first, OP.pmreplroot, bind, Except.bind, hkids, hsome, if_true,
      ht, hr, Except.map, add_op_fold, OP.type, OP.data, pure, Except.pure]
    simp [hff, append_instruction, append_idx, save_bp_idx]

/-- Witness of C26: `$x =~ s/.../$y/` gives `padsv`, `subst`, the jump,
`substcont`, `padsv`; `op_pmreplroot_instr` is recorded at 3,
`op_pmreplstart_instr` at 4, `op_subst_next_instr` at 5, and the jump at 2 is
sent to 5, a displacement of 3, which is 2 plus the one instruction of the
replacement. -/
theorem subst_layout_witness :
    (∃ b3 : CODEGEN_PAD,
      add_op demo_env 2 pad0 tree_subst true 0 = .ok (b3, false) ∧
      emitted (su_cont_pad su_repl tree_subst) su_kids_pad.idx =
        [{ instr_ppaddr := some .OP_SUBST, instr_op := tree_subst,
           instr_arg1 := .null, instr_arg2 := .null },
         { instr_ppaddr := some .OP_INSTR_JUMP, instr_op := .NULL,
           instr_arg1 := .null, instr_arg2 := .null },
         { instr_ppaddr := some .OP_SUBSTCONT, instr_op := su_repl,
           instr_arg1 := .null, instr_arg2 := .null }] ∧
      (∃ l2 : List OP_INSTRPP,
        su_repl_pad.op_instrpp_list = su_kids_pad.op_instrpp_list ++
          [{ instrpp := slot su_data .op_pmreplroot_instr, instr_idx := su_kids_pad.idx + 2 },
           { instrpp := slot su_data .op_pmreplstart_instr, instr_idx := su_kids_pad.idx + 3 }]
          ++ l2) ∧
      b3.op_instrpp_list = su_repl_pad.op_instrpp_list ++
        [{ instrpp := slot su_data .op_subst_next_instr, instr_idx := su_repl_pad.idx }] ∧
      b3.branch_point_to_pparg_list = su_repl_pad.branch_point_to_pparg_list ++
        [{ instr_from_index := su_kids_pad.idx + 1, instr_to_index := su_repl_pad.idx }] ∧
      b3.idx = su_repl_pad.idx ∧
      (su_repl = .NULL → su_repl_pad.idx = su_kids_pad.idx + 3) ∧
      (su_repl_pad.idx : Int) - ((su_kids_pad.idx + 1 : Nat) : Int) =
        2 + ((su_repl_pad.idx : Int) - ((su_kids_pad.idx + 3 : Nat) : Int))) ∧
    su_kids_pad.idx = 1 ∧ su_repl_pad.idx = 5 ∧
    (su_done.codeseq.xcodeseq_instructions.take 5).map (fun x => x.instr_ppaddr) =
      [some .OP_PADSV, some .OP_SUBST, some .OP_INSTR_JUMP, some .OP_SUBSTCONT,
       some .OP_PADSV] ∧
    su_done.op_instrpp_list =
      [{ instrpp := some { node := 150, field := .op_pmreplroot_instr }, instr_idx := 3 },
       { instrpp := some { node := 150, field := .op_pmreplstart_instr }, instr_idx := 4 },
       { instrpp := some { node := 150, field := .op_subst_next_instr }, instr_idx := 5 }] ∧
    su_done.branch_point_to_pparg_list = [{ instr_from_index := 2, instr_to_index := 5 }] :=
  ⟨subst_layout demo_env 1 pad0 su_kids_pad su_repl_pad su_data su_subject .NULL su_repl
      false false true 0 (by decide) (by decide) (new_pad_ok _ _ _) (by decide)
      (Or.inr ⟨by decide, by decide⟩),
   by decide, by decide, by decide, by decide, by decide⟩

theorem sort_emit_eq (env : Env) (rec : AddOp) (bpp : CODEGEN_PAD) (o : OP) (d : OpData)
    (fl : Nat) (ht : d.op_type = .OP_SORT) :
    add_op_emit env rec bpp o d fl =
      (add_op_sort env rec bpp o d).map fun p => (p.1, p.2, o) := by
  unfold add_op_emit
  simp only [ht]

/-- Claim C27. The layout `add_op` gives a `SORT` node: `pushmark`, the children
(without the first one when the node has a comparator block, that is when both
`OPf_STACKED` and `OPf_SPECIAL` are set), one `sort` instruction, one
unconditional jump, and with a block the translation of the block followed by
`INSTR_END`. With a block a branch fixup links the `sort` instruction to the
index after the jump, where the block starts. In both cases a branch fixup
links the jump to the index after the whole construct; without a block that is
the index right after the jump. `SORT` is assumed not to be declared
fold-eligible in `PL_opargs`, as in Perl's opcode table. -/
theorem sort_layout (env : Env) (n : Nat) (bpp : CODEGEN_PAD)
    (d : OpData) (f s r : OP) (m : Bool) (fl : Nat)
    (ht : d.op_type = .OP_SORT)
    (htab : hasBit (env.PL_opargs .OP_SORT) OA_FOLDCONST = false)
    (hok : pad_ok bpp) :
    ((hasBit d.op_flags OPf_STACKED && hasBit d.op_flags OPf_SPECIAL) = false →
      ∀ (b1 : CODEGEN_PAD) (k1 : Bool),
      add_chain (add_op env n) f.chain (append_instruction env bpp .NULL .OP_PUSHMARK) true
        = .ok (b1, k1) →
      ∃ b3 : CODEGEN_PAD,
        add_op env (n + 1) bpp (.mk d f s r) m fl = .ok (b3, false) ∧
        emitted (append_instruction env bpp .NULL .OP_PUSHMARK) bpp.idx =
          [{ instr_ppaddr := some .OP_PUSHMARK, instr_op := .NULL,
             instr_arg1 := .null, instr_arg2 := .null }] ∧
        emitted b3 b1.idx =
          [{ instr_ppaddr := some .OP_SORT, instr_op := .mk d f s r,
             instr_arg1 := .null, instr_arg2 := .null },
           { instr_ppaddr := some .OP_INSTR_JUMP, instr_op := .NULL,
             instr_arg1 := .null, instr_arg2 := .null }] ∧
        b3.idx = b1.idx + 2 ∧
        b3.branch_point_to_pparg_list = b1.branch_point_to_pparg_list ++
          [{ instr_from_index := b1.idx + 1, instr_to_index := b1.idx + 2 }] ∧
        b3.op_instrpp_list = b1.op_instrpp_list) ∧
    ((hasBit d.op_flags OPf_STACKED && hasBit d.op_flags OPf_SPECIAL) = true →
      ∀ (bd : OpData) (bf bs br : OP) (b1 b2 : CODEGEN_PAD) (k1 k2 : Bool),
      f = .mk bd bf bs br →
      add_chain (add_op env n) bs.chain (append_instruction env bpp .NULL .OP_PUSHMARK) true
        = .ok (b1, k1) →
      add_op env n
        (save_instr_from_to_pparg
          (append_instruction_x env (append_instruction env b1 (.mk d f s r) .OP_SORT)
            .NULL .OP_INSTR_JUMP .null .null) b1.idx (b1.idx + 2))
        f k1 0 = .ok (b2, k2) →
      ∃ b3 : CODEGEN_PAD,
        add_op env (n + 1) bpp (.mk d f s r) m fl = .ok (b3, false) ∧
        emitted (append_instruction env bpp .NULL .OP_PUSHMARK) bpp.idx =
          [{ instr_ppaddr := some .OP_PUSHMARK, instr_op := .NULL,
             instr_arg1 := .null, instr_arg2 := .null }] ∧
        emitted
          (save_instr_from_to_pparg
            (append_instruction_x env (append_instruction env b1 (.mk d f s r) .OP_SORT)
              .NULL .OP_INSTR_JUMP .null .null) b1.idx (b1.idx + 2)) b1.idx =
          [{ instr_ppaddr := some .OP_SORT, instr_op := .mk d f s r,
             instr_arg1 := .null, instr_arg2 := .null },
           { instr_ppaddr := some .OP_INSTR_JUMP, instr_op := .NULL,
             instr_arg1 := .null, instr_arg2 := .null }] ∧
        (save_instr_from_to_pparg
            (append_instruction_x env (append_instruction env b1 (.mk d f s r) .OP_SORT)
              .NULL .OP_INSTR_JUMP .null .null) b1.idx (b1.idx + 2)).idx = b1.idx + 2 ∧
        (∃ l2 : List BRANCH_POINT_TO_PPARG,
          b2.branch_point_to_pparg_list = b1.branch_point_to_pparg_list ++
            [{ instr_from_index := b1.idx, instr_to_index := b1.idx + 2 }] ++ l2) ∧
        b3.codeseq.xcodeseq_instructions.get? b2.idx =
          some { instr_ppaddr := some .OP_INSTR_END, instr_op := .NULL,
                 instr_arg1 := .null, instr_arg2 := .null } ∧
        b3.idx = b2.idx + 1 ∧
        b3.branch_point_to_pparg_list = b2.branch_point_to_pparg_list ++
          [{ instr_from_index := b1.idx + 1, instr_to_index := b2.idx + 1 }] ∧
        b3.op_instrpp_list = b2.op_instrpp_list) := by
  have hff : ∀ k, fold_flag env .OP_SORT k = false := by
    intro k; simp [fold_flag, htab]
  have hokP := append_pad_ok env bpp .NULL .OP_PUSHMARK .null .null hok
  have hemP : emitted (append_instruction env bpp .NULL .OP_PUSHMARK) bpp.idx =
      [{ instr_ppaddr := some .OP_PUSHMARK, instr_op := .NULL,
         instr_arg1 := .null, instr_arg2 := .null }] := by
    have := emitted_append env bpp .NULL .OP_PUSHMARK .null .null bpp.idx hok (Nat.le_refl _)
    rw [emitted_self] at this
    exact this
  have hSJ : ∀ b1 : CODEGEN_PAD, pad_ok b1 →
      emitted (append_instruction_x env (append_instruction env b1 (.mk d f s r) .OP_SORT)
        .NULL .OP_INSTR_JUMP .null .null) b1.idx =
      [{ instr_ppaddr := some .OP_SORT, instr_op := .mk d f s r,
         instr_arg1 := .null, instr_arg2 := .null },
       { instr_ppaddr := some .OP_INSTR_JUMP, instr_op := .NULL,
         instr_arg1 := .null, instr_arg2 := .null }] := by
    intro b1 hok1
    have hA := emitted_append env b1 (.mk d f s r) .OP_SORT .null .null b1.idx hok1
      (Nat.le_refl _)
    have hJ := emitted_append env _ .NULL .OP_INSTR_JUMP .null .null b1.idx
      (append_pad_ok env b1 (.mk d f s r) .OP_SORT .null .null hok1)
      (by rw [append_idx]; omega)
    rw [hA, emitted_self] at hJ
    exact hJ
  constructor
  · intro hnb b1 k1 hkids
    have hok1 : pad_ok b1 := (add_chain_grows env n _ _ _ _ hkids).2 hokP
    refine ⟨save_instr_from_to_pparg
      (append_instruction_x env (append_instruction env b1 (.mk d f s r) .OP_SORT)
        .NULL .OP_INSTR_JUMP .null .null) (b1.idx + 1) (b1.idx + 2), ?_, hemP, ?_, ?_, ?_, ?_⟩
    · rw [add_op_unfold, sort_emit_eq env _ _ _ _ _ ht]
      simp only [add_op_sort, compile_sort_without_kids, OP.first, bind, Except.bind, hnb,
        Bool.false_eq_true, if_false, hkids, Except.map, add_op_fold, OP.type, OP.data, pure,
        Except.pure, ht]
      simp [hff, append_instruction, append_idx, save_ft_idx]
    · rw [emitted_save_ft]; exact hSJ b1 hok1
    · simp only [save_ft_idx, append_instruction, append_idx]
    · simp only [save_ft_branch, append_instruction, append_branch]
    · simp only [save_ft_instrpp, append_instruction, append_instrpp]
  · intro hb bd bf bs br b1 b2 k1 k2 hf hkids hblock
    subst hf
    have hok1 : pad_ok b1 := (add_chain_grows env n _ _ _ _ hkids).2 hokP
    have hokJ : pad_ok (save_instr_from_to_pparg
        (append_instruction_x env (append_instruction env b1 (.mk d (.mk bd bf bs br) s r) .OP_SORT)
          .NULL .OP_INSTR_JUMP .null .null) b1.idx (b1.idx + 2)) :=
      append_pad_ok env _ _ _ _ _ (append_pad_ok env b1 _ _ _ _ hok1)
    have hok2 : pad_ok b2 := (add_op_grows env n _ _ _ _ _ hblock).2 hokJ
    obtain ⟨l2, hl2⟩ := (add_op_extends env n _ _ _ _ _ hblock).2.1
    refine ⟨save_instr_from_to_pparg
      (append_instruction_x env b2 .NULL .OP_INSTR_END .null .null) (b1.idx + 1) (b2.idx + 1),
      ?_, hemP, ?_, ?_, ⟨l2, ?_⟩, append_get_new env b2 _ _ _ _ hok2, ?_, ?_, ?_⟩
    · rw [add_op_unfold, sort_emit_eq env _ _ _ _ _ ht]
      simp only [add_op_sort, compile_sort_without_kids, OP.first, OP.sibling, bind, Except.bind,
        hb, if_true, hkids, Except.map, add_op_fold, OP.type, OP.data, pure, Except.pure, ht]
      simp only [append_instruction, append_idx, save_ft_idx] at hblock ⊢
      simp only [hblock]
      simp [hff, ht, append_idx, save_ft_idx]
    · rw [emitted_save_ft]; exact hSJ b1 hok1
    · simp only [save_ft_idx, append_instruction, append_idx]
    · rw [← hl2]
      simp only [save_ft_branch, append_instruction, append_branch]
    · simp only [save_ft_idx, append_idx]
    · simp only [save_ft_branch, append_branch]
    · simp only [save_ft_instrpp, append_instrpp]

/-- Witness of C27: `sort @x` gives `pushmark`, `padav`, `sort`, the jump, and
sends the jump at 3 to 4; `sort { ... } @x` gives `pushmark`, `padav`, `sort`,
the jump, the block, `INSTR_END`, sends `sort` at 2 to the block at 4 and the
jump at 3 to 6. -/
theorem sort_layout_witness :
    (∃ b3 : CODEGEN_PAD,
      add_op demo_env 3 pad0 tree_sort_plain true 0 = .ok (b3, false) ∧
      emitted (append_instruction demo_env pad0 .NULL .OP_PUSHMARK) pad0.idx =
        [{ instr_ppaddr := some .OP_PUSHMARK, instr_op := .NULL,
           instr_arg1 := .null, instr_arg2 := .null }] ∧
      emitted b3 so_kids_pad.idx =
        [{ instr_ppaddr := some .OP_SORT, instr_op := tree_sort_plain,
           instr_arg1 := .null, instr_arg2 := .null },
         { instr_ppaddr := some .OP_INSTR_JUMP, instr_op := .NULL,
           instr_arg1 := .null, instr_arg2 := .null }] ∧
      b3.idx = so_kids_pad.idx + 2 ∧
      b3.branch_point_to_pparg_list = so_kids_pad.branch_point_to_pparg_list ++
        [{ instr_from_index := so_kids_pad.idx + 1, instr_to_index := so_kids_pad.idx + 2 }] ∧
      b3.op_instrpp_list = so_kids_pad.op_instrpp_list) ∧
    (∃ b3 : CODEGEN_PAD,
      add_op demo_env 3 pad0 tree_sort_block true 0 = .ok (b3, false) ∧
      emitted (append_instruction demo_env pad0 .NULL .OP_PUSHMARK) pad0.idx =
        [{ instr_ppaddr := some .OP_PUSHMARK, instr_op := .NULL,
           instr_arg1 := .null, instr_arg2 := .null }] ∧
      emitted
        (save_instr_from_to_pparg
          (append_instruction_x demo_env
            (append_instruction demo_env so_kids_pad tree_sort_block .OP_SORT)
            .NULL .OP_INSTR_JUMP .null .null) so_kids_pad.idx (so_kids_pad.idx + 2))
        so_kids_pad.idx =
        [{ instr_ppaddr := some .OP_SORT, instr_op := tree_sort_block,
           instr_arg1 := .null, instr_arg2 := .null },
         { instr_ppaddr := some .OP_INSTR_JUMP, instr_op := .NULL,
           instr_arg1 := .null, instr_arg2 := .null }] ∧
      (save_instr_from_to_pparg
          (append_instruction_x demo_env
            (append_instruction demo_env so_kids_pad tree_sort_block .OP_SORT)
            .NULL .OP_INSTR_JUMP .null .null) so_kids_pad.idx (so_kids_pad.idx + 2)).idx
        = so_kids_pad.idx + 2 ∧
      (∃ l2 : List BRANCH_POINT_TO_PPARG,
        so_block_pad.branch_point_to_pparg_list = so_kids_pad.branch_point_to_pparg_list ++
          [{ instr_from_index := so_kids_pad.idx, instr_to_index := so_kids_pad.idx + 2 }]
          ++ l2) ∧
      b3.codeseq.xcodeseq_instructions.get? so_block_pad.idx =
        some { instr_ppaddr := some .OP_INSTR_END, instr_op := .NULL,
               instr_arg1 := .null, instr_arg2 := .null } ∧
      b3.idx = so_block_pad.idx + 1 ∧
      b3.branch_point_to_pparg_list = so_block_pad.branch_point_to_pparg_list ++
        [{ instr_from_index := so_kids_pad.idx + 1, instr_to_index := so_block_pad.idx + 1 }] ∧
      b3.op_instrpp_list = so_block_pad.op_instrpp_list) ∧
    so_kids_pad.idx = 2 ∧ so_block_pad.idx = 5 ∧
    so_plain_done.branch_point_to_pparg_list =
      [{ instr_from_index := 3, instr_to_index := 4 }] ∧
    so_block_done.branch_point_to_pparg_list =
      [{ instr_from_index := 2, instr_to_index := 4 },
       { instr_from_index := 3, instr_to_index := 6 }] ∧
    (so_block_done.codeseq.xcodeseq_instructions.take 6).map (fun x => x.instr_ppaddr) =
      [some .OP_PUSHMARK, some .OP_PADAV, some .OP_SORT, some .OP_INSTR_JUMP, some .OP_PADSV,
       some .OP_INSTR_END] :=
  ⟨(sort_layout demo_env 2 pad0 so_plain_data so_list .NULL .NULL true 0 (by decide) (by decide)
      (new_pad_ok _ _ _)).1 (by decide) so_kids_pad false (by decide),
   (sort_layout demo_env 2 pad0 so_block_data so_block .NULL .NULL true 0 (by decide) (by decide)
      (new_pad_ok _ _ _)).2 (by decide) (opdata 161 .OP_NULL OPf_KIDS)
      (.mk { opdata 162 .OP_PADSV OPf_WANT_SCALAR with op_targ := 2 } .NULL .NULL .NULL)
      so_list .NULL so_kids_pad so_block_pad false false rfl (by decide) (by decide),
   by decide, by decide, by decide, by decide, by decide⟩

theorem grep_emit_eq (env : Env) (rec : AddOp) (bpp : CODEGEN_PAD) (o : OP) (d : OpData)
    (fl : Nat) (ht : d.op_type = .OP_GREPSTART ∨ d.op_type = .OP_MAPSTART) :
    add_op_emit env rec bpp o d fl =
      (add_op_grep env rec bpp o d).map fun p => (p.1, p.2, o) := by
  unfold add_op_emit
  rcases ht with h | h <;> simp only [h]

/-- Claim C28. The layout `add_op` gives a `GREPSTART` or `MAPSTART` node:
`pushmark`, the children after the first (the source list), one instruction of
the node's kind, the translation of the block (the child of the first child,
an `OP_NULL`), then one `grepwhile` instruction for grep and one `mapwhile`
instruction for map. Two branch fixups are recorded: the `while` instruction
goes back to the index the block starts at, and the start instruction goes to
the index after the `while` instruction. The kind of the node is assumed not to
be declared fold-eligible in `PL_opargs`, as in Perl's opcode table. -/
theorem grep_layout (env : Env) (n : Nat) (bpp b1 b2 : CODEGEN_PAD)
    (d bd : OpData) (body bs br s r : OP) (k1 k2 m : Bool) (fl : Nat)
    (ht : d.op_type = .OP_GREPSTART ∨ d.op_type = .OP_MAPSTART)
    (htab : hasBit (env.PL_opargs d.op_type) OA_FOLDCONST = false)
    (hok : pad_ok bpp)
    (hnull : bd.op_type = .OP_NULL)
    (hkids : add_chain (add_op env n) bs.chain (append_instruction env bpp .NULL .OP_PUSHMARK)
      true = .ok (b1, k1))
    (hbody : add_op env n
      (append_instruction env b1 (.mk d (.mk bd body bs br) s r) d.op_type) body k1 0
        = .ok (b2, k2)) :
    ∃ b3 : CODEGEN_PAD,
      add_op env (n + 1) bpp (.mk d (.mk bd body bs br) s r) m fl = .ok (b3, false) ∧
      emitted (append_instruction env bpp .NULL .OP_PUSHMARK) bpp.idx =
        [{ instr_ppaddr := some .OP_PUSHMARK, instr_op := .NULL,
           instr_arg1 := .null, instr_arg2 := .null }] ∧
      emitted (append_instruction env b1 (.mk d (.mk bd body bs br) s r) d.op_type) b1.idx =
        [{ instr_ppaddr := some d.op_type, instr_op := .mk d (.mk bd body bs br) s r,
           instr_arg1 := .null, instr_arg2 := .null }] ∧
      (append_instruction env b1 (.mk d (.mk bd body bs br) s r) d.op_type).idx = b1.idx + 1 ∧
      b3.codeseq.xcodeseq_instructions.get? b2.idx =
        some { instr_ppaddr :=
                 some (if d.op_type = .OP_GREPSTART then .OP_GREPWHILE else .OP_MAPWHILE),
               instr_op := .mk d (.mk bd body bs br) s r,
               instr_arg1 := .null, instr_arg2 := .null } ∧
      b3.idx = b2.idx + 1 ∧
      b3.branch_point_to_pparg_list = b2.branch_point_to_pparg_list ++
        [{ instr_from_index := b2.idx, instr_to_index := b1.idx + 1 },
         { instr_from_index := b1.idx, instr_to_index := b2.idx + 1 }] ∧
      b3.op_instrpp_list = b2.op_instrpp_list := by
  have hff : ∀ k, fold_flag env d.op_type k = false := by
    intro k
    rcases ht with h | h <;> rw [h] at htab ⊢ <;> simp [fold_flag, htab]
  have hokP := append_pad_ok env bpp .NULL .OP_PUSHMARK .null .null hok
  have hok1 : pad_ok b1 := (add_chain_grows env n _ _ _ _ hkids).2 hokP
  have hokS := append_pad_ok env b1 (.mk d (.mk bd body bs br) s r) d.op_type .null .null hok1
  have hok2 : pad_ok b2 := (add_op_grows env n _ _ _ _ _ hbody).2 hokS
  have hemP : emitted (append_instruction env bpp .NULL .OP_PUSHMARK) bpp.idx =
      [{ instr_ppaddr := some .OP_PUSHMARK, instr_op := .NULL,
         instr_arg1 := .null, instr_arg2 := .null }] := by
    have := emitted_append env bpp .NULL .OP_PUSHMARK .null .null bpp.idx hok (Nat.le_refl _)
    rw [emitted_self] at this
    exact this
  have hemS : emitted (append_instruction env b1 (.mk d (.mk bd body bs br) s r) d.op_type)
      b1.idx =
      [{ instr_ppaddr := some d.op_type, instr_op := .mk d (.mk bd body bs br) s r,
         instr_arg1 := .null, instr_arg2 := .null }] := by
    have := emitted_append env b1 (.mk d (.mk bd body bs br) s r) d.op_type .null .null b1.idx
      hok1 (Nat.le_refl _)
    rw [emitted_self] at this
    exact this
  refine ⟨save_instr_from_to_pparg (save_instr_from_to_pparg
      (append_instruction env b2 (.mk d (.mk bd body bs br) s r)
        (if d.op_type = .OP_GREPSTART then .OP_GREPWHILE else .OP_MAPWHILE))
      b2.idx (b1.idx + 1)) b1.idx (b2.idx + 1),
    ?_, hemP, hemS, append_idx env b1 _ _ _ _, append_get_new env b2 _ _ _ _ hok2, ?_, ?_, ?_⟩
  · have hbt : (bd.op_type == Optype.OP_NULL) = true := by rw [hnull]; decide
    rw [add_op_unfold, grep_emit_eq env _ _ _ _ _ ht]
    simp only [add_op_grep, OP.first, OP.sibling, OP.type, OP.data, bind, Except.bind, pure,
      Except.pure, hbt, c_assert, if_true, hkids, hbody, Except.map, add_op_fold]
    simp [hff, append_instruction, append_idx, save_ft_idx]
  · simp only [save_ft_idx, append_instruction, append_idx]
  · simp only [save_ft_branch, append_instruction, append_branch, List.append_assoc,
      List.singleton_append]
  · simp only [save_ft_instrpp, append_instruction, append_instrpp]

/-- Witness of C28: `grep { $t } @x` gives `pushmark`, `padav`, `grepstart`,
`padsv`, `grepwhile`; `grepwhile` at 4 goes back to the block at 3 and
`grepstart` at 2 goes to 5. For `map` the last instruction is `mapwhile`. -/
theorem grep_layout_witness :
    (∃ b3 : CODEGEN_PAD,
      add_op demo_env 2 pad0 tree_grep true 0 = .ok (b3, false) ∧
      emitted (append_instruction demo_env pad0 .NULL .OP_PUSHMARK) pad0.idx =
        [{ instr_ppaddr := some .OP_PUSHMARK, instr_op := .NULL,
           instr_arg1 := .null, instr_arg2 := .null }] ∧
      emitted (append_instruction demo_env gr_kids_pad tree_grep gr_data.op_type)
          gr_kids_pad.idx =
        [{ instr_ppaddr := some gr_data.op_type, instr_op := tree_grep,
           instr_arg1 := .null, instr_arg2 := .null }] ∧
      (append_instruction demo_env gr_kids_pad tree_grep gr_data.op_type).idx
        = gr_kids_pad.idx + 1 ∧
      b3.codeseq.xcodeseq_instructions.get? gr_body_pad.idx =
        some { instr_ppaddr :=
                 some (if gr_data.op_type = .OP_GREPSTART then .OP_GREPWHILE else .OP_MAPWHILE),
               instr_op := tree_grep, instr_arg1 := .null, instr_arg2 := .null } ∧
      b3.idx = gr_body_pad.idx + 1 ∧
      b3.branch_point_to_pparg_list = gr_body_pad.branch_point_to_pparg_list ++
        [{ instr_from_index := gr_body_pad.idx, instr_to_index := gr_kids_pad.idx + 1 },
         { instr_from_index := gr_kids_pad.idx, instr_to_index := gr_body_pad.idx + 1 }] ∧
      b3.op_instrpp_list = gr_body_pad.op_instrpp_list) ∧
    gr_kids_pad.idx = 2 ∧ gr_body_pad.idx = 4 ∧
    (gr_done.codeseq.xcodeseq_instructions.take 5).map (fun x => x.instr_ppaddr) =
      [some .OP_PUSHMARK, some .OP_PADAV, some .OP_GREPSTART, some .OP_PADSV,
       some .OP_GREPWHILE] ∧
    gr_done.branch_point_to_pparg_list =
      [{ instr_from_index := 4, instr_to_index := 3 },
       { instr_from_index := 2, instr_to_index := 5 }] ∧
    (mp_done.codeseq.xcodeseq_instructions.take 5).map (fun x => x.instr_ppaddr) =
      [some .OP_PUSHMARK, some .OP_PADAV, some .OP_MAPSTART, some .OP_PADSV,
       some .OP_MAPWHILE] :=
  ⟨grep_layout demo_env 1 pad0 gr_kids_pad gr_body_pad gr_data gr_block_data gr_body gr_list
      .NULL .NULL .NULL false false true 0 (Or.inl (by decide)) (by decide) (new_pad_ok _ _ _)
      (by decide) (by decide) (by decide),
   by decide, by decide, by decide, by decide, by decide⟩

theorem nextstate_emit_eq (env : Env) (rec : AddOp) (bpp : CODEGEN_PAD) (o : OP) (d : OpData)
    (fl : Nat) (ht : d.op_type = .OP_NEXTSTATE) :
    add_op_emit env rec bpp o d fl =
      (add_op_nextstate env bpp o d).map fun p => (p.1, p.2, o) := by
  unfold add_op_emit
  simp only [ht]

/-- A `nextstate` that is followed in execution order by another `nextstate` and
has no label leaves the pad as it is. -/
theorem nextstate_skipped (env : Env) (n : Nat) (bpp : CODEGEN_PAD) (d : OpData) (f s r : OP)
    (m : Bool) (fl : Nat)
    (ht : d.op_type = .OP_NEXTSTATE)
    (hnext : d.op_next_type = some .OP_NEXTSTATE) (hlabel : d.cop_label = none) :
    add_op env (n + 1) bpp (.mk d f s r) m fl
      = .ok (bpp, m && fold_flag env .OP_NEXTSTATE true) := by
  rw [add_op_unfold, nextstate_emit_eq env _ _ _ _ _ ht]
  simp only [add_op_nextstate, hnext, hlabel, Option.isNone_none, beq_self_eq_true, Bool.and_self,
    if_true, Except.map, bind, Except.bind, add_op_fold, OP.type, OP.data, pure, Except.pure,
    ht]
  simp

/-- Any other `nextstate` gets one instruction, and becomes `PL_curcop`. -/
theorem nextstate_emitted (env : Env) (n : Nat) (bpp : CODEGEN_PAD) (d : OpData) (f s r : OP)
    (m : Bool) (fl : Nat)
    (ht : d.op_type = .OP_NEXTSTATE)
    (hcase : d.op_next_type ≠ some .OP_NEXTSTATE ∨ d.cop_label ≠ none) :
    add_op env (n + 1) bpp (.mk d f s r) m fl
      = .ok ((append_instruction env bpp (.mk d f s r) .OP_NEXTSTATE).set_curcop (.mk d f s r),
             m && fold_flag env .OP_NEXTSTATE true) := by
  have hc : (d.op_next_type == some .OP_NEXTSTATE && d.cop_label.isNone) = false := by
    rcases hcase with h | h
    · simp [h]
    · cases hl : d.cop_label with
      | none => exact absurd hl h
      | some l => simp
  have hi : ((append_instruction env bpp (.mk d f s r) .OP_NEXTSTATE).set_curcop
      (.mk d f s r)).idx = bpp.idx + 1 := append_idx env bpp _ _ _ _
  rw [add_op_unfold, nextstate_emit_eq env _ _ _ _ _ ht]
  simp only [add_op_nextstate, hc, Bool.false_eq_true, if_false, Except.map, bind, Except.bind,
    add_op_fold, OP.type, OP.data, pure, Except.pure, ht, hi]
  simp

/-- Claim C29. A `NEXTSTATE` node whose `op_next` is a `NEXTSTATE` as well and that
carries no label gets no instruction: `add_op` returns the pad unchanged. Every
other `NEXTSTATE` node gets exactly one `nextstate` instruction (source the
node). Hence the translation of a run of label-free `NEXTSTATE` nodes, each
followed in execution order by the next one, and of the `NEXTSTATE` node `last`
that ends it, appends one instruction in all, the one for `last`. -/
theorem nextstate_collapse (env : Env) (n : Nat) (bpp : CODEGEN_PAD) (m : Bool) (hok : pad_ok bpp) :
    (∀ (d : OpData) (f s r : OP) (fl : Nat),
      d.op_type = .OP_NEXTSTATE →
      d.op_next_type = some .OP_NEXTSTATE → d.cop_label = none →
      ∃ k, add_op env (n + 1) bpp (.mk d f s r) m fl = .ok (bpp, k)) ∧
    (∀ (d : OpData) (f s r : OP) (fl : Nat),
      d.op_type = .OP_NEXTSTATE →
      (d.op_next_type ≠ some .OP_NEXTSTATE ∨ d.cop_label ≠ none) →
      ∃ (b : CODEGEN_PAD) (k : Bool),
        add_op env (n + 1) bpp (.mk d f s r) m fl = .ok (b, k) ∧
        b.idx = bpp.idx + 1 ∧
        emitted b bpp.idx =
          [{ instr_ppaddr := some .OP_NEXTSTATE, instr_op := .mk d f s r,
             instr_arg1 := .null, instr_arg2 := .null }] ∧
        b.PL_curcop = .mk d f s r) ∧
    (∀ (run : List OP) (ld : OpData) (lf ls lr : OP),
      (∀ x ∈ run, ∃ (d : OpData) (f s r : OP), x = .mk d f s r ∧ d.op_type = .OP_NEXTSTATE ∧
        d.op_next_type = some .OP_NEXTSTATE ∧ d.cop_label = none) →
      ld.op_type = .OP_NEXTSTATE →
      ld.op_next_type ≠ some .OP_NEXTSTATE →
      ∃ (b : CODEGEN_PAD) (k : Bool),
        add_chain (add_op env (n + 1)) (run ++ [.mk ld lf ls lr]) bpp m = .ok (b, k) ∧
        b.idx = bpp.idx + 1 ∧
        emitted b bpp.idx =
          [{ instr_ppaddr := some .OP_NEXTSTATE, instr_op := .mk ld lf ls lr,
             instr_arg1 := .null, instr_arg2 := .null }]) := by
  have hone : ∀ (d : OpData) (f s r : OP),
      emitted ((append_instruction env bpp (.mk d f s r) .OP_NEXTSTATE).set_curcop (.mk d f s r))
        bpp.idx =
      [{ instr_ppaddr := some .OP_NEXTSTATE, instr_op := .mk d f s r,
         instr_arg1 := .null, instr_arg2 := .null }] := by
    intro d f s r
    have := emitted_append env bpp (.mk d f s r) .OP_NEXTSTATE .null .null bpp.idx hok
      (Nat.le_refl _)
    rw [emitted_self] at this
    exact this
  refine ⟨?_, ?_, ?_⟩
  · intro d f s r fl ht hnext hlabel
    exact ⟨_, nextstate_skipped env n bpp d f s r m fl ht hnext hlabel⟩
  · intro d f s r fl ht hcase
    exact ⟨_, _, nextstate_emitted env n bpp d f s r m fl ht hcase, append_idx env bpp _ _ _ _,
      hone d f s r, rfl⟩
  · intro run ld lf ls lr hrun hlt hln
    have key : ∀ (l : List OP) (m0 : Bool),
        (∀ x ∈ l, ∃ (d : OpData) (f s r : OP), x = .mk d f s r ∧ d.op_type = .OP_NEXTSTATE ∧
          d.op_next_type = some .OP_NEXTSTATE ∧ d.cop_label = none) →
        ∃ k, add_chain (add_op env (n + 1)) (l ++ [.mk ld lf ls lr]) bpp m0 =
          .ok ((append_instruction env bpp (.mk ld lf ls lr) .OP_NEXTSTATE).set_curcop
            (.mk ld lf ls lr), k) := by
      intro l
      induction l with
      | nil =>
        intro m0 _
        refine ⟨m0 && fold_flag env .OP_NEXTSTATE true, ?_⟩
        simp only [List.nil_append, add_chain, bind, Except.bind,
          nextstate_emitted env n bpp ld lf ls lr m0 0 hlt (Or.inl hln)]
      | cons x xs ih =>
        intro m0 hx
        obtain ⟨d, f, s, r, hxe, ht, hnext, hlabel⟩ := hx x (List.mem_cons_self _ _)
        obtain ⟨k, hk⟩ := ih (m0 && fold_flag env .OP_NEXTSTATE true)
          (fun y hy => hx y (List.mem_cons_of_mem _ hy))
        refine ⟨k, ?_⟩
        subst hxe
        rw [List.cons_append]
        unfold add_chain
        simp only [bind, Except.bind, nextstate_skipped env n bpp d f s r m0 0 ht hnext hlabel]
        exact hk
    obtain ⟨k, hk⟩ := key run m hrun
    exact ⟨_, k, hk, append_idx env bpp _ _ _ _, hone ld lf ls lr⟩

/-- Witness of C29: two label-free `nextstate` nodes followed by a third one,
after which the statement starts, give the single instruction of the third; a
`nextstate` that carries a label gets its instruction although another
`nextstate` follows it. -/
theorem nextstate_collapse_witness :
    (∃ (b : CODEGEN_PAD) (k : Bool),
      add_chain (add_op demo_env 1) (ns_run ++ [ns_last]) pad0 true = .ok (b, k) ∧
      b.idx = pad0.idx + 1 ∧
      emitted b pad0.idx =
        [{ instr_ppaddr := some .OP_NEXTSTATE, instr_op := ns_last,
           instr_arg1 := .null, instr_arg2 := .null }]) ∧
    (∃ (b : CODEGEN_PAD) (k : Bool),
      add_op demo_env 1 pad0 ns_labelled true 0 = .ok (b, k) ∧
      b.idx = pad0.idx + 1 ∧
      emitted b pad0.idx =
        [{ instr_ppaddr := some .OP_NEXTSTATE, instr_op := ns_labelled,
           instr_arg1 := .null, instr_arg2 := .null }] ∧
      b.PL_curcop = ns_labelled) :=
  ⟨(nextstate_collapse demo_env 0 pad0 true (new_pad_ok _ _ _)).2.2 ns_run
      { opdata 183 .OP_NEXTSTATE OPf_WANT_VOID with op_next_type := some .OP_PUSHMARK }
      .NULL .NULL .NULL
      (by
        intro x hx
        simp only [ns_run, List.mem_cons, List.mem_singleton, List.not_mem_nil, or_false] at hx
        rcases hx with h | h
        · exact ⟨_, _, _, _, h, rfl, rfl, rfl⟩
        · exact ⟨_, _, _, _, h, rfl, rfl, rfl⟩)
      rfl (by decide),
   (nextstate_collapse demo_env 0 pad0 true (new_pad_ok _ _ _)).2.1
      { opdata 184 .OP_NEXTSTATE OPf_WANT_VOID with
        op_next_type := some .OP_NEXTSTATE, cop_label := some "L" } .NULL .NULL .NULL 0
      rfl (Or.inr (by decide))⟩

/-- Claim C30. The values owned by the sequence (`xcodeseq_svs`) during
translation. First part: whatever `add_op` does, the list it leaves extends the
list it found; no entry is removed or reordered, also when instructions are
discarded. Second part: a successful scalar fold at the end of `add_op` appends
exactly one value, the folded scalar made read-only; a failed one appends
none. Third part: a successful list fold of a `RANGE` node appends exactly one
value, the array. Fourth part: `compile_op` hands the list of the pad to the
code sequence unchanged. -/
theorem retained_constants (env : Env) (n : Nat) (bpp : CODEGEN_PAD) (hok : pad_ok bpp) :
    (∀ (o : OP) (m : Bool) (fl : Nat) (b : CODEGEN_PAD) (k : Bool),
      add_op env n bpp o m fl = .ok (b, k) →
      bpp.codeseq.xcodeseq_svs <+: b.codeseq.xcodeseq_svs) ∧
    (∀ (o1 : OP) (start : Nat) (kf m : Bool) (t : Optype) (v : Option SV) (bt : CODEGEN_PAD),
      o1.type = .ok t →
      fold_flag env t kf = true →
      start + 1 < bpp.idx →
      fold_trial env bpp start o1 false = .ok (v, bt) →
      ∃ (b2 : CODEGEN_PAD) (j : Bool),
        add_op_fold env bpp o1 start kf m = .ok (b2, j) ∧
        (∀ c, v = some c →
          b2.codeseq.xcodeseq_svs = bpp.codeseq.xcodeseq_svs ++ [SvREADONLY_on c]) ∧
        (v = none → b2.codeseq.xcodeseq_svs = bpp.codeseq.xcodeseq_svs)) ∧
    (∀ (b1 b2 bt : CODEGEN_PAD) (d fd ld : OpData) (lf right lr fs fr s r : OP) (L : SV),
      (d.op_flags &&& OPf_WANT == OPf_WANT_LIST) = true →
      add_op env n bpp (.mk ld lf right lr) true 0 = .ok (b1, true) →
      add_op env n b1 right true 0 = .ok (b2, true) →
      fold_trial env
        (append_instruction env b2 (.mk d (.mk fd (.mk ld lf right lr) fs fr) s r) .OP_FLOP)
        bpp.idx (.mk d (.mk fd (.mk ld lf right lr) fs fr) s r) true = .ok (some L, bt) →
      ∃ (b3 : CODEGEN_PAD) (j : Bool),
        add_op_range env (add_op env n) bpp (.mk d (.mk fd (.mk ld lf right lr) fs fr) s r) d
          = .ok (b3, j) ∧
        b3.codeseq.xcodeseq_svs = b2.codeseq.xcodeseq_svs ++ [L]) ∧
    (∀ (interp : INTERP) (curcop : OP) (slots : SlotStore) (startop : OP) (codeseq : CODESEQ)
        (b : CODEGEN_PAD) (k : Bool),
      add_op env n (new_pad env interp curcop) startop true 0 = .ok (b, k) →
      compile_op env n interp curcop slots startop codeseq
        = .ok (finish_compile env b codeseq slots) ∧
      (finish_compile env b codeseq slots).codeseq.xcodeseq_svs = b.codeseq.xcodeseq_svs) := by
  refine ⟨?_, ?_, ?_, ?_⟩
  · intro o m fl b k h
    exact (add_op_extends env n _ _ _ _ _ h).2.2.1
  · intro o1 start kf m t v bt htype hff hmore htrial
    obtain ⟨interp, call, hbt⟩ := fold_trial_eq env bpp start o1 false _ htrial
    replace hbt : bt = (append_instruction_x env bpp .NULL .OP_INSTR_END .null .null).after_trial
      interp call := hbt
    have hlE := append_lists env bpp .NULL .OP_INSTR_END .null .null
    cases v with
    | none =>
      obtain ⟨-, -, h3, -, -⟩ := failed_trial_pad env bpp bt start o1 false none hok htrial
      refine ⟨bt.set_idx (bt.idx - 1), m && false, ?_, (fun c hc => by cases hc), fun _ => h3⟩
      simp only [add_op_fold, bind, Except.bind, htype, hff, htrial]
      simp [hmore]
    | some c =>
      have hl2 := append_lists env (bt.set_idx start) .NULL .OP_INSTR_CONST
        (.sv (SvREADONLY_on c)) .null
      refine ⟨push_svs (append_instruction_x env (bt.set_idx start) .NULL .OP_INSTR_CONST
        (.sv (SvREADONLY_on c)) .null) (SvREADONLY_on c), m && fold_flag env t kf, ?_, ?_,
        fun h => by cases h⟩
      · simp only [add_op_fold, bind, Except.bind, htype, hff, htrial]
        simp [hmore]
      · intro c' hc'
        cases hc'
        show (append_instruction_x env (bt.set_idx start) _ _ _ _).codeseq.xcodeseq_svs ++ _ = _
        rw [hl2.2.2, hbt]
        exact congrArg (· ++ [SvREADONLY_on c]) hlE.2.2
  · intro b1 b2 bt d fd ld lf right lr fs fr s r L hlist hleft hright htrial
    obtain ⟨interp, call, hbt⟩ := fold_trial_eq env _ bpp.idx _ true _ htrial
    replace hbt : bt = (append_instruction_x env (append_instruction env b2
        (.mk d (.mk fd (.mk ld lf right lr) fs fr) s r) .OP_FLOP) .NULL .OP_INSTR_END .null
        .null).after_trial interp call := hbt
    have hlF := append_lists env b2 (.mk d (.mk fd (.mk ld lf right lr) fs fr) s r) .OP_FLOP
      .null .null
    have hlE := append_lists env (append_instruction env b2
        (.mk d (.mk fd (.mk ld lf right lr) fs fr) s r) .OP_FLOP) .NULL .OP_INSTR_END .null .null
    have hl3 := append_lists env (bt.set_idx bpp.idx) .NULL .OP_INSTR_CONST_LIST (.sv L) .null
    refine ⟨push_svs (append_instruction_x env (bt.set_idx bpp.idx) .NULL .OP_INSTR_CONST_LIST
      (.sv L) .null) L, true, ?_, ?_⟩
    · simp only [add_op_range, OP.first, OP.sibling, bind, Except.bind, hlist, if_true, hleft,
        hright, htrial]
    · show (append_instruction_x env (bt.set_idx bpp.idx) _ _ _ _).codeseq.xcodeseq_svs ++ _ = _
      rw [hl3.2.2, hbt]
      show (append_instruction_x env (append_instruction env b2 _ _) _ _ _ _
        ).codeseq.xcodeseq_svs ++ _ = _
      rw [hlE.2.2]
      exact congrArg (· ++ [L]) hlF.2.2
  · intro interp curcop slots startop codeseq b k hadd
    refine ⟨compile_op_eq env n interp curcop slots startop codeseq b k hadd, ?_⟩
    show (append_instruction_x env b .NULL .OP_INSTR_END .null .null).codeseq.xcodeseq_svs = _
    exact (append_lists env b _ _ _ _).2.2

/-- Witness of C30: in `2 + 3 * 4` the fold of `3 * 4` retains 12 and the fold of
the whole retains 14 after it; the instruction that carried 12 is discarded by
the second fold, the value stays in the list, and `compile_op` hands the list
of both to the code sequence. -/
theorem retained_constants_witness :
    pad0.codeseq.xcodeseq_svs <+: add_done.codeseq.xcodeseq_svs ∧
    (∃ (b2 : CODEGEN_PAD) (j : Bool),
      add_op_fold demo_env add_emitted tree_2_plus_3_times_4 0 true true = .ok (b2, j) ∧
      b2.codeseq.xcodeseq_svs = add_emitted.codeseq.xcodeseq_svs ++
        [SvREADONLY_on (.scalar { val := .iv 14, readonly := false })]) ∧
    (compile_op demo_env 3 demo_interp .NULL no_slots tree_2_plus_3_times_4 empty_codeseq
        = .ok (finish_compile demo_env add_done empty_codeseq no_slots) ∧
      (finish_compile demo_env add_done empty_codeseq no_slots).codeseq.xcodeseq_svs
        = add_done.codeseq.xcodeseq_svs) ∧
    add_emitted.codeseq.xcodeseq_svs = [.scalar { val := .iv 12, readonly := true }] ∧
    add_done.codeseq.xcodeseq_svs =
      [.scalar { val := .iv 12, readonly := true }, .scalar { val := .iv 14, readonly := true }] ∧
    add_done.idx = 1 :=
  ⟨(retained_constants demo_env 3 pad0 (new_pad_ok _ _ _)).1 tree_2_plus_3_times_4 true 0
      add_done true (by decide),
   match (retained_constants demo_env 3 add_emitted ⟨by decide, by decide⟩).2.1
      tree_2_plus_3_times_4 0 true true .OP_ADD
      (some (.scalar { val := .iv 14, readonly := false })) add_tried (by decide) (by decide)
      (by decide) (by decide) with
    | ⟨b2, j, h1, h2, _⟩ => ⟨b2, j, h1, h2 _ rfl⟩,
   (retained_constants demo_env 3 pad0 (new_pad_ok _ _ _)).2.2.2 demo_interp .NULL no_slots
      tree_2_plus_3_times_4 empty_codeseq add_done true (by decide),
   by decide, by decide, by decide⟩

/-- Claim C31. With the locale hint active, `add_op` on a `UCFIRST`, `LCFIRST`,
`UC`, `LC`, `SLT`, `SGT`, `SLE`, `SGE` or `SCMP` node returns the caller's fold
flag false whatever the operands gave (`k0`, true when they are all constants):
it emits the default translation (mark if the kind takes one, the children, one
instruction for the node, both arguments null) and keeps it; the pad returned is
the one after that instruction, so the log of trial evaluations is the one the
children left and no trial is made for the node. -/
theorem locale_not_folded (env : Env) (n : Nat) (bpp b0 : CODEGEN_PAD) (d : OpData)
    (f s r : OP) (m k0 : Bool) (fl : Nat)
    (hloc : locale_sensitive d.op_type = true)
    (hhint : hasBit env.PL_hints HINT_LOCALE = true)
    (hok : pad_ok bpp)
    (hkids : add_chain (add_op env n) (if hasBit d.op_flags OPf_KIDS then f.chain else [])
      (if hasBit (env.PL_opargs d.op_type) OA_MARK
        then append_instruction env bpp .NULL .OP_PUSHMARK else bpp) true = .ok (b0, k0)) :
    add_op env (n + 1) bpp (.mk d f s r) m fl =
      .ok (append_instruction env b0 (.mk d f s r) d.op_type, false) ∧
    (append_instruction env b0 (.mk d f s r) d.op_type).fold_calls = b0.fold_calls ∧
    (append_instruction env b0 (.mk d f s r) d.op_type).idx = b0.idx + 1 ∧
    (append_instruction env b0 (.mk d f s r) d.op_type).codeseq.xcodeseq_instructions.get? b0.idx =
      some { instr_ppaddr := some d.op_type, instr_op := .mk d f s r,
             instr_arg1 := .null, instr_arg2 := .null } := by
  have ht : has_template d.op_type = false := by
    generalize d.op_type = t at hloc
    cases t <;> first | rfl | (simp [locale_sensitive] at hloc)
  have hff : ∀ k, fold_flag env d.op_type k = false := by
    intro k
    generalize d.op_type = t at hloc
    cases t <;> first | (simp [locale_sensitive] at hloc; done) | (simp [fold_flag, hhint])
  have hok1 : pad_ok (if hasBit (env.PL_opargs d.op_type) OA_MARK
      then append_instruction env bpp .NULL .OP_PUSHMARK else bpp) := by
    split
    · exact append_pad_ok env bpp _ _ _ _ hok
    · exact hok
  have hok0 : pad_ok b0 := (add_chain_grows env n _ _ _ _ hkids).2 hok1
  refine ⟨?_, (append_logs env b0 _ _ _ _).2, append_idx env b0 _ _ _ _,
    append_get_new env b0 _ _ _ _ hok0⟩
  rw [add_op_unfold, emit_default_eq env _ _ _ _ _ ht]
  simp only [add_op_default, add_kids_chain, bind, Except.bind, hkids, Except.map, add_op_fold,
    OP.type, OP.data, pure, Except.pure, hff]
  simp

set_option maxHeartbeats 4000000 in
/-- Claim C31 on `"a" lt "b"` under the locale hint: both operands are
constants and `slt` is fold-eligible, yet the three instructions stay and the
caller's flag is false; no trial evaluation is logged. -/
theorem locale_not_folded_witness :
    add_op locale_env 2 locale_pad (.mk slt_data slt_kids .NULL .NULL) true 0 =
      .ok (append_instruction locale_env slt_kids_pad (.mk slt_data slt_kids .NULL .NULL) .OP_SLT,
           false) ∧
    (append_instruction locale_env slt_kids_pad (.mk slt_data slt_kids .NULL .NULL)
      .OP_SLT).fold_calls = [] ∧
    (append_instruction locale_env slt_kids_pad (.mk slt_data slt_kids .NULL .NULL)
      .OP_SLT).idx = 3 ∧
    hasBit (locale_env.PL_opargs .OP_SLT) OA_FOLDCONST = true :=
  have h := locale_not_folded locale_env 1 locale_pad slt_kids_pad slt_data slt_kids .NULL .NULL
    true true 0 (by decide) (by decide) (new_pad_ok _ _ _) (by decide)
  ⟨h.1, by decide, by decide, by decide⟩

/-- Claim C32 fails on a kid-less `OP_NULL` node (as `newOP(OP_NULL, 0)` builds
it): `add_op` returns with the caller's fold flag still true and has appended
no instruction, `idx` is the entry index; entered after the constant `1`, the
instruction at `idx - 1` is that of the earlier sibling. -/
theorem empty_null_keeps_flag :
    add_op demo_env 1 pad0 (empty_null 62 .NULL) true 0 = .ok (pad0, true) ∧
    pad0.idx = 0 ∧
    add_op demo_env 1 pad_after_const (empty_null 62 .NULL) true 0
      = .ok (pad_after_const, true) ∧
    pad_after_const.idx = 1 ∧
    pad_after_const.codeseq.xcodeseq_instructions.get? 0 =
      some { instr_ppaddr := some .OP_CONST, instr_op := const_op 60 (.iv 1) .NULL,
             instr_arg1 := .null, instr_arg2 := .null } := by
  decide

set_option maxHeartbeats 4000000 in
/-- Claim C33 fails on an `and` whose left operand is a kid-less `OP_NULL`,
entered with `idx = 1` after the constant `1` of an earlier sibling: the left
operand emits nothing and leaves the fold flag true, the code reads the
sibling's constant at `idx - 1`, finds it true and does `idx--`. With a
kid-less right operand `add_op` returns with `idx = 0`, below the entry index;
with the constant `7` as right operand it returns with `idx = 1` and slot 0,
written before entry, now holds the `7`. -/
theorem and_rewinds_into_sibling :
    pad_after_const.idx = 1 ∧
    pad_after_const.codeseq.xcodeseq_instructions.get? 0 =
      some { instr_ppaddr := some .OP_CONST, instr_op := const_op 60 (.iv 1) .NULL,
             instr_arg1 := .null, instr_arg2 := .null } ∧
    (pad_of (add_op demo_env 2 pad_after_const and_null_null true 0)).idx = 0 ∧
    (add_op demo_env 2 pad_after_const and_null_null true 0).toBool = true ∧
    (add_op demo_env 2 pad_after_const and_null_const true 0).toBool = true ∧
    (pad_of (add_op demo_env 2 pad_after_const and_null_const true 0)).idx = 1 ∧
    (pad_of (add_op demo_env 2 pad_after_const and_null_const true 0)
      ).codeseq.xcodeseq_instructions.get? 0 =
      some { instr_ppaddr := some .OP_CONST, instr_op := const_op 63 (.iv 7) .NULL,
             instr_arg1 := .null, instr_arg2 := .null } := by
  decide

/-- Claim C34. In a pad with `idx` below the capacity (and a buffer of that
capacity), `append_instruction_x` writes inside the buffer, at slot `idx`: the
four fields given; every other slot of the buffer reads as before, also when
the buffer is reallocated; `idx` grows by exactly one; the capacity grows by 32
exactly when the new `idx` reaches it, and the invariant holds again. The pad
`compile_op` starts from has `idx` 0 and capacity 12 and satisfies the
invariant; and the `idx + 1` elements `compile_op` copies into the final
sequence lie within the buffer, whose closing `INSTR_END` was appended to a pad
that satisfied the invariant. -/
theorem append_within_buffer (env : Env) (b : CODEGEN_PAD) (o : OP) (t : Optype)
    (a1 a2 : Arg) (h : pad_ok b) :
    pad_ok (append_instruction_x env b o t a1 a2) ∧
    b.idx < b.codeseq.xcodeseq_instructions.length ∧
    (append_instruction_x env b o t a1 a2).idx = b.idx + 1 ∧
    (append_instruction_x env b o t a1 a2).codeseq.xcodeseq_instructions.get? b.idx =
      some { instr_ppaddr := some t, instr_op := o, instr_arg1 := a1, instr_arg2 := a2 } ∧
    (∀ i, i ≠ b.idx → i < b.codeseq.xcodeseq_instructions.length →
      (append_instruction_x env b o t a1 a2).codeseq.xcodeseq_instructions.get? i =
        b.codeseq.xcodeseq_instructions.get? i) ∧
    (append_instruction_x env b o t a1 a2).codeseq.xcodeseq_size =
      (if b.idx + 1 ≥ b.codeseq.xcodeseq_size then b.codeseq.xcodeseq_size + 32
       else b.codeseq.xcodeseq_size) ∧
    (∀ interp curcop, pad_ok (new_pad env interp curcop) ∧
      (new_pad env interp curcop).idx = 0 ∧
      (new_pad env interp curcop).codeseq.xcodeseq_size = 12) ∧
    (∀ fuel interp curcop slots startop codeseq c,
      compile_op env fuel interp curcop slots startop codeseq = .ok c →
      (∃ b0, pad_ok b0 ∧ c.pad = append_instruction_x env b0 .NULL .OP_INSTR_END .null .null) ∧
      pad_ok c.pad ∧
      c.codeseq.xcodeseq_size = c.pad.idx + 1 ∧
      c.codeseq.xcodeseq_instructions.length = c.pad.idx + 1 ∧
      c.pad.idx + 1 ≤ c.pad.codeseq.xcodeseq_instructions.length) := by
  refine ⟨append_pad_ok env b o t a1 a2 h, by have := h.1; have := h.2; omega,
    append_idx env b o t a1 a2, append_get_new env b o t a1 a2 h,
    fun i hi hlen => append_get_old env b o t a1 a2 i hi hlen, ?_,
    fun interp curcop => ⟨new_pad_ok env interp curcop, rfl, rfl⟩, ?_⟩
  · unfold append_instruction_x
    dsimp only
    split <;> rfl
  · intro fuel interp curcop slots startop codeseq c hc
    unfold compile_op at hc
    simp only [bind_ok_iff] at hc
    obtain ⟨r, hr, hc⟩ := hc
    cases hc
    have hok : pad_ok r.1 := (add_op_grows env fuel _ _ _ _ r hr).2 (new_pad_ok env interp curcop)
    obtain ⟨h1, h2, h3, -⟩ := finish_compile_frame env r.1 codeseq slots hok
    have hE := append_pad_ok env r.1 .NULL .OP_INSTR_END .null .null hok
    have hidx := append_idx env r.1 .NULL .OP_INSTR_END .null .null
    refine ⟨⟨r.1, hok, h3⟩, ?_, ?_, ?_, ?_⟩
    · rw [h3]; exact hE
    · rw [h1, h3, hidx]
    · rw [h2, h3, hidx]
    · rw [h3, hidx]
      have := hE.1; have := hE.2; rw [hidx] at *; omega

/-- Claim C34 on a pad with eleven of its twelve slots in use: the append
writes slot 11, `idx` becomes 12 and the capacity 44, and the eleven earlier
instructions are still there. -/
theorem append_within_buffer_witness :
    pad_eleven.idx = 11 ∧ pad_eleven.codeseq.xcodeseq_size = 12 ∧
    (append_instruction_x demo_env pad_eleven .NULL .OP_INSTR_END .null .null).idx = 12 ∧
    (append_instruction_x demo_env pad_eleven .NULL .OP_INSTR_END .null .null
      ).codeseq.xcodeseq_size = 44 ∧
    (append_instruction_x demo_env pad_eleven .NULL .OP_INSTR_END .null .null
      ).codeseq.xcodeseq_instructions.length = 44 ∧
    (append_instruction_x demo_env pad_eleven .NULL .OP_INSTR_END .null .null
      ).codeseq.xcodeseq_instructions.take 11 =
        pad_eleven.codeseq.xcodeseq_instructions.take 11 ∧
    pad_ok (append_instruction_x demo_env pad_eleven .NULL .OP_INSTR_END .null .null) :=
  have h := append_within_buffer demo_env pad_eleven .NULL .OP_INSTR_END .null .null
    (by unfold pad_ok; decide)
  ⟨by decide, by decide, h.2.2.1, by decide, by decide, by decide, h.1⟩

/-- On every normal return of `instr_fold_constants` the warn hook, the die
hook, the next-instruction pointer and the scope depth have their entry values;
in list mode after a run that returned, the stack is cut back to the entry
height, and in scalar mode it has the entry height when a value is returned. -/
theorem fold_constants_frame (env : Env) (st : INTERP) (instr : List INSTRUCTION) (o : OP)
    (list : Bool) (r : Option SV × INTERP) (out : RunOutcome)
    (hout : env.CALLRUNOPS
      { st with PL_op := o, PL_scopestack_ix := st.PL_scopestack_ix + 1,
                PL_warnhook := PERL_WARNHOOK_FATAL, PL_diehook := none } instr list = out)
    (h : instr_fold_constants env st instr o list = .ok r) :
    r.2.PL_warnhook = st.PL_warnhook ∧ r.2.PL_diehook = st.PL_diehook ∧
    r.2.next_instruction = st.next_instruction ∧
    r.2.PL_scopestack_ix = st.PL_scopestack_ix ∧
    (list = true → r.1.isSome = true →
      r.2.PL_stack = out.PL_stack.take st.PL_stack.length) ∧
    (list = false → r.1.isSome = true → r.2.PL_stack.length = st.PL_stack.length) := by
  unfold instr_fold_constants at h
  simp only [hout] at h
  by_cases hsc : (if out.PL_scopestack_ix > st.PL_scopestack_ix then out.PL_scopestack_ix - 1
      else out.PL_scopestack_ix) = st.PL_scopestack_ix
  · simp only [hsc, if_true] at h
    split at h
    · cases list with
      | true =>
        simp only [if_true, Except.ok.injEq] at h
        subst h
        refine ⟨rfl, rfl, rfl, rfl, ?_, ?_⟩
        · intro _ _
          rfl
        · intro hl; cases hl
      | false =>
        simp only [Bool.false_eq_true, if_false] at h
        split at h
        · rename_i hlen
          split at h
          · simp only [Except.ok.injEq] at h
            subst h
            refine ⟨rfl, rfl, rfl, rfl, ?_, ?_⟩
            · intro hl; cases hl
            · intro _ _
              simp only [List.length_dropLast]
              omega
          · simp only [Except.ok.injEq] at h
            subst h
            exact ⟨rfl, rfl, rfl, rfl, (fun hl => by cases hl), (fun _ hs => by cases hs)⟩
        · simp only [Except.ok.injEq] at h
          subst h
          exact ⟨rfl, rfl, rfl, rfl, (fun hl => by cases hl), (fun _ hs => by cases hs)⟩
    · simp only [Except.ok.injEq] at h
      subst h
      exact ⟨rfl, rfl, rfl, rfl, (fun _ hs => by cases hs), (fun _ hs => by cases hs)⟩
    · cases h
  · simp only [hsc, if_false] at h
    split at h
    · split at h
      · cases h
      · split at h
        · split at h <;> cases h
        · cases h
    · cases h
    · cases h

set_option maxHeartbeats 4000000 in
/-- Claim C35 fails in scalar mode when the trial leaves two values: on
`two_consts_trial`, entered with an empty stack, `instr_fold_constants` returns
normally with no value and both values still on the stack (height 2, not 0);
hooks, next-instruction pointer and scope depth are restored. `add_op` reaches
this call on `null_two_consts`: it returns normally (the fold failed, flag
false) and the interpreter state of the pad has two values on the stack. -/
theorem scalar_trial_leaves_values :
    demo_interp.PL_stack.length = 0 ∧
    (instr_fold_constants demo_env demo_interp two_consts_trial null_two_consts false).toBool
      = true ∧
    value_of (instr_fold_constants demo_env demo_interp two_consts_trial null_two_consts false)
      = none ∧
    (interp_of (instr_fold_constants demo_env demo_interp two_consts_trial null_two_consts
      false)).PL_stack =
      [{ val := .iv 2, readonly := false }, { val := .iv 3, readonly := false }] ∧
    (interp_of (instr_fold_constants demo_env demo_interp two_consts_trial null_two_consts
      false)).PL_scopestack_ix = demo_interp.PL_scopestack_ix ∧
    pad0.interp = demo_interp ∧
    (add_op demo_env 2 pad0 null_two_consts true 0).toBool = true ∧
    flag_of (add_op demo_env 2 pad0 null_two_consts true 0) = false ∧
    (pad_of (add_op demo_env 2 pad0 null_two_consts true 0)).fold_calls =
      [{ start := 0, stop := 3, node := 70, list := false, n_instrpp := 0, n_branch := 0 }] ∧
    (pad_of (add_op demo_env 2 pad0 null_two_consts true 0)).interp.PL_stack.length = 2 := by
  decide

theorem while_and_emit_eq (env : Env) (rec : AddOp) (bpp : CODEGEN_PAD) (o : OP) (d : OpData)
    (fl : Nat) (ht : d.op_type = .OP_WHILE_AND) :
    add_op_emit env rec bpp o d fl =
      (add_op_while_and env rec bpp o d).map fun p => (p.1, p.2, o) := by
  unfold add_op_emit
  simp only [ht]

/-- Claim C36. The layout `add_op` gives a `WHILE_AND` node whose first child is
the condition and whose second child is the body. Without
`OPpWHILE_AND_ONCE`: one `INSTR_JUMP` instruction at the entry index, the body
from the next index on, then the condition, then one `or` instruction whose
source is the node; the jump's branch fixup goes from the entry index to the
index the condition starts at, and the pointer fixup of the other-target slot
names the index the body starts at. With `OPpWHILE_AND_ONCE`: no jump; the body
from the entry index on, the condition, the `or` instruction; the pointer fixup
of the other-target slot names the entry index, where the body starts, and the
node records no branch fixup. The caller's fold flag is false on return: the
kind is assumed not to be declared fold-eligible in `PL_opargs`, as in Perl's
opcode table. -/
theorem while_and_layout (env : Env) (n : Nat) (bpp : CODEGEN_PAD) (d cd : OpData)
    (cf body cr s r : OP) (m : Bool) (fl : Nat)
    (ht : d.op_type = .OP_WHILE_AND)
    (htab : hasBit (env.PL_opargs .OP_WHILE_AND) OA_FOLDCONST = false)
    (hok : pad_ok bpp) :
    (hasBit d.op_private OPpWHILE_AND_ONCE = false →
      ∀ (b1 b2 : CODEGEN_PAD) (k1 k2 : Bool),
      add_op env n
        (save_branch_point (append_instruction_x env bpp .NULL .OP_INSTR_JUMP .null .null)
          (slot d .op_other_instr)) body true 0 = .ok (b1, k1) →
      add_op env n (save_instr_from_to_pparg b1 bpp.idx b1.idx) (.mk cd cf body cr) k1 0
        = .ok (b2, k2) →
      add_op env (n + 1) bpp (.mk d (.mk cd cf body cr) s r) m fl =
        .ok (append_instruction env b2 (.mk d (.mk cd cf body cr) s r) .OP_OR, false) ∧
      emitted (save_branch_point (append_instruction_x env bpp .NULL .OP_INSTR_JUMP .null .null)
          (slot d .op_other_instr)) bpp.idx =
        [{ instr_ppaddr := some .OP_INSTR_JUMP, instr_op := .NULL,
           instr_arg1 := .null, instr_arg2 := .null }] ∧
      (save_branch_point (append_instruction_x env bpp .NULL .OP_INSTR_JUMP .null .null)
        (slot d .op_other_instr)).idx = bpp.idx + 1 ∧
      (save_branch_point (append_instruction_x env bpp .NULL .OP_INSTR_JUMP .null .null)
        (slot d .op_other_instr)).op_instrpp_list =
        bpp.op_instrpp_list ++
          [{ instrpp := some { node := d.addr, field := .op_other_instr },
             instr_idx := bpp.idx + 1 }] ∧
      (save_branch_point (append_instruction_x env bpp .NULL .OP_INSTR_JUMP .null .null)
        (slot d .op_other_instr)).branch_point_to_pparg_list = bpp.branch_point_to_pparg_list ∧
      (save_instr_from_to_pparg b1 bpp.idx b1.idx).idx = b1.idx ∧
      (save_instr_from_to_pparg b1 bpp.idx b1.idx).branch_point_to_pparg_list =
        b1.branch_point_to_pparg_list ++
          [{ instr_from_index := bpp.idx, instr_to_index := b1.idx }] ∧
      (save_instr_from_to_pparg b1 bpp.idx b1.idx).op_instrpp_list = b1.op_instrpp_list ∧
      emitted (append_instruction env b2 (.mk d (.mk cd cf body cr) s r) .OP_OR) b2.idx =
        [{ instr_ppaddr := some .OP_OR, instr_op := .mk d (.mk cd cf body cr) s r,
           instr_arg1 := .null, instr_arg2 := .null }] ∧
      (append_instruction env b2 (.mk d (.mk cd cf body cr) s r) .OP_OR).idx = b2.idx + 1 ∧
      (append_instruction env b2 (.mk d (.mk cd cf body cr) s r) .OP_OR).op_instrpp_list =
        b2.op_instrpp_list ∧
      (append_instruction env b2 (.mk d (.mk cd cf body cr) s r) .OP_OR
        ).branch_point_to_pparg_list = b2.branch_point_to_pparg_list) ∧
    (hasBit d.op_private OPpWHILE_AND_ONCE = true →
      ∀ (b1 b2 : CODEGEN_PAD) (k1 k2 : Bool),
      add_op env n (save_branch_point bpp (slot d .op_other_instr)) body true 0 = .ok (b1, k1) →
      add_op env n b1 (.mk cd cf body cr) k1 0 = .ok (b2, k2) →
      add_op env (n + 1) bpp (.mk d (.mk cd cf body cr) s r) m fl =
        .ok (append_instruction env b2 (.mk d (.mk cd cf body cr) s r) .OP_OR, false) ∧
      (save_branch_point bpp (slot d .op_other_instr)).idx = bpp.idx ∧
      (save_branch_point bpp (slot d .op_other_instr)).codeseq = bpp.codeseq ∧
      (save_branch_point bpp (slot d .op_other_instr)).op_instrpp_list =
        bpp.op_instrpp_list ++
          [{ instrpp := some { node := d.addr, field := .op_other_instr },
             instr_idx := bpp.idx }] ∧
      (save_branch_point bpp (slot d .op_other_instr)).branch_point_to_pparg_list =
        bpp.branch_point_to_pparg_list ∧
      emitted (append_instruction env b2 (.mk d (.mk cd cf body cr) s r) .OP_OR) b2.idx =
        [{ instr_ppaddr := some .OP_OR, instr_op := .mk d (.mk cd cf body cr) s r,
           instr_arg1 := .null, instr_arg2 := .null }] ∧
      (append_instruction env b2 (.mk d (.mk cd cf body cr) s r) .OP_OR).idx = b2.idx + 1 ∧
      (append_instruction env b2 (.mk d (.mk cd cf body cr) s r) .OP_OR).op_instrpp_list =
        b2.op_instrpp_list ∧
      (append_instruction env b2 (.mk d (.mk cd cf body cr) s r) .OP_OR
        ).branch_point_to_pparg_list = b2.branch_point_to_pparg_list) := by
  have hff : ∀ k, fold_flag env .OP_WHILE_AND k = false := by
    intro k; simp [fold_flag, htab]
  have hemit : ∀ (b : CODEGEN_PAD) (o : OP) (t : Optype), pad_ok b →
      emitted (append_instruction env b o t) b.idx =
        [{ instr_ppaddr := some t, instr_op := o, instr_arg1 := .null, instr_arg2 := .null }] := by
    intro b o t hb
    have := emitted_append env b o t .null .null b.idx hb (Nat.le_refl _)
    rw [emitted_self] at this
    exact this
  constructor
  · intro honce b1 b2 k1 k2 hbody hcond
    have hokJ := append_pad_ok env bpp .NULL .OP_INSTR_JUMP .null .null hok
    have hok1 : pad_ok b1 := (add_op_grows env n _ _ _ _ _ hbody).2 (pad_ok_save_bp _ _ hokJ)
    have hok2 : pad_ok b2 := (add_op_grows env n _ _ _ _ _ hcond).2 (pad_ok_save_ft _ _ _ hok1)
    refine ⟨?_, ?_, ?_, ?_, ?_, rfl, rfl, rfl, hemit b2 _ _ hok2, append_idx env b2 _ _ _ _,
      append_instrpp env b2 _ _ _ _, append_branch env b2 _ _ _ _⟩
    · rw [add_op_unfold, while_and_emit_eq env _ _ _ _ _ ht]
      simp only [add_op_while_and, OP.first, OP.sibling, bind, Except.bind, honce,
        Bool.false_eq_true, if_false, hbody, hcond, Except.map, add_op_fold, OP.type, OP.data,
        pure, Except.pure, ht]
      simp [hff]
    · rw [emitted_save_bp]
      exact hemit bpp .NULL .OP_INSTR_JUMP hok
    · rw [save_bp_idx, append_idx]
    · rw [save_bp_instrpp, append_instrpp, append_idx]
      rfl
    · rw [save_bp_branch, append_branch]
  · intro honce b1 b2 k1 k2 hbody hcond
    have hok1 : pad_ok b1 := (add_op_grows env n _ _ _ _ _ hbody).2 (pad_ok_save_bp _ _ hok)
    have hok2 : pad_ok b2 := (add_op_grows env n _ _ _ _ _ hcond).2 hok1
    refine ⟨?_, rfl, rfl, rfl, rfl, hemit b2 _ _ hok2, append_idx env b2 _ _ _ _,
      append_instrpp env b2 _ _ _ _, append_branch env b2 _ _ _ _⟩
    rw [add_op_unfold, while_and_emit_eq env _ _ _ _ _ ht]
    simp only [add_op_while_and, OP.first, OP.sibling, bind, Except.bind, honce,
      if_true, hbody, hcond, Except.map, add_op_fold, OP.type, OP.data,
      pure, Except.pure, ht]
    simp [hff]

set_option maxHeartbeats 4000000 in
/-- Claim C36 on `while ($c) { $t }` and `do { $t } while ($c)`: the first gives
the jump, `padsv` of the body, `padsv` of the condition and `or`, the jump at 0
going to the condition at 2 and the other-target slot naming the body at 1; the
second gives the two `padsv` and `or`, the other-target slot naming the body at
0, and no branch fixup. -/
theorem while_and_layout_witness :
    (add_op demo_env 2 pad0 tree_while_and true 0 =
        .ok (append_instruction demo_env wa_cond_pad tree_while_and .OP_OR, false) ∧
      (emitted (append_instruction demo_env wa_cond_pad tree_while_and .OP_OR) 0).map
          (fun x => x.instr_ppaddr) =
        [some .OP_INSTR_JUMP, some .OP_PADSV, some .OP_PADSV, some .OP_OR] ∧
      (emitted (append_instruction demo_env wa_cond_pad tree_while_and .OP_OR) 0).map
          (fun x => x.instr_op) = [.NULL, wa_body, wa_cond, tree_while_and] ∧
      (append_instruction demo_env wa_cond_pad tree_while_and .OP_OR
        ).branch_point_to_pparg_list = [{ instr_from_index := 0, instr_to_index := 2 }] ∧
      (append_instruction demo_env wa_cond_pad tree_while_and .OP_OR).op_instrpp_list =
        [{ instrpp := some { node := 200, field := .op_other_instr }, instr_idx := 1 }]) ∧
    (add_op demo_env 2 pad0 tree_while_and_once true 0 =
        .ok (append_instruction demo_env wa_once_cond_pad tree_while_and_once .OP_OR, false) ∧
      (emitted (append_instruction demo_env wa_once_cond_pad tree_while_and_once .OP_OR) 0).map
          (fun x => x.instr_ppaddr) = [some .OP_PADSV, some .OP_PADSV, some .OP_OR] ∧
      (emitted (append_instruction demo_env wa_once_cond_pad tree_while_and_once .OP_OR) 0).map
          (fun x => x.instr_op) = [wa_body, wa_cond, tree_while_and_once] ∧
      (append_instruction demo_env wa_once_cond_pad tree_while_and_once .OP_OR
        ).branch_point_to_pparg_list = [] ∧
      (append_instruction demo_env wa_once_cond_pad tree_while_and_once .OP_OR).op_instrpp_list =
        [{ instrpp := some { node := 200, field := .op_other_instr }, instr_idx := 0 }]) :=
  have h := while_and_layout demo_env 1 pad0 wa_data wa_cond_data .NULL wa_body .NULL .NULL .NULL
    true 0 rfl (by decide) (new_pad_ok _ _ _)
  have g := while_and_layout demo_env 1 pad0 wa_once_data wa_cond_data .NULL wa_body .NULL .NULL
    .NULL true 0 rfl (by decide) (new_pad_ok _ _ _)
  ⟨⟨(h.1 (by decide) wa_body_pad wa_cond_pad false false (by decide) (by decide)).1,
      by decide, by decide, by decide, by decide⟩,
   ⟨(g.2 (by decide) wa_once_body_pad wa_once_cond_pad false false (by decide) (by decide)).1,
      by decide, by decide, by decide, by decide⟩⟩

theorem sassign_emit_eq (env : Env) (rec : AddOp) (bpp : CODEGEN_PAD) (o : OP) (d : OpData)
    (fl : Nat) (ht : d.op_type = .OP_SASSIGN) :
    add_op_emit env rec bpp o d fl =
      (add_op_sassign env rec bpp o d).map fun p => (p.1, p.2, o) := by
  unfold add_op_emit
  simp only [ht]

theorem binop_last (d rd ld : OpData) (rf rr lf lr s r : OP) :
    (OP.mk d (.mk rd rf (.mk ld lf .NULL lr) rr) s r).last = .ok (.mk ld lf .NULL lr) := by
  simp [OP.last, OP.first, OP.chain, bind, Except.bind, pure, Except.pure]

/-- Claim C37. A `SASSIGN` node whose children are the right operand and then the
left operand. When the left operand is a `PADSV` without `OPpLVAL_INTRO` and
the kind of the right operand has `OA_TARGLEX` in `PL_opargs` and the right
operand is not `OPf_STACKED` (the left operand not being `OPf_STACKED`, as the
source asserts): `add_op` appends a `pushmark` exactly when the kind of the
right operand has `OA_MARK`, translates the children of the right operand, and
appends one instruction for the right operand (its kind, source the right
operand) with `arg1 = INSTRf_TARG_IN_ARG2` and `arg2` the pad slot of the left
operand; that is all it appends (no `sassign`, no `padsv`), and it returns this
pad with the fold flag false and without a trial evaluation of its own, also
when the children were all constants. Every other `SASSIGN` gets the default
translation: `pushmark` when `sassign` has `OA_MARK`, its children, one
`sassign` instruction. `sassign` is assumed not to be declared fold-eligible in
`PL_opargs`, as in Perl's opcode table. -/
theorem sassign_layout (env : Env) (n : Nat) (bpp : CODEGEN_PAD) (d rd ld : OpData)
    (rf rr lf lr s r : OP) (m : Bool) (fl : Nat)
    (ht : d.op_type = .OP_SASSIGN)
    (htab : hasBit (env.PL_opargs .OP_SASSIGN) OA_FOLDCONST = false)
    (hok : pad_ok bpp) :
    ((ld.op_type = .OP_PADSV ∧ hasBit ld.op_private OPpLVAL_INTRO = false ∧
        hasBit (env.PL_opargs rd.op_type) OA_TARGLEX = true ∧
        hasBit rd.op_flags OPf_STACKED = false) →
      hasBit ld.op_flags OPf_STACKED = false →
      ∀ (b1 : CODEGEN_PAD) (k1 : Bool),
      add_chain (add_op env n) (if hasBit rd.op_flags OPf_KIDS then rf.chain else [])
        (if hasBit (env.PL_opargs rd.op_type) OA_MARK
          then append_instruction env bpp .NULL .OP_PUSHMARK else bpp) true = .ok (b1, k1) →
      add_op env (n + 1) bpp (.mk d (.mk rd rf (.mk ld lf .NULL lr) rr) s r) m fl =
        .ok (append_instruction_x env b1 (.mk rd rf (.mk ld lf .NULL lr) rr) rd.op_type
              (.ptr INSTRf_TARG_IN_ARG2) (.ptr ld.op_targ), false) ∧
      emitted (append_instruction_x env b1 (.mk rd rf (.mk ld lf .NULL lr) rr) rd.op_type
          (.ptr INSTRf_TARG_IN_ARG2) (.ptr ld.op_targ)) b1.idx =
        [{ instr_ppaddr := some rd.op_type, instr_op := .mk rd rf (.mk ld lf .NULL lr) rr,
           instr_arg1 := .ptr INSTRf_TARG_IN_ARG2, instr_arg2 := .ptr ld.op_targ }] ∧
      (append_instruction_x env b1 (.mk rd rf (.mk ld lf .NULL lr) rr) rd.op_type
        (.ptr INSTRf_TARG_IN_ARG2) (.ptr ld.op_targ)).idx = b1.idx + 1 ∧
      (append_instruction_x env b1 (.mk rd rf (.mk ld lf .NULL lr) rr) rd.op_type
        (.ptr INSTRf_TARG_IN_ARG2) (.ptr ld.op_targ)).fold_calls = b1.fold_calls) ∧
    (¬(ld.op_type = .OP_PADSV ∧ hasBit ld.op_private OPpLVAL_INTRO = false ∧
        hasBit (env.PL_opargs rd.op_type) OA_TARGLEX = true ∧
        hasBit rd.op_flags OPf_STACKED = false) →
      ∀ (b1 : CODEGEN_PAD) (k1 : Bool),
      add_chain (add_op env n)
        (if hasBit d.op_flags OPf_KIDS then (OP.mk rd rf (.mk ld lf .NULL lr) rr).chain else [])
        (if hasBit (env.PL_opargs .OP_SASSIGN) OA_MARK
          then append_instruction env bpp .NULL .OP_PUSHMARK else bpp) true = .ok (b1, k1) →
      add_op env (n + 1) bpp (.mk d (.mk rd rf (.mk ld lf .NULL lr) rr) s r) m fl =
        .ok (append_instruction env b1 (.mk d (.mk rd rf (.mk ld lf .NULL lr) rr) s r)
              .OP_SASSIGN, false) ∧
      emitted (append_instruction env b1 (.mk d (.mk rd rf (.mk ld lf .NULL lr) rr) s r)
          .OP_SASSIGN) b1.idx =
        [{ instr_ppaddr := some .OP_SASSIGN,
           instr_op := .mk d (.mk rd rf (.mk ld lf .NULL lr) rr) s r,
           instr_arg1 := .null, instr_arg2 := .null }] ∧
      (append_instruction env b1 (.mk d (.mk rd rf (.mk ld lf .NULL lr) rr) s r)
        .OP_SASSIGN).idx = b1.idx + 1) := by
  have hff : ∀ k, fold_flag env .OP_SASSIGN k = false := by
    intro k; simp [fold_flag, htab]
  have hemit : ∀ (b : CODEGEN_PAD) (o : OP) (t : Optype) (a1 a2 : Arg), pad_ok b →
      emitted (append_instruction_x env b o t a1 a2) b.idx =
        [{ instr_ppaddr := some t, instr_op := o, instr_arg1 := a1, instr_arg2 := a2 }] := by
    intro b o t a1 a2 hb
    have := emitted_append env b o t a1 a2 b.idx hb (Nat.le_refl _)
    rw [emitted_self] at this
    exact this
  constructor
  · rintro ⟨h1, h2, h3, h4⟩ h5 b1 k1 hkids
    have hok0 : pad_ok (if hasBit (env.PL_opargs rd.op_type) OA_MARK
        then append_instruction env bpp .NULL .OP_PUSHMARK else bpp) := by
      split
      · exact append_pad_ok env bpp _ _ _ _ hok
      · exact hok
    have hok1 : pad_ok b1 := (add_chain_grows env n _ _ _ _ hkids).2 hok0
    refine ⟨?_, hemit b1 _ _ _ _ hok1, append_idx env b1 _ _ _ _, (append_logs env b1 _ _ _ _).2⟩
    rw [add_op_unfold, sassign_emit_eq env _ _ _ _ _ ht]
    simp only [add_op_sassign, binop_last, OP.first, OP.data, bind, Except.bind, h1, h2, h3, h4,
      h5, add_kids_chain, hkids, c_assert, Except.map, add_op_fold, OP.type, pure, Except.pure,
      ht]
    simp [hff, ht]
  · intro hnot b1 k1 hkids
    have hok0 : pad_ok (if hasBit (env.PL_opargs .OP_SASSIGN) OA_MARK
        then append_instruction env bpp .NULL .OP_PUSHMARK else bpp) := by
      split
      · exact append_pad_ok env bpp _ _ _ _ hok
      · exact hok
    have hok1 : pad_ok b1 := (add_chain_grows env n _ _ _ _ hkids).2 hok0
    refine ⟨?_, hemit b1 _ _ _ _ hok1, append_idx env b1 _ _ _ _⟩
    have hdef : add_op_sassign env (add_op env n) bpp
        (.mk d (.mk rd rf (.mk ld lf .NULL lr) rr) s r) d =
        add_op_default env (add_op env n) bpp (.mk d (.mk rd rf (.mk ld lf .NULL lr) rr) s r) d := by
      simp only [add_op_sassign, binop_last, OP.first, OP.data, bind, Except.bind]
      by_cases c1 : (ld.op_type == .OP_PADSV && !hasBit ld.op_private OPpLVAL_INTRO) = true
      · by_cases c2 : (hasBit (env.PL_opargs rd.op_type) OA_TARGLEX &&
            !hasBit rd.op_flags OPf_STACKED) = true
        · exfalso
          apply hnot
          simp only [Bool.and_eq_true, beq_iff_eq, Bool.not_eq_true', Bool.not_eq_eq_eq_not,
            Bool.not_true] at c1 c2
          exact ⟨c1.1, c1.2, c2.1, c2.2⟩
        · simp only [c1, c2, if_true, if_false, Bool.false_eq_true]
      · simp only [c1, if_false, Bool.false_eq_true]
    rw [add_op_unfold, sassign_emit_eq env _ _ _ _ _ ht, hdef]
    simp only [add_op_default, add_kids_chain, ht, bind, Except.bind, hkids, Except.map,
      add_op_fold, OP.type, OP.data, pure, Except.pure]
    simp [hff, append_instruction]

set_option maxHeartbeats 4000000 in
/-- Claim C37 on `$x = 2 + 3` and `my $x = 2 + 3`, `add` being fold-eligible and
able to store into a lexical: the first gives the two constants and one `add`
instruction with `arg1 = INSTRf_TARG_IN_ARG2` and `arg2 = 5`, the pad slot of
`$x`, unfolded and without a trial evaluation; the second takes the default
rule: the folded constant, `padsv`, `sassign`. -/
theorem sassign_layout_witness :
    (add_op targlex_env 2 targlex_pad tree_sassign true 0 =
        .ok (append_instruction_x targlex_env sa_kids_pad
              (.mk sa_right_data sa_right_kids (.mk sa_left_data .NULL .NULL .NULL) .NULL)
              .OP_ADD (.ptr INSTRf_TARG_IN_ARG2) (.ptr 5), false) ∧
      (emitted (append_instruction_x targlex_env sa_kids_pad
              (.mk sa_right_data sa_right_kids (.mk sa_left_data .NULL .NULL .NULL) .NULL)
              .OP_ADD (.ptr INSTRf_TARG_IN_ARG2) (.ptr 5)) 0).map
          (fun x => (x.instr_ppaddr, x.instr_arg1, x.instr_arg2)) =
        [(some .OP_CONST, .null, .null), (some .OP_CONST, .null, .null),
         (some .OP_ADD, .ptr 1, .ptr 5)] ∧
      (append_instruction_x targlex_env sa_kids_pad
              (.mk sa_right_data sa_right_kids (.mk sa_left_data .NULL .NULL .NULL) .NULL)
              .OP_ADD (.ptr INSTRf_TARG_IN_ARG2) (.ptr 5)).fold_calls = [] ∧
      hasBit (targlex_env.PL_opargs .OP_ADD) OA_FOLDCONST = true) ∧
    (add_op targlex_env 3 targlex_pad tree_sassign_my true 0 =
        .ok (append_instruction targlex_env sa_my_kids_pad tree_sassign_my .OP_SASSIGN, false) ∧
      (emitted (append_instruction targlex_env sa_my_kids_pad tree_sassign_my .OP_SASSIGN) 0).map
          (fun x => (x.instr_ppaddr, x.instr_arg1)) =
        [(some .OP_INSTR_CONST, .sv (.scalar { val := .iv 5, readonly := true })),
         (some .OP_PADSV, .ptr (INSTRf_MOD ||| INSTRf_LVAL_INTRO)), (some .OP_SASSIGN, .null)]) :=
  have h := sassign_layout targlex_env 1 targlex_pad sa_data sa_right_data sa_left_data
    sa_right_kids .NULL .NULL .NULL .NULL .NULL true 0 rfl (by decide) (new_pad_ok _ _ _)
  have g := sassign_layout targlex_env 2 targlex_pad sa_data sa_right_data sa_left_my_data
    sa_right_kids .NULL .NULL .NULL .NULL .NULL true 0 rfl (by decide) (new_pad_ok _ _ _)
  ⟨⟨(h.1 ⟨rfl, by decide, by decide, by decide⟩ (by decide) sa_kids_pad true (by decide)).1,
      by decide, by decide, by decide⟩,
   ⟨(g.2 (by decide) sa_my_kids_pad false (by decide)).1, by decide⟩⟩

/-- Claim C38. `is_inplace_av` returns a non-null node exactly when the
conditions of `InplaceAssign` hold for the assignment and that node: void
context, a right list of exactly one `SORT` or `REVERSE` whose only argument
(after the comparator skipped when `OPf_STACKED`) is an `RV2AV` or `PADAV`
without `OPpLVAL_INTRO`, a left list of exactly one `RV2AV` or `PADAV` without
`OPpLVAL_INTRO`, and the same array on both sides. The node returned is that
`SORT` or `REVERSE`; every other normal return gives `NULL`. -/
theorem inplace_av_conditions (o : OP) :
    (∀ sortop, (is_inplace_av o = .ok sortop ∧ sortop ≠ .NULL) ↔ InplaceAssign o sortop) ∧
    (∀ res, is_inplace_av o = .ok res → (¬∃ sortop, InplaceAssign o sortop) → res = .NULL) := by
  have key : ∀ sortop, (is_inplace_av o = .ok sortop ∧ sortop ≠ .NULL) ↔ InplaceAssign o sortop := by
    intro sortop
    constructor
    · rintro ⟨h, hne⟩
      cases o with
      | NULL => simp [is_inplace_av, OP.data, bind, Except.bind] at h
      | mk d f s r =>
      cases f with
      | NULL => simp [is_inplace_av, OP.data, OP.first, OP.sibling, bind, Except.bind] at h
      | mk rld rf rs rr =>
      simp only [is_inplace_av, OP.data, OP.first, OP.type, bind, Except.bind, pure,
        Except.pure, c_assert] at h
      simp only [OP.sibling] at h
      by_cases hd : d.op_type = .OP_AASSIGN
      swap
      · have : (d.op_type == Optype.OP_AASSIGN) = false := by simpa using hd
        simp [this] at h
      simp only [hd, beq_self_eq_true, if_true] at h
      by_cases hvoid : d.op_flags &&& OPf_WANT = OPf_WANT_VOID
      swap
      · have : (d.op_flags &&& OPf_WANT != OPf_WANT_VOID) = true := by simpa using hvoid
        simp only [this, if_true, Except.ok.injEq] at h
        exact absurd h.symm hne
      have hv : (d.op_flags &&& OPf_WANT != OPf_WANT_VOID) = false := by simpa using hvoid
      simp only [hv, Bool.false_eq_true, if_false] at h
      by_cases hrl : rld.op_type = .OP_LIST
      swap
      · have : (rld.op_type == Optype.OP_LIST) = false := by simpa using hrl
        simp [this] at h
      simp only [hrl, beq_self_eq_true, if_true] at h
      cases rf with
      | NULL => simp only [Except.ok.injEq] at h; exact absurd h.symm hne
      | mk sd sfirst ssib sr =>
      cases ssib with
      | mk a b c e => simp only [OP.isSome, if_true, Except.ok.injEq] at h; exact absurd h.symm hne
      | NULL =>
      simp only [OP.isSome, Bool.false_eq_true, if_false] at h
      by_cases hst : (sd.op_type != .OP_SORT && sd.op_type != .OP_REVERSE) = true
      · simp only [hst, if_true, Except.ok.injEq] at h; exact absurd h.symm hne
      simp only [hst, Bool.false_eq_true, if_false] at h
      split at h
      · cases h
      rename_i arg harg
      cases arg with
      | NULL => simp only [Except.ok.injEq] at h; exact absurd h.symm hne
      | mk ad afirst asib ar =>
      cases asib with
      | mk a b c e => simp only [OP.isSome, if_true, Except.ok.injEq] at h; exact absurd h.symm hne
      | NULL =>
      simp only [OP.isSome, Bool.false_eq_true, if_false] at h
      by_cases hat : (ad.op_type != .OP_RV2AV && ad.op_type != .OP_PADAV ||
          hasBit ad.op_private OPpLVAL_INTRO) = true
      · simp only [hat, if_true, Except.ok.injEq] at h; exact absurd h.symm hne
      simp only [hat, Bool.false_eq_true, if_false] at h
      cases rs with
      | NULL => cases h
      | mk lld lf lls llr =>
      simp only at h
      by_cases hll : lld.op_type = .OP_LIST
      swap
      · have : (lld.op_type == Optype.OP_LIST) = false := by simpa using hll
        simp [this] at h
      simp only [hll, beq_self_eq_true, if_true] at h
      cases lf with
      | NULL => simp only [Except.ok.injEq] at h; exact absurd h.symm hne
      | mk ld lfirst lsib lr =>
      cases lsib with
      | mk a b c e => simp only [OP.isSome, if_true, Except.ok.injEq] at h; exact absurd h.symm hne
      | NULL =>
      simp only [OP.isSome, Bool.false_eq_true, if_false] at h
      by_cases hlt : (ld.op_type != .OP_PADAV && ld.op_type != .OP_RV2AV ||
          hasBit ld.op_private OPpLVAL_INTRO) = true
      · simp only [hlt, if_true, Except.ok.injEq] at h; exact absurd h.symm hne
      simp only [hlt, Bool.false_eq_true, if_false] at h
      have hst2 : sd.op_type = .OP_SORT ∨ sd.op_type = .OP_REVERSE := by
        simp only [Bool.and_eq_true, bne_iff_ne, ne_eq, not_and, Decidable.not_not] at hst
        by_cases c : sd.op_type = .OP_SORT
        · exact Or.inl c
        · exact Or.inr (hst c)
      have hat2 : (ad.op_type = .OP_RV2AV ∨ ad.op_type = .OP_PADAV) ∧
          hasBit ad.op_private OPpLVAL_INTRO = false := by
        simp only [Bool.or_eq_true, Bool.and_eq_true, bne_iff_ne, ne_eq, not_or, not_and,
          Decidable.not_not, Bool.not_eq_true] at hat
        refine ⟨?_, hat.2⟩
        by_cases c : ad.op_type = .OP_RV2AV
        · exact Or.inl c
        · exact Or.inr (hat.1 c)
      have hlt2 : (ld.op_type = .OP_RV2AV ∨ ld.op_type = .OP_PADAV) ∧
          hasBit ld.op_private OPpLVAL_INTRO = false := by
        simp only [Bool.or_eq_true, Bool.and_eq_true, bne_iff_ne, ne_eq, not_or, not_and,
          Decidable.not_not, Bool.not_eq_true] at hlt
        refine ⟨?_, hlt.2⟩
        by_cases c : ld.op_type = .OP_PADAV
        · exact Or.inr c
        · exact Or.inl (hlt.1 c)
      have fin : ∀ (hsame : (ld.op_type = .OP_RV2AV ∧ ad.op_type = .OP_RV2AV ∧
            ∃ (gd lg : OpData) (gf gs gr : OP), afirst = .mk gd gf gs gr ∧ gd.op_type = .OP_GV ∧
              lfirst.data = .ok lg ∧ lg.op_gv = gd.op_gv) ∨
          (ld.op_type = .OP_PADAV ∧ ad.op_type = .OP_PADAV ∧ ad.op_targ = ld.op_targ)),
          InplaceAssign (.mk d (.mk rld (.mk sd sfirst .NULL sr)
            (.mk lld (.mk ld lfirst .NULL lr) lls llr) rr) s r) (.mk sd sfirst .NULL sr) :=
        fun hsame => ⟨d, rld, lld, sd, ad, ld, sfirst, afirst, lfirst, s, r, rr, lls, llr, sr,
          ar, lr, rfl, hd, hrl, hll, hvoid, rfl, hst2, harg, hat2.1, hat2.2, hlt2.1, hlt2.2,
          hsame⟩
      by_cases c1 : ld.op_type = .OP_RV2AV
      · simp only [c1, beq_self_eq_true, if_true] at h
        by_cases c2 : ad.op_type = .OP_RV2AV
        swap
        · have : (ad.op_type != Optype.OP_RV2AV) = true := by simpa using c2
          simp only [this, if_true, Except.ok.injEq] at h
          exact absurd h.symm hne
        simp only [c2, bne_self_eq_false, Bool.false_eq_true, if_false] at h
        cases afirst with
        | NULL => simp only [Except.ok.injEq] at h; exact absurd h.symm hne
        | mk gd gf gs gr =>
        simp only at h
        by_cases c3 : gd.op_type = .OP_GV
        swap
        · have : (gd.op_type != Optype.OP_GV) = true := by simpa using c3
          simp only [this, if_true, Except.ok.injEq] at h
          exact absurd h.symm hne
        simp only [c3, bne_self_eq_false, Bool.false_eq_true, if_false] at h
        cases lfirst with
        | NULL => cases h
        | mk lg lgf lgs lgr =>
        simp only at h
        by_cases c4 : lg.op_gv = gd.op_gv
        swap
        · have : (lg.op_gv != gd.op_gv) = true := by simpa using c4
          simp only [this, if_true, Except.ok.injEq] at h
          exact absurd h.symm hne
        simp only [c4, bne_self_eq_false, Bool.false_eq_true, if_false, Except.ok.injEq] at h
        subst h
        exact fin (Or.inl ⟨c1, c2, gd, lg, gf, gs, gr, rfl, c3, rfl, c4⟩)
      · have e1 : (ld.op_type == Optype.OP_RV2AV) = false := by simpa using c1
        simp only [e1, Bool.false_eq_true, if_false] at h
        by_cases c2 : (ad.op_type != .OP_PADAV || ad.op_targ != ld.op_targ) = true
        · simp only [c2, if_true, Except.ok.injEq] at h
          exact absurd h.symm hne
        simp only [c2, Bool.false_eq_true, if_false, Except.ok.injEq] at h
        subst h
        simp only [Bool.or_eq_true, bne_iff_ne, ne_eq, not_or, Decidable.not_not] at c2
        have c5 : ld.op_type = .OP_PADAV := by
          rcases hlt2.1 with h | h
          · exact absurd h c1
          · exact h
        exact fin (Or.inr ⟨c5, c2.1, c2.2⟩)
    · rintro ⟨d, rld, lld, sd, ad, ld, sfirst, afirst, lfirst, s, r, rr, lls, llr, sr, ar, lr,
        ho, hd, hrl, hll, hvoid, hs, hst, harg, hat, hai, hlt, hli, hsame⟩
      subst ho hs
      refine ⟨?_, by intro h; cases h⟩
      have e1 : (sd.op_type != .OP_SORT && sd.op_type != .OP_REVERSE) = false := by
        rcases hst with h | h <;> rw [h] <;> decide
      have e2 : (ad.op_type != .OP_RV2AV && ad.op_type != .OP_PADAV) = false := by
        rcases hat with h | h <;> rw [h] <;> decide
      have e3 : (ld.op_type != .OP_PADAV && ld.op_type != .OP_RV2AV) = false := by
        rcases hlt with h | h <;> rw [h] <;> decide
      simp only [OP.sibling] at harg
      simp only [is_inplace_av, OP.data, OP.first, OP.sibling, OP.type, bind, Except.bind, pure,
        Except.pure, hd, hrl, hll, hvoid, c_assert, beq_self_eq_true, if_true, OP.isSome,
        bne_self_eq_false, Bool.false_eq_true, if_false, e1, harg, e2, hai, e3, hli,
        Bool.or_self, Bool.or_false]
      rcases hsame with ⟨h1, h2, gd, lg, gf, gs, gr, hg, hgt, hlg, hgv⟩ | ⟨h1, h2, h3⟩
      · subst hg
        simp only [OP.data] at hlg
        simp [h1, h2, hgt, hlg, hgv]
      · have e4 : (ld.op_type == Optype.OP_RV2AV) = false := by rw [h1]; decide
        have e5 : (ad.op_type != Optype.OP_PADAV) = false := by rw [h2]; decide
        simp [e4, e5, h3]
  refine ⟨key, ?_⟩
  intro res hres hno
  by_contra hne
  exact hno ⟨res, (key res).mp ⟨hres, hne⟩⟩

/-- Claim C38 on `@a = sort @a` and `@b = sort @a` in void context: the first
returns its `sort` node and satisfies the conditions, the second returns
`NULL`. -/
theorem inplace_av_conditions_witness :
    is_inplace_av tree_inplace_sort = .ok ip_sortop ∧
    InplaceAssign tree_inplace_sort ip_sortop ∧
    is_inplace_av tree_sort_other = .ok .NULL ∧
    ¬ InplaceAssign tree_sort_other ip_sortop :=
  ⟨by decide,
   ((inplace_av_conditions tree_inplace_sort).1 ip_sortop).mp ⟨by decide, by decide⟩,
   by decide,
   fun h => absurd (((inplace_av_conditions tree_sort_other).1 ip_sortop).mpr h).1 (by decide)⟩

/-- Claim C39 fails when the first components are equal: `uvcompare` then
compares the second component of `a` with the first component of `b` plus one,
and never reads the second component of `b`. Comparing the pair `(5, 5)` with
itself gives -1, not 0; `(5, 7)` against `(5, 9)` gives 1 although it precedes
it lexicographically, and the reverse comparison gives 1 as well; `(5, 6)` and
`(5, 9)` compare equal. -/
theorem uvcompare_reads_first_of_b :
    uvcompare (5, 5) (5, 5) = -1 ∧
    uvcompare (5, 7) (5, 9) = 1 ∧
    uvcompare (5, 9) (5, 7) = 1 ∧
    uvcompare (5, 6) (5, 9) = 0 ∧
    (∀ a b0 b1 b2 : Nat, uvcompare a (b0, b1) = uvcompare a (b0, b2)) := by
  refine ⟨by decide, by decide, by decide, by decide, ?_⟩
  intro a b0 b1 b2
  rfl

/-- What `newFOROP` does with an iterable that is a `REVERSE` with exactly one
argument, for every behaviour of the context functions: a `PADAV` argument is
left as it is and `OPf_STACKED` is not set; an `RV2AV` argument is replaced by
`mod(force_list(scalar(ref(argument, OP_ITER))), OP_GREPSTART)` and
`OPf_STACKED` is set. `OPpITER_REVERSED` is set in both cases. -/
theorem newFOROP_expr_reverse (cx : OpContext) (d fd : OpData) (ff fr s r : OP) (ip : Nat)
    (hd : d.op_type = .OP_REVERSE) :
    (fd.op_type = .OP_PADAV →
      newFOROP_expr cx (.mk d (.mk fd ff .NULL fr) s r) 0 ip =
        .ok (cx.list (.mk d (.mk fd ff .NULL fr) s r), 0, ip ||| OPpITER_REVERSED)) ∧
    (fd.op_type = .OP_RV2AV →
      newFOROP_expr cx (.mk d (.mk fd ff .NULL fr) s r) 0 ip =
        .ok (cx.list (.mk d
              (cx.mod (cx.force_list (cx.scalar (cx.ref (.mk fd ff .NULL fr) .OP_ITER)))
                .OP_GREPSTART) s r),
             OPf_STACKED, ip ||| OPpITER_REVERSED)) := by
  constructor
  · intro hf
    simp [newFOROP_expr, OP.data, OP.first, OP.sibling, OP.isSome, bind, Except.bind, hd, hf]
  · intro hf
    simp [newFOROP_expr, OP.data, OP.first, OP.sibling, OP.isSome, OP.set_first, bind,
      Except.bind, hd, hf]

/-- Claim C40 fails for a lexical array: on `for (reverse @a)` with `@a` a
`PADAV`, `newFOROP` gives a `FOREACH` node with `OPpITER_REVERSED` but without
`OPf_STACKED`, and the argument of `reverse` is as it was (not handed to `ref`
and `mod`); with `@a` an `RV2AV` the node has both and the argument carries
`OPf_REF` and `OPf_MOD`. Evaluated with `mark_context`. -/
theorem reverse_padav_not_stacked :
    hasBit (data_of (newFOROP mark_context 230 234 9 0 .NULL rev_padav .NULL .NULL)).op_flags
      OPf_STACKED = false ∧
    (data_of (newFOROP mark_context 230 234 9 0 .NULL rev_padav .NULL .NULL)).op_private
      = OPpITER_REVERSED ∧
    (first_of (newFOROP mark_context 230 234 9 0 .NULL rev_padav .NULL .NULL)).first =
      .ok (.mk { opdata 232 .OP_PADAV OPf_WANT_LIST with op_targ := 3 } .NULL .NULL .NULL) ∧
    hasBit (data_of (newFOROP mark_context 230 234 9 0 .NULL rev_rv2av .NULL .NULL)).op_flags
      OPf_STACKED = true ∧
    (data_of (newFOROP mark_context 230 234 9 0 .NULL rev_rv2av .NULL .NULL)).op_private
      = OPpITER_REVERSED ∧
    (first_of (newFOROP mark_context 230 234 9 0 .NULL rev_rv2av .NULL .NULL)).first =
      .ok (.mk (opdata 232 .OP_RV2AV (OPf_WANT_LIST ||| OPf_KIDS ||| OPf_REF ||| OPf_MOD))
        (.mk { opdata 233 .OP_GV 0 with op_gv := 7 } .NULL .NULL .NULL) .NULL .NULL) := by
  decide

/-- Claim C5 fails on `tree_cond_then_ands`: the translation of the `cond_expr`
records the branch fixup from the jump at 3 to index 7, after the three
constants of the false branch; each `and` that follows finds the fold flag
still true after its empty left operand and removes one of these constants, so
the translation ends with `idx = 4` and the code sequence has six elements.
`compile_op` still writes the address of element 7 into `instr_arg1` of the
jump at 3: it designates no element of the final array. -/
theorem branch_target_past_the_end :
    ∃ c : Compiled,
      compile_op demo_env 7 demo_interp .NULL no_slots tree_cond_then_ands empty_codeseq
        = .ok c ∧
      cond_then_ands_done.idx = 4 ∧
      cond_then_ands_done.branch_point_to_pparg_list =
        [{ instr_from_index := 3, instr_to_index := 7 }] ∧
      c.codeseq.xcodeseq_size = 6 ∧
      c.codeseq.xcodeseq_instructions.length = 6 ∧
      c.codeseq.xcodeseq_instructions.map (fun x => x.instr_ppaddr)
        = [some .OP_PADSV, some .OP_COND_EXPR, some .OP_CONST, some .OP_INSTR_JUMP,
           some .OP_INSTR_END, none] ∧
      (c.codeseq.xcodeseq_instructions.get? 3).map (fun x => x.instr_arg1)
        = some (.instr 7) ∧
      c.codeseq.xcodeseq_instructions.get? 7 = none ∧
      ¬ (7 < c.codeseq.xcodeseq_size) :=
  ⟨finish_compile demo_env cond_then_ands_done empty_codeseq no_slots,
   compile_op_eq demo_env 7 demo_interp .NULL no_slots tree_cond_then_ands empty_codeseq
     cond_then_ands_done false (by decide!),
   by decide!, by decide!, by decide!, by decide!, by decide!, by decide!, by decide!, by decide!⟩

/-- Claim C6 fails on `tree_or_then_ands`: the translation of the `or` records
the pointer fixup of its other-target slot at index 5, after the three
constants of the right operand; each `and` that follows finds the fold flag
still true after its empty left operand and removes one of these constants, so
the translation ends with `idx = 2` and the code sequence has four elements
(`padsv`, `or`, `INSTR_END` and the sentinel). `compile_op` still resolves the
slot to index 5, which is not an index of the final array. -/
theorem pointer_slot_past_the_end :
    ∃ c : Compiled,
      compile_op demo_env 7 demo_interp .NULL no_slots tree_or_then_ands empty_codeseq
        = .ok c ∧
      or_then_ands_done.idx = 2 ∧
      or_then_ands_done.op_instrpp_list =
        [{ instrpp := some { node := 81, field := .op_other_instr }, instr_idx := 5 }] ∧
      c.codeseq.xcodeseq_size = 4 ∧
      c.codeseq.xcodeseq_instructions.map (fun x => x.instr_ppaddr)
        = [some .OP_PADSV, some .OP_OR, some .OP_INSTR_END, none] ∧
      c.slots { node := 81, field := .op_other_instr } = some 5 ∧
      c.codeseq.xcodeseq_instructions.get? 5 = none ∧
      ¬ (5 < c.codeseq.xcodeseq_size) :=
  ⟨finish_compile demo_env or_then_ands_done empty_codeseq no_slots,
   compile_op_eq demo_env 7 demo_interp .NULL no_slots tree_or_then_ands empty_codeseq
     or_then_ands_done false (by decide!),
   by decide!, by decide!, by decide!, by decide!, by decide!, by decide!, by decide!⟩

theorem chain_kids_true (env : Env) (n : Nat) :
    ∀ (l : List OP) (p q : CODEGEN_PAD) (m : Bool),
      add_chain (add_op env n) l p m = .ok (q, true) →
      m = true ∧ KidsTrue (add_op env n) l p q := by
  intro l
  induction l with
  | nil =>
    intro p q m h
    cases h
    exact ⟨rfl, rfl⟩
  | cons k ks ih =>
    intro p q m h
    unfold add_chain at h
    simp only [bind_ok_iff] at h
    obtain ⟨a, ha, h⟩ := h
    obtain ⟨h1, h2⟩ := ih _ _ _ h
    obtain ⟨a1, a2⟩ := a
    replace h1 : a2 = true := h1
    subst h1
    have hm := add_op_flag_mono env n _ _ _ _ _ ha
    subst hm
    exact ⟨rfl, a1, ha, h2⟩

theorem kids_true_chain (rec : AddOp) :
    ∀ (l : List OP) (p q : CODEGEN_PAD),
      KidsTrue rec l p q → add_chain rec l p true = .ok (q, true) := by
  intro l
  induction l with
  | nil =>
    intro p q h
    cases h
    rfl
  | cons k ks ih =>
    intro p q h
    obtain ⟨p1, h1, h2⟩ := h
    unfold add_chain
    simp only [bind, Except.bind, h1]
    exact ih _ _ h2

theorem kids_in_order_cases (t : Optype) (h : kids_in_order t = true) :
    has_template t = false ∨ t = .OP_NULL ∨ t = .OP_SCALAR ∨ t = .OP_LINESEQ ∨
      t = .OP_SCOPE ∨ t = .OP_LIST ∨ t = .OP_REPEAT ∨ t = .OP_DELETE ∨ t = .OP_CONCAT ∨
      t = .OP_STRINGIFY := by
  cases t <;> first | (exact Or.inl rfl) | (simp; done) | (simp [kids_in_order, has_template] at h)

/-- For a kind of `kids_in_order`, `kid_may_constant_fold` is true after the
first `switch` only if the walk over all the children, started in the entry pad
or in the entry pad after a `pushmark`, left the fold flag true. A `STRINGIFY`
over a `CONCAT` is read as a unary node, as the cast `cUNOPo` of the source
does. -/
theorem emit_kids_true (env : Env) (n : Nat) (bpp b1 : CODEGEN_PAD) (d : OpData)
    (f s r o1 : OP) (fl : Nat)
    (hk : kids_in_order d.op_type = true)
    (hun : d.op_type = .OP_STRINGIFY → ∀ (fd : OpData) (ff fs fr : OP),
      f = .mk fd ff fs fr → fd.op_type = .OP_CONCAT → fs = .NULL)
    (h : add_op_emit env (add_op env n) bpp (.mk d f s r) d fl = .ok (b1, true, o1)) :
    ∃ p0 q : CODEGEN_PAD,
      (p0 = bpp ∨ p0 = append_instruction env bpp .NULL .OP_PUSHMARK) ∧
      add_chain (add_op env n) (if hasBit d.op_flags OPf_KIDS then f.chain else []) p0 true
        = .ok (q, true) := by
  have hdef : ∀ x : CODEGEN_PAD × Bool,
      add_op_default env (add_op env n) bpp (.mk d f s r) d = .ok x → x.2 = true →
      ∃ p0 q : CODEGEN_PAD,
        (p0 = bpp ∨ p0 = append_instruction env bpp .NULL .OP_PUSHMARK) ∧
        add_chain (add_op env n) (if hasBit d.op_flags OPf_KIDS then f.chain else []) p0 true
          = .ok (q, true) := by
    intro x hx hx2
    simp only [add_op_default, add_kids_chain, bind_ok_iff] at hx
    obtain ⟨y, hy, hx⟩ := hx
    cases hx
    obtain ⟨y1, y2⟩ := y
    replace hx2 : y2 = true := hx2
    subst hx2
    refine ⟨_, y1, ?_, hy⟩
    split
    · exact Or.inr rfl
    · exact Or.inl rfl
  have hkids : ∀ x : CODEGEN_PAD × Bool,
      add_kids (add_op env n) bpp (.mk d f s r) true = .ok x → x.2 = true →
      ∃ p0 q : CODEGEN_PAD,
        (p0 = bpp ∨ p0 = append_instruction env bpp .NULL .OP_PUSHMARK) ∧
        add_chain (add_op env n) (if hasBit d.op_flags OPf_KIDS then f.chain else []) p0 true
          = .ok (q, true) := by
    intro x hx hx2
    rw [add_kids_chain] at hx
    obtain ⟨x1, x2⟩ := x
    replace hx2 : x2 = true := hx2
    subst hx2
    exact ⟨bpp, x1, Or.inl rfl, hx⟩
  rcases kids_in_order_cases d.op_type hk with ht | ht | ht | ht | ht | ht | ht | ht | ht | ht
  · rw [emit_default_eq env _ _ _ _ _ ht, map_ok_iff] at h
    obtain ⟨a, ha, h⟩ := h
    simp only [Prod.mk.injEq] at h
    exact hdef a ha h.2.1
  · unfold add_op_emit at h
    simp only [ht, map_ok_iff, Prod.mk.injEq] at h
    obtain ⟨a, ha, h⟩ := h
    exact hkids a ha h.2.1
  · unfold add_op_emit at h
    simp only [ht, map_ok_iff, Prod.mk.injEq] at h
    obtain ⟨a, ha, h⟩ := h
    exact hkids a ha h.2.1
  · unfold add_op_emit at h
    simp only [ht, map_ok_iff, Prod.mk.injEq] at h
    obtain ⟨a, ha, h⟩ := h
    exact hkids a ha h.2.1
  · unfold add_op_emit at h
    simp only [ht, map_ok_iff, Prod.mk.injEq] at h
    obtain ⟨a, ha, h⟩ := h
    exact hkids a ha h.2.1
  · unfold add_op_emit at h
    simp only [ht] at h
    split at h
    · simp only [map_ok_iff, Prod.mk.injEq] at h
      obtain ⟨a, ha, h⟩ := h
      exact hkids a ha h.2.1
    · simp only [map_ok_iff, Prod.mk.injEq] at h
      obtain ⟨a, ha, h⟩ := h
      exact hdef a ha h.2.1
  · unfold add_op_emit at h
    simp only [ht, map_ok_iff, Prod.mk.injEq] at h
    obtain ⟨a, ha, h⟩ := h
    simp only [add_op_repeat, add_kids_chain, bind_ok_iff] at ha
    obtain ⟨y, hy, ha⟩ := ha
    cases ha
    obtain ⟨y1, y2⟩ := y
    replace h : y2 = true := h.2.1
    subst h
    refine ⟨_, y1, ?_, hy⟩
    split
    · exact Or.inr rfl
    · exact Or.inl rfl
  · unfold add_op_emit at h
    simp only [ht, map_ok_iff, Prod.mk.injEq] at h
    obtain ⟨a, ha, h⟩ := h
    simp only [add_op_delete, add_kids_chain, bind_ok_iff] at ha
    obtain ⟨y, hy, ha⟩ := ha
    cases ha
    obtain ⟨y1, y2⟩ := y
    replace h : y2 = true := h.2.1
    subst h
    refine ⟨_, y1, ?_, hy⟩
    split
    · exact Or.inr rfl
    · exact Or.inl rfl
  · unfold add_op_emit at h
    simp only [ht, map_ok_iff, Prod.mk.injEq] at h
    obtain ⟨a, ha, h⟩ := h
    unfold add_op_concat at ha
    split at ha
    · simp only [bind_ok_iff] at ha
      obtain ⟨l, -, ha⟩ := ha
      split at ha
      · cases ha
      · split at ha
        · simp only [bind_ok_iff] at ha
          obtain ⟨x1, -, x2, -, x3, -, ha⟩ := ha
          cases ha
          exact absurd h.2.1 (by simp)
        · exact hdef a ha h.2.1
    · exact hdef a ha h.2.1
  · unfold add_op_emit at h
    simp only [ht, map_ok_iff, Prod.mk.injEq] at h
    obtain ⟨a, ha, h⟩ := h
    unfold add_op_stringify at ha
    simp only [bind_ok_iff] at ha
    obtain ⟨first, hfirst, ft, hft, ha⟩ := ha
    split at ha
    · rename_i hc
      simp only [OP.first, Except.ok.injEq] at hfirst
      subst hfirst
      cases f with
      | NULL => simp [OP.type, OP.data, bind, Except.bind] at hft
      | mk fd ff fs fr =>
        simp only [OP.type, OP.data, bind, Except.bind, pure, Except.pure,
          Except.ok.injEq] at hft
        subst hft
        have hs := hun ht fd ff fs fr rfl (by simpa using hc)
        subst hs
        obtain ⟨a1, a2⟩ := a
        replace h : a2 = true := h.2.1
        subst h
        by_cases hkf : hasBit d.op_flags OPf_KIDS = true
        · refine ⟨bpp, a1, Or.inl rfl, ?_⟩
          simp only [hkf, if_true, OP.chain, add_chain, bind, Except.bind, ha]
        · refine ⟨bpp, bpp, Or.inl rfl, ?_⟩
          simp only [hkf, if_false, Bool.false_eq_true, add_chain]
    · exact hdef a ha h.2.1

theorem append_fold_calls (env : Env) (b : CODEGEN_PAD) (o t a1 a2) :
    (append_instruction_x env b o t a1 a2).fold_calls = b.fold_calls :=
  (append_logs env b o t a1 a2).2

theorem fold_trial_calls (env : Env) (b : CODEGEN_PAD) (start : Nat) (d : OpData) (f s r : OP)
    (list : Bool) (v : Option SV × CODEGEN_PAD)
    (h : fold_trial env b start (.mk d f s r) list = .ok v) :
    v.2.fold_calls = b.fold_calls ++
      [{ start := start, stop := b.idx + 1, node := d.addr, list := list,
         n_instrpp := b.op_instrpp_list.length,
         n_branch := b.branch_point_to_pparg_list.length }] := by
  simp only [fold_trial, OP.data, bind_ok_iff] at h
  obtain ⟨d1, hd1, x, -, h⟩ := h
  cases hd1
  cases h
  simp only [CODEGEN_PAD.after_trial, append_idx, append_instrpp, append_branch,
    append_fold_calls]

/-- Claim C18, as amended. A call of `add_op` on a node that returns. In its
general fold attempt (the second `switch` and what follows) `add_op` hands the
emitted range to the trial evaluator (a call is logged after the first
`switch`), or leaves the caller's fold flag true, only if the kind of the node
is fold-transparent (`CONST`, `NULL`, `SCALAR`) or declared `OA_FOLDCONST` and
the translation of every child of the node left the fold flag true: the
children in sibling order, each entered with the flag true in the pad the one
before it left, the first in the entry pad or in the entry pad after a
`pushmark`; and the flag is left true only if it was true at entry. A `RANGE`
node in list context is apart: when the translations of both endpoints left
the flag true, its range (both endpoints and `flop`) is handed to the trial
evaluator in list mode, whatever `PL_opargs` says of `RANGE`; when they did not,
the first `switch` makes no trial. The kinds outside `kids_in_order` are
assumed not to be declared `OA_FOLDCONST` and the locale-sensitive kinds to be
declared so, as in Perl's opcode table; a `STRINGIFY` over a `CONCAT` is read
as a unary node, as the source does. -/
theorem fold_candidates (env : Env) (n : Nat) (bpp b : CODEGEN_PAD) (d : OpData) (f s r : OP)
    (m k : Bool) (fl : Nat)
    (hloc : locale_sensitive d.op_type = true →
      hasBit (env.PL_opargs d.op_type) OA_FOLDCONST = true)
    (htab : ∀ t, kids_in_order t = false → hasBit (env.PL_opargs t) OA_FOLDCONST = false)
    (hun : d.op_type = .OP_STRINGIFY → ∀ (fd : OpData) (ff fs fr : OP),
      f = .mk fd ff fs fr → fd.op_type = .OP_CONCAT → fs = .NULL)
    (h : add_op env (n + 1) bpp (.mk d f s r) m fl = .ok (b, k)) :
    ∃ (b1 : CODEGEN_PAD) (k1 : Bool) (o1 : OP),
      add_op_emit env (add_op env n) bpp (.mk d f s r) d fl = .ok (b1, k1, o1) ∧
      ((b.fold_calls ≠ b1.fold_calls ∨ k = true) →
        (d.op_type = .OP_CONST ∨ d.op_type = .OP_NULL ∨ d.op_type = .OP_SCALAR ∨
          hasBit (env.PL_opargs d.op_type) OA_FOLDCONST = true) ∧
        ∃ p0 q : CODEGEN_PAD,
          (p0 = bpp ∨ p0 = append_instruction env bpp .NULL .OP_PUSHMARK) ∧
          KidsTrue (add_op env n) (if hasBit d.op_flags OPf_KIDS then f.chain else []) p0 q) ∧
      (k = true → m = true) ∧
      (∀ (fd ld : OpData) (lf right lr fs fr : OP) (c1 c2 : CODEGEN_PAD) (j1 j2 : Bool),
        d.op_type = .OP_RANGE → (d.op_flags &&& OPf_WANT == OPf_WANT_LIST) = true →
        f = .mk fd (.mk ld lf right lr) fs fr →
        add_op env n bpp (.mk ld lf right lr) true 0 = .ok (c1, j1) →
        add_op env n c1 right j1 0 = .ok (c2, j2) →
        (j2 = true →
          j1 = true ∧
          b1.fold_calls = c2.fold_calls ++
            [{ start := bpp.idx, stop := c2.idx + 2, node := d.addr, list := true,
               n_instrpp := c2.op_instrpp_list.length,
               n_branch := c2.branch_point_to_pparg_list.length }]) ∧
        (j2 = false →
          b1 = append_instruction env c2 (.mk d f s r) .OP_FLOP ∧
          b1.fold_calls = c2.fold_calls)) := by
  rw [add_op_unfold] at h
  simp only [bind_ok_iff] at h
  obtain ⟨⟨b1, k1, o1⟩, hemit, hfold⟩ := h
  simp only [add_op_fold, bind_ok_iff] at hfold
  obtain ⟨t, htype, hfold⟩ := hfold
  have hnode := emit_node env _ _ _ _ _ _ _ _ hemit
  have hloc' : locale_sensitive t = true → hasBit (env.PL_opargs t) OA_FOLDCONST = true := by
    rcases hnode with h1 | ⟨-, h2⟩
    · subst h1
      simp only [OP.type, OP.data, bind, Except.bind, pure, Except.pure] at htype
      cases htype
      exact hloc
    · rw [h2] at htype
      cases htype
      intro hc
      simp [locale_sensitive] at hc
  -- what a true `fold_flag` gives
  have key : fold_flag env t k1 = true →
      (d.op_type = .OP_CONST ∨ d.op_type = .OP_NULL ∨ d.op_type = .OP_SCALAR ∨
        hasBit (env.PL_opargs d.op_type) OA_FOLDCONST = true) ∧
      ∃ p0 q : CODEGEN_PAD,
        (p0 = bpp ∨ p0 = append_instruction env bpp .NULL .OP_PUSHMARK) ∧
        KidsTrue (add_op env n) (if hasBit d.op_flags OPf_KIDS then f.chain else []) p0 q := by
    intro hff
    obtain ⟨hk1, hel⟩ := fold_flag_true env t k1 hloc' hff
    subst hk1
    have hin : kids_in_order t = true := by
      by_contra hc
      have hc' : kids_in_order t = false := by simpa using hc
      have hno := htab t hc'
      rcases hel with h1 | h1 | h1 | h1
      · rw [h1] at hc'; simp [kids_in_order, has_template] at hc'
      · rw [h1] at hc'; simp [kids_in_order] at hc'
      · rw [h1] at hc'; simp [kids_in_order] at hc'
      · rw [hno] at h1; cases h1
    have hto : t = d.op_type := by
      rcases hnode with h1 | ⟨-, h2⟩
      · subst h1
        simp only [OP.type, OP.data, bind, Except.bind, pure, Except.pure] at htype
        cases htype
        rfl
      · rw [h2] at htype
        cases htype
        simp [kids_in_order, has_template] at hin
    subst hto
    obtain ⟨p0, q, hp0, hch⟩ := emit_kids_true env n bpp b1 d f s r o1 fl hin hun hemit
    exact ⟨hel, p0, q, hp0, (chain_kids_true env n _ _ _ _ hch).2⟩
  refine ⟨b1, k1, o1, hemit, ?_, ?_, ?_⟩
  · intro hor
    apply key
    by_cases hc : (fold_flag env t k1 && decide (b1.idx > bpp.idx + 1)) = true
    · simp only [Bool.and_eq_true] at hc
      exact hc.1
    · simp only [hc] at hfold
      simp only [Bool.false_eq_true, reduceIte, Except.ok.injEq, Prod.mk.injEq,
        Bool.and_eq_true] at hfold
      rcases hor with hne | hk
      · exact absurd (congrArg CODEGEN_PAD.fold_calls hfold.1).symm hne
      · subst hk
        have h2 := hfold.2
        simp only [Bool.and_eq_true] at h2
        exact h2.2
  · intro hk
    subst hk
    by_cases hc : (fold_flag env t k1 && decide (b1.idx > bpp.idx + 1)) = true
    · simp only [hc, if_true, bind_ok_iff] at hfold
      obtain ⟨x, -, hx⟩ := hfold
      split at hx
      · simp only [Except.ok.injEq, Prod.mk.injEq, Bool.and_eq_true] at hx
        exact hx.2.1
      · simp at hx
    · simp only [hc] at hfold
      simp only [Bool.false_eq_true, reduceIte, Except.ok.injEq, Prod.mk.injEq,
        Bool.and_eq_true] at hfold
      exact hfold.2.1
  · intro fd ld lf right lr fs fr c1 c2 j1 j2 ht hlist hf hl hr
    subst hf
    rw [range_emit_eq env _ _ _ _ _ ht] at hemit
    constructor
    · intro hj
      subst hj
      have hj1 := add_op_flag_mono env n _ _ _ _ _ hr
      refine ⟨hj1, ?_⟩
      simp only [add_op_range, OP.first, OP.sibling, bind, Except.bind, hlist, if_true, hl, hr,
        Except.map, pure, Except.pure] at hemit
      generalize hft : fold_trial env _ bpp.idx _ true = ft at hemit
      cases ft with
      | error e => cases hemit
      | ok v =>
        have hcalls := fold_trial_calls env _ _ _ _ _ _ _ _ hft
        simp only [append_instruction, append_fold_calls, append_idx, append_instrpp,
          append_branch] at hcalls
        rw [← hcalls]
        simp only at hemit
        split at hemit
        · cases hemit
        · rename_i w hw
          cases hemit
          split at hw
          · cases hw
            simp only [push_svs, append_fold_calls, CODEGEN_PAD.set_idx]
          · cases hw
            simp only [CODEGEN_PAD.set_idx]
    · intro hj
      subst hj
      simp only [add_op_range, OP.first, OP.sibling, bind, Except.bind, hlist, if_true, hl, hr,
        Except.map, pure, Except.pure, Bool.false_eq_true, reduceIte] at hemit
      simp only [Except.ok.injEq, Prod.mk.injEq] at hemit
      refine ⟨hemit.1.symm, ?_⟩
      rw [← hemit.1]
      exact (append_logs env c2 _ _ _ _).2

theorem demo_env_kids_table :
    ∀ t, kids_in_order t = false → hasBit (demo_env.PL_opargs t) OA_FOLDCONST = false := by
  intro t ht
  cases t <;> first | rfl | (simp [kids_in_order, has_template] at ht)

/-- Witness of C18 as amended. `2 + 3 * 4` is folded and leaves the fold flag
true: `add` is declared fold-eligible and its two operands, translated one after
the other from the entry pad, left the flag true. The range `1..3` in list
context: both endpoints left the flag true and the first `switch` logs one
trial, in list mode, on the instructions 0 to 4. -/
theorem fold_candidates_witness :
    ((add_data.op_type = .OP_CONST ∨ add_data.op_type = .OP_NULL ∨
        add_data.op_type = .OP_SCALAR ∨
        hasBit (demo_env.PL_opargs add_data.op_type) OA_FOLDCONST = true) ∧
      ∃ p0 q : CODEGEN_PAD,
        (p0 = pad0 ∨ p0 = append_instruction demo_env pad0 .NULL .OP_PUSHMARK) ∧
        KidsTrue (add_op demo_env 2)
          (if hasBit add_data.op_flags OPf_KIDS then add_kids_2_3_4.chain else []) p0 q) ∧
    (∃ (b1 : CODEGEN_PAD) (k1 : Bool) (o1 : OP),
      add_op_emit demo_env (add_op demo_env 1) pad0 tree_range_list rg_data 0
        = .ok (b1, k1, o1) ∧
      b1.fold_calls = rg_right_pad.fold_calls ++
        [{ start := pad0.idx, stop := rg_right_pad.idx + 2, node := rg_data.addr, list := true,
           n_instrpp := rg_right_pad.op_instrpp_list.length,
           n_branch := rg_right_pad.branch_point_to_pparg_list.length }]) := by
  constructor
  · obtain ⟨b1, k1, o1, -, hgen, -, -⟩ :=
      fold_candidates demo_env 2 pad0 add_done add_data add_kids_2_3_4 .NULL .NULL true true 0
        (by decide) demo_env_kids_table (fun h => absurd h (by decide)) (by decide)
    exact hgen (Or.inr rfl)
  · obtain ⟨b1, k1, o1, hemit, -, -, hr⟩ :=
      fold_candidates demo_env 1 pad0 rg_done rg_data
        (.mk rg_flip_data (.mk rg_left_data .NULL rg_right .NULL) .NULL .NULL) .NULL .NULL
        true false 0 (by decide) demo_env_kids_table (fun h => absurd h (by decide))
        (by decide)
    exact ⟨b1, k1, o1, hemit,
      ((hr rg_flip_data rg_left_data .NULL rg_right .NULL .NULL .NULL rg_left_pad rg_right_pad
        true true rfl (by decide) rfl (by decide) (by decide)).1 rfl).2⟩

end Codegen
